import Mathlib

/-! # LFG frame generation: presentation control loop and compute kernels

A shallow embedding of the parts of the LFG sources that the specification's
claims talk about:

* `Hook/Present/Present.cpp`: the adaptive-ratio controller of `hkPresent`
  (EMA smoothing, hysteresis, clamps) and the multi-frame generation loop;
* `Pipeline/Shaders/EmbeddedShaders.h`: the compute kernels `CS_BlockMatching`,
  `CS_EdgeDetect`, `CS_HUDMask` and `CS_Interpolate`.

Modelling conventions.  C++ `double`/`float` and HLSL `float` values are
modelled by exact rationals (`ℚ`), so every statement below is about the
arithmetic the code writes down, not about rounding of the floating-point
unit.  C++ `int`/`long` values are modelled by `ℤ`; the places where a
conversion to an unsigned 32-bit value happens in the source are modelled
explicitly with `% 2 ^ 32`.
-/

namespace LFG

/-! ## Present.cpp: adaptive-ratio controller -/

/-- The C library function `round` on a `double`: nearest integer, halfway
cases away from zero. -/
def cround (x : ℚ) : ℤ :=
  if 0 ≤ x then ⌊x + 1 / 2⌋ else ⌈x - 1 / 2⌉

/-- The capping mode `FrameGenSettings::FpsCapMode`. -/
inductive FpsCapMode where
  | Native
  | Display
  deriving DecidableEq, Repr

/-- The fields of `FrameGeneration::FrameGenSettings` that `hkPresent` reads or
writes, with the defaults of `FrameGeneration.h`. -/
structure FrameGenSettings where
  DisableVSync : Bool := true
  FPSCap : Bool := false
  TargetFPS : ℤ := 0
  CapMode : FpsCapMode := FpsCapMode.Native
  MultiFrameCount : ℤ := 1
  EnableDynamicRatio : Bool := false
  EnableAggressiveDynamicMode : Bool := false
  DynamicTargetFPS : ℤ := 240
  deriving DecidableEq, Repr

/-- The local `maxGen` of `hkPresent` (Present.cpp lines 201 and 211). -/
def maxGen (aggressive : Bool) : ℤ := if aggressive then 5 else 3

/-- The local `targetForRatio` (Present.cpp line 142). -/
def targetForRatio (s : FrameGenSettings) : ℤ :=
  if s.DynamicTargetFPS > 0 then s.DynamicTargetFPS else s.TargetFPS

/-- The local `neededGen` as first computed (Present.cpp line 172). -/
def neededGen (ratio : ℚ) : ℤ := cround ratio - 1

/-- The local `transitionPoint` (Present.cpp line 189). -/
def transitionPoint (currentGen needed : ℤ) : ℚ :=
  (currentGen : ℚ) + 1 + (if needed > currentGen then 1 / 2 else -(1 / 2))

/-- The final value of the local `switchAllowed` (Present.cpp lines 184-197),
for `neededGen != currentGen`. -/
def switchAllowed (currentGen needed : ℤ) (ratio : ℚ) : Bool :=
  let threshold : ℚ := 1 / 10
  let tp := transitionPoint currentGen needed
  let s0 : Bool :=
    if needed > currentGen ∧ ratio > tp + threshold then true
    else if needed < currentGen ∧ ratio < tp - threshold then true
    else false
  if |needed - currentGen| > 1 then true else s0

/-- The value stored by the assignment `settings.MultiFrameCount = neededGen`
(Present.cpp line 207), or `none` when that assignment is not reached. -/
def switchValue (aggressive : Bool) (currentGen : ℤ) (ratio : ℚ) : Option ℤ :=
  let needed := neededGen ratio
  if needed ≠ currentGen then
    if switchAllowed currentGen needed ratio then
      let n1 := if needed < 0 then 0 else needed
      let n2 := if n1 > maxGen aggressive then maxGen aggressive else n1
      some n2
    else none
  else none

/-- The "Final Safety Clamp" (Present.cpp lines 211-213). -/
def finalClamp (aggressive : Bool) (count : ℤ) : ℤ :=
  let c1 := if count < 0 then 0 else count
  if c1 > maxGen aggressive then maxGen aggressive else c1

/-- Present.cpp lines 181-213: the new `MultiFrameCount` from the old one and
the ratio. -/
def applyRatio (aggressive : Bool) (currentGen : ℤ) (ratio : ℚ) : ℤ :=
  finalClamp aggressive ((switchValue aggressive currentGen ratio).getD currentGen)

/-- Present.cpp lines 147-159: the new value of the static `avgFrameTime`. -/
def smoothFrameTime (avgFrameTime : ℚ) (fullFrameTime : ℤ) : ℚ :=
  let inputTime : ℤ := if fullFrameTime < 1 then 1 else fullFrameTime
  let avg0 : ℚ := if avgFrameTime = 0 then (inputTime : ℚ) else avgFrameTime
  let alpha : ℚ := 5 / 100
  avg0 * (1 - alpha) + (inputTime : ℚ) * alpha

/-- Present.cpp lines 161-171: `ratio` from the smoothed frame time. -/
def ratioOf (target : ℤ) (avgFrameTime : ℚ) : ℚ :=
  let realFPS : ℚ := 1000000 / avgFrameTime
  (target : ℚ) / realFPS

/-- The state the adaptive-ratio step works on: the function-local static
`avgFrameTime` and the settings record. -/
structure RatioState where
  avgFrameTime : ℚ
  settings : FrameGenSettings

/-- The settings record after a store to `settings.MultiFrameCount`. -/
def FrameGenSettings.withCount (s : FrameGenSettings) (count : ℤ) : FrameGenSettings :=
  { s with MultiFrameCount := count }

/-- The "[DYNAMIC RATIO CALCULATION]" block of `hkPresent` (Present.cpp lines
141-214). -/
def dynamicRatioStep (isEnabled : Bool) (fullFrameTime : ℤ) (st : RatioState) : RatioState :=
  let target := targetForRatio st.settings
  if isEnabled ∧ st.settings.EnableDynamicRatio ∧ target > 0 then
    let avg := smoothFrameTime st.avgFrameTime fullFrameTime
    let ratio := ratioOf target avg
    let count := applyRatio st.settings.EnableAggressiveDynamicMode st.settings.MultiFrameCount ratio
    { avgFrameTime := avg, settings := st.settings.withCount count }
  else st

/-- The generated-frame count after a run of presentation events with the
given measured frame intervals. -/
def runRatio (isEnabled : Bool) (st : RatioState) (times : List ℤ) : RatioState :=
  times.foldl (fun s t => dynamicRatioStep isEnabled t s) st

/-! ## Present.cpp: the presentation sequence of `hkPresent` -/

/-- The platform constant `DXGI_ERROR_INVALID_CALL` (0x887A0001 as a signed
32-bit `HRESULT`). -/
def DXGI_ERROR_INVALID_CALL : ℤ := -2005270527

/-- Which frame a call of `Present::Original` shows. -/
inductive FrameKind where
  | generated (i : ℤ)
  | real
  deriving DecidableEq, Repr

/-- The externally visible actions of one `hkPresent` call, in program order.
`original` is a call of `Present::Original`; `retry` tells the second call
(line 262 / line 288) from the first (line 260 / line 286). -/
inductive Action where
  | capture
  | synth (i : ℤ) (factor : ℚ)
  | overlay
  | original (frame : FrameKind) (retry : Bool) (sync flags : ℕ)
  | pacerWait (fps : ℤ)
  | restore
  deriving DecidableEq, Repr

/-- What `hkPresent` cannot decide by itself: whether `PresentGenerated`
succeeds for loop index `i`, whether `GetBuffer` hands out the back buffer, and
the `HRESULT` of `Present::Original` (which may depend on everything done so
far). -/
structure PresentEnv where
  synthOk : ℤ → Bool
  backBufferOk : Bool
  original : List Action → ℕ → ℕ → ℤ

/-- The expression `presentFlags & ~0x200` on a 32-bit `UINT`. -/
def clearTearing (flags : ℕ) : ℕ := flags &&& 0xFFFFFDFF

/-- A call of `Present::Original` followed by the retry without the tearing
flag (Present.cpp lines 260-263 and 286-289).  Returns the extended trace and
the results of the first call and of the last call made. -/
def presentWithRetry (env : PresentEnv) (frame : FrameKind) (sync flags : ℕ)
    (trace : List Action) : List Action × ℤ × ℤ :=
  let hr := env.original trace sync flags
  let trace1 := trace ++ [Action.original frame false sync flags]
  if hr = DXGI_ERROR_INVALID_CALL ∧ flags &&& 0x200 ≠ 0 then
    let hr2 := env.original trace1 sync (clearTearing flags)
    (trace1 ++ [Action.original frame true sync (clearTearing flags)], hr, hr2)
  else (trace1, hr, hr)

/-- The ImGui overlay drawn on the back buffer (Present.cpp lines 250-257 and
276-283). -/
def drawOverlay (env : PresentEnv) (trace : List Action) : List Action :=
  if env.backBufferOk then trace ++ [Action.overlay] else trace

/-- The body of the multi-frame generation loop for index `i` (Present.cpp
lines 245-269). -/
def genLoopBody (env : PresentEnv) (s : FrameGenSettings) (framesToGen : ℤ)
    (presentFlags : ℕ) (pacerFPS : ℤ) (trace : List Action) (i : ℤ) : List Action :=
  let factor : ℚ := (i : ℚ) / ((framesToGen + 1 : ℤ) : ℚ)
  let t1 := trace ++ [Action.synth i factor]
  if env.synthOk i then
    let t2 := drawOverlay env t1
    let t3 := (presentWithRetry env (FrameKind.generated i) 0 presentFlags t2).1
    if s.FPSCap then t3 ++ [Action.pacerWait pacerFPS] else t3
  else t1

/-- The values `1, 2, ..., framesToGen` taken by the loop variable of
`for (int i = 1; i <= framesToGen; ++i)`. -/
def loopIndices (framesToGen : ℤ) : List ℤ :=
  (List.range framesToGen.toNat).map (fun (k : ℕ) => (k : ℤ) + 1)

/-- The local `pacerFPS` (Present.cpp lines 216-224). -/
def pacerFPS (s : FrameGenSettings) : ℤ :=
  if s.FPSCap ∧ s.CapMode = FpsCapMode.Native then s.TargetFPS * (s.MultiFrameCount + 1)
  else s.TargetFPS

/-- The part of `hkPresent` after the adaptive-ratio block (Present.cpp lines
216-298): the trace of actions and the returned `HRESULT`. -/
def presentSequence (env : PresentEnv) (isEnabled : Bool) (s : FrameGenSettings)
    (SyncInterval Flags : ℕ) : List Action × ℤ :=
  let pfps := pacerFPS s
  let presentFlags : ℕ := if isEnabled ∧ s.DisableVSync then Flags ||| 0x200 else Flags
  let syncIntervalForReal : ℕ := if isEnabled ∧ s.DisableVSync then 0 else SyncInterval
  let t1 : List Action :=
    if isEnabled then
      let framesToGen := s.MultiFrameCount
      let tl := (loopIndices framesToGen).foldl
        (genLoopBody env s framesToGen presentFlags pfps) [Action.capture]
      tl ++ [Action.restore]
    else []
  let t2 := drawOverlay env t1
  let r := presentWithRetry env FrameKind.real syncIntervalForReal presentFlags t2
  let t3 := if isEnabled ∧ s.FPSCap then r.1 ++ [Action.pacerWait pfps] else r.1
  (t3, r.2.2)

/-- The frame-generation part of `hkPresent` (Present.cpp lines 137-298): the
adaptive-ratio block followed by the presentation sequence. -/
def hkPresent (env : PresentEnv) (isEnabled : Bool) (SyncInterval Flags : ℕ)
    (fullFrameTime : ℤ) (st : RatioState) : RatioState × List Action × ℤ :=
  let st1 := dynamicRatioStep isEnabled fullFrameTime st
  (st1, presentSequence env isEnabled st1.settings SyncInterval Flags)

/-- The interpolation factors passed to `PresentGenerated`, in call order. -/
def synthFactors (trace : List Action) : List ℚ :=
  trace.filterMap (fun a => match a with
    | Action.synth _ f => some f
    | _ => none)

/-- The frames shown by the first (non-retry) calls of `Present::Original`, in
call order. -/
def presentedFrames (trace : List Action) : List FrameKind :=
  trace.filterMap (fun a => match a with
    | Action.original fr false _ _ => some fr
    | _ => none)

/-- The frames of all calls of `Present::Original`, retries included. -/
def originalCalls (trace : List Action) : List FrameKind :=
  trace.filterMap (fun a => match a with
    | Action.original fr _ _ _ => some fr
    | _ => none)

/-! ## EmbeddedShaders.h: textures and sampling -/

/-- An HLSL `float4` colour. -/
structure Float4 where
  r : ℚ
  g : ℚ
  b : ℚ
  a : ℚ
  deriving DecidableEq, Repr

/-- An HLSL `float2` vector. -/
structure Float2 where
  x : ℚ
  y : ℚ
  deriving DecidableEq, Repr

instance : Zero Float4 := ⟨⟨0, 0, 0, 0⟩⟩

instance : Zero Float2 := ⟨⟨0, 0⟩⟩

namespace Float4

/-- Component-wise combination of two colours. -/
def zipWith (f : ℚ → ℚ → ℚ) (p q : Float4) : Float4 :=
  ⟨f p.r q.r, f p.g q.g, f p.b q.b, f p.a q.a⟩

/-- The HLSL intrinsic `lerp(p, q, t) = p + t * (q - p)` on `float4`. -/
def lerp (p q : Float4) (t : ℚ) : Float4 :=
  zipWith (fun u v => u + t * (v - u)) p q

/-- The HLSL intrinsic `min` on `float4`. -/
def fmin (p q : Float4) : Float4 := zipWith min p q

/-- The HLSL intrinsic `max` on `float4`. -/
def fmax (p q : Float4) : Float4 := zipWith max p q

/-- The HLSL intrinsic `clamp(v, lo, hi) = min(max(v, lo), hi)` on `float4`. -/
def clamp (v lo hi : Float4) : Float4 := fmin (fmax v lo) hi

/-- Scaling of a colour by a weight. -/
def scale (w : ℚ) (p : Float4) : Float4 := ⟨w * p.r, w * p.g, w * p.b, w * p.a⟩

/-- Component-wise sum. -/
def add (p q : Float4) : Float4 := zipWith (fun u v => u + v) p q

/-- Component-wise order: every channel of `p` is at most that of `q`. -/
def le (p q : Float4) : Prop := p.r ≤ q.r ∧ p.g ≤ q.g ∧ p.b ≤ q.b ∧ p.a ≤ q.a

instance (p q : Float4) : Decidable (le p q) := by
  unfold le
  infer_instance

end Float4

/-- A 2D texture: its dimensions and its texels.  Only the texels with
`0 ≤ x < width` and `0 ≤ y < height` belong to the resource. -/
structure Texture (α : Type) where
  width : ℕ
  height : ℕ
  texel : ℤ → ℤ → α

namespace Texture

/-- Whether an integer position lies inside the texture. -/
def inBounds {α : Type} (t : Texture α) (x y : ℤ) : Prop :=
  0 ≤ x ∧ x < t.width ∧ 0 ≤ y ∧ y < t.height

instance {α : Type} (t : Texture α) (x y : ℤ) : Decidable (t.inBounds x y) := by
  unfold inBounds
  infer_instance

/-- The HLSL load `Tex[pos]`: out-of-bounds reads return zero. -/
def load {α : Type} [Zero α] (t : Texture α) (x y : ℤ) : α :=
  if t.inBounds x y then t.texel x y else 0

/-- The unordered-access store `Tex[pos] = v`: out-of-bounds writes are
dropped. -/
def store {α : Type} (t : Texture α) (x y : ℤ) (v : α) : Texture α :=
  if t.inBounds x y then
    { t with texel := fun i j => if i = x ∧ j = y then v else t.texel i j }
  else t

/-- Clamp addressing of a texel index (`D3D11_TEXTURE_ADDRESS_CLAMP`). -/
def clampIndex (i : ℤ) (n : ℕ) : ℤ := max 0 (min i ((n : ℤ) - 1))

/-- The texel at a clamped position. -/
def texelClamped {α : Type} (t : Texture α) (x y : ℤ) : α :=
  t.texel (clampIndex x t.width) (clampIndex y t.height)

/-- The call `Tex.SampleLevel(LinearSampler, uv, 0)` with the sampler the
callers create (`D3D11_FILTER_MIN_MAG_MIP_LINEAR`, clamp addressing):
bilinear filtering of the four texels around `uv * size - 0.5`. -/
def sampleLinear (t : Texture Float4) (u v : ℚ) : Float4 :=
  let x : ℚ := u * (t.width : ℚ) - 1 / 2
  let y : ℚ := v * (t.height : ℚ) - 1 / 2
  let x0 : ℤ := ⌊x⌋
  let y0 : ℤ := ⌊y⌋
  let fx : ℚ := x - (x0 : ℚ)
  let fy : ℚ := y - (y0 : ℚ)
  Float4.add
    (Float4.add (Float4.scale ((1 - fx) * (1 - fy)) (t.texelClamped x0 y0))
      (Float4.scale (fx * (1 - fy)) (t.texelClamped (x0 + 1) y0)))
    (Float4.add (Float4.scale ((1 - fx) * fy) (t.texelClamped x0 (y0 + 1)))
      (Float4.scale (fx * fy) (t.texelClamped (x0 + 1) (y0 + 1))))

end Texture

/-! ## EmbeddedShaders.h: `CS_BlockMatching` -/

/-- The HLSL intrinsic `round`: nearest integer, halfway cases to even. -/
def hround (x : ℚ) : ℤ :=
  let f : ℤ := ⌊x⌋
  let d : ℚ := x - (f : ℚ)
  if d < 1 / 2 then f
  else if 1 / 2 < d then f + 1
  else if f % 2 = 0 then f else f + 1

/-- The constant buffer `CB` of `CS_BlockMatching`. -/
structure BMParams where
  Width : ℤ
  Height : ℤ
  BlockSize : ℤ
  SearchRadius : ℤ
  EnableSubPixel : ℤ
  UseInitMotion : ℤ
  deriving DecidableEq, Repr

/-- The value of an expression of HLSL type `int`: the mathematical result
wrapped to the 32-bit two's-complement range `[-2^31, 2^31)`. -/
def wrapInt32 (n : ℤ) : ℤ := (n + 2 ^ 31) % 2 ^ 32 - 2 ^ 31

/-- The expression `diff.r + diff.g + diff.b` for `diff = abs(p.rgb - q.rgb)`. -/
def sad3 (p q : Float4) : ℚ := |p.r - q.r| + |p.g - q.g| + |p.b - q.b|

/-- The state of the search loops: `minSAD`, `bestVector`, and whether the
early exit (`y = SearchRadius + 1; break;`) has been taken. -/
structure BMSearch where
  minSAD : ℚ
  bestVector : ℤ × ℤ
  done : Bool
  deriving DecidableEq, Repr

/-- The offsets `(x, y)` visited by the two nested search loops, in order. -/
def searchOffsets (R : ℤ) : List (ℤ × ℤ) :=
  let span : List ℤ := (List.range (2 * R + 1).toNat).map (fun (k : ℕ) => (k : ℤ) - R)
  span.flatMap (fun (y : ℤ) => span.map (fun (x : ℤ) => (x, y)))

/-- One iteration of the inner search loop. -/
def bmVisit (p : BMParams) (cur prev : Texture Float4) (posX posY : ℤ) (center : ℤ × ℤ)
    (st : BMSearch) (offset : ℤ × ℤ) : BMSearch :=
  if st.done then st
  else
    let sx := posX + center.1 + offset.1
    let sy := posY + center.2 + offset.2
    if sx < 0 ∨ sy < 0 ∨ sx ≥ p.Width ∨ sy ≥ p.Height then st
    else
      let sad := sad3 (cur.load posX posY) (prev.load sx sy)
      if sad < st.minSAD then
        { minSAD := sad, bestVector := (center.1 + offset.1, center.2 + offset.2),
          done := decide (sad < 1 / 1000) }
      else st

/-- The sub-pixel refinement loop over the four half-pixel offsets. -/
def bmSubPixel (cur prev : Texture Float4) (posX posY : ℤ) (finalVector : Float2)
    (minSAD : ℚ) : Float2 :=
  let offsets : List Float2 := [⟨1 / 2, 0⟩, ⟨-(1 / 2), 0⟩, ⟨0, 1 / 2⟩, ⟨0, -(1 / 2)⟩]
  let target := cur.load posX posY
  let step : Float2 × ℚ → Float2 → Float2 × ℚ := fun acc o =>
    let cx : ℚ := (posX : ℚ) + finalVector.x + o.x
    let cy : ℚ := (posY : ℚ) + finalVector.y + o.y
    let u : ℚ := (cx + 1 / 2) / (prev.width : ℚ)
    let v : ℚ := (cy + 1 / 2) / (prev.height : ℚ)
    let sad := sad3 target (prev.sampleLinear u v)
    if sad < acc.2 then (⟨finalVector.x + o.x, finalVector.y + o.y⟩, sad) else acc
  (offsets.foldl step (finalVector, minSAD)).1

/-- The search centre: zero, or the rounded initial guess. -/
def bmSearchCenter (p : BMParams) (init : Texture Float2) (posX posY : ℤ) : ℤ × ℤ :=
  if p.UseInitMotion ≠ 0 then
    (hround (init.load posX posY).x, hround (init.load posX posY).y)
  else (0, 0)

/-- The state of the search loops when they finish. -/
def bmSearch (p : BMParams) (cur prev : Texture Float4) (posX posY : ℤ) (center : ℤ × ℤ) :
    BMSearch :=
  (searchOffsets p.SearchRadius).foldl (bmVisit p cur prev posX posY center)
    { minSAD := 999999, bestVector := center, done := false }

/-- One thread of `CS_BlockMatching::CSMain` at pixel `(posX, posY)`: `none`
when the thread returns at the bounds check, otherwise the vector written to
`OutputMotion[pos]` and whether `GlobalStats[0]` is incremented.  The product
`BlockSize * BlockSize` is a product of two `int` values and wraps at 32 bits
before `max(1, ...)` turns it into the divisor. -/
def bmThread (p : BMParams) (cur prev : Texture Float4) (init : Texture Float2)
    (posX posY : ℤ) : Option (Float2 × Bool) :=
  if posX ≥ p.Width ∨ posY ≥ p.Height then none
  else
    let target := cur.load posX posY
    let center := bmSearchCenter p init posX posY
    let gx := posX + center.1
    let gy := posY + center.2
    if (gx ≥ 0 ∧ gy ≥ 0 ∧ gx < p.Width ∧ gy < p.Height) ∧
        sad3 target (prev.load gx gy) < 1 / 1000 then
      some (⟨(center.1 : ℚ), (center.2 : ℚ)⟩, false)
    else
      let st := bmSearch p cur prev posX posY center
      let finalVector : Float2 := ⟨(st.bestVector.1 : ℚ), (st.bestVector.2 : ℚ)⟩
      let avgDiff : ℚ :=
        st.minSAD / (((max 1 (wrapInt32 (p.BlockSize * p.BlockSize)) : ℤ) : ℚ) * 3)
      let inc : Bool := decide (avgDiff > 15 / 100)
      if p.EnableSubPixel > 0 then
        some (bmSubPixel cur prev posX posY finalVector st.minSAD, inc)
      else some (finalVector, inc)

/-- The pixel positions of a `width x height` grid, row by row. -/
def pixelGrid (width height : ℕ) : List (ℤ × ℤ) :=
  (List.range height).flatMap
    (fun (y : ℕ) => (List.range width).map (fun (x : ℕ) => ((x : ℤ), (y : ℤ))))

/-- The effect of one thread on the motion texture and on `GlobalStats[0]`
(an unsigned 32-bit counter). -/
def bmApply (p : BMParams) (cur prev : Texture Float4) (init : Texture Float2)
    (acc : Texture Float2 × ℕ) (pos : ℤ × ℤ) : Texture Float2 × ℕ :=
  match bmThread p cur prev init pos.1 pos.2 with
  | none => acc
  | some (v, inc) =>
    (acc.1.store pos.1 pos.2 v, if inc then (acc.2 + 1) % 2 ^ 32 else acc.2)

/-- The method `OpticalFlow::BlockMatching` (OpticalFlow.cpp lines 533-592): fill
the constant buffer from the current texture and the arguments, then run the
kernel on every thread of the dispatch.  Threads beyond the texture return at
the kernel's bounds check, so only the pixel grid is visited.  Returns the
motion texture and the counter `GlobalStats[0]`. -/
def BlockMatching (cur prev : Texture Float4) (motion : Texture Float2)
    (initMotion : Option (Texture Float2)) (blockSize searchRadius : ℤ)
    (enableSubPixel : Bool) (stats : ℕ) : Texture Float2 × ℕ :=
  let p : BMParams :=
    { Width := cur.width, Height := cur.height, BlockSize := blockSize,
      SearchRadius := searchRadius, EnableSubPixel := if enableSubPixel then 1 else 0,
      UseInitMotion := if initMotion.isSome then 1 else 0 }
  let init : Texture Float2 := initMotion.getD ⟨0, 0, fun _ _ => 0⟩
  (pixelGrid cur.width cur.height).foldl (bmApply p cur prev init) (motion, stats)

/-! ## EmbeddedShaders.h: `CS_EdgeDetect`, `CS_HUDMask`, `CS_Interpolate` -/

/-- The expression `dot(c.rgb, lum)` with the Rec. 709 weights. -/
def luminance (c : Float4) : ℚ := c.r * (2126 / 10000) + c.g * (7152 / 10000) + c.b * (722 / 10000)

/-- The expression `Gx*Gx + Gy*Gy` of `CS_EdgeDetect`, whose square root is the
edge magnitude written to the edge texture. -/
def sobelRadicand (input : Texture Float4) (x y : ℤ) : ℚ :=
  let l00 := luminance (input.load (x - 1) (y - 1))
  let l10 := luminance (input.load x (y - 1))
  let l20 := luminance (input.load (x + 1) (y - 1))
  let l01 := luminance (input.load (x - 1) y)
  let l21 := luminance (input.load (x + 1) y)
  let l02 := luminance (input.load (x - 1) (y + 1))
  let l12 := luminance (input.load x (y + 1))
  let l22 := luminance (input.load (x + 1) (y + 1))
  let Gx := -l00 + l20 - 2 * l01 + 2 * l21 - l02 + l22
  let Gy := -l00 - 2 * l10 - l20 + l02 + 2 * l12 + l22
  Gx * Gx + Gy * Gy

/-- One thread of `CS_HUDMask::CSMain`: the value written to `OutputMask[pos]`. -/
def hudMask (Threshold : ℚ) (UseEdgeDetect : ℤ) (cur prev edge : Texture Float4)
    (x y : ℤ) : ℚ :=
  let curr := cur.load x y
  let prv := prev.load x y
  let val : ℚ := |curr.r - prv.r| + |curr.g - prv.g| + |curr.b - prv.b|
  let isStatic : ℚ := if val < Threshold then 1 else 0
  if UseEdgeDetect > 0 then
    if (edge.load x y).r < 1 / 10 then 0 else isStatic
  else isStatic

/-- The conversion `(uint)SceneChangeThreshold` of a 32-bit `int`. -/
def toUInt32 (n : ℤ) : ℕ := (n % 2 ^ 32).toNat

/-- The constant buffer `Settings` of `CS_Interpolate`. -/
structure InterpSettings where
  Factor : ℚ
  SceneChangeThreshold : ℤ
  GhostingStrength : ℚ
  deriving DecidableEq, Repr

/-- The texture coordinate `uv` of the pixel centre (EmbeddedShaders.h line
723). -/
def pixelUV (cur : Texture Float4) (x y : ℕ) : ℚ × ℚ :=
  (((x : ℚ) + 1 / 2) / (cur.width : ℚ), ((y : ℚ) + 1 / 2) / (cur.height : ℚ))

/-- The sample `pixelPrev` (EmbeddedShaders.h line 727). -/
def interpPixelPrev (s : InterpSettings) (cur prev : Texture Float4) (motion : Texture Float2)
    (x y : ℕ) : Float4 :=
  let m := motion.load x y
  let uv := pixelUV cur x y
  prev.sampleLinear (uv.1 + m.x / (cur.width : ℚ) * s.Factor)
    (uv.2 + m.y / (cur.height : ℚ) * s.Factor)

/-- The sample `pixelCurr` (EmbeddedShaders.h lines 728 and 736). -/
def interpPixelCurr (s : InterpSettings) (cur : Texture Float4) (motion : Texture Float2)
    (x y : ℕ) : Float4 :=
  let m := motion.load x y
  let uv := pixelUV cur x y
  cur.sampleLinear (uv.1 - m.x / (cur.width : ℚ) * (1 - s.Factor))
    (uv.2 - m.y / (cur.height : ℚ) * (1 - s.Factor))

/-- The value of `result` after line 738: the blend before ghosting reduction. -/
def interpBlend (s : InterpSettings) (cur prev : Texture Float4) (motion : Texture Float2)
    (x y : ℕ) : Float4 :=
  Float4.lerp (interpPixelPrev s cur prev motion x y) (interpPixelCurr s cur motion x y) s.Factor

/-- The five samples `c, n, s, e, w` of the current frame (lines 745-749). -/
def ghostTaps (cur : Texture Float4) (x y : ℕ) : List Float4 :=
  let uv := pixelUV cur x y
  let dx : ℚ := 1 / (cur.width : ℚ)
  let dy : ℚ := 1 / (cur.height : ℚ)
  [cur.sampleLinear uv.1 uv.2, cur.sampleLinear uv.1 (uv.2 + dy),
   cur.sampleLinear uv.1 (uv.2 - dy), cur.sampleLinear (uv.1 + dx) uv.2,
   cur.sampleLinear (uv.1 - dx) uv.2]

/-- The local `minColor` (line 751). -/
def ghostMin (cur : Texture Float4) (x y : ℕ) : Float4 :=
  match ghostTaps cur x y with
  | [c, n, s, e, w] => Float4.fmin c (Float4.fmin n (Float4.fmin s (Float4.fmin e w)))
  | _ => 0

/-- The local `maxColor` (line 752). -/
def ghostMax (cur : Texture Float4) (x y : ℕ) : Float4 :=
  match ghostTaps cur x y with
  | [c, n, s, e, w] => Float4.fmax c (Float4.fmax n (Float4.fmax s (Float4.fmax e w)))
  | _ => 0

/-- Whether the thread leaves at one of the two early returns (lines 704-715). -/
def interpShortCircuit (s : InterpSettings) (mask : Texture ℚ) (stats : ℕ) (x y : ℕ) : Prop :=
  stats > toUInt32 s.SceneChangeThreshold ∨ mask.load x y > 1 / 2

instance (s : InterpSettings) (mask : Texture ℚ) (stats : ℕ) (x y : ℕ) :
    Decidable (interpShortCircuit s mask stats x y) := by
  unfold interpShortCircuit
  infer_instance

/-- One thread of `CS_Interpolate::CSMain`: the value written to
`OutputFrame[pos]`. -/
def interpolate (s : InterpSettings) (cur prev : Texture Float4) (motion : Texture Float2)
    (mask : Texture ℚ) (stats : ℕ) (x y : ℕ) : Float4 :=
  if stats > toUInt32 s.SceneChangeThreshold then cur.load x y
  else if mask.load x y > 1 / 2 then cur.load x y
  else
    let result := interpBlend s cur prev motion x y
    if s.GhostingStrength > 0 then
      let clamped := Float4.clamp result (ghostMin cur x y) (ghostMax cur x y)
      Float4.lerp result clamped s.GhostingStrength
    else result

/-! ## Kernel dispatch, `CS_Downsample`, `CS_Upsample`, `CS_MotionSmooth` -/

namespace Float2

/-- The HLSL product of a `float2` with a scalar. -/
def scale (c : ℚ) (v : Float2) : Float2 := ⟨c * v.x, c * v.y⟩

/-- The HLSL sum of two `float2` values. -/
def add (v w : Float2) : Float2 := ⟨v.x + w.x, v.y + w.y⟩

end Float2

/-- The number of threads per axis of a dispatch of
`(UINT)ceil(n / (float)group)` groups of `group` threads. -/
def dispatchThreads (n group : ℕ) : ℕ := group * ((n + group - 1) / group)

/-- One dispatch of a kernel whose thread `(x, y)` writes at most its own texel
of the output: `thread x y` is the value written (`none` when the thread
returns without writing), `threadsX` and `threadsY` bound the thread ids, and
writes outside the output are dropped. -/
def Texture.dispatch {α : Type} (out : Texture α) (threadsX threadsY : ℕ)
    (thread : ℕ → ℕ → Option α) : Texture α :=
  { out with texel := fun x y =>
      if out.inBounds x y ∧ x < threadsX ∧ y < threadsY then
        (thread x.toNat y.toNat).getD (out.texel x y)
      else out.texel x y }

/-- The call `CopyResource(dst, src)`: the texels of `src` replace those of
`dst`.  The call is only valid between resources of the same dimensions; an
invalid call is dropped and leaves `dst` as it is. -/
def copyResource {α : Type} (dst src : Texture α) : Texture α :=
  if dst.width = src.width ∧ dst.height = src.height then
    { dst with texel := fun x y => if dst.inBounds x y then src.texel x y else dst.texel x y }
  else dst

/-- One thread of `CS_Downsample::CSMain`: the 2x2 box average. -/
def downsampleThread (input : Texture Float4) (x y : ℕ) : Float4 :=
  let sx : ℤ := 2 * (x : ℤ)
  let sy : ℤ := 2 * (y : ℤ)
  Float4.scale (1 / 4)
    (Float4.add (Float4.add (Float4.add (input.load sx sy) (input.load (sx + 1) sy))
      (input.load sx (sy + 1))) (input.load (sx + 1) (sy + 1)))

/-- The method `OpticalFlow::Downsample` (OpticalFlow.cpp lines 475-502). -/
def Downsample (input output : Texture Float4) : Texture Float4 :=
  output.dispatch (dispatchThreads output.width 8) (dispatchThreads output.height 8)
    (fun x y => some (downsampleThread input x y))

/-- One thread of `CS_Upsample::CSMain`: twice the coarse vector at
`dstPos / 2`. -/
def upsampleThread (input : Texture Float2) (x y : ℕ) : Float2 :=
  Float2.scale 2 (input.load (((x / 2 : ℕ) : ℤ)) (((y / 2 : ℕ) : ℤ)))

/-- The method `OpticalFlow::Upsample` (OpticalFlow.cpp lines 504-531). -/
def Upsample (inputLowRes outputHighRes : Texture Float2) : Texture Float2 :=
  outputHighRes.dispatch (dispatchThreads outputHighRes.width 8)
    (dispatchThreads outputHighRes.height 8)
    (fun x y => some (upsampleThread inputLowRes x y))

/-- The offsets `(x, y)` of the 3x3 loops of `CS_MotionSmooth`, in order. -/
def smoothOffsets : List (ℤ × ℤ) :=
  [(-1, -1), (0, -1), (1, -1), (-1, 0), (0, 0), (1, 0), (-1, 1), (0, 1), (1, 1)]

/-- One thread of `CS_MotionSmooth::CSMain`: the mean of the in-bounds vectors of
the 3x3 neighbourhood, or `none` when the thread is outside the input. -/
def motionSmoothThread (input : Texture Float2) (x y : ℕ) : Option Float2 :=
  if (x : ℤ) ≥ input.width ∨ (y : ℤ) ≥ input.height then none
  else
    let acc : Float2 × ℚ := smoothOffsets.foldl
      (fun (a : Float2 × ℚ) (o : ℤ × ℤ) =>
        let ox : ℤ := (x : ℤ) + o.1
        let oy : ℤ := (y : ℤ) + o.2
        if ox ≥ 0 ∧ oy ≥ 0 ∧ ox < input.width ∧ oy < input.height then
          (Float2.add a.1 (input.load ox oy), a.2 + 1)
        else a)
      (⟨0, 0⟩, 0)
    some ⟨acc.1.x / acc.2, acc.1.y / acc.2⟩

/-! ## OpticalFlow.cpp: the entry points of the estimator -/

/-- The resources of `OpticalFlow` that the block-matching entry points use: the
pyramid textures, the upsampled-motion and smoothing scratch textures, the
backward-motion texture, which optional kernels and views exist, and the
scene-change counter `GlobalStats[0]`. -/
structure FlowState where
  kernelsLoaded : Bool
  TexCurrentLevel1 : Texture Float4
  TexPrevLevel1 : Texture Float4
  TexCurrentLevel2 : Texture Float4
  TexPrevLevel2 : Texture Float4
  TexMotionLevel1 : Texture Float2
  TexMotionLevel2 : Texture Float2
  TexMotionUpsampled : Texture Float2
  TexSmoothTemp : Option (Texture Float2)
  TexMotionBackward : Option (Texture Float2)
  adaptiveReady : Bool
  consistencyReady : Bool
  hasStatsUAV : Bool
  stats : ℕ

/-- The block "Clear Stats Buffer" of `OpticalFlow::Dispatch` (OpticalFlow.cpp
lines 211-216). -/
def clearStats (st : FlowState) : FlowState :=
  if st.hasStatsUAV then { st with stats := 0 } else st

/-- The block "5. Motion Smoothing" of `OpticalFlow::Dispatch` (OpticalFlow.cpp
lines 446-469): copy the output into the scratch texture and blur it back. -/
def smoothingStep (enableSmoothing : Bool) (currentFrame : Texture Float4)
    (st : FlowState) (outputMotion : Texture Float2) : FlowState × Texture Float2 :=
  match st.TexSmoothTemp with
  | some temp =>
    if enableSmoothing then
      let temp1 := copyResource temp outputMotion
      ({ st with TexSmoothTemp := some temp1 },
        outputMotion.dispatch (dispatchThreads currentFrame.width 8)
          (dispatchThreads currentFrame.height 8) (motionSmoothThread temp1))
    else (st, outputMotion)
  | none => (st, outputMotion)

/-- The local `blk` of the pyramid levels: `blockSize / d`, at least 4. -/
def levelBlock (blockSize d : ℤ) : ℤ :=
  if Int.tdiv blockSize d < 4 then 4 else Int.tdiv blockSize d

/-- The block "Level 1 (Half)" of `OpticalFlow::Dispatch` when it is entered
(OpticalFlow.cpp lines 403-444), with the levels already range-checked.  The
flag of the result tells whether the method returns from inside the block,
skipping the smoothing. -/
def levelOneBlock (st : FlowState) (currentFrame prevFrame : Texture Float4)
    (outputMotion : Texture Float2) (blockSize searchRadius : ℤ) (enableSubPixel : Bool)
    (maxLevel minLevel : ℤ) : FlowState × Texture Float2 × Bool :=
  if maxLevel ≥ 2 then
    let st1 : FlowState :=
      { st with TexMotionLevel1 := Upsample st.TexMotionLevel2 st.TexMotionLevel1 }
    let afterImpl : FlowState × Texture Float2 × Bool :=
      if maxLevel = 2 then
        let r := BlockMatching st1.TexCurrentLevel2 st1.TexPrevLevel2 st1.TexMotionLevel2 none
          (levelBlock blockSize 4) (Int.tdiv searchRadius 4) false st1.stats
        let st2 : FlowState := { st1 with TexMotionLevel2 := r.1, stats := r.2 }
        if minLevel = 2 then (st2, Upsample st2.TexMotionLevel2 outputMotion, true)
        else
          ({ st2 with TexMotionLevel1 := Upsample st2.TexMotionLevel2 st2.TexMotionLevel1 },
            outputMotion, false)
      else if maxLevel = 1 then
        let r := BlockMatching st1.TexCurrentLevel1 st1.TexPrevLevel1 st1.TexMotionLevel1 none
          (levelBlock blockSize 2) (Int.tdiv searchRadius 2) false st1.stats
        ({ st1 with TexMotionLevel1 := r.1, stats := r.2 }, outputMotion, false)
      else (st1, outputMotion, false)
    if afterImpl.2.2 then afterImpl
    else
      let st3 := afterImpl.1
      if minLevel = 1 then (st3, Upsample st3.TexMotionLevel1 afterImpl.2.1, true)
      else
        let st4 : FlowState :=
          { st3 with TexMotionUpsampled := Upsample st3.TexMotionLevel1 st3.TexMotionUpsampled }
        let r := BlockMatching currentFrame prevFrame afterImpl.2.1 (some st4.TexMotionUpsampled)
          blockSize searchRadius enableSubPixel st4.stats
        ({ st4 with stats := r.2 }, r.1, false)
  else (st, outputMotion, false)

/-- The method `OpticalFlow::Dispatch` for `FlowAlgorithm::BlockMatching`
(OpticalFlow.cpp lines 197-231 and the `else` branch, lines 365-472), called
with non-null textures. -/
def DispatchBlockMatching (st : FlowState) (currentFrame prevFrame : Texture Float4)
    (outputMotion : Texture Float2) (blockSize searchRadius : ℤ)
    (enableSubPixel enableSmoothing : Bool) (maxLevel minLevel : ℤ) :
    FlowState × Texture Float2 :=
  if ¬ st.kernelsLoaded then (st, outputMotion)
  else
    let st0 := clearStats st
    let maxL : ℤ := if maxLevel > 2 then 2 else maxLevel
    let minL0 : ℤ := if minLevel < 0 then 0 else minLevel
    let minL : ℤ := if minL0 > maxL then maxL else minL0
    let st1 : FlowState :=
      if 1 ≤ maxL then
        { st0 with TexCurrentLevel1 := Downsample currentFrame st0.TexCurrentLevel1,
                   TexPrevLevel1 := Downsample prevFrame st0.TexPrevLevel1 }
      else st0
    let st2 : FlowState :=
      if 2 ≤ maxL then
        { st1 with TexCurrentLevel2 := Downsample st1.TexCurrentLevel1 st1.TexCurrentLevel2,
                   TexPrevLevel2 := Downsample st1.TexPrevLevel1 st1.TexPrevLevel2 }
      else st1
    let st3 : FlowState :=
      if maxL ≥ 2 ∧ minL ≤ 2 then
        let rad : ℤ := if Int.tdiv searchRadius 4 < 2 then 2 else Int.tdiv searchRadius 4
        let r := BlockMatching st2.TexCurrentLevel2 st2.TexPrevLevel2 st2.TexMotionLevel2 none
          (levelBlock blockSize 4) rad false st2.stats
        { st2 with TexMotionLevel2 := r.1, stats := r.2 }
      else st2
    let lvl1 : FlowState × Texture Float2 × Bool :=
      if maxL ≥ 1 ∧ minL ≤ 1 then
        levelOneBlock st3 currentFrame prevFrame outputMotion blockSize searchRadius
          enableSubPixel maxL minL
      else (st3, outputMotion, false)
    if lvl1.2.2 then (lvl1.1, lvl1.2.1)
    else smoothingStep enableSmoothing currentFrame lvl1.1 lvl1.2.1

/-- The method `OpticalFlow::CheckConsistency` (OpticalFlow.cpp lines 668-703):
the kernel passes the forward flow through into the scratch texture, which is
then copied over the output. -/
def CheckConsistency (st : FlowState) (fwd : Texture Float2) (bwd : Option (Texture Float2))
    (output : Texture Float2) : FlowState × Texture Float2 :=
  match bwd, st.TexSmoothTemp with
  | some _, some temp =>
    let temp1 := temp.dispatch (dispatchThreads fwd.width 16) (dispatchThreads fwd.height 16)
      (fun x y => some (fwd.load x y))
    ({ st with TexSmoothTemp := some temp1 }, copyResource output temp1)
  | _, _ => (st, output)

/-- The method `OpticalFlow::DispatchBiDirectional` (OpticalFlow.cpp lines
594-618). -/
def DispatchBiDirectional (st : FlowState) (currentFrame prevFrame : Texture Float4)
    (outputMotion : Texture Float2) (blockSize searchRadius : ℤ) :
    FlowState × Texture Float2 :=
  let f := BlockMatching currentFrame prevFrame outputMotion none blockSize searchRadius true
    st.stats
  let st1 : FlowState := { st with stats := f.2 }
  let st2 : FlowState :=
    match st1.TexMotionBackward with
    | some back =>
      let b := BlockMatching prevFrame currentFrame back none blockSize searchRadius true
        st1.stats
      { st1 with TexMotionBackward := some b.1, stats := b.2 }
    | none => st1
  if st2.consistencyReady then CheckConsistency st2 f.1 st2.TexMotionBackward f.1
  else (st2, f.1)

/-- The method `OpticalFlow::DispatchAdaptive` (OpticalFlow.cpp lines 620-637).
The variance grid written by `CalcVariance` is read by no kernel and is not part
of the state. -/
def DispatchAdaptive (st : FlowState) (currentFrame prevFrame : Texture Float4)
    (outputMotion : Texture Float2) (searchRadius : ℤ) : FlowState × Texture Float2 :=
  if ¬ st.adaptiveReady then (st, outputMotion)
  else
    let r := BlockMatching currentFrame prevFrame outputMotion none 16 searchRadius true
      st.stats
    ({ st with stats := r.2 }, r.1)

/-! ## EmbeddedShaders.h: `CS_Upscale`, `CS_RCAS`, `CS_SplitScreen` -/

/-- The conversion `(int)` of a `float`: truncation toward zero. -/
def truncToInt (q : ℚ) : ℤ := if 0 ≤ q then ⌊q⌋ else ⌈q⌉

/-- The HLSL intrinsic `saturate` on a scalar. -/
def saturate (q : ℚ) : ℚ := min (max q 0) 1

/-- What a channel reads after the value `v` was stored to an 8-bit UNORM
channel: the store clamps to `[0, 1]`, scales by 255, adds 0.5 and drops the
fraction (the float-to-UNORM conversion of Direct3D 11), and the texel reads as
that integer over 255. -/
def unormChannel (v : ℚ) : ℚ := ((⌊saturate v * 255 + 1 / 2⌋ : ℤ) : ℚ) / 255

/-- What a texel of a `DXGI_FORMAT_R8G8B8A8_UNORM` texture reads after the colour
`c` was stored to it. -/
def unorm8Store (c : Float4) : Float4 :=
  ⟨unormChannel c.r, unormChannel c.g, unormChannel c.b, unormChannel c.a⟩

/-- The helper `CubicWeight` of `CS_Upscale` (with its constants `B = 0`,
`C = 0.5`). -/
def CubicWeight (x : ℚ) : ℚ :=
  let B : ℚ := 0
  let C : ℚ := 1 / 2
  let ax : ℚ := |x|
  if ax < 1 then
    ((12 - 9 * B - 6 * C) * ax * ax * ax + (-18 + 12 * B + 6 * C) * ax * ax + (6 - 2 * B)) / 6
  else if ax < 2 then
    ((-B - 6 * C) * ax * ax * ax + (6 * B + 30 * C) * ax * ax + (-12 * B - 48 * C) * ax
      + (8 * B + 24 * C)) / 6
  else 0

/-- The helper `Sinc` of `CS_Upscale`; the intrinsic `sin` is a parameter. -/
def Sinc (sinFn : ℚ → ℚ) (x : ℚ) : ℚ :=
  if x = 0 then 1 else sinFn (314159265 / 100000000 * x) / (314159265 / 100000000 * x)

/-- The helper `LanczosWeight` of `CS_Upscale`. -/
def LanczosWeight (sinFn : ℚ → ℚ) (x : ℚ) (a : ℤ) : ℚ :=
  if |x| ≥ (a : ℚ) then 0 else Sinc sinFn x * Sinc sinFn (x / (a : ℚ))

/-- The weighted sum over a window of texels shared by `SampleBicubic` and
`SampleLanczos`: the accumulated colour and the accumulated weight. -/
def windowSum (input : Texture Float4) (weight : ℚ → ℚ) (u v : ℚ) (lo hi : ℤ) : Float4 × ℚ :=
  let px : ℚ := u * (input.width : ℚ) - 1 / 2
  let py : ℚ := v * (input.height : ℚ) - 1 / 2
  let tcx : ℤ := ⌊px⌋
  let tcy : ℤ := ⌊py⌋
  let fx : ℚ := px - (tcx : ℚ)
  let fy : ℚ := py - (tcy : ℚ)
  let span : List ℤ := (List.range (hi - lo + 1).toNat).map (fun (k : ℕ) => (k : ℤ) + lo)
  let taps : List (ℤ × ℤ) := span.flatMap (fun (y : ℤ) => span.map (fun (x : ℤ) => (x, y)))
  taps.foldl
    (fun (acc : Float4 × ℚ) (o : ℤ × ℤ) =>
      let w : ℚ := weight ((o.1 : ℚ) - fx) * weight ((o.2 : ℚ) - fy)
      (Float4.add acc.1 (Float4.scale w (input.load (Texture.clampIndex (tcx + o.1) input.width)
        (Texture.clampIndex (tcy + o.2) input.height))), acc.2 + w))
    (0, 0)

/-- The helper `SampleBicubic` of `CS_Upscale`. -/
def SampleBicubic (input : Texture Float4) (u v : ℚ) : Float4 :=
  let r := windowSum input CubicWeight u v (-1) 2
  Float4.scale (1 / r.2) r.1

/-- The helper `SampleLanczos` of `CS_Upscale`. -/
def SampleLanczos (sinFn : ℚ → ℚ) (input : Texture Float4) (u v : ℚ) (a : ℤ) : Float4 :=
  let r := windowSum input (fun x => LanczosWeight sinFn x a) u v (-a + 1) a
  if r.2 > 1 / 10000 then Float4.scale (1 / r.2) r.1 else ⟨0, 0, 0, 0⟩

/-- One thread of `CS_Upscale::main` inside the output, whose size is
`outW x outH`; `InputSize` is the size of the input texture. -/
def upscaleThread (sinFn : ℚ → ℚ) (Mode Radius : ℤ) (input : Texture Float4) (outW outH : ℕ)
    (x y : ℕ) : Float4 :=
  let u : ℚ := ((x : ℚ) + 1 / 2) / (outW : ℚ)
  let v : ℚ := ((y : ℚ) + 1 / 2) / (outH : ℚ)
  let nearest : Float4 :=
    input.load (truncToInt (u * (input.width : ℚ))) (truncToInt (v * (input.height : ℚ)))
  if Mode = 1 then nearest
  else if Mode = 2 then input.sampleLinear u v
  else if Mode = 3 then SampleBicubic input u v
  else if Mode = 4 then SampleLanczos sinFn input u v Radius
  else nearest

/-- The kernel dispatch of `FrameGeneration::DispatchScale` (FrameGeneration.cpp
lines 44-107) with the scale kernel and its constant buffer present.  The
unordered-access view is created on `output` with its own format, so the store
`Output[id.xy] = ...` converts the colour the thread computed to that format:
`store` is this conversion (`unorm8Store` for `DXGI_FORMAT_R8G8B8A8_UNORM`). -/
def DispatchScale (sinFn : ℚ → ℚ) (store : Float4 → Float4) (UpscaleMode LanczosRadius : ℤ)
    (input output : Texture Float4) : Texture Float4 :=
  output.dispatch (dispatchThreads output.width 16) (dispatchThreads output.height 16)
    (fun x y => some (store (upscaleThread sinFn UpscaleMode LanczosRadius input output.width
      output.height x y)))

/-- One thread of `CS_RCAS::CSMain`, or `none` when the thread is outside the
input. -/
def rcasThread (Sharpness : ℚ) (input : Texture Float4) (x y : ℕ) : Option Float4 :=
  if x ≥ input.width ∨ y ≥ input.height then none
  else
    let c := input.load x y
    let n := input.load x (max 0 ((y : ℤ) - 1))
    let s := input.load x (min ((input.height : ℤ) - 1) ((y : ℤ) + 1))
    let w := input.load (max 0 ((x : ℤ) - 1)) y
    let e := input.load (min ((input.width : ℤ) - 1) ((x : ℤ) + 1)) y
    let lobe : ℚ := 0 + Sharpness * (-(2 / 10) - 0)
    let denominator : ℚ := 1 + 4 * lobe
    some ⟨saturate ((c.r + lobe * (n.r + s.r + w.r + e.r)) / denominator),
      saturate ((c.g + lobe * (n.g + s.g + w.g + e.g)) / denominator),
      saturate ((c.b + lobe * (n.b + s.b + w.b + e.b)) / denominator), c.a⟩

/-- The method `Sharpening::Dispatch` (Sharpening.cpp lines 41-77), reached
through `FrameInterpolation::DispatchRCAS`. -/
def DispatchRCAS (rcasLoaded : Bool) (input output : Texture Float4) (strength : ℚ) :
    Texture Float4 :=
  if ¬ rcasLoaded ∨ strength ≤ 1 / 1000 then output
  else
    output.dispatch (dispatchThreads input.width 8) (dispatchThreads input.height 8)
      (rcasThread strength input)

/-- One thread of `CS_SplitScreen::main` inside the output of width `width`. -/
def splitScreenThread (SplitPos : ℚ) (texGen texReal : Texture Float4) (width : ℕ)
    (x y : ℕ) : Float4 :=
  let u : ℚ := (x : ℚ) / (width : ℚ)
  let splitX : ℤ := truncToInt (SplitPos * (width : ℚ))
  if |(x : ℤ) - splitX| ≤ 1 then ⟨1, 1, 1, 1⟩
  else if u < SplitPos then texGen.load x y
  else texReal.load x y

/-- The method `FrameInterpolation::DispatchSplitScreen` (FrameInterpolation.cpp
lines 263-308). -/
def DispatchSplitScreen (splitLoaded : Bool) (texGen texReal output : Texture Float4)
    (splitPos : ℚ) : Texture Float4 :=
  if ¬ splitLoaded then output
  else
    output.dispatch (dispatchThreads texGen.width 16) (dispatchThreads texGen.height 16)
      (fun x y => some (splitScreenThread splitPos texGen texReal output.width x y))

/-! ## EdgeDetection.cpp, FrameInterpolation.cpp: `FrameInterpolation::Dispatch` -/

/-- What a texel of a `DXGI_FORMAT_R8_UNORM` texture reads after the colour `c`
was stored to it: the red channel converted to 8 bits, and the defaults 0, 0 and
1 for the channels the format does not have. -/
def unorm8RedStore (c : Float4) : Float4 := ⟨unormChannel c.r, 0, 0, 1⟩

/-- One thread of `CS_EdgeDetect::CSMain`: the colour written to
`OutputEdge[pos]`, or `none` when the thread is outside the input.  `sqrtFn` is
the intrinsic `sqrt`. -/
def edgeDetectThread (sqrtFn : ℚ → ℚ) (input : Texture Float4) (x y : ℕ) : Option Float4 :=
  if (x : ℤ) ≥ input.width ∨ (y : ℤ) ≥ input.height then none
  else
    let magnitude := sqrtFn (sobelRadicand input x y)
    some ⟨magnitude, magnitude, magnitude, 1⟩

/-- The resources of `EdgeDetection`: whether its kernel exists, and the edge
texture (`DXGI_FORMAT_R8_UNORM`). -/
structure EdgeDetection where
  csEdgeDetect : Bool
  TexEdge : Option (Texture Float4)

/-- The method `EdgeDetection::Dispatch` (EdgeDetection.cpp lines 46-77). -/
def EdgeDetection.Dispatch (sqrtFn : ℚ → ℚ) (ed : EdgeDetection) (input : Texture Float4) :
    EdgeDetection :=
  match ed.TexEdge with
  | some edge =>
    if ed.csEdgeDetect then
      { ed with TexEdge := some (edge.dispatch (dispatchThreads input.width 32)
          (dispatchThreads input.height 32)
          (fun x y => (edgeDetectThread sqrtFn input x y).map unorm8RedStore)) }
    else ed
  | none => ed

/-- One thread of `CS_DebugView::CSMain`: the colour written to `Output[pos]`.
The test `length(motion) == 0` holds exactly when both components are zero. -/
def debugViewThread (Mode : ℤ) (Scale : ℚ) (motion : Texture Float2) (mask : Texture ℚ)
    (x y : ℕ) : Float4 :=
  if Mode = 1 then
    let m := motion.load x y
    ⟨|m.x| * Scale, |m.y| * Scale, if m.x = 0 ∧ m.y = 0 then 2 / 10 else 0 * Scale, 1⟩
  else if Mode = 2 then
    let k := mask.load x y
    ⟨1 / 10 + k * (1 - 1 / 10), 1 / 10 + k * (0 - 1 / 10), 1 / 10 + k * (0 - 1 / 10), 1⟩
  else ⟨0, 0, 0, 1⟩

/-- The resources of `FrameInterpolation` that `Dispatch` uses: the edge
detector, the HUD mask (`DXGI_FORMAT_R8_UNORM`), the scratch texture of the
sharpening pass (`DXGI_FORMAT_R8G8B8A8_UNORM`), and whether the kernel of
`Sharpening` exists. -/
structure FrameInterpolation where
  edgeDetection : EdgeDetection
  TexHUDMask : Option (Texture ℚ)
  TexSharpened : Option (Texture Float4)
  csRCAS : Bool

/-- The method `FrameInterpolation::Dispatch` (FrameInterpolation.cpp lines
106-259), called with non-null textures: the edge pass, the HUD mask pass, then
the debug view or the interpolation, the latter followed by the sharpening pass
when `useRCAS` holds.  `stats` is `GlobalStats[0]`, `genStore` the store
conversion of the format of `texGenerated`; a resource that does not exist is
not written and reads as zero. -/
def FrameInterpolation.Dispatch (sqrtFn : ℚ → ℚ) (genStore : Float4 → Float4)
    (fi : FrameInterpolation) (texCurrent texPrev : Texture Float4) (texMotion : Texture Float2)
    (texGenerated : Texture Float4) (stats : ℕ) (hudThreshold : ℚ) (debugMode : ℤ)
    (motionScale factor : ℚ) (sceneThreshold : ℤ) (rcasStrength ghostingStrength : ℚ)
    (enableEdgeProtection : Bool) : FrameInterpolation × Texture Float4 :=
  let tx := dispatchThreads texCurrent.width 8
  let ty := dispatchThreads texCurrent.height 8
  let ed : EdgeDetection :=
    if enableEdgeProtection then EdgeDetection.Dispatch sqrtFn fi.edgeDetection texCurrent
    else fi.edgeDetection
  let edge : Texture Float4 :=
    if enableEdgeProtection then ed.TexEdge.getD ⟨0, 0, fun _ _ => 0⟩ else ⟨0, 0, fun _ _ => 0⟩
  let mask : Option (Texture ℚ) :=
    fi.TexHUDMask.map (fun t => t.dispatch tx ty
      (fun x y => some (unormChannel
        (hudMask hudThreshold (if enableEdgeProtection then 1 else 0) texCurrent texPrev edge
          x y))))
  let fi1 : FrameInterpolation := { fi with edgeDetection := ed, TexHUDMask := mask }
  let maskTex : Texture ℚ := mask.getD ⟨0, 0, fun _ _ => 0⟩
  if debugMode > 0 then
    (fi1, texGenerated.dispatch tx ty
      (fun x y => some (genStore (debugViewThread debugMode motionScale texMotion maskTex x y))))
  else
    let thread : ℕ → ℕ → Float4 := fun x y =>
      interpolate ⟨factor, sceneThreshold, ghostingStrength⟩ texCurrent texPrev texMotion maskTex
        stats x y
    match (if rcasStrength > 0 then fi1.TexSharpened else none) with
    | some temp =>
      let temp1 := temp.dispatch tx ty (fun x y => some (unorm8Store (thread x y)))
      ({ fi1 with TexSharpened := some temp1 },
        DispatchRCAS fi1.csRCAS temp1 texGenerated rcasStrength)
    | none => (fi1, texGenerated.dispatch tx ty (fun x y => some (genStore (thread x y))))

/-! ## FrameGeneration.cpp: resource pool, `Capture`, `PresentGenerated`, `RestoreOriginal` -/

/-- The fields of `FrameGeneration::FrameGenSettings` that `Capture`,
`PresentGenerated`, `RestoreOriginal` and `DispatchScale` read, with the
defaults of `FrameGeneration.h`. -/
structure PipelineSettings where
  RenderScale : ℚ := 67 / 100
  UpscaleMode : ℤ := 3
  LanczosRadius : ℤ := 2
  EnableBiDirFlow : Bool := false
  EnableAdaptiveBlock : Bool := true
  RcasStrength : ℚ := 1 / 2
  DebugViewMode : ℤ := 0
  EnableSplitScreen : Bool := false
  SplitScreenPosition : ℚ := 1 / 2

/-- The estimator entry point `Capture` selects (FrameGeneration.cpp lines
199-216). -/
inductive FlowEntry where
  | biDirectional
  | adaptive
  | dispatch
  deriving DecidableEq, Repr

/-- The passes `FrameGeneration` calls in its subsystems, taken as parameters:
the intrinsic `sin`, the format conversion of a store to a colour texture of the
pool (the pool textures are created with the description of the back buffer,
FrameGeneration.cpp lines 122-169, so they share its format, with
`DXGI_FORMAT_R8G8B8A8_UNORM` in place of its sRGB variant), the motion
estimation of the selected entry point (from
current frame, previous frame and the motion texture to the new motion texture)
and `FrameInterpolation::Dispatch` (from debug mode, factor, sharpening
strength, current, previous, motion, output and scratch texture to the new
output and scratch textures). -/
structure PassEnv where
  sinFn : ℚ → ℚ
  colorStore : Float4 → Float4
  estimate : FlowEntry → Texture Float4 → Texture Float4 → Texture Float2 → Texture Float2
  interpolation : ℤ → ℚ → ℚ → Texture Float4 → Texture Float4 → Texture Float2 →
    Texture Float4 → Option (Texture Float4) → Texture Float4 × Option (Texture Float4)

/-- The state of the frame-generation pipeline: the back buffer `GetBuffer(0)`
hands out (`none` when the call fails), the textures of the resource pool, the
width and height the estimator was last initialised with (the size of its
full-size scratch buffers), and the mask and scratch textures of the
synthesizer. -/
structure Pipeline where
  ready : Bool
  scaleReady : Bool
  rcasLoaded : Bool
  splitLoaded : Bool
  backBuffer : Option (Texture Float4)
  TexCurrent : Option (Texture Float4)
  TexPrev : Option (Texture Float4)
  TexMotion : Option (Texture Float2)
  TexGenerated : Option (Texture Float4)
  TexLowResCurrent : Option (Texture Float4)
  TexLowResPrev : Option (Texture Float4)
  TexLowResMotion : Option (Texture Float2)
  TexLowResGenerated : Option (Texture Float4)
  flowSize : Option (ℕ × ℕ)
  TexHUDMask : Option (Texture ℚ)
  TexSharpened : Option (Texture Float4)

/-- A texture as `CreateTexture2D` returns it: the requested size, no data. -/
def Texture.blank {α : Type} [Zero α] (width height : ℕ) : Texture α :=
  ⟨width, height, fun _ _ => 0⟩

/-- The width and height of a texture. -/
def Texture.size {α : Type} (t : Texture α) : ℕ × ℕ := (t.width, t.height)

/-- The block "Lazy initialization of storage texture" of `Capture`
(FrameGeneration.cpp lines 125-148), entered when `m_TexCurrent` is null. -/
def lazyInit (width height : ℕ) (p : Pipeline) : Pipeline :=
  { p with
    TexCurrent := some (Texture.blank width height),
    TexPrev := some (Texture.blank width height),
    TexMotion := some (Texture.blank width height),
    TexGenerated := some (Texture.blank width height),
    flowSize := some (width, height),
    TexHUDMask := some (Texture.blank width height),
    TexSharpened := some (Texture.blank width height) }

/-- The locals `targetW` and `targetH` of `Capture` (FrameGeneration.cpp lines
152-155) for a back-buffer extent `n`. -/
def lowResExtent (n : ℕ) (RenderScale : ℚ) : ℤ :=
  let t0 : ℤ := truncToInt ((n : ℚ) * RenderScale)
  let t1 : ℤ := Int.tdiv t0 2 * 2
  if t1 < 16 then 16 else t1

/-- The local `useScaling` of `Capture` (FrameGeneration.cpp line 151). -/
def captureUsesScaling (s : PipelineSettings) : Bool := decide (s.RenderScale < 1)

/-- The local `useScaling` of `PresentGenerated` (FrameGeneration.cpp line 269). -/
def presentGeneratedUsesScaling (s : PipelineSettings) : Bool := decide (s.RenderScale < 1)

/-- The local `useScaling` of `RestoreOriginal` (FrameGeneration.cpp line 403). -/
def restoreUsesScaling (s : PipelineSettings) : Bool := decide (s.RenderScale < 99 / 100)

/-- The block that creates the low-resolution textures when they are missing or
have another size (FrameGeneration.cpp lines 159-175). -/
def ensureLowRes (targetW targetH : ℤ) (p : Pipeline) : Pipeline :=
  let stale : Bool :=
    match p.TexLowResCurrent with
    | none => true
    | some t => decide ((t.width : ℤ) ≠ targetW ∨ (t.height : ℤ) ≠ targetH)
  if stale then
    { p with
      TexLowResCurrent := some (Texture.blank targetW.toNat targetH.toNat),
      TexLowResPrev := some (Texture.blank targetW.toNat targetH.toNat),
      TexLowResGenerated := some (Texture.blank targetW.toNat targetH.toNat),
      TexLowResMotion := some (Texture.blank targetW.toNat targetH.toNat),
      flowSize := some (targetW.toNat, targetH.toNat) }
  else p

/-- The block "[Cycle Frames]" of `Capture` (FrameGeneration.cpp lines 178-180). -/
def cycleFrames (useScaling : Bool) (p : Pipeline) : Pipeline :=
  let p1 : Pipeline :=
    if p.TexPrev.isSome ∧ p.TexCurrent.isSome then
      { p with TexPrev := p.TexCurrent, TexCurrent := p.TexPrev }
    else p
  if useScaling ∧ p1.TexLowResPrev.isSome ∧ p1.TexLowResCurrent.isSome then
    { p1 with TexLowResPrev := p1.TexLowResCurrent, TexLowResCurrent := p1.TexLowResPrev }
  else p1

/-- A call of `FrameGeneration::DispatchScale` with its null checks. -/
def scaleInto (env : PassEnv) (s : PipelineSettings) (p : Pipeline)
    (input output : Option (Texture Float4)) : Option (Texture Float4) :=
  match input, output with
  | some i, some o =>
    if p.scaleReady then
      some (DispatchScale env.sinFn env.colorStore s.UpscaleMode s.LanczosRadius i o)
    else some o
  | _, _ => output

/-- The blocks "2. Capture New Frame" and "Downscale if needed" of `Capture`
(FrameGeneration.cpp lines 182-189). -/
def captureFrame (env : PassEnv) (s : PipelineSettings) (useScaling : Bool)
    (backBuffer : Texture Float4) (p : Pipeline) : Pipeline :=
  let p1 : Pipeline :=
    { p with TexCurrent := p.TexCurrent.map (fun t => copyResource t backBuffer) }
  if useScaling then
    { p1 with TexLowResCurrent := scaleInto env s p1 p1.TexCurrent p1.TexLowResCurrent }
  else p1

/-- The entry point chosen by `Capture` (FrameGeneration.cpp lines 199-216). -/
def selectEntry (s : PipelineSettings) : FlowEntry :=
  if s.EnableBiDirFlow then FlowEntry.biDirectional
  else if s.EnableAdaptiveBlock then FlowEntry.adaptive
  else FlowEntry.dispatch

/-- The block "[Execute Pipeline]" of `Capture` (FrameGeneration.cpp lines
191-224): the estimation pass on the selected textures. -/
def estimateStep (env : PassEnv) (s : PipelineSettings) (useScaling : Bool) (p : Pipeline) :
    Pipeline :=
  if useScaling then
    match p.TexLowResCurrent, p.TexLowResPrev, p.TexLowResMotion with
    | some c, some q, some m =>
      { p with TexLowResMotion := some (env.estimate (selectEntry s) c q m) }
    | _, _, _ => p
  else
    match p.TexCurrent, p.TexPrev, p.TexMotion with
    | some c, some q, some m => { p with TexMotion := some (env.estimate (selectEntry s) c q m) }
    | _, _, _ => p

/-- A call of `FrameInterpolation::Dispatch` that renders the debug view
(factor 0, no sharpening) into `m_TexGenerated` and copies it to the back buffer
(FrameGeneration.cpp lines 237-255 and 379-396). -/
def debugViewStep (env : PassEnv) (s : PipelineSettings) (backBuffer : Texture Float4)
    (p : Pipeline) : Pipeline :=
  match p.TexCurrent, p.TexPrev, p.TexMotion, p.TexGenerated with
  | some c, some q, some m, some g =>
    let r := env.interpolation s.DebugViewMode 0 0 c q m g p.TexSharpened
    { p with TexGenerated := some r.1, TexSharpened := r.2,
             backBuffer := some (copyResource backBuffer r.1) }
  | _, _, _, _ => p

/-- The method `FrameGeneration::Capture` (FrameGeneration.cpp lines 111-260). -/
def Capture (env : PassEnv) (s : PipelineSettings) (p : Pipeline) : Pipeline :=
  if ¬ p.ready then p
  else
    match p.backBuffer with
    | none => p
    | some bb =>
      let p1 := if p.TexCurrent.isNone then lazyInit bb.width bb.height p else p
      let useScaling := captureUsesScaling s
      let p2 :=
        if useScaling then
          ensureLowRes (lowResExtent bb.width s.RenderScale)
            (lowResExtent bb.height s.RenderScale) p1
        else p1
      let p3 := cycleFrames useScaling p2
      let p4 := captureFrame env s useScaling bb p3
      let p5 := estimateStep env s useScaling p4
      if s.DebugViewMode > 0 then debugViewStep env s bb p5 else p5

/-- The block "[Split Screen Comparison]" shared by `PresentGenerated` and
`RestoreOriginal`: copy `source` into the scratch texture and composite it with
`real` into `m_TexGenerated`. -/
def splitScreenStep (s : PipelineSettings) (source real : Option (Texture Float4))
    (temp : Texture Float4) (p : Pipeline) : Pipeline :=
  let temp1 : Texture Float4 :=
    match source with
    | some g => copyResource temp g
    | none => temp
  let realTex : Texture Float4 := real.getD (Texture.blank 0 0)
  { p with TexSharpened := some temp1,
           TexGenerated := p.TexGenerated.map (fun g =>
             DispatchSplitScreen p.splitLoaded temp1 realTex g s.SplitScreenPosition) }

/-- The method `FrameGeneration::PresentGenerated` (FrameGeneration.cpp lines
262-336): the new state and the returned flag. -/
def PresentGenerated (env : PassEnv) (s : PipelineSettings) (factor : ℚ) (p : Pipeline) :
    Pipeline × Bool :=
  if p.TexGenerated.isNone ∨ ¬ p.ready then (p, false)
  else
    let useScaling := presentGeneratedUsesScaling s
    let inputCurr := if useScaling then p.TexLowResCurrent else p.TexCurrent
    let inputPrev := if useScaling then p.TexLowResPrev else p.TexPrev
    let inputMotion := if useScaling then p.TexLowResMotion else p.TexMotion
    let outputGen := if useScaling then p.TexLowResGenerated else p.TexGenerated
    let p1 : Pipeline :=
      match inputCurr, inputPrev, inputMotion, outputGen with
      | some c, some q, some m, some g =>
        let r := env.interpolation s.DebugViewMode factor s.RcasStrength c q m g p.TexSharpened
        if useScaling then { p with TexLowResGenerated := some r.1, TexSharpened := r.2 }
        else { p with TexGenerated := some r.1, TexSharpened := r.2 }
      | _, _, _, _ => p
    let p2 : Pipeline :=
      if useScaling ∧ p1.TexLowResGenerated.isSome then
        { p1 with TexGenerated := scaleInto env s p1 p1.TexLowResGenerated p1.TexGenerated }
      else p1
    let p3 : Pipeline :=
      if s.EnableSplitScreen then
        match p2.TexSharpened with
        | some temp => splitScreenStep s p2.TexGenerated p2.TexPrev temp p2
        | none => p2
      else p2
    match p3.backBuffer, p3.TexGenerated with
    | some bb, some g => ({ p3 with backBuffer := some (copyResource bb g) }, true)
    | some _, none => (p3, true)
    | none, _ => (p3, false)

/-- The branch "Restore Clean Original (Real Frame)" of `RestoreOriginal`
(FrameGeneration.cpp lines 399-448). -/
def restoreClean (env : PassEnv) (s : PipelineSettings) (backBuffer : Texture Float4)
    (cur : Texture Float4) (p : Pipeline) : Pipeline :=
  let applyRCAS : Bool := decide (s.RcasStrength > 0)
  if restoreUsesScaling s ∧ p.TexLowResCurrent.isSome then
    let p1 : Pipeline :=
      { p with TexGenerated := scaleInto env s p p.TexLowResCurrent p.TexGenerated }
    match applyRCAS, p1.TexSharpened, p1.TexGenerated with
    | true, some temp, some g =>
      let temp1 := DispatchRCAS p1.rcasLoaded g temp s.RcasStrength
      { p1 with TexSharpened := some temp1, backBuffer := some (copyResource backBuffer temp1) }
    | _, _, some g => { p1 with backBuffer := some (copyResource backBuffer g) }
    | _, _, none => p1
  else if applyRCAS then
    match p.TexGenerated with
    | some g =>
      let g1 := DispatchRCAS p.rcasLoaded cur g s.RcasStrength
      { p with TexGenerated := some g1, backBuffer := some (copyResource backBuffer g1) }
    | none => p
  else { p with backBuffer := some (copyResource backBuffer cur) }

/-- The method `FrameGeneration::RestoreOriginal` (FrameGeneration.cpp lines
338-450). -/
def RestoreOriginal (env : PassEnv) (s : PipelineSettings) (p : Pipeline) : Pipeline :=
  match p.TexCurrent, p.backBuffer with
  | some cur, some bb =>
    if ¬ p.ready then p
    else
      match s.EnableSplitScreen, p.TexSharpened with
      | true, some temp =>
        let p1 := splitScreenStep s (some cur) (some (copyResource temp cur)) temp p
        match p1.TexGenerated with
        | some g => { p1 with backBuffer := some (copyResource bb g) }
        | none => p1
      | _, _ =>
        if s.DebugViewMode > 0 then debugViewStep env s bb p
        else restoreClean env s bb cur p
  | _, _ => p

/-! ## ResizeBuffers.cpp: `hkResizeBuffers` -/

/-- The original `ResizeBuffers` of the swap chain: from the back buffer before
the call and the arguments `BufferCount`, `Width`, `Height`, `NewFormat`,
`SwapChainFlags` to the `HRESULT` and the back buffer after the call. -/
structure ResizeEnv where
  original : Option (Texture Float4) → ℕ → ℕ → ℕ → ℕ → ℕ → ℤ × Option (Texture Float4)

/-- The hook `hkResizeBuffers` (ResizeBuffers.cpp lines 22-59) on the flag
"`Present::RenderTargetView` is non-null" and the pipeline: the new flag, the new
pipeline and the returned `HRESULT`. -/
def hkResizeBuffers (env : ResizeEnv) (BufferCount Width Height NewFormat SwapChainFlags : ℕ)
    (renderTargetView : Bool) (p : Pipeline) : (Bool × Pipeline) × ℤ :=
  let released : Bool := if renderTargetView then false else renderTargetView
  let count : ℕ := if BufferCount < 3 then 3 else BufferCount
  let r := env.original p.backBuffer count Width Height NewFormat SwapChainFlags
  let p1 : Pipeline := { p with backBuffer := r.2 }
  let rtv : Bool := if r.1 ≥ 0 then p1.backBuffer.isSome else released
  ((rtv, p1), r.1)

/-! ## Menu.cpp: performance profiles -/

/-- The enumeration `FrameGenSettings::UpscaleType`. -/
inductive UpscaleType where
  | Native
  | Nearest
  | Bilinear
  | Bicubic
  | Lanczos
  deriving DecidableEq, Repr

/-- The fields of `FrameGeneration::FrameGenSettings` that the profile code of
`Menu.cpp` reads or writes, with the defaults of `FrameGeneration.h`. -/
structure ProfileSettings where
  EnableAsyncCompute : Bool := false
  LowLatencyMode : Bool := false
  DisableVSync : Bool := true
  EnableAggressiveDynamicMode : Bool := false
  RenderScale : ℚ := 67 / 100
  UpscaleMode : UpscaleType := UpscaleType.Bicubic
  LanczosRadius : ℤ := 2
  OpticalFlowAlgorithm : ℤ := 1
  BlockSize : ℤ := 16
  SearchRadius : ℤ := 16
  MaxPyramidLevel : ℤ := 1
  MinPyramidLevel : ℤ := 0
  EnableBiDirFlow : Bool := false
  EnableAdaptiveBlock : Bool := true
  EnableSubPixel : Bool := true
  RcasStrength : ℚ := 1 / 2
  GhostingReduction : ℚ := 3 / 10
  EnableEdgeProtection : Bool := true
  EnableMotionSmoothing : Bool := false
  deriving DecidableEq, Repr

/-- The helper `GetBestMatchingPreset` (Menu.cpp lines 6-55). -/
def GetBestMatchingPreset (s : ProfileSettings) : ℤ :=
  if s.RenderScale = 33 / 100 ∧ s.UpscaleMode = UpscaleType.Nearest ∧
      s.EnableAggressiveDynamicMode ∧
      ¬ s.EnableBiDirFlow ∧ ¬ s.EnableAdaptiveBlock ∧ s.OpticalFlowAlgorithm = 0 ∧
      s.BlockSize = 32 ∧ s.SearchRadius = 4 ∧ s.MaxPyramidLevel = 2 ∧ s.MinPyramidLevel = 2 ∧
      ¬ s.EnableSubPixel ∧ ¬ s.EnableMotionSmoothing ∧
      s.RcasStrength = 0 ∧ s.GhostingReduction = 0 ∧ ¬ s.EnableEdgeProtection ∧
      s.EnableAsyncCompute ∧ s.LowLatencyMode ∧ s.DisableVSync then 0
  else if s.RenderScale = 1 / 2 ∧ s.UpscaleMode = UpscaleType.Bilinear ∧
      ¬ s.EnableAggressiveDynamicMode ∧
      ¬ s.EnableBiDirFlow ∧ ¬ s.EnableAdaptiveBlock ∧ s.OpticalFlowAlgorithm = 0 ∧
      s.BlockSize = 16 ∧ s.SearchRadius = 8 ∧ s.MaxPyramidLevel = 1 ∧ s.MinPyramidLevel = 1 ∧
      ¬ s.EnableSubPixel ∧ ¬ s.EnableMotionSmoothing ∧
      s.RcasStrength = 2 / 10 ∧ s.GhostingReduction = 1 / 10 ∧ ¬ s.EnableEdgeProtection then 1
  else if s.RenderScale = 67 / 100 ∧ s.UpscaleMode = UpscaleType.Bicubic ∧
      ¬ s.EnableAggressiveDynamicMode ∧
      ¬ s.EnableBiDirFlow ∧ s.EnableAdaptiveBlock ∧ s.OpticalFlowAlgorithm = 1 ∧
      s.BlockSize = 16 ∧ s.SearchRadius = 16 ∧ s.MaxPyramidLevel = 1 ∧ s.MinPyramidLevel = 0 ∧
      s.EnableSubPixel ∧ ¬ s.EnableMotionSmoothing ∧
      s.RcasStrength = 1 / 2 ∧ s.GhostingReduction = 3 / 10 ∧ s.EnableEdgeProtection then 2
  else if s.RenderScale = 85 / 100 ∧ s.UpscaleMode = UpscaleType.Lanczos ∧
      s.LanczosRadius = 2 ∧ ¬ s.EnableAggressiveDynamicMode ∧
      s.EnableBiDirFlow ∧ s.EnableAdaptiveBlock ∧ s.OpticalFlowAlgorithm = 1 ∧
      s.BlockSize = 8 ∧ s.SearchRadius = 24 ∧ s.MaxPyramidLevel = 1 ∧ s.MinPyramidLevel = 0 ∧
      s.EnableSubPixel ∧ s.EnableMotionSmoothing ∧
      s.RcasStrength = 7 / 10 ∧ s.GhostingReduction = 1 / 2 ∧ s.EnableEdgeProtection then 3
  else if s.RenderScale = 1 ∧ s.UpscaleMode = UpscaleType.Lanczos ∧
      s.LanczosRadius = 3 ∧ ¬ s.EnableAggressiveDynamicMode ∧
      s.EnableBiDirFlow ∧ s.EnableAdaptiveBlock ∧ s.OpticalFlowAlgorithm = 1 ∧
      s.BlockSize = 4 ∧ s.SearchRadius = 32 ∧ s.MaxPyramidLevel = 0 ∧ s.MinPyramidLevel = 0 ∧
      s.EnableSubPixel ∧ s.EnableMotionSmoothing ∧
      s.RcasStrength = 9 / 10 ∧ s.GhostingReduction = 8 / 10 ∧ s.EnableEdgeProtection then 4
  else -1

/-- The block "Apply Preset" of `UI::Menu::Render` (Menu.cpp lines 89-187) for
the selected combo value: the assignments of the chosen profile; the value 5
("Custom") and any other value assign nothing. -/
def applyPreset (preset : ℤ) (s : ProfileSettings) : ProfileSettings :=
  if preset = 0 then
    { s with
      RenderScale := 33 / 100, UpscaleMode := UpscaleType.Nearest,
      EnableAggressiveDynamicMode := true,
      EnableBiDirFlow := false, EnableAdaptiveBlock := false, OpticalFlowAlgorithm := 0,
      BlockSize := 32, SearchRadius := 4, MaxPyramidLevel := 2, MinPyramidLevel := 2,
      EnableSubPixel := false, EnableMotionSmoothing := false,
      RcasStrength := 0, GhostingReduction := 0, EnableEdgeProtection := false,
      EnableAsyncCompute := true, LowLatencyMode := true, DisableVSync := true }
  else if preset = 1 then
    { s with
      RenderScale := 1 / 2, UpscaleMode := UpscaleType.Bilinear,
      EnableAggressiveDynamicMode := false,
      EnableBiDirFlow := false, EnableAdaptiveBlock := false, OpticalFlowAlgorithm := 0,
      BlockSize := 16, SearchRadius := 8, MaxPyramidLevel := 1, MinPyramidLevel := 1,
      EnableSubPixel := false, EnableMotionSmoothing := false,
      GhostingReduction := 1 / 10, EnableEdgeProtection := false }
  else if preset = 2 then
    { s with
      RenderScale := 67 / 100, UpscaleMode := UpscaleType.Bicubic,
      EnableAggressiveDynamicMode := false,
      EnableBiDirFlow := false, EnableAdaptiveBlock := true, OpticalFlowAlgorithm := 1,
      BlockSize := 16, SearchRadius := 16, MaxPyramidLevel := 1, MinPyramidLevel := 0,
      EnableSubPixel := true, EnableMotionSmoothing := false,
      GhostingReduction := 3 / 10, EnableEdgeProtection := true }
  else if preset = 3 then
    { s with
      RenderScale := 85 / 100, UpscaleMode := UpscaleType.Lanczos, LanczosRadius := 2,
      EnableAggressiveDynamicMode := false,
      EnableBiDirFlow := true, EnableAdaptiveBlock := true, OpticalFlowAlgorithm := 1,
      BlockSize := 8, SearchRadius := 24, MaxPyramidLevel := 1, MinPyramidLevel := 0,
      EnableSubPixel := true, EnableMotionSmoothing := true,
      GhostingReduction := 1 / 2, EnableEdgeProtection := true }
  else if preset = 4 then
    { s with
      RenderScale := 1, UpscaleMode := UpscaleType.Lanczos, LanczosRadius := 3,
      EnableAggressiveDynamicMode := false,
      EnableBiDirFlow := true, EnableAdaptiveBlock := true, OpticalFlowAlgorithm := 1,
      BlockSize := 4, SearchRadius := 32, MaxPyramidLevel := 0, MinPyramidLevel := 0,
      EnableSubPixel := true, EnableMotionSmoothing := true,
      GhostingReduction := 8 / 10, EnableEdgeProtection := true }
  else s

/-! ## Present.cpp: `FramePacer` -/

/-- The conversion `duration_cast<std::chrono::microseconds>` of a difference of
two clock readings counted in nanoseconds: division by 1000, rounded toward
zero. -/
def toMicroseconds (d : ℤ) : ℤ := Int.tdiv d 1000

/-- The state of a run of `FramePacer`: the member `lastPresentTime` (a clock
reading in nanoseconds), how many readings of
`high_resolution_clock::now()` the run has taken so far, and the arguments of
the calls of `Sleep`, in order. -/
structure FramePacer where
  lastPresentTime : ℤ
  reads : ℕ
  slept : List ℤ
  deriving DecidableEq, Repr

/-- The spin loop of `FramePacer::Wait` (Present.cpp lines 48-50), started when
the next clock reading is number `k`; `clock i` is the value of reading number
`i`.  Returns the number of the next reading after the loop has ended, or `none`
when the loop has not ended after `fuel` readings. -/
def spinWait (clock : ℕ → ℤ) (lastPresentTime targetFrameTime : ℤ) : ℕ → ℕ → Option ℕ
  | 0, _ => none
  | fuel + 1, k =>
    if toMicroseconds (clock k - lastPresentTime) < targetFrameTime then
      spinWait clock lastPresentTime targetFrameTime fuel (k + 1)
    else some (k + 1)

/-- The method `FramePacer::Wait` (Present.cpp lines 36-53); `none` when the
spin loop has not ended after `fuel` readings of the clock. -/
def FramePacer.Wait (clock : ℕ → ℤ) (fuel : ℕ) (targetFPS : ℤ) (p : FramePacer) :
    Option FramePacer :=
  if targetFPS ≤ 0 then some p
  else
    let currentTime : ℤ := clock p.reads
    let elapsed : ℤ := toMicroseconds (currentTime - p.lastPresentTime)
    let targetFrameTime : ℤ := Int.tdiv 1000000 targetFPS
    if elapsed < targetFrameTime then
      let waitTime : ℤ := targetFrameTime - elapsed
      let slept1 : List ℤ :=
        if waitTime > 2000 then p.slept ++ [Int.tdiv (waitTime - 1000) 1000] else p.slept
      match spinWait clock p.lastPresentTime targetFrameTime fuel (p.reads + 1) with
      | none => none
      | some k => some { lastPresentTime := clock k, reads := k + 1, slept := slept1 }
    else some { lastPresentTime := clock (p.reads + 1), reads := p.reads + 2, slept := p.slept }

/-! ## EmbeddedShaders.h: `CS_Farneback_Expansion`, `CS_Farneback_Flow` -/

/-- One thread of `CS_Farneback_Expansion::CSMain`: gradient and curvature of
the red channel over the 5x5 neighbourhood, or `none` when the thread is outside
the input. -/
def farnebackExpansionThread (input : Texture Float4) (x y : ℕ) : Option Float4 :=
  if (x : ℤ) ≥ input.width ∨ (y : ℤ) ≥ input.height then none
  else
    let val : ℤ → ℤ → ℚ := fun dx dy => (input.load ((x : ℤ) + dx) ((y : ℤ) + dy)).r
    let gx : ℚ := (-1 * val (-2) (-1) + 1 * val 2 (-1) + (-2 * val (-2) 0 + 2 * val 2 0)
      + (-1 * val (-2) 1 + 1 * val 2 1)) / 8
    let gy : ℚ := (-1 * val (-1) (-2) + 1 * val (-1) 2 + (-2 * val 0 (-2) + 2 * val 0 2)
      + (-1 * val 1 (-2) + 1 * val 1 2)) / 8
    let rxx : ℚ := (val (-2) 0 - 2 * val 0 0 + val 2 0) * (1 / 4)
    let ryy : ℚ := (val 0 (-2) - 2 * val 0 0 + val 0 2) * (1 / 4)
    some ⟨gx, gy, rxx, ryy⟩

/-- The offsets `(x, y)` of the 5x5 window loops of `CS_Farneback_Flow`, in
order. -/
def window5 : List (ℤ × ℤ) :=
  let span : List ℤ := [-2, -1, 0, 1, 2]
  span.flatMap (fun (y : ℤ) => span.map (fun (x : ℤ) => (x, y)))

/-- The four accumulators of `CS_Farneback_Flow`. -/
structure FarnebackSums where
  sum_Rxx_dBx : ℚ
  sum_Rxx2 : ℚ
  sum_Ryy_dBy : ℚ
  sum_Ryy2 : ℚ
  deriving DecidableEq, Repr

/-- One iteration of the window loops of `CS_Farneback_Flow`.  The dispatch binds
no sampler of its own, so the sampling function of slot `s0` is the parameter
`sample`. -/
def farnebackAccumulate (sample : Texture Float4 → ℚ → ℚ → Float4)
    (polyCurr polyPrev : Texture Float4) (d0 : Float2) (posX posY : ℤ)
    (acc : FarnebackSums) (o : ℤ × ℤ) : FarnebackSums :=
  let px : ℤ := posX + o.1
  let py : ℤ := posY + o.2
  if px < 0 ∨ py < 0 ∨ px ≥ polyCurr.width ∨ py ≥ polyCurr.height then acc
  else
    let c := polyCurr.load px py
    let pPrev := sample polyPrev (((px : ℚ) + d0.x) / (polyCurr.width : ℚ))
      (((py : ℚ) + d0.y) / (polyCurr.height : ℚ))
    let rxx : ℚ := (c.b + pPrev.b) * (1 / 2)
    let ryy : ℚ := (c.a + pPrev.a) * (1 / 2)
    let dbx : ℚ := c.r - pPrev.r
    let dby : ℚ := c.g - pPrev.g
    { sum_Rxx_dBx := acc.sum_Rxx_dBx + rxx * dbx, sum_Rxx2 := acc.sum_Rxx2 + rxx * rxx,
      sum_Ryy_dBy := acc.sum_Ryy_dBy + ryy * dby, sum_Ryy2 := acc.sum_Ryy2 + ryy * ryy }

/-- The accumulators of `CS_Farneback_Flow` after the window loops. -/
def farnebackSums (sample : Texture Float4 → ℚ → ℚ → Float4)
    (polyCurr polyPrev : Texture Float4) (d0 : Float2) (posX posY : ℤ) : FarnebackSums :=
  window5.foldl (farnebackAccumulate sample polyCurr polyPrev d0 posX posY) ⟨0, 0, 0, 0⟩

/-- The HLSL intrinsic `clamp(v, lo, hi) = min(max(v, lo), hi)` on a scalar. -/
def clampScalar (v lo hi : ℚ) : ℚ := min (max v lo) hi

/-- The local `delta` of `CS_Farneback_Flow` after the clamp. -/
def farnebackDelta (s : FarnebackSums) : Float2 :=
  let eps : ℚ := 1 / 10000
  ⟨clampScalar (-s.sum_Rxx_dBx / (2 * s.sum_Rxx2 + eps)) (-2) 2,
    clampScalar (-s.sum_Ryy_dBy / (2 * s.sum_Ryy2 + eps)) (-2) 2⟩

/-- One thread of `CS_Farneback_Flow::CSMain`: the vector written to
`MotionOutput[pos]`, or `none` when the thread is outside `PolyCurr`. -/
def farnebackThread (sample : Texture Float4 → ℚ → ℚ → Float4)
    (polyCurr polyPrev : Texture Float4) (motionInput : Texture Float2) (x y : ℕ) :
    Option Float2 :=
  if (x : ℤ) ≥ polyCurr.width ∨ (y : ℤ) ≥ polyCurr.height then none
  else
    let d0 := motionInput.load x y
    some (Float2.add d0 (farnebackDelta (farnebackSums sample polyCurr polyPrev d0 x y)))

/-! ## OpticalFlow.cpp: `Dispatch` with the algorithm selection -/

/-- The enumeration `FlowAlgorithm` (OpticalFlow.h). -/
inductive FlowAlgorithm where
  | BlockMatching
  | Farneback
  | DIS
  deriving DecidableEq, Repr

/-- The resources of `OpticalFlow` used only by the Farneback and DIS branches:
which of the three kernels exist, and the two polynomial-expansion textures. -/
structure PolyState where
  expansionLoaded : Bool
  farnebackFlowLoaded : Bool
  disFlowLoaded : Bool
  TexPolyCurr : Texture Float4
  TexPolyPrev : Texture Float4

/-- What the Farneback and DIS branches of `Dispatch` leave to their kernels: the
sampling function of sampler slot `s0`, and the pass of `CS_DIS_Flow` from
current frame, previous frame, gradient texture, initial motion and output
texture to the new output texture. -/
structure FlowPasses where
  sample : Texture Float4 → ℚ → ℚ → Float4
  disFlow : Texture Float4 → Texture Float4 → Texture Float4 → Texture Float2 →
    Texture Float2 → Texture Float2

/-- A dispatch of `CS_Farneback_Expansion` over `ceil(W / 16) x ceil(H / 16)`
groups, `W x H` being the size of the current frame. -/
def expansionPass (currentFrame input output : Texture Float4) : Texture Float4 :=
  output.dispatch (dispatchThreads currentFrame.width 16) (dispatchThreads currentFrame.height 16)
    (farnebackExpansionThread input)

/-- The block "Initial Guess via Hierarchical Block Matching" shared by the
Farneback and DIS branches (OpticalFlow.cpp lines 267-272 and 330-334). -/
def coarseGuess (st : FlowState) (currentFrame prevFrame : Texture Float4)
    (blockSize searchRadius : ℤ) : FlowState :=
  let st1 : FlowState :=
    { st with TexCurrentLevel1 := Downsample currentFrame st.TexCurrentLevel1,
              TexPrevLevel1 := Downsample prevFrame st.TexPrevLevel1 }
  let r := BlockMatching st1.TexCurrentLevel1 st1.TexPrevLevel1 st1.TexMotionLevel1 none
    (Int.tdiv blockSize 2) (Int.tdiv searchRadius 2) false st1.stats
  { st1 with TexMotionLevel1 := r.1, stats := r.2,
             TexMotionUpsampled := Upsample r.1 st1.TexMotionUpsampled }

/-- The full-resolution block matching into the output followed by the copy into
`m_TexMotionUpsampled` (OpticalFlow.cpp lines 281-284 and 337-338). -/
def fullGuess (st : FlowState) (currentFrame prevFrame : Texture Float4)
    (outputMotion : Texture Float2) (blockSize searchRadius : ℤ) :
    FlowState × Texture Float2 :=
  let r := BlockMatching currentFrame prevFrame outputMotion none blockSize searchRadius false
    st.stats
  ({ st with stats := r.2, TexMotionUpsampled := copyResource st.TexMotionUpsampled r.1 }, r.1)

/-- The Farneback branch of `OpticalFlow::Dispatch` (OpticalFlow.cpp lines
234-305), entered after the guards and the clearing of the counter. -/
def farnebackBranch (passes : FlowPasses) (st : FlowState) (ps : PolyState)
    (currentFrame prevFrame : Texture Float4) (outputMotion : Texture Float2)
    (blockSize searchRadius maxLevel : ℤ) : FlowState × PolyState × Texture Float2 :=
  let ps1 : PolyState :=
    { ps with TexPolyCurr := expansionPass currentFrame currentFrame ps.TexPolyCurr,
              TexPolyPrev := expansionPass currentFrame prevFrame ps.TexPolyPrev }
  let st1 : FlowState :=
    if maxLevel > 0 then coarseGuess st currentFrame prevFrame blockSize searchRadius else st
  let r : FlowState × Texture Float2 :=
    if maxLevel = 0 then fullGuess st1 currentFrame prevFrame outputMotion blockSize searchRadius
    else (st1, outputMotion)
  (r.1, ps1,
    r.2.dispatch (dispatchThreads currentFrame.width 16) (dispatchThreads currentFrame.height 16)
      (farnebackThread passes.sample ps1.TexPolyCurr ps1.TexPolyPrev r.1.TexMotionUpsampled))

/-- The DIS branch of `OpticalFlow::Dispatch` (OpticalFlow.cpp lines 306-364),
entered after the guards and the clearing of the counter. -/
def disBranch (passes : FlowPasses) (st : FlowState) (ps : PolyState)
    (currentFrame prevFrame : Texture Float4) (outputMotion : Texture Float2)
    (blockSize searchRadius maxLevel : ℤ) : FlowState × PolyState × Texture Float2 :=
  let ps1 : PolyState :=
    { ps with TexPolyPrev := expansionPass currentFrame prevFrame ps.TexPolyPrev }
  let r : FlowState × Texture Float2 :=
    if maxLevel > 0 then
      (coarseGuess st currentFrame prevFrame blockSize searchRadius, outputMotion)
    else fullGuess st currentFrame prevFrame outputMotion blockSize searchRadius
  (r.1, ps1,
    passes.disFlow currentFrame prevFrame ps1.TexPolyPrev r.1.TexMotionUpsampled r.2)

/-- The method `OpticalFlow::Dispatch` (OpticalFlow.cpp lines 197-473), called
with non-null textures.  Its `else` branch, together with the guards and the
clearing of the counter at the head of the method, is `DispatchBlockMatching`. -/
def Dispatch (passes : FlowPasses) (st : FlowState) (ps : PolyState)
    (currentFrame prevFrame : Texture Float4) (outputMotion : Texture Float2)
    (blockSize searchRadius : ℤ) (enableSubPixel enableSmoothing : Bool)
    (maxLevel minLevel : ℤ) (algo : FlowAlgorithm) :
    FlowState × PolyState × Texture Float2 :=
  if ¬ st.kernelsLoaded then (st, ps, outputMotion)
  else if algo = FlowAlgorithm.Farneback ∧ ps.expansionLoaded ∧ ps.farnebackFlowLoaded then
    farnebackBranch passes (clearStats st) ps currentFrame prevFrame outputMotion blockSize
      searchRadius maxLevel
  else if algo = FlowAlgorithm.DIS ∧ ps.disFlowLoaded ∧ ps.expansionLoaded then
    disBranch passes (clearStats st) ps currentFrame prevFrame outputMotion blockSize
      searchRadius maxLevel
  else
    let r := DispatchBlockMatching st currentFrame prevFrame outputMotion blockSize searchRadius
      enableSubPixel enableSmoothing maxLevel minLevel
    (r.1, ps, r.2)

/-! ## Predicates used to state the properties -/

/-- The condition of the specification under which the adaptive-ratio step
applies a new count: the needed count differs from the current one by more than
one step, or the ratio is past the rounding boundary by more than the margin
0.1 in the direction of the change. -/
def switchCond (c needed : ℤ) (ratio : ℚ) : Prop :=
  1 < |needed - c| ∨ (c < needed ∧ (c : ℚ) + 3 / 2 + 1 / 10 < ratio) ∨
    (needed < c ∧ ratio < (c : ℚ) + 1 / 2 - 1 / 10)

instance (c needed : ℤ) (ratio : ℚ) : Decidable (switchCond c needed ratio) := by
  unfold switchCond
  infer_instance

/-- A settings record with the adaptive ratio switched on. -/
def dynamicSettings (aggressive : Bool) (target count : ℤ) : FrameGenSettings :=
  { EnableDynamicRatio := true, EnableAggressiveDynamicMode := aggressive,
    DynamicTargetFPS := target, MultiFrameCount := count }

/-- An environment in which every synthesis succeeds, the back buffer is
available and the original present returns `S_OK`. -/
def idealEnv : PresentEnv := ⟨fun _ => true, true, fun _ _ _ => 0⟩

/-- A controller state with the adaptive ratio off and a fixed count. -/
def fixedCountState (count : ℤ) : RatioState := ⟨0, { MultiFrameCount := count }⟩

/-- A 2 x 2 current frame with four different colours. -/
def sampleCur : Texture Float4 :=
  ⟨2, 2, fun i j => ⟨(i : ℚ) / 2, (j : ℚ) / 2, 1 / 4, 1⟩⟩

/-- A 2 x 2 previous frame with four different colours. -/
def samplePrev : Texture Float4 :=
  ⟨2, 2, fun i j => ⟨(j : ℚ) / 4, (i : ℚ) / 4, 3 / 4, 1⟩⟩

/-- A 2 x 2 motion field. -/
def sampleMotion : Texture Float2 := ⟨2, 2, fun _ _ => ⟨1, -1⟩⟩

/-- A 2 x 2 mask that marks every pixel dynamic. -/
def dynamicMask : Texture ℚ := ⟨2, 2, fun _ _ => 0⟩

/-- A 2 x 2 frame that is black everywhere. -/
def blackFrame : Texture Float4 := ⟨2, 2, fun _ _ => ⟨0, 0, 0, 1⟩⟩

/-- The edge texture `CS_EdgeDetect` writes for `blackFrame`: the magnitude is
the square root of `sobelRadicand`, which is zero at every pixel. -/
def blackEdge : Texture Float4 := ⟨2, 2, fun _ _ => ⟨0, 0, 0, 1⟩⟩

/-- A 2 x 2 motion texture holding stale vectors. -/
def staleMotion : Texture Float2 := ⟨2, 2, fun _ _ => ⟨5, -3⟩⟩

/-- A 2 x 2 motion texture holding the stale vector `(2, 0)` at every pixel. -/
def staleShift : Texture Float2 := ⟨2, 2, fun _ _ => ⟨2, 0⟩⟩

/-- Every colour channel of every texel of the texture lies in `[0, 1]`. -/
def Texture.unitRange (t : Texture Float4) : Prop :=
  ∀ x y, t.inBounds x y →
    (0 ≤ (t.texel x y).r ∧ (t.texel x y).r ≤ 1) ∧ (0 ≤ (t.texel x y).g ∧ (t.texel x y).g ≤ 1) ∧
    (0 ≤ (t.texel x y).b ∧ (t.texel x y).b ≤ 1)

/-- A 40 x 40 frame that is white everywhere. -/
def whiteFrame40 : Texture Float4 := ⟨40, 40, fun _ _ => ⟨1, 1, 1, 1⟩⟩

/-- A 40 x 40 frame that is black everywhere. -/
def blackFrame40 : Texture Float4 := ⟨40, 40, fun _ _ => ⟨0, 0, 0, 1⟩⟩

/-- A 40 x 40 motion texture. -/
def motion40 : Texture Float2 := ⟨40, 40, fun _ _ => 0⟩

/-- The invariant of the search loops: once the early exit is taken, `minSAD`
is below 0.001. -/
def BMSearch.exitInv (st : BMSearch) : Prop := st.done = true → st.minSAD < 1 / 1000

/-- A motion field carried up a list of destination textures, the finest first:
the coarse field is upsampled into the last texture of the list, that result
into the one before it, and so on. -/
def carryUp (coarse : Texture Float2) : List (Texture Float2) → Texture Float2
  | [] => coarse
  | out :: rest => Upsample (carryUp coarse rest) out

/-- The pixel `(x, y)` lies in the first texture of the list, `(x / 2, y / 2)` in
the second, `(x / 4, y / 4)` in the third, and so on. -/
def chainInBounds : List (Texture Float2) → ℕ → ℕ → Prop
  | [], _, _ => True
  | out :: rest, x, y => (x < out.width ∧ y < out.height) ∧ chainInBounds rest (x / 2) (y / 2)

/-- A 2 x 2 field holding the vector `(3, -1)` everywhere. -/
def coarseField : Texture Float2 := ⟨2, 2, fun _ _ => ⟨3, -1⟩⟩

/-- A 2 x 2 frame in a floating-point format whose colour channels are 50
everywhere (a bright HDR frame). -/
def hdrFrame : Texture Float4 := ⟨2, 2, fun _ _ => ⟨50, 50, 50, 1⟩⟩

/-- An estimator with every kernel and view created, 2 x 2 textures and the
scene-change counter at zero. -/
def flowReady : FlowState :=
  { kernelsLoaded := true,
    TexCurrentLevel1 := Texture.blank 1 1, TexPrevLevel1 := Texture.blank 1 1,
    TexCurrentLevel2 := Texture.blank 1 1, TexPrevLevel2 := Texture.blank 1 1,
    TexMotionLevel1 := Texture.blank 1 1, TexMotionLevel2 := Texture.blank 1 1,
    TexMotionUpsampled := Texture.blank 2 2,
    TexSmoothTemp := some (Texture.blank 2 2),
    TexMotionBackward := some (Texture.blank 2 2),
    adaptiveReady := true, consistencyReady := true, hasStatsUAV := true, stats := 0 }

/-- An estimator for 8 x 8 frames: pyramid textures of 4 x 4 and 2 x 2, every
kernel and view created, the counter at zero. -/
def flowPyramid : FlowState :=
  { kernelsLoaded := true,
    TexCurrentLevel1 := Texture.blank 4 4, TexPrevLevel1 := Texture.blank 4 4,
    TexCurrentLevel2 := Texture.blank 2 2, TexPrevLevel2 := Texture.blank 2 2,
    TexMotionLevel1 := Texture.blank 4 4, TexMotionLevel2 := Texture.blank 2 2,
    TexMotionUpsampled := Texture.blank 8 8,
    TexSmoothTemp := some (Texture.blank 8 8),
    TexMotionBackward := some (Texture.blank 8 8),
    adaptiveReady := true, consistencyReady := true, hasStatsUAV := true, stats := 0 }

/-- A pipeline with device, context and kernels created and no texture
allocated yet, attached to a swap chain whose back buffer is `backBuffer`. -/
def emptyPool (backBuffer : Texture Float4) : Pipeline :=
  { ready := true, scaleReady := true, rcasLoaded := true, splitLoaded := true,
    backBuffer := some backBuffer,
    TexCurrent := none, TexPrev := none, TexMotion := none, TexGenerated := none,
    TexLowResCurrent := none, TexLowResPrev := none, TexLowResMotion := none,
    TexLowResGenerated := none, flowSize := none, TexHUDMask := none, TexSharpened := none }

/-- The default settings at render scale 1 with sharpening off. -/
def nativeSettings : PipelineSettings := { RenderScale := 1, RcasStrength := 0 }

/-- A 2 x 2 frame with four different colours, brighter than `sampleCur`. -/
def frameA : Texture Float4 :=
  ⟨2, 2, fun i j => ⟨(i : ℚ) / 4 + 1 / 2, (j : ℚ) / 4 + 1 / 2, 1 / 8, 1⟩⟩

/-- A pool whose native buffers are allocated at 2 x 2, holding `samplePrev` as
the current frame, attached to a back buffer showing `frameA`. -/
def ringPool : Pipeline :=
  { emptyPool frameA with
    TexCurrent := some samplePrev, TexPrev := some blackFrame,
    TexMotion := some sampleMotion, TexGenerated := some blackFrame }

/-- Passes that leave their output textures as they are: an environment in
which the estimation and the synthesis write nothing. -/
def idleEnv : PassEnv :=
  { sinFn := fun _ => 0,
    colorStore := unorm8Store,
    estimate := fun _ _ _ m => m,
    interpolation := fun _ _ _ _ _ _ g t => (g, t) }

/-- A swap chain whose `ResizeBuffers` succeeds and hands out a back buffer of
the requested size. -/
def resizeOk : ResizeEnv :=
  { original := fun _ _ width height _ _ => (0, some (Texture.blank width height)) }

/-- The default settings at render scale 0.5. -/
def halfScale : PipelineSettings := { RenderScale := 1 / 2 }

/-- The default settings at render scale 0.99, sharpening off. -/
def nearNative : PipelineSettings := { RenderScale := 99 / 100, RcasStrength := 0 }

/-- The pool after the first `Capture` at native scale on a 4 x 4 back buffer. -/
def poolAt4 (env : PassEnv) : Pipeline :=
  Capture env nativeSettings (emptyPool (Texture.blank 4 4))

/-- The pool of `poolAt4` after the swap chain was resized to 8 x 8 through
`hkResizeBuffers`. -/
def poolResized (env : PassEnv) : Pipeline :=
  (hkResizeBuffers resizeOk 2 8 8 0 0 true (poolAt4 env)).1.2

/-- The pool after the first `Capture` at render scale 0.5 on a 64 x 64 back
buffer. -/
def poolHalf (env : PassEnv) : Pipeline :=
  Capture env halfScale (emptyPool (Texture.blank 64 64))

/-- The pool of `poolHalf` after the swap chain was resized to 128 x 128 through
`hkResizeBuffers`. -/
def poolHalfResized (env : PassEnv) : Pipeline :=
  (hkResizeBuffers resizeOk 2 128 128 0 0 true (poolHalf env)).1.2

/-- The pool after the first `Capture` at render scale 0.99 on a 64 x 64 back
buffer. -/
def poolNear (env : PassEnv) : Pipeline :=
  Capture env nearNative (emptyPool (Texture.blank 64 64))

/-- The default settings at render scale 1 with sharpening strength 0.5. -/
def sharpSettings : PipelineSettings := { RenderScale := 1 }

/-- The default settings at render scale 1 with sharpening strength 0.0005. -/
def faintSettings : PipelineSettings := { RenderScale := 1, RcasStrength := 1 / 2000 }

/-- A 2 x 2 frame that is white everywhere. -/
def whiteFrame : Texture Float4 := ⟨2, 2, fun _ _ => ⟨1, 1, 1, 1⟩⟩

/-- A pool at 2 x 2 whose current frame is white and whose generated-frame
buffer still holds a black image from an earlier presentation event. -/
def stalePool : Pipeline :=
  { emptyPool frameA with
    TexCurrent := some whiteFrame, TexPrev := some whiteFrame,
    TexMotion := some sampleMotion, TexGenerated := some blackFrame }

/-- The colour `a + x * b + y * c`, channel by channel. -/
def affineAt (a b c : Float4) (x y : ℚ) : Float4 :=
  Float4.add a (Float4.add (Float4.scale x b) (Float4.scale y c))

/-- An image whose texel `(i, j)` is `a + i * b + j * c`: a linear gradient with
step `b` per pixel along x and `c` per pixel along y. -/
def affineImage (width height : ℕ) (a b c : Float4) : Texture Float4 :=
  ⟨width, height, fun i j => affineAt a b c (i : ℚ) (j : ℚ)⟩

/-- Downscale `image` into `low` and upscale the result into `out`, both with
the bilinear mode of the scale kernel; `low` and `out` have the format whose
store conversion is `store`. -/
def roundTrip (sinFn : ℚ → ℚ) (store : Float4 → Float4) (radius : ℤ)
    (image low out : Texture Float4) : Texture Float4 :=
  DispatchScale sinFn store 2 radius (DispatchScale sinFn store 2 radius image low) out

/-- Every channel of `p` is within the corresponding channel of `bound` of the
channel of `q`. -/
def Float4.within (p q bound : Float4) : Prop :=
  |p.r - q.r| ≤ bound.r ∧ |p.g - q.g| ≤ bound.g ∧ |p.b - q.b| ≤ bound.b ∧ |p.a - q.a| ≤ bound.a

/-- Channel-wise absolute value. -/
def Float4.abs (p : Float4) : Float4 := ⟨|p.r|, |p.g|, |p.b|, |p.a|⟩

/-- Every channel of the colour lies in `[0, 1]`. -/
def Float4.unit (p : Float4) : Prop :=
  (0 ≤ p.r ∧ p.r ≤ 1) ∧ (0 ≤ p.g ∧ p.g ≤ 1) ∧ (0 ≤ p.b ∧ p.b ≤ 1) ∧ (0 ≤ p.a ∧ p.a ≤ 1)

/-- The store conversion of a texture format is accurate to `eps`: a colour
with channels in `[0, 1]` is stored as a colour with channels in `[0, 1]` and
each channel moves by at most `eps`. -/
def storeAccurate (store : Float4 → Float4) (eps : ℚ) : Prop :=
  ∀ p : Float4, p.unit → (store p).unit ∧ Float4.within (store p) p ⟨eps, eps, eps, eps⟩

/-- The bilinear blend of four colours with the fractions `fx` and `fy`, as
`sampleLinear` forms it. -/
def bilerp (fx fy : ℚ) (p00 p10 p01 p11 : Float4) : Float4 :=
  Float4.add
    (Float4.add (Float4.scale ((1 - fx) * (1 - fy)) p00) (Float4.scale (fx * (1 - fy)) p10))
    (Float4.add (Float4.scale ((1 - fx) * fy) p01) (Float4.scale (fx * fy) p11))

/-- The gradient's value at the centre `(2 i + 1/2, 2 j + 1/2)` of the 2 x 2
block of pixels that the texel `(i, j)` of the half-size image covers, the index
clamped to the `w x h` half-size image. -/
def blockCentre (a b c : Float4) (w h : ℕ) (i j : ℤ) : Float4 :=
  affineAt a b c (2 * ((Texture.clampIndex i w : ℤ) : ℚ) + 1 / 2)
    (2 * ((Texture.clampIndex j h : ℤ) : ℚ) + 1 / 2)

/-- A 4 x 4 image stored in 8 bits per channel: the grey ramp `(10 + x) / 255`. -/
def rampImage : Texture Float4 :=
  affineImage 4 4 ⟨10 / 255, 10 / 255, 10 / 255, 1⟩ ⟨1 / 255, 1 / 255, 1 / 255, 0⟩
    ⟨0, 0, 0, 0⟩

/-- The position, in pixels of the full-size image, that the round trip
reproduces at the full-size index `X` along an axis with `n` low-resolution
texels: the bilinear blend of the centres `2 i + 1/2` of the two clamped
low-resolution texels around `X / 2 - 1/4`. -/
def effCoord (n : ℕ) (X : ℕ) : ℚ :=
  let px : ℚ := (X : ℚ) / 2 - 1 / 4
  let x0 : ℤ := ⌊px⌋
  (1 - (px - (x0 : ℚ))) * (2 * (Texture.clampIndex x0 n : ℚ) + 1 / 2)
    + (px - (x0 : ℚ)) * (2 * (Texture.clampIndex (x0 + 1) n : ℚ) + 1 / 2)

/-- Whether an action is work of the frame-generation pipeline or of the pacer:
a capture, a synthesis, a pacing wait or the restoring of the real frame. -/
def Action.isPipelineWork : Action → Bool
  | Action.capture => true
  | Action.synth _ _ => true
  | Action.pacerWait _ => true
  | Action.restore => true
  | _ => false

/-- The calls of `Present::Original` for the real frame, in call order: whether
the call is the retry, and the sync interval and flags passed. -/
def realCalls (trace : List Action) : List (Bool × ℕ × ℕ) :=
  trace.filterMap (fun a => match a with
    | Action.original FrameKind.real retry sync flags => some (retry, sync, flags)
    | _ => none)

/-- A clock whose readings are one millisecond apart. -/
def milliClock (i : ℕ) : ℤ := 1000000 * (i : ℤ)

/-- A 4 x 4 expansion texture with different coefficients at every texel. -/
def samplePoly : Texture Float4 :=
  ⟨4, 4, fun i j => ⟨(i : ℚ) / 4, (j : ℚ) / 8, 1 / 2 + (i : ℚ), (j : ℚ) - 1⟩⟩

/-- The cost the search loop of `CS_BlockMatching` computes for the candidate
displacement `v` of the pixel `(x, y)`: the summed absolute colour difference
between the pixel of the current frame and the displaced pixel of the previous
frame. -/
def pointCost (cur prev : Texture Float4) (x y : ℤ) (v : ℤ × ℤ) : ℚ :=
  sad3 (cur.load x y) (prev.load (x + v.1) (y + v.2))

/-- The displacements `d` of the pixels of a `B x B` block around its centre
pixel. -/
def blockOffsets (B : ℤ) : List (ℤ × ℤ) :=
  let span : List ℤ := (List.range B.toNat).map (fun (k : ℕ) => (k : ℤ) - Int.tdiv B 2)
  span.flatMap (fun (dy : ℤ) => span.map (fun (dx : ℤ) => (dx, dy)))

/-- The matching cost over the local block: the sum of `pointCost` over the
`B x B` block centred on the pixel `(x, y)`. -/
def blockCost (B : ℤ) (cur prev : Texture Float4) (x y : ℤ) (v : ℤ × ℤ) : ℚ :=
  ((blockOffsets B).map (fun (d : ℤ × ℤ) => pointCost cur prev (x + d.1) (y + d.2) v)).sum

/-- The candidate at offset `o` from the search centre lies inside the frame. -/
def candidateInFrame (p : BMParams) (x y : ℤ) (center o : ℤ × ℤ) : Prop :=
  ¬ (x + center.1 + o.1 < 0 ∨ y + center.2 + o.2 < 0 ∨
    x + center.1 + o.1 ≥ p.Width ∨ y + center.2 + o.2 ≥ p.Height)

/-- The invariant of the search loops after the offsets `seen`: an early exit
means a difference below 0.001; without early exit `minSAD` is at most the
difference of every candidate seen inside the frame; and `bestVector` is either
still the centre (nothing accepted yet) or a candidate seen inside the frame
whose difference is `minSAD`. -/
def BMSearch.bestOf (p : BMParams) (cur prev : Texture Float4) (x y : ℤ) (center : ℤ × ℤ)
    (seen : List (ℤ × ℤ)) (st : BMSearch) : Prop :=
  (st.done = true → st.minSAD < 1 / 1000) ∧
  st.minSAD ≤ 999999 ∧
  (st.done = false → ∀ o ∈ seen, candidateInFrame p x y center o →
    st.minSAD ≤ sad3 (cur.load x y) (prev.load (x + center.1 + o.1) (y + center.2 + o.2))) ∧
  ((st.minSAD = 999999 ∧ st.bestVector = center) ∨
    ∃ o ∈ seen, candidateInFrame p x y center o ∧
      st.bestVector = (center.1 + o.1, center.2 + o.2) ∧
      st.minSAD = sad3 (cur.load x y) (prev.load (x + center.1 + o.1) (y + center.2 + o.2)))

/-- A 5 x 5 frame that is mid-grey everywhere. -/
def greyFrame5 : Texture Float4 := ⟨5, 5, fun _ _ => ⟨1 / 2, 1 / 2, 1 / 2, 1⟩⟩

/-- A 5 x 5 previous frame made of vertical stripes: grey 0.45 in columns 0 to
2, grey 0.49 in column 3, white in column 4. -/
def stepFrame5 : Texture Float4 :=
  ⟨5, 5, fun i _ =>
    if i = 3 then ⟨49 / 100, 49 / 100, 49 / 100, 1⟩
    else if i = 4 then ⟨1, 1, 1, 1⟩
    else ⟨45 / 100, 45 / 100, 45 / 100, 1⟩⟩

/-- The constant buffer for 5 x 5 frames with block size 3, search radius 1,
sub-pixel refinement off and no initial guess. -/
def searchDemo : BMParams := ⟨5, 5, 3, 1, 0, 0⟩

/-- The mean of the in-bounds vectors of the 3 x 3 neighbourhood of `(x, y)`:
the vector a 3x3 box blur of `field` puts at `(x, y)`. -/
def boxMean (field : Texture Float2) (x y : ℤ) : Float2 :=
  let near : List (ℤ × ℤ) :=
    smoothOffsets.filter (fun (o : ℤ × ℤ) => decide (field.inBounds (x + o.1) (y + o.2)))
  ⟨(near.map (fun (o : ℤ × ℤ) => (field.load (x + o.1) (y + o.2)).x)).sum / (near.length : ℚ),
    (near.map (fun (o : ℤ × ℤ) => (field.load (x + o.1) (y + o.2)).y)).sum / (near.length : ℚ)⟩

/-- A square frame of side `n` that is black left of column `k` and white from
column `k` on. -/
def splitFrame (n : ℕ) (k : ℤ) : Texture Float4 :=
  ⟨n, n, fun i _ => if i < k then ⟨0, 0, 0, 1⟩ else ⟨1, 1, 1, 1⟩⟩

/-- An 8 x 8 frame that is black everywhere. -/
def blackFrame8 : Texture Float4 := splitFrame 8 8

/-- An 8 x 8 frame whose left half is black and whose right half is white. -/
def edgeFrame8 : Texture Float4 := splitFrame 8 4

/-- The estimator's textures have the sizes `OpticalFlow::Initialize` creates
them with for frames of `width x height` (OpticalFlow.cpp lines 44-155): the
smoothing scratch texture and the upsampled-motion texture `width x height`, the
level-1 textures `width / 2 x height / 2`, the level-2 textures
`width / 4 x height / 4`. -/
def FlowState.sizedFor (st : FlowState) (width height : ℕ) : Prop :=
  (∀ t, st.TexSmoothTemp = some t → t.width = width ∧ t.height = height) ∧
  (st.TexMotionUpsampled.width = width ∧ st.TexMotionUpsampled.height = height) ∧
  (st.TexCurrentLevel1.width = width / 2 ∧ st.TexCurrentLevel1.height = height / 2) ∧
  (st.TexPrevLevel1.width = width / 2 ∧ st.TexPrevLevel1.height = height / 2) ∧
  (st.TexMotionLevel1.width = width / 2 ∧ st.TexMotionLevel1.height = height / 2) ∧
  (st.TexCurrentLevel2.width = width / 4 ∧ st.TexCurrentLevel2.height = height / 4) ∧
  (st.TexPrevLevel2.width = width / 4 ∧ st.TexPrevLevel2.height = height / 4) ∧
  (st.TexMotionLevel2.width = width / 4 ∧ st.TexMotionLevel2.height = height / 4)

/-- An 8 x 8 motion texture holding the stale vector `(5, -3)` at every pixel. -/
def staleMotion8 : Texture Float2 := ⟨8, 8, fun _ _ => ⟨5, -3⟩⟩

/-- A synthesizer as `FrameInterpolation::Initialize` leaves it for frames of
`width x height`: every kernel and texture created. -/
def synthFor (width height : ℕ) : FrameInterpolation :=
  { edgeDetection := ⟨true, some (Texture.blank width height)⟩,
    TexHUDMask := some (Texture.blank width height),
    TexSharpened := some (Texture.blank width height),
    csRCAS := true }

/-- A 2 x 2 frame in 8-bit colours: the left column `51 / 255`-grey, the right
column white. -/
def stepFrame2 : Texture Float4 :=
  ⟨2, 2, fun i _ => if i = 0 then ⟨1 / 5, 1 / 5, 1 / 5, 1⟩ else ⟨1, 1, 1, 1⟩⟩

/-! # Theorems -/

/-! ### Basic facts on the controller -/

theorem finalClamp_range (aggressive : Bool) (count : ℤ) :
    0 ≤ finalClamp aggressive count ∧ finalClamp aggressive count ≤ maxGen aggressive := by
  unfold finalClamp maxGen
  cases aggressive <;> simp only [] <;> split_ifs <;> omega

theorem finalClamp_of_range (aggressive : Bool) (count : ℤ) (h0 : 0 ≤ count)
    (h1 : count ≤ maxGen aggressive) : finalClamp aggressive count = count := by
  unfold finalClamp
  simp only []
  split_ifs <;> omega

theorem cround_of_nonneg {x : ℚ} (h : 0 ≤ x) : cround x = ⌊x + 1 / 2⌋ := by
  unfold cround
  simp [h]

theorem cround_eq_of_mem {x : ℚ} {n : ℤ} (h0 : 0 ≤ x) (h1 : (n : ℚ) - 1 / 2 ≤ x)
    (h2 : x < (n : ℚ) + 1 / 2) : cround x = n := by
  rw [cround_of_nonneg h0, Int.floor_eq_iff]
  constructor <;> linarith

theorem maxGen_eq (aggressive : Bool) : maxGen aggressive = if aggressive then 5 else 3 := rfl

theorem maxGen_ge_three (aggressive : Bool) : 3 ≤ maxGen aggressive := by
  unfold maxGen
  cases aggressive <;> simp

theorem switchAllowed_iff (c needed : ℤ) (ratio : ℚ) :
    switchAllowed c needed ratio = true ↔ switchCond c needed ratio := by
  unfold switchAllowed switchCond transitionPoint
  simp only [gt_iff_lt]
  by_cases habs : 1 < |needed - c|
  · simp only [habs, if_true, true_or]
  · simp only [habs, if_false, false_or]
    by_cases hgt : c < needed
    · have hnlt : ¬ needed < c := by omega
      simp only [hgt, if_true, true_and, hnlt, false_and, or_false, if_false]
      by_cases hr : (c : ℚ) + 1 + 1 / 2 + 1 / 10 < ratio
      · simp only [hr, if_true, true_iff]
        linarith
      · simp only [hr, if_false]
        constructor
        · intro h
          cases h
        · intro h
          exact absurd (by linarith) hr
    · simp only [hgt, if_false, false_and, false_or]
      by_cases hlt : needed < c
      · simp only [hlt, true_and]
        by_cases hr : ratio < (c : ℚ) + 1 + -(1 / 2) - 1 / 10
        · simp only [hr, if_true, true_iff]
          linarith
        · simp only [hr, if_false]
          constructor
          · intro h
            cases h
          · intro h
            exact absurd (by linarith) hr
      · simp only [hlt, false_and, if_false]
        constructor
        · intro h
          cases h
        · intro h
          exact h.elim

theorem switchCond_ne {c needed : ℤ} {ratio : ℚ} (h : switchCond c needed ratio) :
    needed ≠ c := by
  rcases h with h | h | h
  · intro he
    rw [he] at h
    simp at h
  · omega
  · omega

theorem switchValue_of_cond (aggressive : Bool) (c : ℤ) (ratio : ℚ)
    (h : switchCond c (neededGen ratio) ratio) :
    switchValue aggressive c ratio = some (max 0 (min (neededGen ratio) (maxGen aggressive))) := by
  have hne := switchCond_ne h
  have hsw := (switchAllowed_iff c (neededGen ratio) ratio).2 h
  have h3 := maxGen_ge_three aggressive
  unfold switchValue
  simp only [hne, ne_eq, not_false_eq_true, if_true, hsw]
  congr 1
  split_ifs <;> omega

theorem switchValue_of_not_cond (aggressive : Bool) (c : ℤ) (ratio : ℚ)
    (h : ¬ switchCond c (neededGen ratio) ratio) : switchValue aggressive c ratio = none := by
  have hsw : ¬ (switchAllowed c (neededGen ratio) ratio = true) :=
    fun hs => h ((switchAllowed_iff c (neededGen ratio) ratio).1 hs)
  unfold switchValue
  by_cases hne : neededGen ratio = c <;> simp [hne, hsw]

theorem applyRatio_of_cond (aggressive : Bool) (c : ℤ) (ratio : ℚ)
    (h : switchCond c (neededGen ratio) ratio) :
    applyRatio aggressive c ratio = max 0 (min (neededGen ratio) (maxGen aggressive)) := by
  have h3 := maxGen_ge_three aggressive
  unfold applyRatio
  rw [switchValue_of_cond aggressive c ratio h]
  simp only [Option.getD_some]
  apply finalClamp_of_range <;> omega

theorem applyRatio_of_not_cond (aggressive : Bool) (c : ℤ) (ratio : ℚ)
    (h0 : 0 ≤ c) (h1 : c ≤ maxGen aggressive)
    (h : ¬ switchCond c (neededGen ratio) ratio) : applyRatio aggressive c ratio = c := by
  unfold applyRatio
  rw [switchValue_of_not_cond aggressive c ratio h]
  simp only [Option.getD_none]
  exact finalClamp_of_range aggressive c h0 h1

/-- **C1.** After the adaptive-ratio step of `hkPresent` has run (pipeline
enabled, `EnableDynamicRatio` set, target rate positive), `MultiFrameCount` lies
in `[0, maxAllowed]` with `maxAllowed = 5` in aggressive mode and `3` otherwise,
whatever the previous count, the previous smoothed interval and the measured
frame interval were. -/
theorem hkPresent_count_in_range (env : PresentEnv) (SyncInterval Flags : ℕ)
    (fullFrameTime : ℤ) (st : RatioState)
    (hdyn : st.settings.EnableDynamicRatio = true)
    (htarget : 0 < targetForRatio st.settings) :
    0 ≤ (hkPresent env true SyncInterval Flags fullFrameTime st).1.settings.MultiFrameCount ∧
    (hkPresent env true SyncInterval Flags fullFrameTime st).1.settings.MultiFrameCount ≤
      (if st.settings.EnableAggressiveDynamicMode then 5 else 3) ∧
    (hkPresent env true SyncInterval Flags fullFrameTime st).1.settings.EnableAggressiveDynamicMode
      = st.settings.EnableAggressiveDynamicMode := by
  have hstep : (hkPresent env true SyncInterval Flags fullFrameTime st).1 =
      dynamicRatioStep true fullFrameTime st := rfl
  rw [hstep]
  unfold dynamicRatioStep
  have hg : (true = true ∧ st.settings.EnableDynamicRatio = true ∧
      targetForRatio st.settings > 0) := ⟨rfl, hdyn, htarget⟩
  simp only [hg, and_self, if_true]
  have hr := finalClamp_range st.settings.EnableAggressiveDynamicMode
    ((switchValue st.settings.EnableAggressiveDynamicMode st.settings.MultiFrameCount
      (ratioOf (targetForRatio st.settings)
        (smoothFrameTime st.avgFrameTime fullFrameTime))).getD st.settings.MultiFrameCount)
  rw [maxGen_eq] at hr
  exact ⟨hr.1, hr.2, rfl⟩

theorem hkPresent_count_in_range_witness :
    (dynamicSettings true 60 9).EnableDynamicRatio = true ∧
    0 < targetForRatio (dynamicSettings true 60 9) ∧
    0 ≤ (hkPresent ⟨fun _ => true, true, fun _ _ _ => 0⟩ true 1 0 33333
      ⟨0, dynamicSettings true 60 9⟩).1.settings.MultiFrameCount ∧
    (hkPresent ⟨fun _ => true, true, fun _ _ _ => 0⟩ true 1 0 33333
      ⟨0, dynamicSettings true 60 9⟩).1.settings.MultiFrameCount ≤
      (if (dynamicSettings true 60 9).EnableAggressiveDynamicMode then 5 else 3) ∧
    (hkPresent ⟨fun _ => true, true, fun _ _ _ => 0⟩ true 1 0 33333
      ⟨0, dynamicSettings true 60 9⟩).1.settings.EnableAggressiveDynamicMode
      = (dynamicSettings true 60 9).EnableAggressiveDynamicMode :=
  ⟨rfl, by decide,
    hkPresent_count_in_range ⟨fun _ => true, true, fun _ _ _ => 0⟩ 1 0 33333
      ⟨0, dynamicSettings true 60 9⟩ rfl (by decide)⟩

/-- **C2.** In the adaptive-ratio step, for a current count `c` in
`[0, maxAllowed]` and any ratio, with `needed = round(ratio) - 1`: the
assignment of a new count is made, and stores `needed` clamped to
`[0, maxAllowed]`, if and only if `needed` differs from `c` by more than one
step, or `needed > c` and `ratio > (c + 1.5) + 0.1`, or `needed < c` and
`ratio < (c + 0.5) - 0.1`; then the count after the step is that clamped value.
In every other case (among them `needed = c`) no assignment is made and the
count after the step is `c`. -/
theorem applyRatio_hysteresis (aggressive : Bool) (c : ℤ) (ratio : ℚ)
    (h0 : 0 ≤ c) (h1 : c ≤ (if aggressive then 5 else 3)) :
    (switchValue aggressive c ratio
        = some (max 0 (min (cround ratio - 1) (if aggressive then 5 else 3))) ↔
      (1 < |(cround ratio - 1) - c| ∨
        (c < cround ratio - 1 ∧ (c : ℚ) + 3 / 2 + 1 / 10 < ratio) ∨
        (cround ratio - 1 < c ∧ ratio < (c : ℚ) + 1 / 2 - 1 / 10))) ∧
    ((1 < |(cround ratio - 1) - c| ∨
        (c < cround ratio - 1 ∧ (c : ℚ) + 3 / 2 + 1 / 10 < ratio) ∨
        (cround ratio - 1 < c ∧ ratio < (c : ℚ) + 1 / 2 - 1 / 10)) →
      applyRatio aggressive c ratio
        = max 0 (min (cround ratio - 1) (if aggressive then 5 else 3))) ∧
    (¬ (1 < |(cround ratio - 1) - c| ∨
        (c < cround ratio - 1 ∧ (c : ℚ) + 3 / 2 + 1 / 10 < ratio) ∨
        (cround ratio - 1 < c ∧ ratio < (c : ℚ) + 1 / 2 - 1 / 10)) →
      switchValue aggressive c ratio = none ∧ applyRatio aggressive c ratio = c) := by
  rw [← maxGen_eq] at h1 ⊢
  change (switchValue aggressive c ratio
        = some (max 0 (min (neededGen ratio) (maxGen aggressive))) ↔
      switchCond c (neededGen ratio) ratio) ∧
    (switchCond c (neededGen ratio) ratio →
      applyRatio aggressive c ratio = max 0 (min (neededGen ratio) (maxGen aggressive))) ∧
    (¬ switchCond c (neededGen ratio) ratio →
      switchValue aggressive c ratio = none ∧ applyRatio aggressive c ratio = c)
  refine ⟨⟨fun h => ?_, switchValue_of_cond aggressive c ratio⟩,
    applyRatio_of_cond aggressive c ratio,
    fun h => ⟨switchValue_of_not_cond aggressive c ratio h,
      applyRatio_of_not_cond aggressive c ratio h0 h1 h⟩⟩
  by_contra hc
  rw [switchValue_of_not_cond aggressive c ratio hc] at h
  cases h

theorem applyRatio_hysteresis_witness :
    (0 : ℤ) ≤ 1 ∧ (1 : ℤ) ≤ (if false then 5 else 3) ∧
    ((switchValue false 1 (27 / 10)
        = some (max 0 (min (cround (27 / 10) - 1) (if false then 5 else 3))) ↔
      (1 < |(cround (27 / 10 : ℚ) - 1) - 1| ∨
        ((1 : ℤ) < cround (27 / 10) - 1 ∧ ((1 : ℤ) : ℚ) + 3 / 2 + 1 / 10 < 27 / 10) ∨
        (cround (27 / 10) - 1 < (1 : ℤ) ∧ (27 / 10 : ℚ) < ((1 : ℤ) : ℚ) + 1 / 2 - 1 / 10))) ∧
    ((1 < |(cround (27 / 10 : ℚ) - 1) - 1| ∨
        ((1 : ℤ) < cround (27 / 10) - 1 ∧ ((1 : ℤ) : ℚ) + 3 / 2 + 1 / 10 < 27 / 10) ∨
        (cround (27 / 10) - 1 < (1 : ℤ) ∧ (27 / 10 : ℚ) < ((1 : ℤ) : ℚ) + 1 / 2 - 1 / 10)) →
      applyRatio false 1 (27 / 10)
        = max 0 (min (cround (27 / 10) - 1) (if false then 5 else 3))) ∧
    (¬ (1 < |(cround (27 / 10 : ℚ) - 1) - 1| ∨
        ((1 : ℤ) < cround (27 / 10) - 1 ∧ ((1 : ℤ) : ℚ) + 3 / 2 + 1 / 10 < 27 / 10) ∨
        (cround (27 / 10) - 1 < (1 : ℤ) ∧ (27 / 10 : ℚ) < ((1 : ℤ) : ℚ) + 1 / 2 - 1 / 10)) →
      switchValue false 1 (27 / 10) = none ∧ applyRatio false 1 (27 / 10) = 1)) :=
  ⟨by decide, by decide, applyRatio_hysteresis false 1 (27 / 10) (by decide) (by decide)⟩

theorem neededGen_low {g : ℤ} {r : ℚ} (hg0 : 0 ≤ g) (h1 : (g : ℚ) + 1 / 2 ≤ r)
    (h2 : r < (g : ℚ) + 3 / 2) : neededGen r = g := by
  have hgq : (0 : ℚ) ≤ (g : ℚ) := by exact_mod_cast hg0
  have hc : cround r = g + 1 := by
    apply cround_eq_of_mem
    · linarith
    · push_cast
      linarith
    · push_cast
      linarith
  unfold neededGen
  omega

theorem applyRatio_band_stable (aggressive : Bool) (g c : ℤ) (r : ℚ) (hg0 : 0 ≤ g)
    (hg1 : g < maxGen aggressive) (hc : c = g ∨ c = g + 1)
    (hr : (g : ℚ) + 14 / 10 ≤ r ∧ r ≤ (g : ℚ) + 16 / 10) :
    applyRatio aggressive c r = c := by
  have hgq : (0 : ℚ) ≤ (g : ℚ) := by exact_mod_cast hg0
  have hc0 : 0 ≤ c := by omega
  have hc1 : c ≤ maxGen aggressive := by omega
  apply applyRatio_of_not_cond aggressive c r hc0 hc1
  by_cases hlow : r < (g : ℚ) + 3 / 2
  · have hn : neededGen r = g := neededGen_low hg0 (by linarith) hlow
    rw [hn]
    rcases hc with hc | hc
    · subst hc
      unfold switchCond
      simp
    · subst hc
      unfold switchCond
      push_cast
      simp only [sub_add_cancel_left, abs_neg, abs_one, lt_self_iff_false, false_or, not_or,
        not_and, not_lt]
      constructor
      · intro h
        omega
      · intro _
        linarith
  · have hn : neededGen r = g + 1 := by
      apply neededGen_low (by omega)
      · push_cast
        linarith
      · push_cast
        linarith
    rw [hn]
    rcases hc with hc | hc
    · subst hc
      unfold switchCond
      simp only [add_sub_cancel_left, abs_one, lt_self_iff_false, false_or, not_or,
        not_and, not_lt]
      constructor
      · intro _
        linarith
      · intro h
        omega
    · subst hc
      unfold switchCond
      simp

/-- **C3.** Hysteresis dead band: for `0 ≤ g < maxAllowed` and any sequence of
ratios that all lie in `[g + 1.4, g + 1.6]`, a count that starts at `g` or at
`g + 1` has its starting value after every step of the sequence, so it never
oscillates while the ratio hovers around the boundary `g + 1.5`. -/
theorem hysteresis_dead_band (aggressive : Bool) (g c : ℤ) (ratios : List ℚ)
    (hg0 : 0 ≤ g) (hg1 : g < (if aggressive then 5 else 3))
    (hc : c = g ∨ c = g + 1)
    (hr : ∀ r ∈ ratios, (g : ℚ) + 14 / 10 ≤ r ∧ r ≤ (g : ℚ) + 16 / 10) :
    ∀ x ∈ List.scanl (applyRatio aggressive) c ratios, x = c := by
  rw [← maxGen_eq] at hg1
  induction ratios with
  | nil =>
    intro x hx
    simpa using hx
  | cons r rs ih =>
    intro x hx
    have hstep : applyRatio aggressive c r = c :=
      applyRatio_band_stable aggressive g c r hg0 hg1 hc (hr r (List.mem_cons_self r rs))
    rw [List.scanl_cons, hstep] at hx
    rcases List.mem_cons.1 hx with h | h
    · exact h
    · exact ih (fun q hq => hr q (List.mem_cons_of_mem r hq)) x h

theorem hysteresis_dead_band_witness :
    (0 : ℤ) ≤ 0 ∧ (0 : ℤ) < (if false then 5 else 3) ∧ ((1 : ℤ) = 0 ∨ (1 : ℤ) = 0 + 1) ∧
    (∀ r ∈ [(3 / 2 : ℚ), 7 / 5, 8 / 5, 149 / 100, 151 / 100],
      ((0 : ℤ) : ℚ) + 14 / 10 ≤ r ∧ r ≤ ((0 : ℤ) : ℚ) + 16 / 10) ∧
    ∀ x ∈ List.scanl (applyRatio false) 1 [(3 / 2 : ℚ), 7 / 5, 8 / 5, 149 / 100, 151 / 100],
      x = 1 :=
  ⟨le_refl 0, by decide, Or.inr (by decide), by
      intro r hr
      simp only [List.mem_cons, List.mem_singleton, List.not_mem_nil, or_false] at hr
      rcases hr with h | h | h | h | h <;> subst h <;> norm_num,
    hysteresis_dead_band false 0 1 [(3 / 2 : ℚ), 7 / 5, 8 / 5, 149 / 100, 151 / 100]
      (le_refl 0) (by decide) (Or.inr (by decide)) (by
        intro r hr
        simp only [List.mem_cons, List.mem_singleton, List.not_mem_nil, or_false] at hr
        rcases hr with h | h | h | h | h <;> subst h <;> norm_num)⟩

theorem runRatio_replicate_succ (isEnabled : Bool) (st : RatioState) (t : ℤ) (n : ℕ) :
    runRatio isEnabled st (List.replicate (n + 1) t)
      = dynamicRatioStep isEnabled t (runRatio isEnabled st (List.replicate n t)) := by
  unfold runRatio
  rw [List.replicate_succ', List.foldl_append]
  rfl

theorem dynamicRatioStep_enabled (t : ℤ) (avg : ℚ) (s : FrameGenSettings)
    (hdyn : s.EnableDynamicRatio = true) (htarget : 0 < targetForRatio s) :
    dynamicRatioStep true t ⟨avg, s⟩ =
      ⟨smoothFrameTime avg t,
        s.withCount (applyRatio s.EnableAggressiveDynamicMode s.MultiFrameCount
          (ratioOf (targetForRatio s) (smoothFrameTime avg t)))⟩ := by
  unfold dynamicRatioStep
  have hg : (true = true ∧ s.EnableDynamicRatio = true ∧ targetForRatio s > 0) :=
    ⟨rfl, hdyn, htarget⟩
  simp only [hg, and_self, if_true]

theorem smoothFrameTime_of_pos {avg : ℚ} (h : 0 < avg) :
    smoothFrameTime avg 33333 = avg * (19 / 20) + 33333 / 20 := by
  unfold smoothFrameTime
  have hne : avg ≠ 0 := ne_of_gt h
  simp only [hne, if_false]
  norm_num

theorem ratioOf_sixty {avg : ℚ} (h : 0 < avg) : ratioOf 60 avg = 60 * avg / 1000000 := by
  unfold ratioOf
  have hne : avg ≠ 0 := ne_of_gt h
  field_simp

theorem applyRatio_zero_stays (aggressive : Bool) (r : ℚ) (h1 : 1 / 2 ≤ r) (h2 : r ≤ 16 / 10) :
    applyRatio aggressive 0 r = 0 := by
  have h3 := maxGen_ge_three aggressive
  apply applyRatio_of_not_cond aggressive 0 r (le_refl 0) (by omega)
  by_cases hlow : r < 3 / 2
  · have hn : neededGen r = 0 := neededGen_low (le_refl 0) (by push_cast; linarith)
      (by push_cast; linarith)
    rw [hn]
    unfold switchCond
    simp
  · have hn : neededGen r = 1 := neededGen_low (by decide) (by push_cast; linarith)
      (by push_cast; linarith)
    rw [hn]
    unfold switchCond
    push_cast
    simp only [sub_zero, abs_one, lt_self_iff_false, false_or, not_or, not_and, not_lt]
    constructor
    · intro _
      linarith
    · intro h
      exact h.elim

theorem applyRatio_to_one (aggressive : Bool) (c : ℤ) (r : ℚ) (hc : c = 0 ∨ c = 1)
    (h1 : 16 / 10 < r) (h2 : r < 5 / 2) : applyRatio aggressive c r = 1 := by
  have h3 := maxGen_ge_three aggressive
  have hn : neededGen r = 1 := neededGen_low (by decide) (by push_cast; linarith)
    (by push_cast; linarith)
  rcases hc with hc | hc
  · subst hc
    have hcond : switchCond 0 (neededGen r) r := by
      rw [hn]
      right
      left
      constructor
      · decide
      · push_cast
        linarith
    rw [applyRatio_of_cond aggressive 0 r hcond, hn]
    omega
  · subst hc
    apply applyRatio_of_not_cond aggressive 1 r (by decide) (by omega)
    rw [hn]
    unfold switchCond
    simp

theorem pow_ema_early {n : ℕ} (h : n ≤ 17) : (418 / 1000 : ℚ) ≤ (19 / 20 : ℚ) ^ n := by
  have h1 : (19 / 20 : ℚ) ^ 17 ≤ (19 / 20 : ℚ) ^ n :=
    pow_le_pow_of_le_one (by norm_num) (by norm_num) h
  have h2 : (418 / 1000 : ℚ) ≤ (19 / 20 : ℚ) ^ 17 := by norm_num
  linarith

theorem pow_ema_late {n : ℕ} (h : 18 ≤ n) : (19 / 20 : ℚ) ^ n ≤ 3973 / 10000 := by
  have h1 : (19 / 20 : ℚ) ^ n ≤ (19 / 20 : ℚ) ^ 18 :=
    pow_le_pow_of_le_one (by norm_num) (by norm_num) h
  have h2 : (19 / 20 : ℚ) ^ 18 ≤ 3973 / 10000 := by norm_num
  linarith

theorem ema_closed_form (s0 : FrameGenSettings) (a0 : ℚ)
    (hdyn : s0.EnableDynamicRatio = true) (htarget : targetForRatio s0 = 60)
    (hcount : s0.MultiFrameCount = 0) (ha0 : 16666 ≤ a0) (ha1 : a0 ≤ 16667) (n : ℕ) :
    runRatio true ⟨a0, s0⟩ (List.replicate n 33333) =
      ⟨33333 - (33333 - a0) * (19 / 20) ^ n, s0.withCount (if n < 18 then 0 else 1)⟩ := by
  induction n with
  | zero =>
    unfold runRatio
    simp only [List.replicate_zero, List.foldl_nil, pow_zero, mul_one, sub_sub_cancel,
      Nat.ofNat_pos, if_true]
    rw [← hcount]
    rfl
  | succ n ih =>
    rw [runRatio_replicate_succ, ih]
    have hpow0 : (0 : ℚ) < (19 / 20 : ℚ) ^ n := by positivity
    have hpow1 : (19 / 20 : ℚ) ^ n ≤ 1 := pow_le_one₀ (by norm_num) (by norm_num)
    have hD0 : (0 : ℚ) < 33333 - a0 := by linarith
    have hprod : (33333 - a0) * (19 / 20 : ℚ) ^ n ≤ 33333 - a0 := by
      have := mul_le_mul_of_nonneg_left hpow1 (le_of_lt hD0)
      linarith
    have havg : (0 : ℚ) < 33333 - (33333 - a0) * (19 / 20) ^ n := by linarith
    have hs : (s0.withCount (if n < 18 then 0 else 1)).EnableDynamicRatio = true := hdyn
    have ht : targetForRatio (s0.withCount (if n < 18 then 0 else 1)) = 60 := htarget
    have hagg : (s0.withCount (if n < 18 then 0 else 1)).EnableAggressiveDynamicMode
        = s0.EnableAggressiveDynamicMode := rfl
    have hcnt : (s0.withCount (if n < 18 then 0 else 1)).MultiFrameCount
        = if n < 18 then 0 else 1 := rfl
    rw [dynamicRatioStep_enabled _ _ _ hs (by rw [ht]; decide), ht, hagg, hcnt,
      smoothFrameTime_of_pos havg]
    have hnew : (33333 - (33333 - a0) * (19 / 20) ^ n) * (19 / 20) + 33333 / 20
        = 33333 - (33333 - a0) * (19 / 20) ^ (n + 1) := by
      rw [pow_succ]
      ring
    rw [hnew]
    have hpow0' : (0 : ℚ) < (19 / 20 : ℚ) ^ (n + 1) := by positivity
    have hpow1' : (19 / 20 : ℚ) ^ (n + 1) ≤ 1 := pow_le_one₀ (by norm_num) (by norm_num)
    have hprod' : (33333 - a0) * (19 / 20 : ℚ) ^ (n + 1) ≤ 33333 - a0 := by
      have := mul_le_mul_of_nonneg_left hpow1' (le_of_lt hD0)
      linarith
    have hprodpos : 0 < (33333 - a0) * (19 / 20 : ℚ) ^ (n + 1) := mul_pos hD0 hpow0'
    have havg' : (0 : ℚ) < 33333 - (33333 - a0) * (19 / 20) ^ (n + 1) := by linarith
    rw [ratioOf_sixty havg']
    have hww : ∀ a b : ℤ, (s0.withCount a).withCount b = s0.withCount b := fun _ _ => rfl
    rw [hww]
    by_cases hn : n + 1 < 18
    · have hn0 : n < 18 := by omega
      have hlow := pow_ema_early (n := n + 1) (by omega)
      have hprod2 : 16666 * (418 / 1000 : ℚ) ≤ (33333 - a0) * (19 / 20 : ℚ) ^ (n + 1) :=
        mul_le_mul (by linarith) hlow (by norm_num) (le_of_lt hD0)
      have hstay := applyRatio_zero_stays s0.EnableAggressiveDynamicMode
        (60 * (33333 - (33333 - a0) * (19 / 20) ^ (n + 1)) / 1000000)
        (by linarith) (by linarith)
      simp only [hn, hn0, if_true]
      rw [hstay]
    · have hhigh := pow_ema_late (n := n + 1) (by omega)
      have hprod2 : (33333 - a0) * (19 / 20 : ℚ) ^ (n + 1) ≤ 16667 * (3973 / 10000 : ℚ) :=
        mul_le_mul (by linarith) hhigh (le_of_lt hpow0') (by norm_num)
      have hgo := applyRatio_to_one s0.EnableAggressiveDynamicMode
        (if n < 18 then 0 else 1)
        (60 * (33333 - (33333 - a0) * (19 / 20) ^ (n + 1)) / 1000000)
        (by split_ifs <;> simp) (by linarith) (by linarith)
      simp only [hn, if_false]
      rw [hgo]

/-- **C4.** Step response of the ratio controller: with target rate 60, count 0
and the smoothed interval settled at the 60 fps frame time (between 16666 and
16667 microseconds), if every later measured interval is the 30 fps frame time
(33333 microseconds), then the count after `n` presentation events is 0 for
`n < 18` and 1 for every `n ≥ 18`: it becomes 1 after finitely many events,
stays 1, and never takes a value other than 0 or 1. -/
theorem step_response (s0 : FrameGenSettings) (a0 : ℚ)
    (hdyn : s0.EnableDynamicRatio = true) (htarget : targetForRatio s0 = 60)
    (hcount : s0.MultiFrameCount = 0) (ha0 : 16666 ≤ a0) (ha1 : a0 ≤ 16667) :
    ∃ N : ℕ, ∀ n : ℕ,
      (runRatio true ⟨a0, s0⟩ (List.replicate n 33333)).settings.MultiFrameCount
        = if n < N then 0 else 1 := by
  refine ⟨18, fun n => ?_⟩
  rw [ema_closed_form s0 a0 hdyn htarget hcount ha0 ha1 n]
  rfl

theorem step_response_witness :
    (dynamicSettings false 60 0).EnableDynamicRatio = true ∧
    targetForRatio (dynamicSettings false 60 0) = 60 ∧
    (dynamicSettings false 60 0).MultiFrameCount = 0 ∧
    (16666 : ℚ) ≤ 50000 / 3 ∧ (50000 / 3 : ℚ) ≤ 16667 ∧
    ∃ N : ℕ, ∀ n : ℕ,
      (runRatio true ⟨50000 / 3, dynamicSettings false 60 0⟩
        (List.replicate n 33333)).settings.MultiFrameCount = if n < N then 0 else 1 :=
  ⟨rfl, by decide, rfl, by norm_num, by norm_num,
    step_response (dynamicSettings false 60 0) (50000 / 3) rfl (by decide) rfl
      (by norm_num) (by norm_num)⟩

theorem synthFactors_append (t u : List Action) :
    synthFactors (t ++ u) = synthFactors t ++ synthFactors u := by
  unfold synthFactors
  rw [List.filterMap_append]

theorem presentedFrames_append (t u : List Action) :
    presentedFrames (t ++ u) = presentedFrames t ++ presentedFrames u := by
  unfold presentedFrames
  rw [List.filterMap_append]

theorem originalCalls_append (t u : List Action) :
    originalCalls (t ++ u) = originalCalls t ++ originalCalls u := by
  unfold originalCalls
  rw [List.filterMap_append]

/-- What a call of `Present::Original` with its retry appends to the trace. -/
theorem presentWithRetry_trace (env : PresentEnv) (frame : FrameKind) (sync flags : ℕ)
    (trace : List Action) :
    ∃ X, (presentWithRetry env frame sync flags trace).1 = trace ++ X ∧
      synthFactors X = [] ∧ presentedFrames X = [frame] ∧
      (originalCalls X = [frame] ∨ originalCalls X = [frame, frame]) := by
  unfold presentWithRetry
  simp only []
  split_ifs with h
  · refine ⟨[Action.original frame false sync flags,
      Action.original frame true sync (clearTearing flags)], ?_, rfl, rfl, Or.inr rfl⟩
    simp
  · exact ⟨[Action.original frame false sync flags], rfl, rfl, rfl, Or.inl rfl⟩

/-- What drawing the overlay appends to the trace. -/
theorem drawOverlay_trace (env : PresentEnv) (trace : List Action) :
    ∃ X, drawOverlay env trace = trace ++ X ∧
      synthFactors X = [] ∧ presentedFrames X = [] ∧ originalCalls X = [] := by
  unfold drawOverlay
  split_ifs
  · exact ⟨[Action.overlay], rfl, rfl, rfl, rfl⟩
  · exact ⟨[], by simp, rfl, rfl, rfl⟩

/-- What one iteration of the generation loop appends to the trace when the
synthesis succeeds. -/
theorem genLoopBody_trace (env : PresentEnv) (s : FrameGenSettings) (framesToGen : ℤ)
    (presentFlags : ℕ) (fps : ℤ) (trace : List Action) (i : ℤ)
    (hok : env.synthOk i = true) :
    ∃ X, genLoopBody env s framesToGen presentFlags fps trace i = trace ++ X ∧
      synthFactors X = [(i : ℚ) / ((framesToGen + 1 : ℤ) : ℚ)] ∧
      presentedFrames X = [FrameKind.generated i] ∧
      (∀ fr ∈ originalCalls X, fr = FrameKind.generated i) := by
  unfold genLoopBody
  simp only [hok, if_true]
  obtain ⟨X1, h1, h1s, h1p, h1o⟩ := drawOverlay_trace env
    (trace ++ [Action.synth i ((i : ℚ) / ((framesToGen + 1 : ℤ) : ℚ))])
  obtain ⟨X2, h2, h2s, h2p, h2o⟩ := presentWithRetry_trace env (FrameKind.generated i) 0
    presentFlags (drawOverlay env (trace ++ [Action.synth i ((i : ℚ) / ((framesToGen + 1 : ℤ) : ℚ))]))
  rw [h2, h1]
  have hcalls : ∀ fr ∈ originalCalls X2, fr = FrameKind.generated i := by
    intro fr hfr
    rcases h2o with h | h <;> rw [h] at hfr <;> simp at hfr <;> exact hfr
  split_ifs
  · refine ⟨[Action.synth i ((i : ℚ) / ((framesToGen + 1 : ℤ) : ℚ))] ++ X1 ++ X2 ++
      [Action.pacerWait fps], by simp [List.append_assoc], ?_, ?_, ?_⟩
    · rw [synthFactors_append, synthFactors_append, synthFactors_append, h1s, h2s]
      rfl
    · rw [presentedFrames_append, presentedFrames_append, presentedFrames_append, h1p, h2p]
      rfl
    · rw [originalCalls_append, originalCalls_append, originalCalls_append, h1o]
      intro fr hfr
      apply hcalls
      simpa [originalCalls] using hfr
  · refine ⟨[Action.synth i ((i : ℚ) / ((framesToGen + 1 : ℤ) : ℚ))] ++ X1 ++ X2,
      by simp [List.append_assoc], ?_, ?_, ?_⟩
    · rw [synthFactors_append, synthFactors_append, h1s, h2s]
      rfl
    · rw [presentedFrames_append, presentedFrames_append, h1p, h2p]
      rfl
    · rw [originalCalls_append, originalCalls_append, h1o]
      intro fr hfr
      apply hcalls
      simpa [originalCalls] using hfr

/-- What the whole generation loop appends to the trace when every synthesis
succeeds. -/
theorem genLoop_trace (env : PresentEnv) (s : FrameGenSettings) (framesToGen : ℤ)
    (presentFlags : ℕ) (fps : ℤ) (hok : ∀ i, env.synthOk i = true) (idx : List ℤ) :
    ∀ trace : List Action,
    ∃ Y, idx.foldl (genLoopBody env s framesToGen presentFlags fps) trace = trace ++ Y ∧
      synthFactors Y = idx.map (fun (i : ℤ) => (i : ℚ) / ((framesToGen + 1 : ℤ) : ℚ)) ∧
      presentedFrames Y = idx.map FrameKind.generated ∧
      (∀ fr ∈ originalCalls Y, fr ≠ FrameKind.real) := by
  induction idx with
  | nil =>
    intro trace
    exact ⟨[], by simp, rfl, rfl, by simp [originalCalls]⟩
  | cons i rest ih =>
    intro trace
    obtain ⟨X, hX, hXs, hXp, hXo⟩ :=
      genLoopBody_trace env s framesToGen presentFlags fps trace i (hok i)
    obtain ⟨Y, hY, hYs, hYp, hYo⟩ := ih (trace ++ X)
    refine ⟨X ++ Y, ?_, ?_, ?_, ?_⟩
    · rw [List.foldl_cons, hX, hY, List.append_assoc]
    · rw [synthFactors_append, hXs, hYs]
      rfl
    · rw [presentedFrames_append, hXp, hYp]
      rfl
    · intro fr hfr
      rw [originalCalls_append, List.mem_append] at hfr
      rcases hfr with h | h
      · rw [hXo fr h]
        simp
      · exact hYo fr h

theorem presentSequence_trace (env : PresentEnv) (s : FrameGenSettings)
    (SyncInterval Flags : ℕ) (hok : ∀ i, env.synthOk i = true) :
    synthFactors (presentSequence env true s SyncInterval Flags).1
      = (loopIndices s.MultiFrameCount).map
          (fun (i : ℤ) => (i : ℚ) / ((s.MultiFrameCount + 1 : ℤ) : ℚ)) ∧
    presentedFrames (presentSequence env true s SyncInterval Flags).1
      = (loopIndices s.MultiFrameCount).map FrameKind.generated ++ [FrameKind.real] ∧
    (originalCalls (presentSequence env true s SyncInterval Flags).1).getLast?
      = some FrameKind.real := by
  unfold presentSequence
  simp only [true_and, if_true]
  obtain ⟨Y, hY, hYs, hYp, hYo⟩ := genLoop_trace env s s.MultiFrameCount
    (if s.DisableVSync = true then Flags ||| 0x200 else Flags) (pacerFPS s) hok
    (loopIndices s.MultiFrameCount) [Action.capture]
  rw [hY]
  obtain ⟨X1, h1, h1s, h1p, h1o⟩ := drawOverlay_trace env
    ([Action.capture] ++ Y ++ [Action.restore])
  rw [h1]
  obtain ⟨X2, h2, h2s, h2p, h2o⟩ := presentWithRetry_trace env FrameKind.real
    (if s.DisableVSync = true then 0 else SyncInterval)
    (if s.DisableVSync = true then Flags ||| 0x200 else Flags)
    ([Action.capture] ++ Y ++ [Action.restore] ++ X1)
  rw [h2]
  have hlast : (originalCalls Y ++ originalCalls X2).getLast? = some FrameKind.real := by
    rcases h2o with h | h <;> rw [h] <;> simp
  split_ifs
  · refine ⟨?_, ?_, ?_⟩
    · simp only [synthFactors_append, hYs, h1s, h2s]
      simp [synthFactors]
    · simp only [presentedFrames_append, hYp, h1p, h2p]
      simp [presentedFrames]
    · simp only [originalCalls_append, h1o]
      simpa [originalCalls] using hlast
  · refine ⟨?_, ?_, ?_⟩
    · simp only [synthFactors_append, hYs, h1s, h2s]
      simp [synthFactors]
    · simp only [presentedFrames_append, hYp, h1p, h2p]
      simp [presentedFrames]
    · simp only [originalCalls_append, h1o]
      simpa [originalCalls] using hlast

theorem loopIndices_factors (N : ℤ) :
    (loopIndices N).map (fun (i : ℤ) => (i : ℚ) / ((N + 1 : ℤ) : ℚ))
      = (List.range N.toNat).map (fun (k : ℕ) => ((k : ℚ) + 1) / ((N : ℚ) + 1)) := by
  unfold loopIndices
  rw [List.map_map]
  apply List.map_congr_left
  intro k _
  simp

theorem factor_bounds (N : ℤ) (k : ℕ) (hk : k < N.toNat) :
    0 < ((k : ℚ) + 1) / ((N : ℚ) + 1) ∧ ((k : ℚ) + 1) / ((N : ℚ) + 1) < 1 := by
  have hN : ((k : ℤ) : ℚ) < (N : ℚ) := by
    have : (k : ℤ) < N := by omega
    exact_mod_cast this
  have hk0 : (0 : ℚ) ≤ (k : ℚ) := Nat.cast_nonneg k
  have hkk : ((k : ℤ) : ℚ) = (k : ℚ) := by simp
  rw [hkk] at hN
  have hden : (0 : ℚ) < (N : ℚ) + 1 := by linarith
  constructor
  · apply div_pos <;> linarith
  · rw [div_lt_one hden]
    linarith

/-- **C5.** With the pipeline enabled and every synthesis succeeding, one
`hkPresent` call whose generated-frame count (as left by the adaptive-ratio
block) is `N` calls the synthesis exactly `max N 0` times, the `i`-th time
(`i = 1..N`, in this order) with factor `i / (N + 1)`; every factor is strictly
between 0 and 1 and the factors strictly increase; the frames presented are the
generated frames `1..N` in order followed by the real frame, presented once, and
the last call of the original present is for the real frame.  For `N ≤ 0` no
frame is synthesized and only the real frame is presented. -/
theorem hkPresent_generation_loop (env : PresentEnv) (SyncInterval Flags : ℕ)
    (fullFrameTime : ℤ) (st : RatioState) (N : ℤ)
    (hok : ∀ i, env.synthOk i = true)
    (hN : (hkPresent env true SyncInterval Flags fullFrameTime st).1.settings.MultiFrameCount = N) :
    synthFactors (hkPresent env true SyncInterval Flags fullFrameTime st).2.1
      = (List.range N.toNat).map (fun (k : ℕ) => ((k : ℚ) + 1) / ((N : ℚ) + 1)) ∧
    (synthFactors (hkPresent env true SyncInterval Flags fullFrameTime st).2.1).length
      = N.toNat ∧
    (∀ f ∈ synthFactors (hkPresent env true SyncInterval Flags fullFrameTime st).2.1,
      0 < f ∧ f < 1) ∧
    List.Pairwise (fun f g => f < g)
      (synthFactors (hkPresent env true SyncInterval Flags fullFrameTime st).2.1) ∧
    presentedFrames (hkPresent env true SyncInterval Flags fullFrameTime st).2.1
      = (List.range N.toNat).map (fun (k : ℕ) => FrameKind.generated ((k : ℤ) + 1))
          ++ [FrameKind.real] ∧
    (originalCalls (hkPresent env true SyncInterval Flags fullFrameTime st).2.1).getLast?
      = some FrameKind.real ∧
    (N ≤ 0 →
      synthFactors (hkPresent env true SyncInterval Flags fullFrameTime st).2.1 = [] ∧
      presentedFrames (hkPresent env true SyncInterval Flags fullFrameTime st).2.1
        = [FrameKind.real]) := by
  have hseq : (hkPresent env true SyncInterval Flags fullFrameTime st).2 =
      presentSequence env true (dynamicRatioStep true fullFrameTime st).settings
        SyncInterval Flags := rfl
  have hN' : (dynamicRatioStep true fullFrameTime st).settings.MultiFrameCount = N := hN
  obtain ⟨hs, hp, ho⟩ := presentSequence_trace env
    (dynamicRatioStep true fullFrameTime st).settings SyncInterval Flags hok
  rw [hN'] at hs hp
  rw [loopIndices_factors] at hs
  have hp' : presentedFrames (presentSequence env true
      (dynamicRatioStep true fullFrameTime st).settings SyncInterval Flags).1
      = (List.range N.toNat).map (fun (k : ℕ) => FrameKind.generated ((k : ℤ) + 1))
          ++ [FrameKind.real] := by
    rw [hp]
    unfold loopIndices
    rw [List.map_map]
    rfl
  rw [hseq]
  refine ⟨hs, ?_, ?_, ?_, hp', ho, ?_⟩
  · rw [hs]
    simp
  · intro f hf
    rw [hs, List.mem_map] at hf
    obtain ⟨k, hk, rfl⟩ := hf
    exact factor_bounds N k (List.mem_range.1 hk)
  · rw [hs, List.pairwise_map]
    by_cases hpos : 0 ≤ N
    · apply List.Pairwise.imp _ (List.pairwise_lt_range N.toNat)
      intro a b hab
      have hden : (0 : ℚ) < (N : ℚ) + 1 := by
        have : (0 : ℚ) ≤ (N : ℚ) := by exact_mod_cast hpos
        linarith
      have hab' : (a : ℚ) < (b : ℚ) := by exact_mod_cast hab
      exact div_lt_div_of_pos_right (by linarith) hden
    · have h0 : N.toNat = 0 := by omega
      rw [h0]
      simp
  · intro hle
    have h0 : N.toNat = 0 := by omega
    rw [hs, hp', h0]
    simp

theorem hkPresent_generation_loop_witness :
    (∀ i, idealEnv.synthOk i = true) ∧
    (hkPresent idealEnv true 1 0 16667 (fixedCountState 2)).1.settings.MultiFrameCount = 2 ∧
    synthFactors (hkPresent idealEnv true 1 0 16667 (fixedCountState 2)).2.1
      = (List.range (2 : ℤ).toNat).map (fun (k : ℕ) => ((k : ℚ) + 1) / (((2 : ℤ) : ℚ) + 1)) ∧
    (synthFactors (hkPresent idealEnv true 1 0 16667 (fixedCountState 2)).2.1).length
      = (2 : ℤ).toNat ∧
    (∀ f ∈ synthFactors (hkPresent idealEnv true 1 0 16667 (fixedCountState 2)).2.1,
      0 < f ∧ f < 1) ∧
    List.Pairwise (fun f g => f < g)
      (synthFactors (hkPresent idealEnv true 1 0 16667 (fixedCountState 2)).2.1) ∧
    presentedFrames (hkPresent idealEnv true 1 0 16667 (fixedCountState 2)).2.1
      = (List.range (2 : ℤ).toNat).map (fun (k : ℕ) => FrameKind.generated ((k : ℤ) + 1))
          ++ [FrameKind.real] ∧
    (originalCalls (hkPresent idealEnv true 1 0 16667 (fixedCountState 2)).2.1).getLast?
      = some FrameKind.real ∧
    ((2 : ℤ) ≤ 0 →
      synthFactors (hkPresent idealEnv true 1 0 16667 (fixedCountState 2)).2.1 = [] ∧
      presentedFrames (hkPresent idealEnv true 1 0 16667 (fixedCountState 2)).2.1
        = [FrameKind.real]) :=
  ⟨fun _ => rfl, by decide,
    hkPresent_generation_loop idealEnv 1 0 16667 (fixedCountState 2) 2 (fun _ => rfl)
      (by decide)⟩

/-! ### Facts on textures and sampling -/

theorem Float4.ext_iff' (p q : Float4) :
    p = q ↔ p.r = q.r ∧ p.g = q.g ∧ p.b = q.b ∧ p.a = q.a := by
  cases p
  cases q
  simp

theorem Float4.lerp_zero (p q : Float4) : Float4.lerp p q 0 = p := by
  rw [Float4.ext_iff']
  simp [Float4.lerp, Float4.zipWith]

theorem Float4.lerp_one (p q : Float4) : Float4.lerp p q 1 = q := by
  rw [Float4.ext_iff']
  simp [Float4.lerp, Float4.zipWith]

theorem Float4.lerp_self (p : Float4) (t : ℚ) : Float4.lerp p p t = p := by
  rw [Float4.ext_iff']
  simp [Float4.lerp, Float4.zipWith]

theorem clamp_scalar_bounds (v lo hi : ℚ) (h : lo ≤ hi) :
    lo ≤ min (max v lo) hi ∧ min (max v lo) hi ≤ hi :=
  ⟨le_min (le_max_right _ _) h, min_le_right _ _⟩

theorem Float4.clamp_bounds (v lo hi : Float4) (h : Float4.le lo hi) :
    Float4.le lo (Float4.clamp v lo hi) ∧ Float4.le (Float4.clamp v lo hi) hi := by
  obtain ⟨h1, h2, h3, h4⟩ := h
  have c1 := clamp_scalar_bounds v.r lo.r hi.r h1
  have c2 := clamp_scalar_bounds v.g lo.g hi.g h2
  have c3 := clamp_scalar_bounds v.b lo.b hi.b h3
  have c4 := clamp_scalar_bounds v.a lo.a hi.a h4
  exact ⟨⟨c1.1, c2.1, c3.1, c4.1⟩, ⟨c1.2, c2.2, c3.2, c4.2⟩⟩

theorem Float4.fmin_le_left (p q : Float4) : Float4.le (Float4.fmin p q) p := by
  unfold Float4.fmin Float4.zipWith Float4.le
  exact ⟨min_le_left _ _, min_le_left _ _, min_le_left _ _, min_le_left _ _⟩

theorem Float4.le_fmax_left (p q : Float4) : Float4.le p (Float4.fmax p q) := by
  unfold Float4.fmax Float4.zipWith Float4.le
  exact ⟨le_max_left _ _, le_max_left _ _, le_max_left _ _, le_max_left _ _⟩

theorem Float4.le_trans' {p q w : Float4} (h1 : Float4.le p q) (h2 : Float4.le q w) :
    Float4.le p w := by
  unfold Float4.le at *
  exact ⟨le_trans h1.1 h2.1, le_trans h1.2.1 h2.2.1, le_trans h1.2.2.1 h2.2.2.1,
    le_trans h1.2.2.2 h2.2.2.2⟩

theorem Float4.clamp_of_mem (v lo hi : Float4) (h1 : Float4.le lo v) (h2 : Float4.le v hi) :
    Float4.clamp v lo hi = v := by
  obtain ⟨a1, a2, a3, a4⟩ := h1
  obtain ⟨b1, b2, b3, b4⟩ := h2
  rw [Float4.ext_iff']
  unfold Float4.clamp Float4.fmin Float4.fmax Float4.zipWith
  simp only []
  refine ⟨?_, ?_, ?_, ?_⟩ <;> rw [max_eq_left (by assumption), min_eq_left (by assumption)]

theorem Texture.clampIndex_of_lt {i : ℤ} {n : ℕ} (h0 : 0 ≤ i) (h1 : i < n) :
    Texture.clampIndex i n = i := by
  unfold Texture.clampIndex
  omega

/-- Bilinear sampling at the centre of texel `(i, j)` returns the texel that
clamp addressing selects for `(i, j)`. -/
theorem Texture.sampleLinear_center (t : Texture Float4) (i j : ℤ)
    (hw : 0 < t.width) (hh : 0 < t.height) :
    t.sampleLinear (((i : ℚ) + 1 / 2) / (t.width : ℚ)) (((j : ℚ) + 1 / 2) / (t.height : ℚ))
      = t.texelClamped i j := by
  have hwq : (t.width : ℚ) ≠ 0 := by exact_mod_cast (Nat.pos_iff_ne_zero.1 hw)
  have hhq : (t.height : ℚ) ≠ 0 := by exact_mod_cast (Nat.pos_iff_ne_zero.1 hh)
  have hx : ((i : ℚ) + 1 / 2) / (t.width : ℚ) * (t.width : ℚ) - 1 / 2 = (i : ℚ) := by
    field_simp
    ring
  have hy : ((j : ℚ) + 1 / 2) / (t.height : ℚ) * (t.height : ℚ) - 1 / 2 = (j : ℚ) := by
    field_simp
    ring
  unfold Texture.sampleLinear
  simp only [hx, hy, Int.floor_intCast, sub_self]
  rw [Float4.ext_iff']
  simp [Float4.add, Float4.scale, Float4.zipWith]

theorem Texture.texelClamped_of_inBounds {α : Type} [Zero α] (t : Texture α) (x y : ℕ)
    (hx : x < t.width) (hy : y < t.height) : t.texelClamped x y = t.load x y := by
  have h1 : Texture.clampIndex (x : ℤ) t.width = x :=
    Texture.clampIndex_of_lt (by omega) (by exact_mod_cast hx)
  have h2 : Texture.clampIndex (y : ℤ) t.height = y :=
    Texture.clampIndex_of_lt (by omega) (by exact_mod_cast hy)
  have hb : t.inBounds x y := by
    unfold Texture.inBounds
    refine ⟨by omega, by exact_mod_cast hx, by omega, by exact_mod_cast hy⟩
  unfold Texture.texelClamped Texture.load
  rw [h1, h2, if_pos hb]

theorem toUInt32_of_range {n : ℤ} (h0 : 0 ≤ n) (h1 : n < 2 ^ 31) : ((toUInt32 n : ℕ) : ℤ) = n := by
  unfold toUInt32
  rw [Int.emod_eq_of_lt h0 (by omega)]
  omega

/-- **C6 (amended).** For every pixel and every `SceneChangeThreshold` that is
a non-negative 32-bit `int`, if the scene-change counter is greater than the
threshold, or the mask value of the pixel is greater than 0.5 (static),
`interpolate` writes exactly the current frame's pixel at that position,
whatever the previous frame, the motion field, the interpolation factor and the
ghosting strength are.  The kernel compares the counter with
`(uint)SceneChangeThreshold`, which is the threshold itself only when it is not
negative. -/
theorem interpolate_short_circuit (s : InterpSettings) (cur prev : Texture Float4)
    (motion : Texture Float2) (mask : Texture ℚ) (stats : ℕ) (x y : ℕ)
    (hthr0 : 0 ≤ s.SceneChangeThreshold) (hthr1 : s.SceneChangeThreshold < 2 ^ 31)
    (h : (stats : ℤ) > s.SceneChangeThreshold ∨ mask.load x y > 1 / 2) :
    interpolate s cur prev motion mask stats x y = cur.load x y := by
  have hu := toUInt32_of_range hthr0 hthr1
  unfold interpolate
  rcases h with h | h
  · have hgt : stats > toUInt32 s.SceneChangeThreshold := by omega
    rw [if_pos hgt]
  · split_ifs <;> rfl

theorem interpolate_short_circuit_witness :
    (0 : ℤ) ≤ (⟨1 / 2, 1000, 3 / 10⟩ : InterpSettings).SceneChangeThreshold ∧
    (⟨1 / 2, 1000, 3 / 10⟩ : InterpSettings).SceneChangeThreshold < 2 ^ 31 ∧
    (((1001 : ℕ) : ℤ) > (⟨1 / 2, 1000, 3 / 10⟩ : InterpSettings).SceneChangeThreshold ∨
      (⟨2, 2, fun _ _ => 0⟩ : Texture ℚ).load (1 : ℕ) (1 : ℕ) > 1 / 2) ∧
    interpolate ⟨1 / 2, 1000, 3 / 10⟩ ⟨2, 2, fun _ _ => ⟨1, 1, 1, 1⟩⟩ ⟨2, 2, fun _ _ => 0⟩
        ⟨2, 2, fun _ _ => ⟨3, 0⟩⟩ ⟨2, 2, fun _ _ => 0⟩ 1001 1 1
      = (⟨2, 2, fun _ _ => ⟨1, 1, 1, 1⟩⟩ : Texture Float4).load (1 : ℕ) (1 : ℕ) :=
  ⟨by decide, by decide, Or.inl (by decide),
    interpolate_short_circuit ⟨1 / 2, 1000, 3 / 10⟩ ⟨2, 2, fun _ _ => ⟨1, 1, 1, 1⟩⟩
      ⟨2, 2, fun _ _ => 0⟩ ⟨2, 2, fun _ _ => ⟨3, 0⟩⟩ ⟨2, 2, fun _ _ => 0⟩ 1001 1 1
      (by decide) (by decide) (Or.inl (by decide))⟩

theorem pixelUV_sample (cur t : Texture Float4) (x y : ℕ) (hw : t.width = cur.width)
    (hh : t.height = cur.height) (hx : x < cur.width) (hy : y < cur.height) :
    t.sampleLinear (pixelUV cur x y).1 (pixelUV cur x y).2 = t.load x y := by
  have h := Texture.sampleLinear_center t (x : ℤ) (y : ℤ) (by omega) (by omega)
  rw [Texture.texelClamped_of_inBounds t x y (by omega) (by omega)] at h
  unfold pixelUV
  simp only [← hw, ← hh]
  simpa using h

theorem interpolate_of_not_short (s : InterpSettings) (cur prev : Texture Float4)
    (motion : Texture Float2) (mask : Texture ℚ) (stats : ℕ) (x y : ℕ)
    (hns : ¬ interpShortCircuit s mask stats x y) :
    interpolate s cur prev motion mask stats x y =
      if s.GhostingStrength > 0 then
        Float4.lerp (interpBlend s cur prev motion x y)
          (Float4.clamp (interpBlend s cur prev motion x y) (ghostMin cur x y)
            (ghostMax cur x y)) s.GhostingStrength
      else interpBlend s cur prev motion x y := by
  unfold interpShortCircuit at hns
  simp only [not_or] at hns
  unfold interpolate
  rw [if_neg hns.1, if_neg hns.2]

/-- With a zero motion vector at the pixel, the blend is the `lerp` of the two
pixels themselves. -/
theorem interpBlend_still (s : InterpSettings) (cur prev : Texture Float4)
    (motion : Texture Float2) (x y : ℕ) (hw : prev.width = cur.width)
    (hh : prev.height = cur.height) (hx : x < cur.width) (hy : y < cur.height)
    (hm : motion.load x y = 0) :
    interpBlend s cur prev motion x y = Float4.lerp (prev.load x y) (cur.load x y) s.Factor := by
  have hc := pixelUV_sample cur cur x y rfl rfl hx hy
  have hp := pixelUV_sample cur prev x y hw hh hx hy
  unfold interpBlend interpPixelPrev interpPixelCurr
  simp only [hm]
  change Float4.lerp (prev.sampleLinear ((pixelUV cur x y).1 + 0 / (cur.width : ℚ) * s.Factor)
    ((pixelUV cur x y).2 + 0 / (cur.height : ℚ) * s.Factor))
    (cur.sampleLinear ((pixelUV cur x y).1 - 0 / (cur.width : ℚ) * (1 - s.Factor))
    ((pixelUV cur x y).2 - 0 / (cur.height : ℚ) * (1 - s.Factor))) s.Factor = _
  simp only [zero_div, zero_mul, add_zero, sub_zero]
  rw [hc, hp]

/-- **C6 (counterexample).** With `SceneChangeThreshold = -1` the counter 0 is
greater than the threshold, yet the kernel compares it with `(uint)(-1)`, which
is 4294967295, and takes no early return: for a white current frame, a black
previous frame, zero motion, a dynamic mask, factor 0.5 and no ghosting
reduction, the pixel written is mid-grey, not the white pixel of the current
frame. -/
theorem interpolate_negative_threshold_blends :
    (((0 : ℕ) : ℤ) > (⟨1 / 2, -1, 0⟩ : InterpSettings).SceneChangeThreshold) ∧
    toUInt32 (-1) = 4294967295 ∧
    whiteFrame.load ((0 : ℕ) : ℤ) ((0 : ℕ) : ℤ) = ⟨1, 1, 1, 1⟩ ∧
    interpolate ⟨1 / 2, -1, 0⟩ whiteFrame blackFrame (Texture.blank 2 2) dynamicMask 0 0 0
      = ⟨1 / 2, 1 / 2, 1 / 2, 1⟩ ∧
    interpolate ⟨1 / 2, -1, 0⟩ whiteFrame blackFrame (Texture.blank 2 2) dynamicMask 0 0 0
      ≠ whiteFrame.load ((0 : ℕ) : ℤ) ((0 : ℕ) : ℤ) := by
  have hu : toUInt32 (-1) = 4294967295 := by decide
  have hwl : whiteFrame.load ((0 : ℕ) : ℤ) ((0 : ℕ) : ℤ) = ⟨1, 1, 1, 1⟩ := by
    unfold Texture.load
    rw [if_pos (show whiteFrame.inBounds ((0 : ℕ) : ℤ) ((0 : ℕ) : ℤ) by decide)]
    rfl
  have hbl : blackFrame.load ((0 : ℕ) : ℤ) ((0 : ℕ) : ℤ) = ⟨0, 0, 0, 1⟩ := by
    unfold Texture.load
    rw [if_pos (show blackFrame.inBounds ((0 : ℕ) : ℤ) ((0 : ℕ) : ℤ) by decide)]
    rfl
  have hns : ¬ interpShortCircuit ⟨1 / 2, -1, 0⟩ dynamicMask 0 0 0 := by
    unfold interpShortCircuit
    rw [hu]
    have hm : dynamicMask.load ((0 : ℕ) : ℤ) ((0 : ℕ) : ℤ) = 0 := by
      unfold Texture.load
      split_ifs <;> rfl
    rw [hm]
    norm_num
  have hval : interpolate ⟨1 / 2, -1, 0⟩ whiteFrame blackFrame (Texture.blank 2 2) dynamicMask
      0 0 0 = ⟨1 / 2, 1 / 2, 1 / 2, 1⟩ := by
    rw [interpolate_of_not_short _ _ _ _ _ _ _ _ hns,
      if_neg (show ¬ ((⟨1 / 2, -1, 0⟩ : InterpSettings).GhostingStrength > 0) by norm_num),
      interpBlend_still _ whiteFrame blackFrame _ 0 0 rfl rfl (by decide) (by decide)
        (by unfold Texture.load; split_ifs <;> rfl),
      hwl, hbl]
    unfold Float4.lerp Float4.zipWith
    norm_num
  refine ⟨by decide, hu, hwl, hval, ?_⟩
  rw [hval, hwl]
  intro h
  have := congrArg Float4.r h
  norm_num at this

/-- **C7.** Boundary behaviour of the blend: for a pixel of the frame that is
not short-circuited, with previous and current frame of the same size and any
motion field, the blended value before the ghosting clamp equals the previous
frame's pixel at that position when `f = 0` and the current frame's pixel at
that position when `f = 1`; with ghosting strength 0 that blended value is the
output of `interpolate`. -/
theorem interpolate_blend_boundary (s : InterpSettings) (cur prev : Texture Float4)
    (motion : Texture Float2) (mask : Texture ℚ) (stats : ℕ) (x y : ℕ)
    (hw : prev.width = cur.width) (hh : prev.height = cur.height)
    (hx : x < cur.width) (hy : y < cur.height)
    (hns : ¬ interpShortCircuit s mask stats x y) :
    (s.Factor = 0 → interpBlend s cur prev motion x y = prev.load x y) ∧
    (s.Factor = 1 → interpBlend s cur prev motion x y = cur.load x y) ∧
    (s.GhostingStrength = 0 →
      interpolate s cur prev motion mask stats x y = interpBlend s cur prev motion x y) := by
  refine ⟨fun hf => ?_, fun hf => ?_, fun hg => ?_⟩
  · unfold interpBlend interpPixelPrev
    simp only [hf, mul_zero, add_zero]
    rw [Float4.lerp_zero, pixelUV_sample cur prev x y hw hh hx hy]
  · unfold interpBlend interpPixelCurr
    simp only [hf, sub_self, mul_zero, sub_zero]
    rw [Float4.lerp_one, pixelUV_sample cur cur x y rfl rfl hx hy]
  · rw [interpolate_of_not_short s cur prev motion mask stats x y hns, hg]
    simp

theorem interpolate_blend_boundary_witness :
    samplePrev.width = sampleCur.width ∧ samplePrev.height = sampleCur.height ∧
    1 < sampleCur.width ∧ 0 < sampleCur.height ∧
    ¬ interpShortCircuit ⟨0, 1000, 0⟩ dynamicMask 0 1 0 ∧
    (((⟨0, 1000, 0⟩ : InterpSettings).Factor = 0 →
        interpBlend ⟨0, 1000, 0⟩ sampleCur samplePrev sampleMotion 1 0
          = samplePrev.load (1 : ℕ) (0 : ℕ)) ∧
      ((⟨0, 1000, 0⟩ : InterpSettings).Factor = 1 →
        interpBlend ⟨0, 1000, 0⟩ sampleCur samplePrev sampleMotion 1 0
          = sampleCur.load (1 : ℕ) (0 : ℕ)) ∧
      ((⟨0, 1000, 0⟩ : InterpSettings).GhostingStrength = 0 →
        interpolate ⟨0, 1000, 0⟩ sampleCur samplePrev sampleMotion dynamicMask 0 1 0
          = interpBlend ⟨0, 1000, 0⟩ sampleCur samplePrev sampleMotion 1 0)) :=
  ⟨rfl, rfl, by decide, by decide, by
      unfold interpShortCircuit toUInt32 dynamicMask Texture.load
      norm_num,
    interpolate_blend_boundary ⟨0, 1000, 0⟩ sampleCur samplePrev sampleMotion dynamicMask 0 1 0
      rfl rfl (by decide) (by decide) (by
        unfold interpShortCircuit toUInt32 dynamicMask Texture.load
        norm_num)⟩

theorem ghostMin_le_ghostMax (cur : Texture Float4) (x y : ℕ) :
    Float4.le (ghostMin cur x y) (ghostMax cur x y) := by
  unfold ghostMin ghostMax ghostTaps
  simp only []
  exact Float4.le_trans' (Float4.fmin_le_left _ _) (Float4.le_fmax_left _ _)

/-- The five taps are the current frame's texels at the pixel and at its four
neighbours (clamped at the frame border). -/
theorem ghostTaps_eq (cur : Texture Float4) (x y : ℕ) (hx : x < cur.width)
    (hy : y < cur.height) :
    ghostTaps cur x y =
      [cur.texelClamped x y, cur.texelClamped x ((y : ℤ) + 1), cur.texelClamped x ((y : ℤ) - 1),
       cur.texelClamped ((x : ℤ) + 1) y, cur.texelClamped ((x : ℤ) - 1) y] := by
  have hw : 0 < cur.width := by omega
  have hh : 0 < cur.height := by omega
  have hwq : (cur.width : ℚ) ≠ 0 := by exact_mod_cast (Nat.pos_iff_ne_zero.1 hw)
  have hhq : (cur.height : ℚ) ≠ 0 := by exact_mod_cast (Nat.pos_iff_ne_zero.1 hh)
  have c0 := Texture.sampleLinear_center cur (x : ℤ) (y : ℤ) hw hh
  have c1 := Texture.sampleLinear_center cur (x : ℤ) ((y : ℤ) + 1) hw hh
  have c2 := Texture.sampleLinear_center cur (x : ℤ) ((y : ℤ) - 1) hw hh
  have c3 := Texture.sampleLinear_center cur ((x : ℤ) + 1) (y : ℤ) hw hh
  have c4 := Texture.sampleLinear_center cur ((x : ℤ) - 1) (y : ℤ) hw hh
  have e1 : ((y : ℚ) + 1 / 2) / (cur.height : ℚ) + 1 / (cur.height : ℚ)
      = ((((y : ℤ) + 1 : ℤ) : ℚ) + 1 / 2) / (cur.height : ℚ) := by
    push_cast
    field_simp
    ring
  have e2 : ((y : ℚ) + 1 / 2) / (cur.height : ℚ) - 1 / (cur.height : ℚ)
      = ((((y : ℤ) - 1 : ℤ) : ℚ) + 1 / 2) / (cur.height : ℚ) := by
    push_cast
    field_simp
    ring
  have e3 : ((x : ℚ) + 1 / 2) / (cur.width : ℚ) + 1 / (cur.width : ℚ)
      = ((((x : ℤ) + 1 : ℤ) : ℚ) + 1 / 2) / (cur.width : ℚ) := by
    push_cast
    field_simp
    ring
  have e4 : ((x : ℚ) + 1 / 2) / (cur.width : ℚ) - 1 / (cur.width : ℚ)
      = ((((x : ℤ) - 1 : ℤ) : ℚ) + 1 / 2) / (cur.width : ℚ) := by
    push_cast
    field_simp
    ring
  have e0x : ((x : ℚ) + 1 / 2) / (cur.width : ℚ)
      = ((((x : ℤ)) : ℚ) + 1 / 2) / (cur.width : ℚ) := by
    push_cast
    rfl
  have e0y : ((y : ℚ) + 1 / 2) / (cur.height : ℚ)
      = ((((y : ℤ)) : ℚ) + 1 / 2) / (cur.height : ℚ) := by
    push_cast
    rfl
  unfold ghostTaps pixelUV
  simp only []
  rw [e1, e2, e3, e4, e0x, e0y, c0, c1, c2, c3, c4]

/-- **C8.** Ghosting clamp: for a pixel that `interpolate` blends (not
short-circuited), with ghosting strength 1 every channel of the output lies
between the channel-wise minimum and maximum of the five current-frame samples
(centre, north, south, east, west), which for a pixel of the frame are the
current frame's texels at the pixel and its four neighbours (clamped at the
border); with ghosting strength 0 the output equals the unclamped blend
`lerp(previous sample, current sample, f)`. -/
theorem interpolate_ghosting_clamp (s : InterpSettings) (cur prev : Texture Float4)
    (motion : Texture Float2) (mask : Texture ℚ) (stats : ℕ) (x y : ℕ)
    (hns : ¬ interpShortCircuit s mask stats x y) :
    (s.GhostingStrength = 1 →
      Float4.le (ghostMin cur x y) (interpolate s cur prev motion mask stats x y) ∧
      Float4.le (interpolate s cur prev motion mask stats x y) (ghostMax cur x y)) ∧
    (s.GhostingStrength = 0 →
      interpolate s cur prev motion mask stats x y =
        Float4.lerp (interpPixelPrev s cur prev motion x y) (interpPixelCurr s cur motion x y)
          s.Factor) ∧
    (x < cur.width → y < cur.height →
      ghostTaps cur x y =
        [cur.texelClamped x y, cur.texelClamped x ((y : ℤ) + 1),
         cur.texelClamped x ((y : ℤ) - 1), cur.texelClamped ((x : ℤ) + 1) y,
         cur.texelClamped ((x : ℤ) - 1) y]) := by
  refine ⟨fun hg => ?_, fun hg => ?_, fun hx hy => ghostTaps_eq cur x y hx hy⟩
  · rw [interpolate_of_not_short s cur prev motion mask stats x y hns, hg]
    simp only [gt_iff_lt, zero_lt_one, if_true, Float4.lerp_one]
    exact Float4.clamp_bounds _ _ _ (ghostMin_le_ghostMax cur x y)
  · rw [interpolate_of_not_short s cur prev motion mask stats x y hns, hg]
    simp only [gt_iff_lt, lt_self_iff_false, if_false]
    rfl

theorem interpolate_ghosting_clamp_witness :
    ¬ interpShortCircuit ⟨1 / 2, 1000, 1⟩ dynamicMask 0 1 0 ∧
    (((⟨1 / 2, 1000, 1⟩ : InterpSettings).GhostingStrength = 1 →
      Float4.le (ghostMin sampleCur 1 0)
        (interpolate ⟨1 / 2, 1000, 1⟩ sampleCur samplePrev sampleMotion dynamicMask 0 1 0) ∧
      Float4.le (interpolate ⟨1 / 2, 1000, 1⟩ sampleCur samplePrev sampleMotion dynamicMask 0 1 0)
        (ghostMax sampleCur 1 0)) ∧
    ((⟨1 / 2, 1000, 1⟩ : InterpSettings).GhostingStrength = 0 →
      interpolate ⟨1 / 2, 1000, 1⟩ sampleCur samplePrev sampleMotion dynamicMask 0 1 0 =
        Float4.lerp (interpPixelPrev ⟨1 / 2, 1000, 1⟩ sampleCur samplePrev sampleMotion 1 0)
          (interpPixelCurr ⟨1 / 2, 1000, 1⟩ sampleCur sampleMotion 1 0)
          (⟨1 / 2, 1000, 1⟩ : InterpSettings).Factor) ∧
    (1 < sampleCur.width → 0 < sampleCur.height →
      ghostTaps sampleCur 1 0 =
        [sampleCur.texelClamped (1 : ℕ) (0 : ℕ), sampleCur.texelClamped (1 : ℕ) (((0 : ℕ) : ℤ) + 1),
         sampleCur.texelClamped (1 : ℕ) (((0 : ℕ) : ℤ) - 1),
         sampleCur.texelClamped (((1 : ℕ) : ℤ) + 1) (0 : ℕ),
         sampleCur.texelClamped (((1 : ℕ) : ℤ) - 1) (0 : ℕ)])) :=
  ⟨by
      unfold interpShortCircuit toUInt32 dynamicMask Texture.load
      norm_num,
    interpolate_ghosting_clamp ⟨1 / 2, 1000, 1⟩ sampleCur samplePrev sampleMotion dynamicMask
      0 1 0 (by
        unfold interpShortCircuit toUInt32 dynamicMask Texture.load
        norm_num)⟩

/-! ### Facts on the block-matching pass -/

theorem mem_pixelGrid (width height : ℕ) (x y : ℕ) (hx : x < width) (hy : y < height) :
    ((x : ℤ), (y : ℤ)) ∈ pixelGrid width height := by
  unfold pixelGrid
  rw [List.mem_flatMap]
  exact ⟨y, List.mem_range.2 hy, List.mem_map.2 ⟨x, List.mem_range.2 hx, rfl⟩⟩

theorem pixelGrid_bounds (width height : ℕ) (pos : ℤ × ℤ) (h : pos ∈ pixelGrid width height) :
    0 ≤ pos.1 ∧ pos.1 < width ∧ 0 ≤ pos.2 ∧ pos.2 < height := by
  unfold pixelGrid at h
  rw [List.mem_flatMap] at h
  obtain ⟨j, hj, hmem⟩ := h
  rw [List.mem_map] at hmem
  obtain ⟨i, hi, rfl⟩ := hmem
  have hi' := List.mem_range.1 hi
  have hj' := List.mem_range.1 hj
  simp only []
  omega

theorem Texture.store_width {α : Type} (t : Texture α) (x y : ℤ) (v : α) :
    (t.store x y v).width = t.width := by
  unfold Texture.store
  split_ifs <;> rfl

theorem Texture.store_height {α : Type} (t : Texture α) (x y : ℤ) (v : α) :
    (t.store x y v).height = t.height := by
  unfold Texture.store
  split_ifs <;> rfl

theorem Texture.load_store_same {α : Type} [Zero α] (t : Texture α) (x y : ℤ) (v : α)
    (hv : v = 0 ∨ t.inBounds x y) : (t.store x y v).load x y = v := by
  by_cases hb : t.inBounds x y
  · have hb' : (t.store x y v).inBounds x y := by
      unfold Texture.inBounds
      rw [Texture.store_width, Texture.store_height]
      exact hb
    unfold Texture.load
    rw [if_pos hb']
    unfold Texture.store
    rw [if_pos hb]
    simp
  · have hb' : ¬ (t.store x y v).inBounds x y := by
      unfold Texture.inBounds
      rw [Texture.store_width, Texture.store_height]
      exact hb
    unfold Texture.load
    rw [if_neg hb']
    rcases hv with h | h
    · exact h.symm
    · exact absurd h hb

theorem Texture.inBounds_store {α : Type} (t : Texture α) (x y i j : ℤ) (v : α) :
    (t.store x y v).inBounds i j ↔ t.inBounds i j := by
  unfold Texture.inBounds
  rw [Texture.store_width, Texture.store_height]

theorem Texture.load_store_zero {α : Type} [Zero α] (t : Texture α) (x y i j : ℤ)
    (h : t.load i j = 0) : (t.store x y 0).load i j = 0 := by
  by_cases hij : t.inBounds i j
  · have hij' := (Texture.inBounds_store t x y i j 0).2 hij
    have ht : t.texel i j = 0 := by
      unfold Texture.load at h
      rwa [if_pos hij] at h
    unfold Texture.load
    rw [if_pos hij']
    unfold Texture.store
    by_cases hb : t.inBounds x y
    · rw [if_pos hb]
      simp only []
      split_ifs
      · rfl
      · exact ht
    · rw [if_neg hb]
      exact ht
  · unfold Texture.load
    rw [if_neg (mt (Texture.inBounds_store t x y i j 0).1 hij)]

/-- A pass in which every thread of the list writes the zero vector and leaves
the counter alone: the counter is unchanged, and the motion texture reads zero
at every position of the list. -/
theorem bmApply_fold_zero (p : BMParams) (cur prev : Texture Float4) (init : Texture Float2)
    (l : List (ℤ × ℤ))
    (hl : ∀ pos ∈ l, bmThread p cur prev init pos.1 pos.2 = some (0, false)) :
    ∀ acc : Texture Float2 × ℕ,
      (l.foldl (bmApply p cur prev init) acc).2 = acc.2 ∧
      (∀ i j, acc.1.load i j = 0 → (l.foldl (bmApply p cur prev init) acc).1.load i j = 0) ∧
      (∀ pos ∈ l, (l.foldl (bmApply p cur prev init) acc).1.load pos.1 pos.2 = 0) := by
  induction l with
  | nil =>
    intro acc
    exact ⟨rfl, fun _ _ h => h, fun pos hpos => absurd hpos (List.not_mem_nil pos)⟩
  | cons q rest ih =>
    intro acc
    have hq : bmApply p cur prev init acc q = (acc.1.store q.1 q.2 0, acc.2) := by
      unfold bmApply
      rw [hl q (List.mem_cons_self q rest)]
      simp
    obtain ⟨h1, h2, h3⟩ := ih (fun pos hpos => hl pos (List.mem_cons_of_mem q hpos))
      (acc.1.store q.1 q.2 0, acc.2)
    rw [List.foldl_cons, hq]
    refine ⟨h1, fun i j hij => h2 i j (Texture.load_store_zero acc.1 q.1 q.2 i j hij), ?_⟩
    intro pos hpos
    rcases List.mem_cons.1 hpos with h | h
    · subst h
      exact h2 pos.1 pos.2 (Texture.load_store_same acc.1 pos.1 pos.2 0 (Or.inl rfl))
    · exact h3 pos h

theorem sad3_self (p : Float4) : sad3 p p = 0 := by
  unfold sad3
  simp

theorem hround_zero : hround 0 = 0 := by
  unfold hround
  norm_num

/-- On identical frames, with no initial guess or a zero one, every thread inside
the frame leaves at the fast path with the zero vector. -/
theorem bmThread_identical (p : BMParams) (I : Texture Float4) (init : Texture Float2)
    (x y : ℤ) (hx0 : 0 ≤ x) (hx1 : x < p.Width) (hy0 : 0 ≤ y) (hy1 : y < p.Height)
    (hinit : p.UseInitMotion ≠ 0 → init.load x y = 0) :
    bmThread p I I init x y = some (0, false) := by
  have hc : bmSearchCenter p init x y = (0, 0) := by
    unfold bmSearchCenter
    split_ifs with h
    · rw [hinit h]
      change (hround 0, hround 0) = (0, 0)
      rw [hround_zero]
    · rfl
  unfold bmThread
  have hnb : ¬ (x ≥ p.Width ∨ y ≥ p.Height) := by omega
  rw [if_neg hnb]
  simp only [hc, add_zero, sad3_self]
  have hfast : (x ≥ 0 ∧ y ≥ 0 ∧ x < p.Width ∧ y < p.Height) ∧ (0 : ℚ) < 1 / 1000 :=
    ⟨⟨hx0, hy0, hx1, hy1⟩, by norm_num⟩
  rw [if_pos hfast]
  rfl

theorem hudMask_identical (Threshold : ℚ) (UseEdgeDetect : ℤ) (I edge : Texture Float4)
    (x y : ℤ) :
    hudMask Threshold UseEdgeDetect I I edge x y =
      if 0 < Threshold ∧ (UseEdgeDetect > 0 → 1 / 10 ≤ (edge.load x y).r) then 1 else 0 := by
  unfold hudMask
  simp only [sub_self, abs_zero, add_zero]
  by_cases hu : UseEdgeDetect > 0
  · rw [if_pos hu]
    by_cases he : (edge.load x y).r < 1 / 10
    · rw [if_pos he, if_neg]
      intro h
      exact absurd (h.2 hu) (not_le.2 he)
    · rw [if_neg he]
      by_cases ht : 0 < Threshold
      · rw [if_pos ht, if_pos ⟨ht, fun _ => le_of_not_lt he⟩]
      · rw [if_neg ht, if_neg (fun h => ht h.1)]
  · rw [if_neg hu]
    by_cases ht : 0 < Threshold
    · rw [if_pos ht, if_pos ⟨ht, fun h => absurd h hu⟩]
    · rw [if_neg ht, if_neg (fun h => ht h.1)]

theorem interpolate_identical (s : InterpSettings) (I : Texture Float4)
    (motion : Texture Float2) (mask : Texture ℚ) (stats : ℕ) (x y : ℕ)
    (hx : x < I.width) (hy : y < I.height) (hm : motion.load x y = 0) :
    interpolate s I I motion mask stats x y = I.load x y := by
  have hc := pixelUV_sample I I x y rfl rfl hx hy
  have hblend : interpBlend s I I motion x y = I.load x y := by
    unfold interpBlend interpPixelPrev interpPixelCurr
    simp only [hm]
    change Float4.lerp (I.sampleLinear ((pixelUV I x y).1 + 0 / (I.width : ℚ) * s.Factor)
      ((pixelUV I x y).2 + 0 / (I.height : ℚ) * s.Factor))
      (I.sampleLinear ((pixelUV I x y).1 - 0 / (I.width : ℚ) * (1 - s.Factor))
      ((pixelUV I x y).2 - 0 / (I.height : ℚ) * (1 - s.Factor))) s.Factor = I.load x y
    simp only [zero_div, zero_mul, add_zero, sub_zero]
    rw [hc, Float4.lerp_self]
  have hlo : Float4.le (ghostMin I x y) (I.load x y) := by
    unfold ghostMin ghostTaps
    simp only []
    rw [hc]
    exact Float4.fmin_le_left _ _
  have hhi : Float4.le (I.load x y) (ghostMax I x y) := by
    unfold ghostMax ghostTaps
    simp only []
    rw [hc]
    exact Float4.le_fmax_left _ _
  unfold interpolate
  simp only [hblend]
  rw [Float4.clamp_of_mem _ _ _ hlo hhi, Float4.lerp_self]
  split_ifs <;> rfl

theorem BlockMatching_identical (I : Texture Float4) (motion : Texture Float2)
    (initMotion : Option (Texture Float2)) (blockSize searchRadius : ℤ)
    (enableSubPixel : Bool) (stats : ℕ)
    (hinit : ∀ t, initMotion = some t → ∀ i j : ℤ, t.load i j = 0)
    (x y : ℕ) (hx : x < I.width) (hy : y < I.height) :
    (BlockMatching I I motion initMotion blockSize searchRadius enableSubPixel stats).1.load x y
      = 0 := by
  unfold BlockMatching
  simp only []
  refine (bmApply_fold_zero _ I I _ (pixelGrid I.width I.height) ?_ (motion, stats)).2.2
    ((x : ℤ), (y : ℤ)) (mem_pixelGrid I.width I.height x y hx hy)
  intro pos hpos
  obtain ⟨h1, h2, h3, h4⟩ := pixelGrid_bounds I.width I.height pos hpos
  apply bmThread_identical _ I _ pos.1 pos.2 h1 h2 h3 h4
  intro _
  cases hi : initMotion with
  | none =>
    simp only [Option.getD_none]
    unfold Texture.load
    split_ifs <;> rfl
  | some t => exact hinit t hi pos.1 pos.2

theorem luminance_black_load (i j : ℤ) : luminance (blackFrame.load i j) = 0 := by
  unfold Texture.load
  split_ifs
  · unfold luminance blackFrame
    norm_num
  · change (0 : ℚ) * (2126 / 10000) + (0 : ℚ) * (7152 / 10000) + (0 : ℚ) * (722 / 10000) = 0
    norm_num

/-! ### The scene-change counter on frames with channels in `[0, 1]` -/

theorem Texture.load_unitRange (t : Texture Float4) (h : t.unitRange) (x y : ℤ) :
    (0 ≤ (t.load x y).r ∧ (t.load x y).r ≤ 1) ∧ (0 ≤ (t.load x y).g ∧ (t.load x y).g ≤ 1) ∧
    (0 ≤ (t.load x y).b ∧ (t.load x y).b ≤ 1) := by
  unfold Texture.load
  split_ifs with hb
  · exact h x y hb
  · change ((0 : ℚ) ≤ 0 ∧ (0 : ℚ) ≤ 1) ∧ ((0 : ℚ) ≤ 0 ∧ (0 : ℚ) ≤ 1) ∧ ((0 : ℚ) ≤ 0 ∧ (0 : ℚ) ≤ 1)
    norm_num

theorem abs_sub_le_one {u v : ℚ} (hu : 0 ≤ u ∧ u ≤ 1) (hv : 0 ≤ v ∧ v ≤ 1) : |u - v| ≤ 1 := by
  rw [abs_le]
  constructor <;> linarith [hu.1, hu.2, hv.1, hv.2]

theorem sad3_le_three (cur prev : Texture Float4) (hc : cur.unitRange) (hp : prev.unitRange)
    (x y i j : ℤ) : sad3 (cur.load x y) (prev.load i j) ≤ 3 := by
  obtain ⟨c1, c2, c3⟩ := Texture.load_unitRange cur hc x y
  obtain ⟨p1, p2, p3⟩ := Texture.load_unitRange prev hp i j
  have h1 := abs_sub_le_one c1 p1
  have h2 := abs_sub_le_one c2 p2
  have h3 := abs_sub_le_one c3 p3
  unfold sad3
  linarith

theorem bmVisit_exitInv (p : BMParams) (cur prev : Texture Float4) (posX posY : ℤ)
    (center : ℤ × ℤ) (st : BMSearch) (o : ℤ × ℤ) (h : st.exitInv) :
    (bmVisit p cur prev posX posY center st o).exitInv := by
  unfold bmVisit
  simp only []
  split_ifs with h1 h2 h3
  · exact h
  · exact h
  · intro hd
    simpa using hd
  · exact h

theorem bmVisit_le_three (p : BMParams) (cur prev : Texture Float4) (posX posY : ℤ)
    (center : ℤ × ℤ) (st : BMSearch) (o : ℤ × ℤ) (hc : cur.unitRange) (hp : prev.unitRange)
    (h : st.minSAD ≤ 3) : (bmVisit p cur prev posX posY center st o).minSAD ≤ 3 := by
  unfold bmVisit
  simp only []
  split_ifs with h1 h2 h3
  · exact h
  · exact h
  · exact sad3_le_three cur prev hc hp _ _ _ _
  · exact h

theorem bmVisit_inside_le_three (p : BMParams) (cur prev : Texture Float4) (posX posY : ℤ)
    (center : ℤ × ℤ) (st : BMSearch) (o : ℤ × ℤ) (hc : cur.unitRange) (hp : prev.unitRange)
    (hinv : st.exitInv)
    (hin : ¬ (posX + center.1 + o.1 < 0 ∨ posY + center.2 + o.2 < 0 ∨
      posX + center.1 + o.1 ≥ p.Width ∨ posY + center.2 + o.2 ≥ p.Height)) :
    (bmVisit p cur prev posX posY center st o).minSAD ≤ 3 := by
  have hs := sad3_le_three cur prev hc hp posX posY (posX + center.1 + o.1)
    (posY + center.2 + o.2)
  unfold bmVisit
  simp only []
  split_ifs with h1 h3
  · have := hinv h1
    linarith
  · exact hs
  · linarith

theorem bmSearch_fold_le_three (p : BMParams) (cur prev : Texture Float4) (posX posY : ℤ)
    (center : ℤ × ℤ) (hc : cur.unitRange) (hp : prev.unitRange) (o : ℤ × ℤ)
    (hin : ¬ (posX + center.1 + o.1 < 0 ∨ posY + center.2 + o.2 < 0 ∨
      posX + center.1 + o.1 ≥ p.Width ∨ posY + center.2 + o.2 ≥ p.Height))
    (l : List (ℤ × ℤ)) :
    ∀ st : BMSearch, st.exitInv → (st.minSAD ≤ 3 ∨ o ∈ l) →
      (l.foldl (bmVisit p cur prev posX posY center) st).minSAD ≤ 3 := by
  induction l with
  | nil =>
    intro st _ h
    rcases h with h | h
    · exact h
    · exact absurd h (List.not_mem_nil o)
  | cons q rest ih =>
    intro st hinv h
    rw [List.foldl_cons]
    apply ih _ (bmVisit_exitInv p cur prev posX posY center st q hinv)
    rcases h with h | h
    · exact Or.inl (bmVisit_le_three p cur prev posX posY center st q hc hp h)
    · rcases List.mem_cons.1 h with h | h
      · subst h
        exact Or.inl (bmVisit_inside_le_three p cur prev posX posY center st o hc hp hinv hin)
      · exact Or.inr h

theorem zero_mem_searchOffsets (R : ℤ) (hR : 0 ≤ R) : ((0 : ℤ), (0 : ℤ)) ∈ searchOffsets R := by
  have hspan : (0 : ℤ) ∈ (List.range (2 * R + 1).toNat).map (fun (k : ℕ) => (k : ℤ) - R) := by
    rw [List.mem_map]
    refine ⟨R.toNat, List.mem_range.2 (by omega), by omega⟩
  unfold searchOffsets
  simp only []
  rw [List.mem_flatMap]
  exact ⟨0, hspan, List.mem_map.2 ⟨0, hspan, rfl⟩⟩

theorem wrapInt32_of_range {n : ℤ} (h0 : -2 ^ 31 ≤ n) (h1 : n < 2 ^ 31) : wrapInt32 n = n := by
  unfold wrapInt32
  rw [Int.emod_eq_of_lt (by omega) (by omega)]
  omega

/-- The square of a block size from 3 to 46340 fits a 32-bit `int`. -/
theorem wrapInt32_sq (B : ℤ) (h3 : 3 ≤ B) (hB : B ≤ 46340) : wrapInt32 (B * B) = B * B :=
  wrapInt32_of_range (by nlinarith) (by nlinarith)

/-- With colour channels in `[0, 1]`, block size from 3 to 46340, a non-negative
search radius and no initial guess, no thread inside the frame increments the
scene-change counter. -/
theorem bmThread_no_increment (p : BMParams) (cur prev : Texture Float4) (init : Texture Float2)
    (x y : ℤ) (hc : cur.unitRange) (hp : prev.unitRange) (hB : 3 ≤ p.BlockSize)
    (hB2 : p.BlockSize ≤ 46340)
    (hR : 0 ≤ p.SearchRadius) (hinit : p.UseInitMotion = 0)
    (hx0 : 0 ≤ x) (hx1 : x < p.Width) (hy0 : 0 ≤ y) (hy1 : y < p.Height) :
    ∃ v, bmThread p cur prev init x y = some (v, false) := by
  have hcen : bmSearchCenter p init x y = (0, 0) := by
    unfold bmSearchCenter
    simp [hinit]
  have hmin : (bmSearch p cur prev x y (0, 0)).minSAD ≤ 3 := by
    unfold bmSearch
    apply bmSearch_fold_le_three p cur prev x y (0, 0) hc hp (0, 0)
    · simp only [add_zero]
      omega
    · intro hd
      cases hd
    · exact Or.inr (zero_mem_searchOffsets p.SearchRadius hR)
  have hBB : (9 : ℤ) ≤ max 1 (wrapInt32 (p.BlockSize * p.BlockSize)) := by
    rw [wrapInt32_sq p.BlockSize hB hB2]
    have : 9 ≤ p.BlockSize * p.BlockSize := by nlinarith
    exact le_trans this (le_max_right _ _)
  have hBq : (9 : ℚ) ≤ ((max 1 (wrapInt32 (p.BlockSize * p.BlockSize)) : ℤ) : ℚ) := by
    exact_mod_cast hBB
  have hden : (0 : ℚ) < ((max 1 (wrapInt32 (p.BlockSize * p.BlockSize)) : ℤ) : ℚ) * 3 := by
    linarith
  have hno : ¬ ((bmSearch p cur prev x y (0, 0)).minSAD /
      (((max 1 (wrapInt32 (p.BlockSize * p.BlockSize)) : ℤ) : ℚ) * 3) > 15 / 100) := by
    rw [gt_iff_lt, not_lt, div_le_iff₀ hden]
    linarith
  unfold bmThread
  have hnb : ¬ (x ≥ p.Width ∨ y ≥ p.Height) := by omega
  rw [if_neg hnb]
  simp only [hcen, hno, decide_False]
  split_ifs
  · exact ⟨_, rfl⟩
  · exact ⟨_, rfl⟩
  · exact ⟨_, rfl⟩

theorem bmApply_fold_counter (p : BMParams) (cur prev : Texture Float4) (init : Texture Float2)
    (l : List (ℤ × ℤ))
    (hl : ∀ pos ∈ l, ∃ v, bmThread p cur prev init pos.1 pos.2 = some (v, false)) :
    ∀ acc : Texture Float2 × ℕ, (l.foldl (bmApply p cur prev init) acc).2 = acc.2 := by
  induction l with
  | nil =>
    intro acc
    rfl
  | cons q rest ih =>
    intro acc
    obtain ⟨v, hv⟩ := hl q (List.mem_cons_self q rest)
    have hq : bmApply p cur prev init acc q = (acc.1.store q.1 q.2 v, acc.2) := by
      unfold bmApply
      rw [hv]
      simp
    rw [List.foldl_cons, hq]
    exact ih (fun pos hpos => hl pos (List.mem_cons_of_mem q hpos)) _

/-- A block-matching pass without initial guess on frames with channels in
`[0, 1]`, block size from 3 to 46340 and non-negative radius leaves the
scene-change counter as it found it. -/
theorem BlockMatching_counter_unchanged (cur prev : Texture Float4) (motion : Texture Float2)
    (blockSize searchRadius : ℤ) (enableSubPixel : Bool) (stats : ℕ)
    (hc : cur.unitRange) (hp : prev.unitRange) (hB : 3 ≤ blockSize) (hB2 : blockSize ≤ 46340)
    (hR : 0 ≤ searchRadius) :
    (BlockMatching cur prev motion none blockSize searchRadius enableSubPixel stats).2
      = stats := by
  unfold BlockMatching
  simp only []
  apply bmApply_fold_counter
  intro pos hpos
  obtain ⟨h1, h2, h3, h4⟩ := pixelGrid_bounds cur.width cur.height pos hpos
  exact bmThread_no_increment _ cur prev _ pos.1 pos.2 hc hp hB hB2 hR rfl h1 h2 h3 h4

/-- **C10 (code bug).** A white 40 x 40 frame against a black one: every
current pixel differs from every previous pixel by 1 in each channel (above
0.15), the pixel count 1600 exceeds the default `SceneChangeThreshold` 1000, and
the block size is the default 16; yet a block-matching pass started with the
counter at zero leaves the counter at 0, which is not greater than 1000. -/
theorem scene_cut_not_counted :
    sad3 (whiteFrame40.load 0 0) (blackFrame40.load 0 0) / 3 = 1 ∧
    (1000 : ℕ) < whiteFrame40.width * whiteFrame40.height ∧
    (BlockMatching whiteFrame40 blackFrame40 motion40 none 16 16 true 0).2 = 0 ∧
    ¬ ((BlockMatching whiteFrame40 blackFrame40 motion40 none 16 16 true 0).2 > 1000) := by
  have hw : whiteFrame40.unitRange := by
    intro x y _
    unfold whiteFrame40
    norm_num
  have hb : blackFrame40.unitRange := by
    intro x y _
    unfold blackFrame40
    norm_num
  have h0 := BlockMatching_counter_unchanged whiteFrame40 blackFrame40 motion40 16 16 true 0
    hw hb (by decide) (by decide) (by decide)
  refine ⟨?_, by decide, h0, ?_⟩
  · unfold sad3 whiteFrame40 blackFrame40 Texture.load Texture.inBounds
    norm_num
  · rw [h0]
    decide

/-! ## Dispatches and resource copies -/

theorem le_dispatchThreads (n group : ℕ) (hg : 0 < group) : n ≤ dispatchThreads n group := by
  unfold dispatchThreads
  have h1 := Nat.div_add_mod (n + group - 1) group
  have h2 := Nat.mod_lt (n + group - 1) hg
  omega

theorem Texture.dispatch_width {α : Type} (out : Texture α) (tx ty : ℕ)
    (thread : ℕ → ℕ → Option α) : (out.dispatch tx ty thread).width = out.width := rfl

theorem Texture.dispatch_height {α : Type} (out : Texture α) (tx ty : ℕ)
    (thread : ℕ → ℕ → Option α) : (out.dispatch tx ty thread).height = out.height := rfl

/-- A texel inside the output and inside the thread grid reads what its thread
wrote. -/
theorem Texture.load_dispatch {α : Type} [Zero α] (out : Texture α) (tx ty : ℕ)
    (thread : ℕ → ℕ → Option α) (x y : ℕ) (hx : x < out.width) (hy : y < out.height)
    (htx : out.width ≤ tx) (hty : out.height ≤ ty) :
    (out.dispatch tx ty thread).load x y = (thread x y).getD (out.load x y) := by
  have hb : out.inBounds (x : ℤ) (y : ℤ) := by
    unfold Texture.inBounds
    omega
  have hb' : (out.dispatch tx ty thread).inBounds (x : ℤ) (y : ℤ) := hb
  have hc : out.inBounds (x : ℤ) (y : ℤ) ∧ (x : ℤ) < tx ∧ (y : ℤ) < ty := by
    refine ⟨hb, ?_, ?_⟩ <;> omega
  unfold Texture.load
  rw [if_pos hb', if_pos hb]
  unfold Texture.dispatch
  simp only []
  rw [if_pos hc]
  simp

theorem copyResource_width {α : Type} (dst src : Texture α) :
    (copyResource dst src).width = dst.width := by
  unfold copyResource
  split_ifs <;> rfl

theorem copyResource_height {α : Type} (dst src : Texture α) :
    (copyResource dst src).height = dst.height := by
  unfold copyResource
  split_ifs <;> rfl

/-- A copy between resources of the same dimensions makes every load of the
destination equal to the load of the source. -/
theorem copyResource_load {α : Type} [Zero α] (dst src : Texture α)
    (hw : dst.width = src.width) (hh : dst.height = src.height) (x y : ℤ) :
    (copyResource dst src).load x y = src.load x y := by
  unfold copyResource
  rw [if_pos ⟨hw, hh⟩]
  unfold Texture.load Texture.inBounds
  simp only [hw, hh]
  split_ifs <;> rfl

/-! ## Motion-field upsampling -/

theorem Upsample_load (coarse out : Texture Float2) (x y : ℕ)
    (hx : x < out.width) (hy : y < out.height) :
    (Upsample coarse out).load x y
      = Float2.scale 2 (coarse.load (((x / 2 : ℕ) : ℤ)) (((y / 2 : ℕ) : ℤ))) := by
  unfold Upsample
  rw [Texture.load_dispatch out _ _ _ x y hx hy (le_dispatchThreads _ 8 (by norm_num))
    (le_dispatchThreads _ 8 (by norm_num))]
  rfl

theorem Float2.scale_scale (a b : ℚ) (v : Float2) :
    Float2.scale a (Float2.scale b v) = Float2.scale (a * b) v := by
  unfold Float2.scale
  simp only [Float2.mk.injEq]
  constructor <;> ring

theorem Float2.scale_one (v : Float2) : Float2.scale 1 v = v := by
  unfold Float2.scale
  simp

theorem carryUp_load (coarse : Texture Float2) (outs : List (Texture Float2)) :
    ∀ x y : ℕ, chainInBounds outs x y →
      (carryUp coarse outs).load x y
        = Float2.scale ((2 : ℚ) ^ outs.length)
            (coarse.load (((x / 2 ^ outs.length : ℕ) : ℤ)) (((y / 2 ^ outs.length : ℕ) : ℤ))) := by
  induction outs with
  | nil =>
    intro x y _
    simp only [carryUp, List.length_nil, pow_zero, Nat.div_one]
    rw [Float2.scale_one]
  | cons out rest ih =>
    intro x y h
    obtain ⟨⟨hx, hy⟩, hrest⟩ := h
    simp only [carryUp, List.length_cons]
    rw [Upsample_load _ out x y hx hy, ih (x / 2) (y / 2) hrest, Float2.scale_scale]
    have e1 : x / 2 / 2 ^ rest.length = x / 2 ^ (rest.length + 1) := by
      rw [Nat.div_div_eq_div_mul, pow_succ, Nat.mul_comm]
    have e2 : y / 2 / 2 ^ rest.length = y / 2 ^ (rest.length + 1) := by
      rw [Nat.div_div_eq_div_mul, pow_succ, Nat.mul_comm]
    have e3 : (2 : ℚ) * 2 ^ rest.length = 2 ^ (rest.length + 1) := by
      rw [pow_succ]
      ring
    rw [e1, e2, e3]

theorem clearStats_TexMotionLevel1 (st : FlowState) :
    (clearStats st).TexMotionLevel1 = st.TexMotionLevel1 := by
  unfold clearStats
  split_ifs <;> rfl

/-- From start level 2 to end level 1, `OpticalFlow::Dispatch` returns the
output upsampled from the level-1 motion texture, which itself was upsampled
from the level-2 motion texture. -/
theorem DispatchBlockMatching_two_one (st : FlowState) (cur prev : Texture Float4)
    (out : Texture Float2) (blockSize searchRadius : ℤ) (enableSubPixel enableSmoothing : Bool)
    (hk : st.kernelsLoaded = true) :
    (DispatchBlockMatching st cur prev out blockSize searchRadius enableSubPixel enableSmoothing
        2 1).2
      = Upsample (DispatchBlockMatching st cur prev out blockSize searchRadius enableSubPixel
          enableSmoothing 2 1).1.TexMotionLevel1 out ∧
    ∃ m : Texture Float2, m.width = st.TexMotionLevel1.width ∧
      m.height = st.TexMotionLevel1.height ∧
      (DispatchBlockMatching st cur prev out blockSize searchRadius enableSubPixel
          enableSmoothing 2 1).1.TexMotionLevel1
        = Upsample (DispatchBlockMatching st cur prev out blockSize searchRadius enableSubPixel
            enableSmoothing 2 1).1.TexMotionLevel2 m := by
  unfold DispatchBlockMatching levelOneBlock
  simp only [hk, not_true_eq_false, if_false]
  norm_num
  refine ⟨_, ?_, ?_, rfl⟩
  · change (clearStats st).TexMotionLevel1.width = _
    rw [clearStats_TexMotionLevel1]
  · change (clearStats st).TexMotionLevel1.height = _
    rw [clearStats_TexMotionLevel1]

/-- **C18.** `Upsample` writes to every destination pixel `(x, y)` exactly twice
the coarse vector stored at `(x / 2, y / 2)` (integer division); a field carried
up through `k` destination textures reads `2 ^ k` times the coarse vector at
`(x / 2 ^ k, y / 2 ^ k)`; carried up two levels it reads 4 times the coarse
vector at `(x / 4, y / 4)`; and the output `OpticalFlow::Dispatch` returns from
start level 2 and end level 1 reads 4 times the level-2 motion vector at
`(x / 4, y / 4)`. -/
theorem Upsample_scales_by_two (coarse out : Texture Float2) (outs : List (Texture Float2))
    (st : FlowState) (cur prev : Texture Float4) (blockSize searchRadius : ℤ)
    (enableSubPixel enableSmoothing : Bool)
    (x y : ℕ) (hx : x < out.width) (hy : y < out.height)
    (hchain : chainInBounds outs x y)
    (hmx : x / 2 < st.TexMotionLevel1.width) (hmy : y / 2 < st.TexMotionLevel1.height)
    (hk : st.kernelsLoaded = true) :
    (Upsample coarse out).load x y
        = Float2.scale 2 (coarse.load (((x / 2 : ℕ) : ℤ)) (((y / 2 : ℕ) : ℤ))) ∧
    (carryUp coarse outs).load x y
        = Float2.scale ((2 : ℚ) ^ outs.length)
            (coarse.load (((x / 2 ^ outs.length : ℕ) : ℤ)) (((y / 2 ^ outs.length : ℕ) : ℤ))) ∧
    (Upsample (Upsample coarse st.TexMotionLevel1) out).load x y
        = Float2.scale 4 (coarse.load (((x / 4 : ℕ) : ℤ)) (((y / 4 : ℕ) : ℤ))) ∧
    (DispatchBlockMatching st cur prev out blockSize searchRadius enableSubPixel enableSmoothing
        2 1).2.load x y
      = Float2.scale 4
          ((DispatchBlockMatching st cur prev out blockSize searchRadius enableSubPixel
            enableSmoothing 2 1).1.TexMotionLevel2.load (((x / 4 : ℕ) : ℤ)) (((y / 4 : ℕ) : ℤ))) := by
  have two : ∀ (f mid : Texture Float2), x / 2 < mid.width → y / 2 < mid.height →
      (Upsample (Upsample f mid) out).load x y
        = Float2.scale 4 (f.load (((x / 4 : ℕ) : ℤ)) (((y / 4 : ℕ) : ℤ))) := by
    intro f mid h1 h2
    have h := carryUp_load f [out, mid] x y ⟨⟨hx, hy⟩, ⟨h1, h2⟩, trivial⟩
    simp only [carryUp, List.length_cons, List.length_nil] at h
    rw [h]
    norm_num
  refine ⟨Upsample_load coarse out x y hx hy, carryUp_load coarse outs x y hchain,
    two coarse st.TexMotionLevel1 hmx hmy, ?_⟩
  obtain ⟨h1, m, hmw, hmh, h2⟩ := DispatchBlockMatching_two_one st cur prev out blockSize
    searchRadius enableSubPixel enableSmoothing hk
  rw [h1, h2]
  exact two _ m (by rw [hmw]; exact hmx) (by rw [hmh]; exact hmy)

theorem Upsample_scales_by_two_witness :
    (Upsample coarseField (Texture.blank 8 8)).load ((5 : ℕ) : ℤ) ((2 : ℕ) : ℤ)
        = Float2.scale 2 (coarseField.load (((5 / 2 : ℕ) : ℤ)) (((2 / 2 : ℕ) : ℤ))) ∧
    (carryUp coarseField [Texture.blank 8 8, Texture.blank 4 4]).load ((5 : ℕ) : ℤ) ((2 : ℕ) : ℤ)
        = Float2.scale ((2 : ℚ) ^ [Texture.blank 8 8, (Texture.blank 4 4 : Texture Float2)].length)
            (coarseField.load
              (((5 / 2 ^ [Texture.blank 8 8, (Texture.blank 4 4 : Texture Float2)].length : ℕ) : ℤ))
              (((2 / 2 ^ [Texture.blank 8 8, (Texture.blank 4 4 : Texture Float2)].length : ℕ) : ℤ))) ∧
    (Upsample (Upsample coarseField flowPyramid.TexMotionLevel1) (Texture.blank 8 8)).load
        ((5 : ℕ) : ℤ) ((2 : ℕ) : ℤ)
        = Float2.scale 4 (coarseField.load (((5 / 4 : ℕ) : ℤ)) (((2 / 4 : ℕ) : ℤ))) ∧
    (DispatchBlockMatching flowPyramid (Texture.blank 8 8) (Texture.blank 8 8) (Texture.blank 8 8)
        16 8 true true 2 1).2.load ((5 : ℕ) : ℤ) ((2 : ℕ) : ℤ)
      = Float2.scale 4
          ((DispatchBlockMatching flowPyramid (Texture.blank 8 8) (Texture.blank 8 8)
            (Texture.blank 8 8) 16 8 true true 2 1).1.TexMotionLevel2.load
              (((5 / 4 : ℕ) : ℤ)) (((2 / 4 : ℕ) : ℤ))) :=
  Upsample_scales_by_two coarseField (Texture.blank 8 8) [Texture.blank 8 8, Texture.blank 4 4]
    flowPyramid (Texture.blank 8 8) (Texture.blank 8 8) 16 8 true true 5 2
    (by decide) (by decide) ⟨⟨by decide, by decide⟩, ⟨by decide, by decide⟩, trivial⟩
    (by decide) (by decide) rfl

/-! ## The HUD mask -/

/-- **C19.** At every pixel `CS_HUDMask` writes 1 exactly when the summed
absolute colour difference between the current and the previous frame is below
the threshold and, with edge protection enabled, the edge magnitude is at least
0.1, and 0 otherwise; the value is 0 or 1; and the value with edge protection
enabled never exceeds the value with edge protection disabled. -/
theorem hudMask_classification (Threshold : ℚ) (UseEdgeDetect : ℤ)
    (cur prev edge : Texture Float4) (x y : ℤ) :
    (hudMask Threshold UseEdgeDetect cur prev edge x y
      = if (|(cur.load x y).r - (prev.load x y).r| + |(cur.load x y).g - (prev.load x y).g|
              + |(cur.load x y).b - (prev.load x y).b| < Threshold)
            ∧ (UseEdgeDetect ≤ 0 ∨ 1 / 10 ≤ (edge.load x y).r) then 1 else 0) ∧
    (hudMask Threshold UseEdgeDetect cur prev edge x y = 0
      ∨ hudMask Threshold UseEdgeDetect cur prev edge x y = 1) ∧
    hudMask Threshold UseEdgeDetect cur prev edge x y
      ≤ hudMask Threshold 0 cur prev edge x y := by
  unfold hudMask
  simp only []
  by_cases hv : |(cur.load x y).r - (prev.load x y).r| + |(cur.load x y).g - (prev.load x y).g|
      + |(cur.load x y).b - (prev.load x y).b| < Threshold
  · by_cases hu : UseEdgeDetect > 0
    · by_cases he : (edge.load x y).r < 1 / 10
      · have hn : ¬ (UseEdgeDetect ≤ 0 ∨ 1 / 10 ≤ (edge.load x y).r) := by
          rintro (h | h)
          · omega
          · linarith
        rw [if_pos hu, if_pos he, if_pos hv, if_neg (fun h => hn h.2),
          if_neg (lt_irrefl (0 : ℤ))]
        norm_num
      · have hp : UseEdgeDetect ≤ 0 ∨ 1 / 10 ≤ (edge.load x y).r := Or.inr (not_lt.1 he)
        rw [if_pos hu, if_neg he, if_pos hv, if_pos ⟨hv, hp⟩, if_neg (lt_irrefl (0 : ℤ))]
        norm_num
    · have hp : UseEdgeDetect ≤ 0 ∨ 1 / 10 ≤ (edge.load x y).r := Or.inl (not_lt.1 hu)
      rw [if_neg hu, if_pos hv, if_pos ⟨hv, hp⟩, if_neg (lt_irrefl (0 : ℤ))]
      norm_num
  · simp [hv]

/-! ## The scene-change counter across estimation passes -/

/-- One iteration of the search when every candidate inside the frame is at the
same distance `d` from the target: the loop state keeps `done = false` and
`minSAD` in `{999999, d}`, and `minSAD` is `d` once a candidate inside the frame
has been visited. -/
theorem bmVisit_const (p : BMParams) (cur prev : Texture Float4) (posX posY : ℤ)
    (center : ℤ × ℤ) (d : ℚ)
    (hd : ∀ sx sy : ℤ, 0 ≤ sx → sx < p.Width → 0 ≤ sy → sy < p.Height →
      sad3 (cur.load posX posY) (prev.load sx sy) = d)
    (hd1 : 1 / 1000 ≤ d) (hd2 : d < 999999) (st : BMSearch) (o : ℤ × ℤ)
    (hdone : st.done = false) (hst : st.minSAD = 999999 ∨ st.minSAD = d) :
    (bmVisit p cur prev posX posY center st o).done = false ∧
    ((bmVisit p cur prev posX posY center st o).minSAD = 999999 ∨
      (bmVisit p cur prev posX posY center st o).minSAD = d) ∧
    ((st.minSAD = d ∨ ¬ (posX + center.1 + o.1 < 0 ∨ posY + center.2 + o.2 < 0 ∨
        posX + center.1 + o.1 ≥ p.Width ∨ posY + center.2 + o.2 ≥ p.Height)) →
      (bmVisit p cur prev posX posY center st o).minSAD = d) := by
  unfold bmVisit
  simp only []
  rw [if_neg (by rw [hdone]; decide)]
  by_cases hb : posX + center.1 + o.1 < 0 ∨ posY + center.2 + o.2 < 0 ∨
      posX + center.1 + o.1 ≥ p.Width ∨ posY + center.2 + o.2 ≥ p.Height
  · rw [if_pos hb]
    refine ⟨hdone, hst, ?_⟩
    rintro (h | h)
    · exact h
    · exact absurd hb h
  · rw [if_neg hb]
    have hs : sad3 (cur.load posX posY)
        (prev.load (posX + center.1 + o.1) (posY + center.2 + o.2)) = d := by
      apply hd <;> omega
    rw [hs]
    by_cases hlt : d < st.minSAD
    · rw [if_pos hlt]
      refine ⟨?_, Or.inr rfl, fun _ => rfl⟩
      simp only [decide_eq_false_iff_not, not_lt]
      exact hd1
    · rw [if_neg hlt]
      have hm : st.minSAD = d := by
        rcases hst with h | h
        · rw [h] at hlt
          exact absurd hd2 hlt
        · exact h
      exact ⟨hdone, Or.inr hm, fun _ => hm⟩

theorem bmSearch_fold_const (p : BMParams) (cur prev : Texture Float4) (posX posY : ℤ)
    (center : ℤ × ℤ) (d : ℚ)
    (hd : ∀ sx sy : ℤ, 0 ≤ sx → sx < p.Width → 0 ≤ sy → sy < p.Height →
      sad3 (cur.load posX posY) (prev.load sx sy) = d)
    (hd1 : 1 / 1000 ≤ d) (hd2 : d < 999999) (o : ℤ × ℤ)
    (hin : ¬ (posX + center.1 + o.1 < 0 ∨ posY + center.2 + o.2 < 0 ∨
      posX + center.1 + o.1 ≥ p.Width ∨ posY + center.2 + o.2 ≥ p.Height))
    (l : List (ℤ × ℤ)) :
    ∀ st : BMSearch, st.done = false → (st.minSAD = 999999 ∨ st.minSAD = d) →
      (st.minSAD = d ∨ o ∈ l) →
      (l.foldl (bmVisit p cur prev posX posY center) st).minSAD = d := by
  induction l with
  | nil =>
    intro st _ _ h
    rcases h with h | h
    · exact h
    · exact absurd h (List.not_mem_nil o)
  | cons q rest ih =>
    intro st hdone hst h
    rw [List.foldl_cons]
    obtain ⟨v1, v2, v3⟩ := bmVisit_const p cur prev posX posY center d hd hd1 hd2 st q hdone hst
    apply ih _ v1 v2
    rcases h with h | h
    · exact Or.inl (v3 (Or.inl h))
    · rcases List.mem_cons.1 h with h | h
      · subst h
        exact Or.inl (v3 (Or.inr hin))
      · exact Or.inr h

/-- When every candidate inside the frame is at the same distance `d` from the
target and `d` per block pixel and channel exceeds 0.15, the thread increments
the scene-change counter. -/
theorem bmThread_increment (p : BMParams) (cur prev : Texture Float4) (init : Texture Float2)
    (x y : ℤ) (d : ℚ)
    (hd : ∀ sx sy : ℤ, 0 ≤ sx → sx < p.Width → 0 ≤ sy → sy < p.Height →
      sad3 (cur.load x y) (prev.load sx sy) = d)
    (hd1 : 1 / 1000 ≤ d) (hd2 : d < 999999)
    (hinc : d / (((max 1 (wrapInt32 (p.BlockSize * p.BlockSize)) : ℤ) : ℚ) * 3) > 15 / 100)
    (hR : 0 ≤ p.SearchRadius) (hinit : p.UseInitMotion = 0)
    (hx0 : 0 ≤ x) (hx1 : x < p.Width) (hy0 : 0 ≤ y) (hy1 : y < p.Height) :
    ∃ v, bmThread p cur prev init x y = some (v, true) := by
  have hcen : bmSearchCenter p init x y = (0, 0) := by
    unfold bmSearchCenter
    simp [hinit]
  have hmin : (bmSearch p cur prev x y (0, 0)).minSAD = d := by
    unfold bmSearch
    apply bmSearch_fold_const p cur prev x y (0, 0) d hd hd1 hd2 (0, 0)
    · simp only [add_zero]
      omega
    · rfl
    · exact Or.inl rfl
    · exact Or.inr (zero_mem_searchOffsets p.SearchRadius hR)
  have hfast : ¬ ((x + 0 ≥ 0 ∧ y + 0 ≥ 0 ∧ x + 0 < p.Width ∧ y + 0 < p.Height) ∧
      sad3 (cur.load x y) (prev.load (x + 0) (y + 0)) < 1 / 1000) := by
    rintro ⟨_, h⟩
    rw [hd (x + 0) (y + 0) (by omega) (by omega) (by omega) (by omega)] at h
    linarith
  unfold bmThread
  have hnb : ¬ (x ≥ p.Width ∨ y ≥ p.Height) := by omega
  rw [if_neg hnb]
  simp only [hcen]
  rw [if_neg hfast, hmin]
  simp only [hinc, decide_True]
  split_ifs
  · exact ⟨_, rfl⟩
  · exact ⟨_, rfl⟩

theorem bmApply_fold_count (p : BMParams) (cur prev : Texture Float4) (init : Texture Float2)
    (l : List (ℤ × ℤ))
    (hl : ∀ pos ∈ l, ∃ v, bmThread p cur prev init pos.1 pos.2 = some (v, true)) :
    ∀ acc : Texture Float2 × ℕ, acc.2 + l.length < 2 ^ 32 →
      (l.foldl (bmApply p cur prev init) acc).2 = acc.2 + l.length := by
  induction l with
  | nil =>
    intro acc _
    rfl
  | cons q rest ih =>
    intro acc hlt
    rw [List.length_cons] at hlt
    obtain ⟨v, hv⟩ := hl q (List.mem_cons_self q rest)
    have hq : bmApply p cur prev init acc q = (acc.1.store q.1 q.2 v, acc.2 + 1) := by
      unfold bmApply
      rw [hv]
      simp only [if_true]
      rw [Nat.mod_eq_of_lt (by omega)]
    rw [List.foldl_cons, hq, ih (fun pos hpos => hl pos (List.mem_cons_of_mem q hpos)),
      List.length_cons]
    · simp only []
      omega
    · simp only []
      omega

theorem pixelGrid_length (width height : ℕ) : (pixelGrid width height).length = height * width := by
  unfold pixelGrid
  induction height with
  | zero => simp
  | succ n ih =>
    rw [List.range_succ, List.flatMap_append, List.length_append, ih]
    simp
    ring

/-- A block-matching pass without initial guess in which every pixel of the
current frame is at the same large distance `d` from every pixel of the previous
frame adds one to the counter for each pixel. -/
theorem BlockMatching_counter_all (cur prev : Texture Float4) (motion : Texture Float2)
    (blockSize searchRadius : ℤ) (enableSubPixel : Bool) (stats : ℕ) (d : ℚ)
    (hd : ∀ x y sx sy : ℤ, 0 ≤ x → x < cur.width → 0 ≤ y → y < cur.height →
      0 ≤ sx → sx < cur.width → 0 ≤ sy → sy < cur.height →
      sad3 (cur.load x y) (prev.load sx sy) = d)
    (hd1 : 1 / 1000 ≤ d) (hd2 : d < 999999)
    (hinc : d / (((max 1 (wrapInt32 (blockSize * blockSize)) : ℤ) : ℚ) * 3) > 15 / 100)
    (hR : 0 ≤ searchRadius) (hlt : stats + cur.height * cur.width < 2 ^ 32) :
    (BlockMatching cur prev motion none blockSize searchRadius enableSubPixel stats).2
      = stats + cur.height * cur.width := by
  unfold BlockMatching
  simp only []
  rw [bmApply_fold_count, pixelGrid_length]
  · intro pos hpos
    obtain ⟨h1, h2, h3, h4⟩ := pixelGrid_bounds cur.width cur.height pos hpos
    exact bmThread_increment _ cur prev _ pos.1 pos.2 d
      (fun sx sy a b c e => hd pos.1 pos.2 sx sy h1 h2 h3 h4 a b c e) hd1 hd2 hinc hR rfl
      h1 h2 h3 h4
  · rw [pixelGrid_length]
    exact hlt

theorem blackFrame_unitRange : blackFrame.unitRange := by
  intro x y _
  unfold blackFrame
  norm_num

theorem DispatchAdaptive_stats (st : FlowState) (cur prev : Texture Float4)
    (out : Texture Float2) (searchRadius : ℤ) (h : st.adaptiveReady = true) :
    (DispatchAdaptive st cur prev out searchRadius).1
      = { st with stats := (BlockMatching cur prev out none 16 searchRadius true st.stats).2 } := by
  unfold DispatchAdaptive
  simp [h]

theorem CheckConsistency_stats (st : FlowState) (fwd : Texture Float2)
    (bwd : Option (Texture Float2)) (out : Texture Float2) :
    (CheckConsistency st fwd bwd out).1.stats = st.stats := by
  unfold CheckConsistency
  split <;> rfl

/-- On frames with channels in `[0, 1]` and block size from 3 to 46340,
`DispatchBiDirectional` returns the counter it was started with. -/
theorem DispatchBiDirectional_stats (st : FlowState) (cur prev : Texture Float4)
    (out : Texture Float2) (blockSize searchRadius : ℤ)
    (hc : cur.unitRange) (hp : prev.unitRange) (hB : 3 ≤ blockSize) (hB2 : blockSize ≤ 46340)
    (hR : 0 ≤ searchRadius) :
    (DispatchBiDirectional st cur prev out blockSize searchRadius).1.stats = st.stats := by
  have h1 := BlockMatching_counter_unchanged cur prev out blockSize searchRadius true st.stats
    hc hp hB hB2 hR
  unfold DispatchBiDirectional
  simp only []
  cases hb : st.TexMotionBackward with
  | none =>
    simp only []
    split_ifs
    · rw [CheckConsistency_stats]
      exact h1
    · exact h1
  | some back =>
    have h2 := BlockMatching_counter_unchanged prev cur back blockSize searchRadius true
      (BlockMatching cur prev out none blockSize searchRadius true st.stats).2 hp hc hB hB2 hR
    simp only []
    split_ifs
    · rw [CheckConsistency_stats]
      simp only []
      rw [h2, h1]
    · simp only []
      rw [h2, h1]

theorem smoothingStep_stats (enableSmoothing : Bool) (cur : Texture Float4) (st : FlowState)
    (out : Texture Float2) : (smoothingStep enableSmoothing cur st out).1.stats = st.stats := by
  unfold smoothingStep
  split
  · split_ifs <;> rfl
  · rfl

/-- With the kernels and the counter view created, `OpticalFlow::Dispatch`
started at pyramid level 1 or 0 returns the counter at zero. -/
theorem DispatchBlockMatching_stats_zero (st : FlowState) (cur prev : Texture Float4)
    (out : Texture Float2) (blockSize searchRadius : ℤ) (enableSubPixel enableSmoothing : Bool)
    (minLevel : ℤ) (hk : st.kernelsLoaded = true) (hs : st.hasStatsUAV = true) :
    (DispatchBlockMatching st cur prev out blockSize searchRadius enableSubPixel enableSmoothing
      1 minLevel).1.stats = 0 := by
  unfold DispatchBlockMatching
  simp only [hk, not_true_eq_false, if_false]
  have hc : (clearStats st).stats = 0 := by
    unfold clearStats
    simp [hs]
  have h1 : ¬ ((1 : ℤ) > 2) := by decide
  simp only [if_neg h1, le_refl, if_true]
  have h2 : ¬ ((2 : ℤ) ≤ 1) := by decide
  have h3 : ∀ m : ℤ, ¬ ((1 : ℤ) ≥ 2 ∧ m ≤ 2) := fun m h => absurd h.1 (by decide)
  simp only [if_neg h2, if_neg (h3 _)]
  unfold levelOneBlock
  simp only [if_neg (show ¬ ((1 : ℤ) ≥ 2) by decide)]
  split_ifs <;> simp only [smoothingStep_stats] <;> exact hc

theorem hdr_black_sad (x y sx sy : ℤ) (hx0 : 0 ≤ x) (hx1 : x < hdrFrame.width) (hy0 : 0 ≤ y)
    (hy1 : y < hdrFrame.height) (a0 : 0 ≤ sx) (a1 : sx < hdrFrame.width) (b0 : 0 ≤ sy)
    (b1 : sy < hdrFrame.height) :
    sad3 (hdrFrame.load x y) (blackFrame.load sx sy) = 150 := by
  have h1 : hdrFrame.inBounds x y := ⟨hx0, hx1, hy0, hy1⟩
  have h2 : blackFrame.inBounds sx sy := ⟨a0, a1, b0, b1⟩
  unfold Texture.load
  rw [if_pos h1, if_pos h2]
  unfold sad3 hdrFrame blackFrame
  norm_num

/-- **C11 (code bug).** The counter is not reset by `DispatchAdaptive` or
`DispatchBiDirectional`.  From a counter at zero, an adaptive pass on a bright
2 x 2 HDR frame against a black one counts its 4 pixels.  A following pass on
two identical black frames then returns 4 from `DispatchAdaptive` and from
`DispatchBiDirectional`, although the same pass started from a fresh estimator
returns 0; only `Dispatch`, which clears the counter first, returns 0. -/
theorem counter_not_reset_between_passes :
    (DispatchAdaptive flowReady hdrFrame blackFrame staleMotion 8).1.stats = 4 ∧
    (DispatchAdaptive (DispatchAdaptive flowReady hdrFrame blackFrame staleMotion 8).1
      blackFrame blackFrame staleMotion 8).1.stats = 4 ∧
    (DispatchBiDirectional (DispatchAdaptive flowReady hdrFrame blackFrame staleMotion 8).1
      blackFrame blackFrame staleMotion 16 8).1.stats = 4 ∧
    (DispatchAdaptive flowReady blackFrame blackFrame staleMotion 8).1.stats = 0 ∧
    (DispatchBlockMatching (DispatchAdaptive flowReady hdrFrame blackFrame staleMotion 8).1
      blackFrame blackFrame staleMotion 16 8 true true 1 0).1.stats = 0 := by
  have hmax : ((max 1 (wrapInt32 (16 * 16)) : ℤ) : ℚ) = 256 := by
    have : (max 1 (wrapInt32 (16 * 16)) : ℤ) = 256 := by decide
    rw [this]
    norm_num
  have hcount : (BlockMatching hdrFrame blackFrame staleMotion none 16 8 true 0).2 = 4 := by
    have h := BlockMatching_counter_all hdrFrame blackFrame staleMotion 16 8 true 0 150
      hdr_black_sad (by norm_num) (by norm_num) (by rw [hmax]; norm_num) (by decide)
      (by decide)
    rw [h]
    rfl
  have hs1 : (DispatchAdaptive flowReady hdrFrame blackFrame staleMotion 8).1
      = { flowReady with stats := 4 } := by
    rw [DispatchAdaptive_stats flowReady hdrFrame blackFrame staleMotion 8 rfl]
    change ({ flowReady with
      stats := (BlockMatching hdrFrame blackFrame staleMotion none 16 8 true 0).2 } : FlowState)
        = _
    rw [hcount]
  have hkeep : ∀ n : ℕ,
      (BlockMatching blackFrame blackFrame staleMotion none 16 8 true n).2 = n := fun n =>
    BlockMatching_counter_unchanged blackFrame blackFrame staleMotion 16 8 true n
      blackFrame_unitRange blackFrame_unitRange (by decide) (by decide) (by decide)
  refine ⟨?_, ?_, ?_, ?_, ?_⟩
  · rw [hs1]
  · rw [hs1, DispatchAdaptive_stats _ blackFrame blackFrame staleMotion 8 rfl]
    exact hkeep 4
  · rw [hs1, DispatchBiDirectional_stats _ blackFrame blackFrame staleMotion 16 8
      blackFrame_unitRange blackFrame_unitRange (by decide) (by decide) (by decide)]
  · rw [DispatchAdaptive_stats _ blackFrame blackFrame staleMotion 8 rfl]
    exact hkeep 0
  · rw [hs1]
    exact DispatchBlockMatching_stats_zero _ blackFrame blackFrame staleMotion 16 8 true true 0
      rfl rfl

/-! ## The pyramid levels of `OpticalFlow::Dispatch` -/

theorem smoothingStep_off (cur : Texture Float4) (st : FlowState) (out : Texture Float2) :
    (smoothingStep false cur st out).2 = out := by
  unfold smoothingStep
  split <;> simp

theorem DispatchBlockMatching_unwritten (st : FlowState) (cur prev : Texture Float4)
    (out : Texture Float2) (blockSize searchRadius : ℤ) (enableSubPixel : Bool)
    (minLevel : ℤ) :
    (DispatchBlockMatching st cur prev out blockSize searchRadius enableSubPixel false
      0 minLevel).2 = out ∧
    (DispatchBlockMatching st cur prev out blockSize searchRadius enableSubPixel false
      1 minLevel).2 = out ∧
    (DispatchBlockMatching st cur prev out blockSize searchRadius enableSubPixel false
      2 2).2 = out := by
  have h0 : (DispatchBlockMatching st cur prev out blockSize searchRadius enableSubPixel false
      0 minLevel).2 = out := by
    unfold DispatchBlockMatching
    by_cases hk : st.kernelsLoaded = true
    · simp only [hk, not_true_eq_false, if_false]
      have e1 : ¬ ((0 : ℤ) > 2) := by decide
      have e2 : ¬ ((1 : ℤ) ≤ 0) := by decide
      have e3 : ¬ ((2 : ℤ) ≤ 0) := by decide
      have e4 : ∀ m : ℤ, ¬ ((0 : ℤ) ≥ 2 ∧ m ≤ 2) := fun m h => absurd h.1 (by decide)
      have e5 : ∀ m : ℤ, ¬ ((0 : ℤ) ≥ 1 ∧ m ≤ 1) := fun m h => absurd h.1 (by decide)
      simp only [if_neg e1, if_neg e2, if_neg e3, if_neg (e4 _), if_neg (e5 _)]
      simp [smoothingStep_off]
    · simp [hk]
  have h1 : (DispatchBlockMatching st cur prev out blockSize searchRadius enableSubPixel false
      1 minLevel).2 = out := by
    unfold DispatchBlockMatching
    by_cases hk : st.kernelsLoaded = true
    · simp only [hk, not_true_eq_false, if_false]
      have e1 : ¬ ((1 : ℤ) > 2) := by decide
      have e3 : ¬ ((2 : ℤ) ≤ 1) := by decide
      have e4 : ∀ m : ℤ, ¬ ((1 : ℤ) ≥ 2 ∧ m ≤ 2) := fun m h => absurd h.1 (by decide)
      simp only [if_neg e1, if_neg e3, if_neg (e4 _)]
      unfold levelOneBlock
      simp only [if_neg (show ¬ ((1 : ℤ) ≥ 2) by decide)]
      split_ifs <;> simp [smoothingStep_off]
    · simp [hk]
  have h2 : (DispatchBlockMatching st cur prev out blockSize searchRadius enableSubPixel false
      2 2).2 = out := by
    unfold DispatchBlockMatching
    by_cases hk : st.kernelsLoaded = true
    · simp only [hk, not_true_eq_false, if_false]
      have e1 : ¬ ((2 : ℤ) > 2) := by decide
      have e2 : ¬ ((2 : ℤ) < 0) := by decide
      have e5 : ¬ ((2 : ℤ) ≥ 1 ∧ (2 : ℤ) ≤ 1) := fun h => absurd h.2 (by decide)
      simp only [if_neg e1, if_neg e2, if_neg e5]
      simp [smoothingStep_off]
    · simp [hk]
  exact ⟨h0, h1, h2⟩

/-- **C12 (code bug).** With motion smoothing off, `OpticalFlow::Dispatch` in
block-matching mode returns the output texture exactly as it received it when the
start level is 0 or 1 (any end level) and when start and end level are both 2:
the full-resolution pass sits inside the branch taken only from start level 2.
On two identical black frames with start level 0, the output keeps its stale
vector `(5, -3)` at pixel `(0, 0)`, where a full-resolution block-matching pass
writes zero. -/
theorem Dispatch_leaves_output_unwritten (st : FlowState) (cur prev : Texture Float4)
    (out : Texture Float2) (blockSize searchRadius : ℤ) (enableSubPixel : Bool)
    (minLevel : ℤ) :
    (DispatchBlockMatching st cur prev out blockSize searchRadius enableSubPixel false
      0 minLevel).2 = out ∧
    (DispatchBlockMatching st cur prev out blockSize searchRadius enableSubPixel false
      1 minLevel).2 = out ∧
    (DispatchBlockMatching st cur prev out blockSize searchRadius enableSubPixel false
      2 2).2 = out ∧
    (DispatchBlockMatching flowReady blackFrame blackFrame staleMotion 16 8 true false
      0 0).2.load 0 0 = ⟨5, -3⟩ ∧
    (BlockMatching blackFrame blackFrame staleMotion none 16 8 true 0).1.load 0 0 = 0 := by
  obtain ⟨h0, h1, h2⟩ := DispatchBlockMatching_unwritten st cur prev out blockSize searchRadius
    enableSubPixel minLevel
  refine ⟨h0, h1, h2, ?_, ?_⟩
  · rw [(DispatchBlockMatching_unwritten flowReady blackFrame blackFrame staleMotion 16 8 true
      0).1]
    unfold staleMotion Texture.load Texture.inBounds
    norm_num
  · exact BlockMatching_identical blackFrame staleMotion none 16 8 true 0
      (fun t ht => by cases ht) 0 0 (by decide) (by decide)

/-! ## The resource pool across `Capture` -/

@[simp] theorem ensureLowRes_TexCurrent (a b : ℤ) (p : Pipeline) :
    (ensureLowRes a b p).TexCurrent = p.TexCurrent := by
  unfold ensureLowRes
  simp only []
  split_ifs <;> rfl

@[simp] theorem ensureLowRes_TexPrev (a b : ℤ) (p : Pipeline) :
    (ensureLowRes a b p).TexPrev = p.TexPrev := by
  unfold ensureLowRes
  simp only []
  split_ifs <;> rfl

@[simp] theorem ensureLowRes_ready (a b : ℤ) (p : Pipeline) :
    (ensureLowRes a b p).ready = p.ready := by
  unfold ensureLowRes
  simp only []
  split_ifs <;> rfl

@[simp] theorem cycleFrames_TexCurrent (u : Bool) (p : Pipeline) :
    (cycleFrames u p).TexCurrent
      = if p.TexPrev.isSome ∧ p.TexCurrent.isSome then p.TexPrev else p.TexCurrent := by
  unfold cycleFrames
  simp only []
  split_ifs <;> rfl

@[simp] theorem cycleFrames_TexPrev (u : Bool) (p : Pipeline) :
    (cycleFrames u p).TexPrev
      = if p.TexPrev.isSome ∧ p.TexCurrent.isSome then p.TexCurrent else p.TexPrev := by
  unfold cycleFrames
  simp only []
  split_ifs <;> rfl

@[simp] theorem cycleFrames_ready (u : Bool) (p : Pipeline) :
    (cycleFrames u p).ready = p.ready := by
  unfold cycleFrames
  simp only []
  split_ifs <;> rfl

@[simp] theorem captureFrame_TexCurrent (env : PassEnv) (s : PipelineSettings) (u : Bool)
    (bb : Texture Float4) (p : Pipeline) :
    (captureFrame env s u bb p).TexCurrent
      = p.TexCurrent.map (fun t => copyResource t bb) := by
  unfold captureFrame
  simp only []
  split_ifs <;> rfl

@[simp] theorem captureFrame_TexPrev (env : PassEnv) (s : PipelineSettings) (u : Bool)
    (bb : Texture Float4) (p : Pipeline) : (captureFrame env s u bb p).TexPrev = p.TexPrev := by
  unfold captureFrame
  simp only []
  split_ifs <;> rfl

@[simp] theorem captureFrame_ready (env : PassEnv) (s : PipelineSettings) (u : Bool)
    (bb : Texture Float4) (p : Pipeline) : (captureFrame env s u bb p).ready = p.ready := by
  unfold captureFrame
  simp only []
  split_ifs <;> rfl

@[simp] theorem estimateStep_TexCurrent (env : PassEnv) (s : PipelineSettings) (u : Bool)
    (p : Pipeline) : (estimateStep env s u p).TexCurrent = p.TexCurrent := by
  unfold estimateStep
  split_ifs <;> split <;> rfl

@[simp] theorem estimateStep_TexPrev (env : PassEnv) (s : PipelineSettings) (u : Bool)
    (p : Pipeline) : (estimateStep env s u p).TexPrev = p.TexPrev := by
  unfold estimateStep
  split_ifs <;> split <;> rfl

@[simp] theorem estimateStep_ready (env : PassEnv) (s : PipelineSettings) (u : Bool)
    (p : Pipeline) : (estimateStep env s u p).ready = p.ready := by
  unfold estimateStep
  split_ifs <;> split <;> rfl

@[simp] theorem debugViewStep_TexCurrent (env : PassEnv) (s : PipelineSettings)
    (bb : Texture Float4) (p : Pipeline) :
    (debugViewStep env s bb p).TexCurrent = p.TexCurrent := by
  unfold debugViewStep
  split <;> rfl

@[simp] theorem debugViewStep_TexPrev (env : PassEnv) (s : PipelineSettings)
    (bb : Texture Float4) (p : Pipeline) : (debugViewStep env s bb p).TexPrev = p.TexPrev := by
  unfold debugViewStep
  split <;> rfl

@[simp] theorem debugViewStep_ready (env : PassEnv) (s : PipelineSettings)
    (bb : Texture Float4) (p : Pipeline) : (debugViewStep env s bb p).ready = p.ready := by
  unfold debugViewStep
  split <;> rfl

/-- One `Capture` on allocated buffers: the buffers swap roles and the back
buffer is copied into the new current buffer. -/
theorem Capture_frames (env : PassEnv) (s : PipelineSettings) (p : Pipeline)
    (cur prev bb : Texture Float4) (hready : p.ready = true) (hbb : p.backBuffer = some bb)
    (hc : p.TexCurrent = some cur) (hp : p.TexPrev = some prev) :
    (Capture env s p).TexPrev = some cur ∧
    (Capture env s p).TexCurrent = some (copyResource prev bb) ∧
    (Capture env s p).ready = true := by
  unfold Capture
  simp only [hready, not_true_eq_false, if_false, hbb, hc, Option.isNone_some, Bool.false_eq_true]
  split_ifs <;> simp [hc, hp, hready]

/-- **C13.** On allocated buffers of the back buffer's size, `Capture` leaves in
the previous-frame slot exactly the texture that was in the current-frame slot,
and in the current-frame slot a copy of the back buffer; so after capturing a
back buffer showing `frameA` and then one showing `frameB`, the previous slot
reads `frameA` and the current slot reads `frameB` at every position. -/
theorem Capture_rotates_ring (env : PassEnv) (s : PipelineSettings) (p : Pipeline)
    (cur prev imageA imageB : Texture Float4)
    (hready : p.ready = true) (hbb : p.backBuffer = some imageA)
    (hc : p.TexCurrent = some cur) (hp : p.TexPrev = some prev)
    (hpw : prev.width = imageA.width) (hph : prev.height = imageA.height)
    (hcw : cur.width = imageB.width) (hch : cur.height = imageB.height) :
    (Capture env s p).TexPrev = some cur ∧
    (∃ c, (Capture env s p).TexCurrent = some c ∧ ∀ x y, c.load x y = imageA.load x y) ∧
    (∃ a b,
      (Capture env s { Capture env s p with backBuffer := some imageB }).TexPrev = some a ∧
      (Capture env s { Capture env s p with backBuffer := some imageB }).TexCurrent = some b ∧
      (∀ x y, a.load x y = imageA.load x y) ∧ ∀ x y, b.load x y = imageB.load x y) := by
  obtain ⟨h1, h2, h3⟩ := Capture_frames env s p cur prev imageA hready hbb hc hp
  obtain ⟨k1, k2, _⟩ := Capture_frames env s { Capture env s p with backBuffer := some imageB }
    (copyResource prev imageA) cur imageB h3 rfl h2 h1
  exact ⟨h1, ⟨_, h2, copyResource_load prev imageA hpw hph⟩,
    ⟨_, _, k1, k2, copyResource_load prev imageA hpw hph, copyResource_load cur imageB hcw hch⟩⟩

theorem Capture_rotates_ring_witness :
    ringPool.TexCurrent = some samplePrev ∧ ringPool.backBuffer = some frameA ∧
    ((Capture idleEnv nativeSettings ringPool).TexPrev = some samplePrev ∧
    (∃ c, (Capture idleEnv nativeSettings ringPool).TexCurrent = some c ∧
      ∀ x y, c.load x y = frameA.load x y) ∧
    (∃ a b,
      (Capture idleEnv nativeSettings
        { Capture idleEnv nativeSettings ringPool with backBuffer := some sampleCur }).TexPrev
          = some a ∧
      (Capture idleEnv nativeSettings
        { Capture idleEnv nativeSettings ringPool with backBuffer := some sampleCur }).TexCurrent
          = some b ∧
      (∀ x y, a.load x y = frameA.load x y) ∧ ∀ x y, b.load x y = sampleCur.load x y)) :=
  ⟨rfl, rfl, Capture_rotates_ring idleEnv nativeSettings ringPool samplePrev blackFrame frameA
    sampleCur rfl rfl rfl rfl rfl rfl rfl rfl⟩

@[simp] theorem Texture.blank_width {α : Type} [Zero α] (w h : ℕ) :
    (Texture.blank w h : Texture α).width = w := rfl

@[simp] theorem Texture.blank_height {α : Type} [Zero α] (w h : ℕ) :
    (Texture.blank w h : Texture α).height = h := rfl

theorem nativeSettings_scaling : captureUsesScaling nativeSettings = false := by
  unfold captureUsesScaling nativeSettings
  norm_num

theorem nativeSettings_debug : ¬ nativeSettings.DebugViewMode > 0 := by decide

theorem nativeSettings_entry : selectEntry nativeSettings = FlowEntry.adaptive := rfl

theorem poolAt4_fields (env : PassEnv) :
    (poolAt4 env).ready = true ∧
    (poolAt4 env).TexCurrent = some (copyResource (Texture.blank 4 4) (Texture.blank 4 4)) ∧
    (poolAt4 env).TexPrev = some (Texture.blank 4 4) ∧
    (poolAt4 env).TexGenerated = some (Texture.blank 4 4) := by
  unfold poolAt4 Capture
  simp [emptyPool, lazyInit, nativeSettings_scaling, nativeSettings_debug, cycleFrames,
    captureFrame, estimateStep]

theorem halfScale_scaling : captureUsesScaling halfScale = true := by
  unfold captureUsesScaling halfScale
  norm_num

theorem halfScale_debug : ¬ halfScale.DebugViewMode > 0 := by decide

theorem halfScale_entry : selectEntry halfScale = FlowEntry.adaptive := rfl

theorem halfScale_extent : lowResExtent 64 halfScale.RenderScale = 32 := by
  unfold lowResExtent truncToInt halfScale
  norm_num
  decide

theorem poolHalf_fields (env : PassEnv) :
    (poolHalf env).ready = true ∧
    (poolHalf env).TexCurrent = some (copyResource (Texture.blank 64 64) (Texture.blank 64 64)) ∧
    (poolHalf env).TexLowResCurrent
      = some (DispatchScale env.sinFn env.colorStore halfScale.UpscaleMode
          halfScale.LanczosRadius
          (copyResource (Texture.blank 64 64) (Texture.blank 64 64)) (Texture.blank 32 32)) ∧
    (poolHalf env).TexLowResPrev = some (Texture.blank 32 32) ∧
    (poolHalf env).TexLowResMotion
      = some (env.estimate FlowEntry.adaptive
          (DispatchScale env.sinFn env.colorStore halfScale.UpscaleMode halfScale.LanczosRadius
            (copyResource (Texture.blank 64 64) (Texture.blank 64 64)) (Texture.blank 32 32))
          (Texture.blank 32 32) (Texture.blank 32 32)) ∧
    (poolHalf env).TexLowResGenerated = some (Texture.blank 32 32) ∧
    (poolHalf env).TexSharpened = some (Texture.blank 64 64) ∧
    (poolHalf env).TexHUDMask = some (Texture.blank 64 64) ∧
    (poolHalf env).flowSize = some (32, 32) := by
  unfold poolHalf Capture
  simp [emptyPool, lazyInit, halfScale_scaling, halfScale_debug, halfScale_entry,
    halfScale_extent, cycleFrames, captureFrame, estimateStep, ensureLowRes, scaleInto]

theorem poolAt4_motion (env : PassEnv) :
    (poolAt4 env).TexMotion
      = some (env.estimate FlowEntry.adaptive
          (copyResource (Texture.blank 4 4) (Texture.blank 4 4)) (Texture.blank 4 4)
          (Texture.blank 4 4)) := by
  unfold poolAt4 Capture
  simp [emptyPool, lazyInit, nativeSettings_scaling, nativeSettings_debug, cycleFrames,
    captureFrame, estimateStep, nativeSettings_entry]

theorem poolResized_fields (env : PassEnv) :
    (poolResized env).ready = true ∧
    (poolResized env).backBuffer = some (Texture.blank 8 8) ∧
    (poolResized env).TexCurrent = some (copyResource (Texture.blank 4 4) (Texture.blank 4 4)) ∧
    (poolResized env).TexPrev = some (Texture.blank 4 4) ∧
    (poolResized env).TexGenerated = some (Texture.blank 4 4) ∧
    (poolResized env).TexMotion = (poolAt4 env).TexMotion := by
  obtain ⟨h1, h2, h3, h4⟩ := poolAt4_fields env
  exact ⟨h1, rfl, h2, h3, h4, rfl⟩

/-- **C14 (code bug).** The native buffers are created only while `m_TexCurrent`
is null and `hkResizeBuffers` leaves the pool alone.  A pool first used on a
4 x 4 back buffer, then resized to 8 x 8 through the hook, still has 4 x 4
current, previous, generated and motion buffers after the next `Capture`, while
the back buffer is 8 x 8; the low-resolution buffers, in contrast, are recreated
by `Capture` when their size no longer matches. -/
theorem pool_keeps_size_after_resize (env : PassEnv) :
    (Capture env nativeSettings (poolResized env)).backBuffer.map Texture.size = some (8, 8) ∧
    (Capture env nativeSettings (poolResized env)).TexCurrent.map Texture.size = some (4, 4) ∧
    (Capture env nativeSettings (poolResized env)).TexPrev.map Texture.size = some (4, 4) ∧
    (Capture env nativeSettings (poolResized env)).TexGenerated.map Texture.size
      = some (4, 4) ∧
    (Capture idleEnv nativeSettings (poolResized idleEnv)).TexMotion.map Texture.size
      = some (4, 4) ∧
    (ensureLowRes 64 64 { emptyPool (Texture.blank 128 128) with
      TexLowResCurrent := some (Texture.blank 32 32) }).TexLowResCurrent.map Texture.size
      = some (64, 64) := by
  obtain ⟨h1, h2, h3, h4, h5, h6⟩ := poolResized_fields env
  obtain ⟨k1, k2, k3, k4, k5, k6⟩ := poolResized_fields idleEnv
  have k7 := poolAt4_motion idleEnv
  refine ⟨?_, ?_, ?_, ?_, ?_, ?_⟩
  · unfold Capture
    simp [h1, h2, h3, h4, h5, nativeSettings_scaling, nativeSettings_debug, cycleFrames,
      captureFrame, estimateStep, Texture.size]
    split <;> simp [h2]
  · rw [(Capture_frames env nativeSettings (poolResized env) _ _ _ h1 h2 h3 h4).2.1]
    simp [Texture.size, copyResource_width, copyResource_height]
  · rw [(Capture_frames env nativeSettings (poolResized env) _ _ _ h1 h2 h3 h4).1]
    simp [Texture.size, copyResource_width, copyResource_height]
  · unfold Capture
    simp [h1, h2, h3, h4, h5, nativeSettings_scaling, nativeSettings_debug, cycleFrames,
      captureFrame, estimateStep, Texture.size]
    split <;> simp [h5]
  · unfold Capture
    have k8 : (poolAt4 idleEnv).TexMotion = some (Texture.blank 4 4) := k7
    have k9 : ∀ (e : FlowEntry) (c q : Texture Float4) (m : Texture Float2),
        idleEnv.estimate e c q m = m := fun _ _ _ _ => rfl
    simp [k1, k2, k3, k4, k5, k6, k8, k9, nativeSettings_scaling, nativeSettings_debug,
      cycleFrames, captureFrame, estimateStep, Texture.size, nativeSettings_entry]
  · simp [ensureLowRes, emptyPool, Texture.size]

theorem poolHalf_native (env : PassEnv) :
    (poolHalf env).backBuffer = some (Texture.blank 64 64) ∧
    (poolHalf env).TexPrev = some (Texture.blank 64 64) ∧
    (poolHalf env).TexGenerated = some (Texture.blank 64 64) := by
  unfold poolHalf Capture
  simp [emptyPool, lazyInit, halfScale_scaling, halfScale_debug, halfScale_entry,
    halfScale_extent, cycleFrames, captureFrame, estimateStep, ensureLowRes, scaleInto]

theorem halfScale_present : presentGeneratedUsesScaling halfScale = true := by
  unfold presentGeneratedUsesScaling halfScale
  norm_num

theorem halfScale_split : halfScale.EnableSplitScreen = false := rfl

/-- **C15 (code bug).** At render scale 0.5 on a 64 x 64 back buffer, the
synthesis pass of `PresentGenerated` is called with 32 x 32 current, previous
and output textures together with the 64 x 64 scratch texture of the
synthesizer, whose mask texture is 64 x 64 as well; and after the render scale
returns to 1, `Capture` runs the estimation on the 64 x 64 current frame while
the estimator's scratch buffers keep the 32 x 32 size of its last
initialisation. -/
theorem pass_mixes_buffer_sizes (env : PassEnv) (factor : ℚ) :
    (∃ c q m g t,
      (poolHalf env).TexLowResCurrent = some c ∧ (poolHalf env).TexLowResPrev = some q ∧
      (poolHalf env).TexLowResMotion = some m ∧ (poolHalf env).TexLowResGenerated = some g ∧
      (poolHalf env).TexSharpened = some t ∧
      (PresentGenerated env halfScale factor (poolHalf env)).1.TexLowResGenerated
        = some (env.interpolation halfScale.DebugViewMode factor halfScale.RcasStrength
            c q m g (some t)).1 ∧
      c.size = (32, 32) ∧ q.size = (32, 32) ∧ g.size = (32, 32) ∧ t.size = (64, 64)) ∧
    (poolHalf env).TexHUDMask.map Texture.size = some (64, 64) ∧
    (Capture env nativeSettings (poolHalf env)).TexCurrent.map Texture.size = some (64, 64) ∧
    (Capture env nativeSettings (poolHalf env)).flowSize = some (32, 32) := by
  obtain ⟨h1, h2, h3, h4, h5, h6, h7, h8, h9⟩ := poolHalf_fields env
  obtain ⟨k1, k2, k3⟩ := poolHalf_native env
  refine ⟨⟨_, _, _, _, _, h3, h4, h5, h6, h7, ?_, rfl, rfl, rfl, rfl⟩, ?_, ?_, ?_⟩
  · unfold PresentGenerated
    simp [h1, h3, h4, h5, h6, h7, k1, k3, halfScale_present, halfScale_split, scaleInto]
    split <;> simp
  · rw [h8]
    rfl
  · rw [(Capture_frames env nativeSettings (poolHalf env) _ _ _ h1 k1 h2 k2).2.1]
    simp [Texture.size, copyResource_width, copyResource_height]
  · unfold Capture
    simp [h1, h2, h9, k1, k2, nativeSettings_scaling, nativeSettings_debug, cycleFrames,
      captureFrame, estimateStep]
    split <;> simp [h9]

theorem nearNative_scaling : captureUsesScaling nearNative = true := by
  unfold captureUsesScaling nearNative
  norm_num

theorem nearNative_present : presentGeneratedUsesScaling nearNative = true := by
  unfold presentGeneratedUsesScaling nearNative
  norm_num

theorem nearNative_restore : restoreUsesScaling nearNative = false := by
  unfold restoreUsesScaling nearNative
  norm_num

theorem nearNative_debug : ¬ nearNative.DebugViewMode > 0 := by decide

theorem nearNative_rcas : ¬ nearNative.RcasStrength > 0 := by
  unfold nearNative
  norm_num

theorem nearNative_extent : lowResExtent 64 nearNative.RenderScale = 62 := by
  unfold lowResExtent truncToInt nearNative
  norm_num
  decide

theorem poolNear_fields (env : PassEnv) :
    (poolNear env).ready = true ∧
    (poolNear env).backBuffer = some (Texture.blank 64 64) ∧
    (poolNear env).TexCurrent = some (copyResource (Texture.blank 64 64) (Texture.blank 64 64)) ∧
    (poolNear env).TexLowResCurrent
      = some (DispatchScale env.sinFn env.colorStore nearNative.UpscaleMode
          nearNative.LanczosRadius
          (copyResource (Texture.blank 64 64) (Texture.blank 64 64)) (Texture.blank 62 62)) ∧
    (poolNear env).TexSharpened = some (Texture.blank 64 64) ∧
    (poolNear env).TexGenerated = some (Texture.blank 64 64) := by
  unfold poolNear Capture
  simp [emptyPool, lazyInit, nearNative_scaling, nearNative_debug,
    nearNative_extent, cycleFrames, captureFrame, estimateStep, ensureLowRes, scaleInto]

/-- **C16 (code bug).** At `RenderScale = 0.99` the three methods disagree:
`Capture` and `PresentGenerated` test `RenderScale < 1.0` and take the
reduced-resolution path (on a 64 x 64 back buffer `Capture` downscales into
62 x 62 buffers), while `RestoreOriginal` tests `RenderScale < 0.99` and takes
the native path: it copies the full-size captured frame to the back buffer and
leaves the generated-frame buffer as it was, without running the scaler. -/
theorem scaling_decisions_disagree (env : PassEnv) :
    captureUsesScaling nearNative = true ∧
    presentGeneratedUsesScaling nearNative = true ∧
    restoreUsesScaling nearNative = false ∧
    (poolNear env).TexLowResCurrent.map Texture.size = some (62, 62) ∧
    (RestoreOriginal env nearNative (poolNear env)).backBuffer
      = some (copyResource (Texture.blank 64 64)
          (copyResource (Texture.blank 64 64) (Texture.blank 64 64))) ∧
    (RestoreOriginal env nearNative (poolNear env)).TexGenerated
      = (poolNear env).TexGenerated := by
  obtain ⟨h1, h2, h3, h4, h5, h6⟩ := poolNear_fields env
  refine ⟨nearNative_scaling, nearNative_present, nearNative_restore, ?_, ?_, ?_⟩
  · rw [h4]
    rfl
  · unfold RestoreOriginal
    simp [h1, h2, h3, h5, nearNative_debug, restoreClean, nearNative_restore, nearNative_rcas]
    split <;> simp_all [nearNative]
  · unfold RestoreOriginal
    simp [h1, h2, h3, h5, nearNative_debug, restoreClean, nearNative_restore, nearNative_rcas]
    split <;> simp_all [nearNative]

/-! ## Sharpening of the real frame -/

/-- At native resolution with debug view and split screen off,
`RestoreOriginal` runs the sharpening pass from the current frame into the
generated-frame buffer and copies that buffer when the strength is positive, and
copies the current frame otherwise. -/
theorem RestoreOriginal_native (env : PassEnv) (s : PipelineSettings) (p : Pipeline)
    (cur gen bb : Texture Float4) (hready : p.ready = true) (hc : p.TexCurrent = some cur)
    (hg : p.TexGenerated = some gen) (hbb : p.backBuffer = some bb)
    (hscale : s.RenderScale = 1) (hdbg : s.DebugViewMode ≤ 0)
    (hsplit : s.EnableSplitScreen = false) :
    (RestoreOriginal env s p).backBuffer
      = if s.RcasStrength > 0 then
          some (copyResource bb (DispatchRCAS p.rcasLoaded cur gen s.RcasStrength))
        else some (copyResource bb cur) := by
  have hd : ¬ s.DebugViewMode > 0 := by omega
  have hr : restoreUsesScaling s = false := by
    unfold restoreUsesScaling
    rw [hscale]
    norm_num
  unfold RestoreOriginal
  simp only [hc, hbb, hready, not_true_eq_false, if_false, hsplit, if_neg hd]
  unfold restoreClean
  simp only [hr, Bool.false_eq_true, false_and, if_false, hg]
  split_ifs with h1 h2 h3
  · rfl
  · simp at h1 h2
    exact absurd h1 (not_lt.2 h2)
  · simp at h1 h3
    exact absurd h3 (not_lt.2 h1)
  · rfl

theorem rcasThread_isSome (Sharpness : ℚ) (input : Texture Float4) (x y : ℕ)
    (hx : x < input.width) (hy : y < input.height) :
    ∃ v, rcasThread Sharpness input x y = some v := by
  unfold rcasThread
  rw [if_neg (by omega)]
  exact ⟨_, rfl⟩

/-- Outside the interval `(0, 0.001]`: at native resolution with debug view and
split screen off, the sharpening kernel loaded and all buffers of the current
frame's size, for every strength above 0.001 each pixel `RestoreOriginal` writes
to the back buffer is the value the RCAS kernel computes from the captured
current frame, and for strength 0 it is the pixel of the captured current
frame. -/
theorem RestoreOriginal_sharpens (env : PassEnv) (s : PipelineSettings) (p : Pipeline)
    (cur gen bb : Texture Float4) (hready : p.ready = true) (hrcas : p.rcasLoaded = true)
    (hc : p.TexCurrent = some cur) (hg : p.TexGenerated = some gen)
    (hbb : p.backBuffer = some bb)
    (hgw : gen.width = cur.width) (hgh : gen.height = cur.height)
    (hbw : bb.width = cur.width) (hbh : bb.height = cur.height)
    (hscale : s.RenderScale = 1) (hdbg : s.DebugViewMode ≤ 0)
    (hsplit : s.EnableSplitScreen = false)
    (hs : 1 / 1000 < s.RcasStrength ∨ s.RcasStrength = 0) :
    ∃ out, (RestoreOriginal env s p).backBuffer = some out ∧
      ∀ x y : ℕ, x < cur.width → y < cur.height →
        (1 / 1000 < s.RcasStrength → rcasThread s.RcasStrength cur x y = some (out.load x y)) ∧
        (s.RcasStrength = 0 → out.load x y = cur.load x y) := by
  have h := RestoreOriginal_native env s p cur gen bb hready hc hg hbb hscale hdbg hsplit
  rcases hs with hs | hs
  · have hpos : s.RcasStrength > 0 := by linarith
    rw [if_pos hpos] at h
    refine ⟨_, h, ?_⟩
    intro x y hx hy
    refine ⟨fun _ => ?_, fun h0 => ?_⟩
    · have hno : ¬ (¬ p.rcasLoaded = true ∨ s.RcasStrength ≤ 1 / 1000) := by
        rintro (h1 | h1)
        · exact h1 hrcas
        · linarith
      obtain ⟨v, hv⟩ := rcasThread_isSome s.RcasStrength cur x y hx hy
      have hw : (DispatchRCAS p.rcasLoaded cur gen s.RcasStrength).width = gen.width := by
        unfold DispatchRCAS
        rw [if_neg hno]
        rfl
      have hh : (DispatchRCAS p.rcasLoaded cur gen s.RcasStrength).height = gen.height := by
        unfold DispatchRCAS
        rw [if_neg hno]
        rfl
      rw [copyResource_load bb _ (by rw [hw, hgw, hbw]) (by rw [hh, hgh, hbh])]
      unfold DispatchRCAS
      rw [if_neg hno, Texture.load_dispatch gen _ _ _ x y (by omega) (by omega)
        (by rw [hgw]; exact le_dispatchThreads _ 8 (by norm_num))
        (by rw [hgh]; exact le_dispatchThreads _ 8 (by norm_num)), hv]
      rfl
    · rw [h0] at hs
      norm_num at hs
  · have hnpos : ¬ s.RcasStrength > 0 := by
      rw [hs]
      norm_num
    rw [if_neg hnpos] at h
    refine ⟨_, h, ?_⟩
    intro x y _ _
    refine ⟨fun h1 => ?_, fun _ => copyResource_load bb cur hbw hbh _ _⟩
    rw [hs] at h1
    norm_num at h1

theorem RestoreOriginal_sharpens_witness :
    (1 : ℚ) / 1000 < sharpSettings.RcasStrength ∧
    ∃ out, (RestoreOriginal idleEnv sharpSettings stalePool).backBuffer = some out ∧
      ∀ x y : ℕ, x < whiteFrame.width → y < whiteFrame.height →
        (1 / 1000 < sharpSettings.RcasStrength →
          rcasThread sharpSettings.RcasStrength whiteFrame x y = some (out.load x y)) ∧
        (sharpSettings.RcasStrength = 0 → out.load x y = whiteFrame.load x y) :=
  ⟨by norm_num [sharpSettings],
    RestoreOriginal_sharpens idleEnv sharpSettings stalePool whiteFrame blackFrame frameA
      rfl rfl rfl rfl rfl rfl rfl rfl rfl rfl (by decide) rfl
      (Or.inl (by norm_num [sharpSettings]))⟩

/-- **C20 (code bug).** With sharpening strength 0.0005, which is positive,
`RestoreOriginal` takes its sharpening branch (it tests `RcasStrength > 0.0f`,
under the comment "[Flicker Fix] Apply RCAS to the Real Frame too!") and copies
the generated-frame buffer to the back buffer, but `Sharpening::Dispatch`
returns before its kernel for strengths up to 0.001 and never writes that
buffer: the stale black image is presented, while the RCAS kernel applied to the
white current frame gives white. -/
theorem RestoreOriginal_faint_strength_stale :
    0 < faintSettings.RcasStrength ∧
    rcasThread faintSettings.RcasStrength whiteFrame 0 0 = some ⟨1, 1, 1, 1⟩ ∧
    ∃ out, (RestoreOriginal idleEnv faintSettings stalePool).backBuffer = some out ∧
      out.load 0 0 = ⟨0, 0, 0, 1⟩ := by
  have hpos : faintSettings.RcasStrength > 0 := by norm_num [faintSettings]
  have h := RestoreOriginal_native idleEnv faintSettings stalePool whiteFrame blackFrame frameA
    rfl rfl rfl rfl rfl (by decide) rfl
  rw [if_pos hpos] at h
  refine ⟨hpos, ?_, _, h, ?_⟩
  · unfold rcasThread
    rw [if_neg (by decide)]
    simp only [faintSettings, whiteFrame, Texture.load, Texture.inBounds]
    norm_num [saturate]
  · have hd : DispatchRCAS stalePool.rcasLoaded whiteFrame blackFrame faintSettings.RcasStrength
        = blackFrame := by
      unfold DispatchRCAS
      rw [if_pos (Or.inr (by norm_num [faintSettings]))]
    rw [hd, copyResource_load frameA blackFrame rfl rfl]
    rfl

/-! ## Round-trip scaling of a linear gradient -/

theorem bilinear_affine (a b c : Float4) (fx fy i0 i1 j0 j1 : ℚ) :
    Float4.add
      (Float4.add (Float4.scale ((1 - fx) * (1 - fy)) (affineAt a b c i0 j0))
        (Float4.scale (fx * (1 - fy)) (affineAt a b c i1 j0)))
      (Float4.add (Float4.scale ((1 - fx) * fy) (affineAt a b c i0 j1))
        (Float4.scale (fx * fy) (affineAt a b c i1 j1)))
    = affineAt a b c ((1 - fx) * i0 + fx * i1) ((1 - fy) * j0 + fy * j1) := by
  rw [Float4.ext_iff']
  simp only [affineAt, Float4.add, Float4.scale, Float4.zipWith]
  refine ⟨?_, ?_, ?_, ?_⟩ <;> ring

/-- Bilinear sampling of a texture whose clamped texels are affine in
coordinates `gx i`, `gy j` returns the affine colour at the blended
coordinates. -/
theorem sampleLinear_affine (t : Texture Float4) (a b c : Float4) (gx gy : ℤ → ℚ) (u v : ℚ)
    (ht : ∀ i j : ℤ, t.texelClamped i j = affineAt a b c (gx i) (gy j))
    (x0 y0 : ℤ) (fx fy : ℚ)
    (hx0 : ⌊u * (t.width : ℚ) - 1 / 2⌋ = x0) (hfx : u * (t.width : ℚ) - 1 / 2 - (x0 : ℚ) = fx)
    (hy0 : ⌊v * (t.height : ℚ) - 1 / 2⌋ = y0)
    (hfy : v * (t.height : ℚ) - 1 / 2 - (y0 : ℚ) = fy) :
    t.sampleLinear u v
      = affineAt a b c ((1 - fx) * gx x0 + fx * gx (x0 + 1))
          ((1 - fy) * gy y0 + fy * gy (y0 + 1)) := by
  unfold Texture.sampleLinear
  simp only [hx0, hy0, hfx, hfy, ht]
  exact bilinear_affine a b c fx fy _ _ _ _

theorem clampIndex_range (i : ℤ) (n : ℕ) (hn : 0 < n) :
    0 ≤ Texture.clampIndex i n ∧ Texture.clampIndex i n < n := by
  unfold Texture.clampIndex
  omega

theorem DispatchScale_load (sinFn : ℚ → ℚ) (store : Float4 → Float4) (mode radius : ℤ)
    (input output : Texture Float4)
    (x y : ℕ) (hx : x < output.width) (hy : y < output.height) :
    (DispatchScale sinFn store mode radius input output).load x y
      = store (upscaleThread sinFn mode radius input output.width output.height x y) := by
  unfold DispatchScale
  rw [Texture.load_dispatch output _ _ _ x y hx hy (le_dispatchThreads _ 16 (by norm_num))
    (le_dispatchThreads _ 16 (by norm_num))]
  rfl

/-- The bilinear downscale of the gradient to half size computes for texel
`(x, y)` the gradient's value at `(2 x + 1/2, 2 y + 1/2)`. -/
theorem downThread_affine (sinFn : ℚ → ℚ) (radius : ℤ) (w h : ℕ) (a b c : Float4)
    (x y : ℕ) (hx : x < w) (hy : y < h) :
    upscaleThread sinFn 2 radius (affineImage (2 * w) (2 * h) a b c) w h x y
      = affineAt a b c (2 * (x : ℚ) + 1 / 2) (2 * (y : ℚ) + 1 / 2) := by
  have hwq : (w : ℚ) ≠ 0 := by
    have : 0 < w := by omega
    exact_mod_cast (Nat.pos_iff_ne_zero.1 this)
  have hhq : (h : ℚ) ≠ 0 := by
    have : 0 < h := by omega
    exact_mod_cast (Nat.pos_iff_ne_zero.1 this)
  unfold upscaleThread
  simp only [if_neg (show ¬ ((2 : ℤ) = 1) by decide), if_true]
  have hpx : ((x : ℚ) + 1 / 2) / (w : ℚ) * (((affineImage (2 * w) (2 * h) a b c).width : ℕ) : ℚ)
      - 1 / 2 = (((2 * x : ℕ) : ℤ) : ℚ) + 1 / 2 := by
    change ((x : ℚ) + 1 / 2) / (w : ℚ) * (((2 * w : ℕ) : ℚ)) - 1 / 2 = _
    push_cast
    field_simp
    ring
  have hpy : ((y : ℚ) + 1 / 2) / (h : ℚ) * (((affineImage (2 * w) (2 * h) a b c).height : ℕ) : ℚ)
      - 1 / 2 = (((2 * y : ℕ) : ℤ) : ℚ) + 1 / 2 := by
    change ((y : ℚ) + 1 / 2) / (h : ℚ) * (((2 * h : ℕ) : ℚ)) - 1 / 2 = _
    push_cast
    field_simp
    ring
  have hfl : ∀ z : ℤ, ⌊(z : ℚ) + 1 / 2⌋ = z := by
    intro z
    rw [Int.floor_eq_iff]
    constructor <;> linarith
  rw [sampleLinear_affine (affineImage (2 * w) (2 * h) a b c) a b c
    (fun i => ((Texture.clampIndex i (2 * w) : ℤ) : ℚ))
    (fun j => ((Texture.clampIndex j (2 * h) : ℤ) : ℚ)) _ _ (fun i j => rfl)
    ((2 * x : ℕ) : ℤ) ((2 * y : ℕ) : ℤ) (1 / 2) (1 / 2)
    (by rw [hpx]; exact hfl _) (by rw [hpx]; ring) (by rw [hpy]; exact hfl _)
    (by rw [hpy]; ring)]
  have c1 : Texture.clampIndex ((2 * x : ℕ) : ℤ) (2 * w) = ((2 * x : ℕ) : ℤ) :=
    Texture.clampIndex_of_lt (by omega) (by omega)
  have c2 : Texture.clampIndex (((2 * x : ℕ) : ℤ) + 1) (2 * w) = ((2 * x : ℕ) : ℤ) + 1 :=
    Texture.clampIndex_of_lt (by omega) (by omega)
  have c3 : Texture.clampIndex ((2 * y : ℕ) : ℤ) (2 * h) = ((2 * y : ℕ) : ℤ) :=
    Texture.clampIndex_of_lt (by omega) (by omega)
  have c4 : Texture.clampIndex (((2 * y : ℕ) : ℤ) + 1) (2 * h) = ((2 * y : ℕ) : ℤ) + 1 :=
    Texture.clampIndex_of_lt (by omega) (by omega)
  simp only [c1, c2, c3, c4]
  push_cast
  congr 1 <;> ring

theorem effCoord_eval (n X : ℕ) (z c0 c1 : ℤ) (hz : ⌊(X : ℚ) / 2 - 1 / 4⌋ = z)
    (h0 : Texture.clampIndex z n = c0) (h1 : Texture.clampIndex (z + 1) n = c1) :
    effCoord n X = (1 - ((X : ℚ) / 2 - 1 / 4 - (z : ℚ))) * (2 * (c0 : ℚ) + 1 / 2)
      + ((X : ℚ) / 2 - 1 / 4 - (z : ℚ)) * (2 * (c1 : ℚ) + 1 / 2) := by
  unfold effCoord
  simp only [hz, h0, h1]

theorem floor_even (k : ℕ) : ⌊((2 * k : ℕ) : ℚ) / 2 - 1 / 4⌋ = (k : ℤ) - 1 := by
  rw [Int.floor_eq_iff]
  push_cast
  constructor <;> linarith

theorem floor_odd (k : ℕ) : ⌊((2 * k + 1 : ℕ) : ℚ) / 2 - 1 / 4⌋ = (k : ℤ) := by
  rw [Int.floor_eq_iff]
  push_cast
  constructor <;> linarith

/-- Away from the first and the last index of the axis the round trip
reproduces the position exactly. -/
theorem effCoord_interior (n X : ℕ) (h1 : 1 ≤ X) (h2 : X + 2 ≤ 2 * n) :
    effCoord n X = (X : ℚ) := by
  rcases Nat.even_or_odd' X with ⟨k, hk | hk⟩
  · subst hk
    have c0 : Texture.clampIndex ((k : ℤ) - 1) n = (k : ℤ) - 1 :=
      Texture.clampIndex_of_lt (by omega) (by omega)
    have c1 : Texture.clampIndex ((k : ℤ) - 1 + 1) n = (k : ℤ) := by
      rw [sub_add_cancel]
      exact Texture.clampIndex_of_lt (by omega) (by omega)
    rw [effCoord_eval n (2 * k) _ _ _ (floor_even k) c0 c1]
    push_cast
    ring
  · subst hk
    have c0 : Texture.clampIndex (k : ℤ) n = (k : ℤ) :=
      Texture.clampIndex_of_lt (by omega) (by omega)
    have c1 : Texture.clampIndex ((k : ℤ) + 1) n = (k : ℤ) + 1 :=
      Texture.clampIndex_of_lt (by omega) (by omega)
    rw [effCoord_eval n (2 * k + 1) _ _ _ (floor_odd k) c0 c1]
    push_cast
    ring

/-- At every index of the axis the round trip reproduces a position at most
half a pixel away. -/
theorem effCoord_near (n X : ℕ) (hX : X < 2 * n) : |effCoord n X - (X : ℚ)| ≤ 1 / 2 := by
  by_cases hin : 1 ≤ X ∧ X + 2 ≤ 2 * n
  · rw [effCoord_interior n X hin.1 hin.2, sub_self, abs_zero]
    norm_num
  · rcases Nat.even_or_odd' X with ⟨k, hk | hk⟩
    · subst hk
      have hk0 : k = 0 := by omega
      subst hk0
      have c0 : Texture.clampIndex (((0 : ℕ) : ℤ) - 1) n = 0 := by
        unfold Texture.clampIndex
        omega
      have c1 : Texture.clampIndex (((0 : ℕ) : ℤ) - 1 + 1) n = 0 := by
        unfold Texture.clampIndex
        omega
      rw [effCoord_eval n (2 * 0) _ _ _ (floor_even 0) c0 c1]
      norm_num
      exact le_of_eq (abs_of_pos (by norm_num))
    · subst hk
      have hk1 : k + 1 = n := by omega
      have c0 : Texture.clampIndex (k : ℤ) n = (k : ℤ) :=
        Texture.clampIndex_of_lt (by omega) (by omega)
      have c1 : Texture.clampIndex ((k : ℤ) + 1) n = (k : ℤ) := by
        unfold Texture.clampIndex
        omega
      rw [effCoord_eval n (2 * k + 1) _ _ _ (floor_odd k) c0 c1]
      push_cast
      have e : (1 - (((2 : ℚ) * (k : ℚ) + 1) / 2 - 1 / 4 - (k : ℚ))) * (2 * (k : ℚ) + 1 / 2)
          + (((2 : ℚ) * (k : ℚ) + 1) / 2 - 1 / 4 - (k : ℚ)) * (2 * (k : ℚ) + 1 / 2)
          - (2 * (k : ℚ) + 1) = -(1 / 2) := by ring
      rw [e, abs_neg]
      exact le_of_eq (abs_of_pos (by norm_num))

theorem sampleLinear_eq_bilerp (t : Texture Float4) (u v : ℚ) (x0 y0 : ℤ) (fx fy : ℚ)
    (hx0 : ⌊u * (t.width : ℚ) - 1 / 2⌋ = x0) (hfx : u * (t.width : ℚ) - 1 / 2 - (x0 : ℚ) = fx)
    (hy0 : ⌊v * (t.height : ℚ) - 1 / 2⌋ = y0)
    (hfy : v * (t.height : ℚ) - 1 / 2 - (y0 : ℚ) = fy) :
    t.sampleLinear u v
      = bilerp fx fy (t.texelClamped x0 y0) (t.texelClamped (x0 + 1) y0)
          (t.texelClamped x0 (y0 + 1)) (t.texelClamped (x0 + 1) (y0 + 1)) := by
  unfold Texture.sampleLinear bilerp
  simp only [hx0, hy0, hfx, hfy]

/-- The texel the half-size image holds at a clamped position: the stored value
of the gradient at the centre of the block it covers. -/
theorem lowRes_texelClamped (sinFn : ℚ → ℚ) (store : Float4 → Float4) (radius : ℤ) (w h : ℕ)
    (a b c : Float4) (low : Texture Float4) (hw : 0 < w) (hh : 0 < h)
    (hlw : low.width = w) (hlh : low.height = h) (i j : ℤ) :
    (DispatchScale sinFn store 2 radius (affineImage (2 * w) (2 * h) a b c) low).texelClamped i j
      = store (blockCentre a b c w h i j) := by
  obtain ⟨i0, i1⟩ := clampIndex_range i w hw
  obtain ⟨j0, j1⟩ := clampIndex_range j h hh
  have hd := DispatchScale_load sinFn store 2 radius (affineImage (2 * w) (2 * h) a b c) low
    (Texture.clampIndex i w).toNat (Texture.clampIndex j h).toNat (by omega) (by omega)
  rw [hlw, hlh, downThread_affine sinFn radius w h a b c _ _ (by omega) (by omega)] at hd
  have ei : (((Texture.clampIndex i w).toNat : ℕ) : ℤ) = Texture.clampIndex i w :=
    Int.toNat_of_nonneg i0
  have ej : (((Texture.clampIndex j h).toNat : ℕ) : ℤ) = Texture.clampIndex j h :=
    Int.toNat_of_nonneg j0
  have eiq : (((Texture.clampIndex i w).toNat : ℕ) : ℚ) = ((Texture.clampIndex i w : ℤ) : ℚ) := by
    exact_mod_cast ei
  have ejq : (((Texture.clampIndex j h).toNat : ℕ) : ℚ) = ((Texture.clampIndex j h : ℤ) : ℚ) := by
    exact_mod_cast ej
  rw [ei, ej, eiq, ejq] at hd
  unfold blockCentre
  rw [← hd]
  have hb : (DispatchScale sinFn store 2 radius (affineImage (2 * w) (2 * h) a b c) low).inBounds
      (Texture.clampIndex i w) (Texture.clampIndex j h) := by
    unfold Texture.inBounds
    change 0 ≤ _ ∧ _ < (low.width : ℤ) ∧ 0 ≤ _ ∧ _ < (low.height : ℤ)
    rw [hlw, hlh]
    exact ⟨i0, i1, j0, j1⟩
  unfold Texture.texelClamped Texture.load
  rw [if_pos hb]
  change (DispatchScale sinFn store 2 radius (affineImage (2 * w) (2 * h) a b c) low).texel
    (Texture.clampIndex i low.width) (Texture.clampIndex j low.height) = _
  rw [hlw, hlh]

/-- The pixel the round trip leaves at `(x, y)`: the stored value of the bilinear
blend of the four stored block centres around `(x / 2 - 1/4, y / 2 - 1/4)`. -/
theorem roundTrip_load (sinFn : ℚ → ℚ) (store : Float4 → Float4) (radius : ℤ) (w h : ℕ)
    (a b c : Float4) (low out : Texture Float4) (hw : 0 < w) (hh : 0 < h)
    (hlw : low.width = w) (hlh : low.height = h)
    (how : out.width = 2 * w) (hoh : out.height = 2 * h)
    (x y : ℕ) (hx : x < 2 * w) (hy : y < 2 * h) :
    (roundTrip sinFn store radius (affineImage (2 * w) (2 * h) a b c) low out).load x y
      = store (bilerp ((x : ℚ) / 2 - 1 / 4 - (⌊(x : ℚ) / 2 - 1 / 4⌋ : ℚ))
          ((y : ℚ) / 2 - 1 / 4 - (⌊(y : ℚ) / 2 - 1 / 4⌋ : ℚ))
          (store (blockCentre a b c w h ⌊(x : ℚ) / 2 - 1 / 4⌋ ⌊(y : ℚ) / 2 - 1 / 4⌋))
          (store (blockCentre a b c w h (⌊(x : ℚ) / 2 - 1 / 4⌋ + 1) ⌊(y : ℚ) / 2 - 1 / 4⌋))
          (store (blockCentre a b c w h ⌊(x : ℚ) / 2 - 1 / 4⌋ (⌊(y : ℚ) / 2 - 1 / 4⌋ + 1)))
          (store (blockCentre a b c w h (⌊(x : ℚ) / 2 - 1 / 4⌋ + 1)
            (⌊(y : ℚ) / 2 - 1 / 4⌋ + 1)))) := by
  have hwq : (w : ℚ) ≠ 0 := by exact_mod_cast (Nat.pos_iff_ne_zero.1 hw)
  have hhq : (h : ℚ) ≠ 0 := by exact_mod_cast (Nat.pos_iff_ne_zero.1 hh)
  unfold roundTrip
  rw [DispatchScale_load _ _ _ _ _ _ x y (by omega) (by omega)]
  unfold upscaleThread
  simp only [if_neg (show ¬ ((2 : ℤ) = 1) by decide), if_true, how, hoh]
  have hpx : ((x : ℚ) + 1 / 2) / ((2 * w : ℕ) : ℚ)
      * (((DispatchScale sinFn store 2 radius (affineImage (2 * w) (2 * h) a b c) low).width
        : ℕ) : ℚ) - 1 / 2 = (x : ℚ) / 2 - 1 / 4 := by
    change ((x : ℚ) + 1 / 2) / ((2 * w : ℕ) : ℚ) * ((low.width : ℕ) : ℚ) - 1 / 2 = _
    rw [hlw]
    push_cast
    field_simp
    ring
  have hpy : ((y : ℚ) + 1 / 2) / ((2 * h : ℕ) : ℚ)
      * (((DispatchScale sinFn store 2 radius (affineImage (2 * w) (2 * h) a b c) low).height
        : ℕ) : ℚ) - 1 / 2 = (y : ℚ) / 2 - 1 / 4 := by
    change ((y : ℚ) + 1 / 2) / ((2 * h : ℕ) : ℚ) * ((low.height : ℕ) : ℚ) - 1 / 2 = _
    rw [hlh]
    push_cast
    field_simp
    ring
  rw [sampleLinear_eq_bilerp _ _ _ ⌊(x : ℚ) / 2 - 1 / 4⌋ ⌊(y : ℚ) / 2 - 1 / 4⌋
    ((x : ℚ) / 2 - 1 / 4 - (⌊(x : ℚ) / 2 - 1 / 4⌋ : ℚ))
    ((y : ℚ) / 2 - 1 / 4 - (⌊(y : ℚ) / 2 - 1 / 4⌋ : ℚ))
    (by rw [hpx]) (by rw [hpx]) (by rw [hpy]) (by rw [hpy])]
  simp only [lowRes_texelClamped sinFn store radius w h a b c low hw hh hlw hlh]

/-- A blend with non-negative weights that sum to 1 moves by at most `eps` when
each of its four terms moves by at most `eps`. -/
theorem blend_within (w1 w2 w3 w4 p1 p2 p3 p4 q1 q2 q3 q4 eps : ℚ)
    (h1 : 0 ≤ w1) (h2 : 0 ≤ w2) (h3 : 0 ≤ w3) (h4 : 0 ≤ w4) (hs : w1 + w2 + w3 + w4 = 1)
    (d1 : |p1 - q1| ≤ eps) (d2 : |p2 - q2| ≤ eps) (d3 : |p3 - q3| ≤ eps)
    (d4 : |p4 - q4| ≤ eps) :
    |(w1 * p1 + w2 * p2 + (w3 * p3 + w4 * p4)) - (w1 * q1 + w2 * q2 + (w3 * q3 + w4 * q4))|
      ≤ eps := by
  rw [abs_le] at d1 d2 d3 d4 ⊢
  have he : eps * w1 + eps * w2 + eps * w3 + eps * w4 = eps := by
    have : eps * (w1 + w2 + w3 + w4) = eps := by rw [hs, mul_one]
    linarith
  have a1 := mul_nonneg h1 (sub_nonneg.2 d1.2)
  have a2 := mul_nonneg h2 (sub_nonneg.2 d2.2)
  have a3 := mul_nonneg h3 (sub_nonneg.2 d3.2)
  have a4 := mul_nonneg h4 (sub_nonneg.2 d4.2)
  have b1 := mul_nonneg h1 (sub_nonneg.2 d1.1)
  have b2 := mul_nonneg h2 (sub_nonneg.2 d2.1)
  have b3 := mul_nonneg h3 (sub_nonneg.2 d3.1)
  have b4 := mul_nonneg h4 (sub_nonneg.2 d4.1)
  constructor <;> nlinarith

/-- A blend with non-negative weights that sum to 1 of four values in `[0, 1]`
lies in `[0, 1]`. -/
theorem blend_unit (w1 w2 w3 w4 p1 p2 p3 p4 : ℚ)
    (h1 : 0 ≤ w1) (h2 : 0 ≤ w2) (h3 : 0 ≤ w3) (h4 : 0 ≤ w4) (hs : w1 + w2 + w3 + w4 = 1)
    (u1 : 0 ≤ p1 ∧ p1 ≤ 1) (u2 : 0 ≤ p2 ∧ p2 ≤ 1) (u3 : 0 ≤ p3 ∧ p3 ≤ 1)
    (u4 : 0 ≤ p4 ∧ p4 ≤ 1) :
    0 ≤ w1 * p1 + w2 * p2 + (w3 * p3 + w4 * p4) ∧
    w1 * p1 + w2 * p2 + (w3 * p3 + w4 * p4) ≤ 1 := by
  have a1 := mul_nonneg h1 u1.1
  have a2 := mul_nonneg h2 u2.1
  have a3 := mul_nonneg h3 u3.1
  have a4 := mul_nonneg h4 u4.1
  have b1 := mul_nonneg h1 (sub_nonneg.2 u1.2)
  have b2 := mul_nonneg h2 (sub_nonneg.2 u2.2)
  have b3 := mul_nonneg h3 (sub_nonneg.2 u3.2)
  have b4 := mul_nonneg h4 (sub_nonneg.2 u4.2)
  constructor <;> nlinarith

theorem bilerp_weights (fx fy : ℚ) (hx0 : 0 ≤ fx) (hx1 : fx ≤ 1) (hy0 : 0 ≤ fy) (hy1 : fy ≤ 1) :
    0 ≤ (1 - fx) * (1 - fy) ∧ 0 ≤ fx * (1 - fy) ∧ 0 ≤ (1 - fx) * fy ∧ 0 ≤ fx * fy ∧
    (1 - fx) * (1 - fy) + fx * (1 - fy) + (1 - fx) * fy + fx * fy = 1 :=
  ⟨mul_nonneg (by linarith) (by linarith), mul_nonneg hx0 (by linarith),
    mul_nonneg (by linarith) hy0, mul_nonneg hx0 hy0, by ring⟩

theorem bilerp_within (fx fy : ℚ) (hx0 : 0 ≤ fx) (hx1 : fx ≤ 1) (hy0 : 0 ≤ fy) (hy1 : fy ≤ 1)
    (p00 p10 p01 p11 q00 q10 q01 q11 : Float4) (eps : ℚ)
    (d00 : Float4.within p00 q00 ⟨eps, eps, eps, eps⟩)
    (d10 : Float4.within p10 q10 ⟨eps, eps, eps, eps⟩)
    (d01 : Float4.within p01 q01 ⟨eps, eps, eps, eps⟩)
    (d11 : Float4.within p11 q11 ⟨eps, eps, eps, eps⟩) :
    Float4.within (bilerp fx fy p00 p10 p01 p11) (bilerp fx fy q00 q10 q01 q11)
      ⟨eps, eps, eps, eps⟩ := by
  obtain ⟨w1, w2, w3, w4, ws⟩ := bilerp_weights fx fy hx0 hx1 hy0 hy1
  unfold Float4.within at d00 d10 d01 d11 ⊢
  simp only [bilerp, Float4.add, Float4.scale, Float4.zipWith]
  exact ⟨blend_within _ _ _ _ _ _ _ _ _ _ _ _ eps w1 w2 w3 w4 ws d00.1 d10.1 d01.1 d11.1,
    blend_within _ _ _ _ _ _ _ _ _ _ _ _ eps w1 w2 w3 w4 ws d00.2.1 d10.2.1 d01.2.1 d11.2.1,
    blend_within _ _ _ _ _ _ _ _ _ _ _ _ eps w1 w2 w3 w4 ws d00.2.2.1 d10.2.2.1 d01.2.2.1
      d11.2.2.1,
    blend_within _ _ _ _ _ _ _ _ _ _ _ _ eps w1 w2 w3 w4 ws d00.2.2.2 d10.2.2.2 d01.2.2.2
      d11.2.2.2⟩

theorem bilerp_unit (fx fy : ℚ) (hx0 : 0 ≤ fx) (hx1 : fx ≤ 1) (hy0 : 0 ≤ fy) (hy1 : fy ≤ 1)
    (p00 p10 p01 p11 : Float4) (u00 : p00.unit) (u10 : p10.unit) (u01 : p01.unit)
    (u11 : p11.unit) : (bilerp fx fy p00 p10 p01 p11).unit := by
  obtain ⟨w1, w2, w3, w4, ws⟩ := bilerp_weights fx fy hx0 hx1 hy0 hy1
  unfold Float4.unit at u00 u10 u01 u11 ⊢
  simp only [bilerp, Float4.add, Float4.scale, Float4.zipWith]
  exact ⟨blend_unit _ _ _ _ _ _ _ _ w1 w2 w3 w4 ws u00.1 u10.1 u01.1 u11.1,
    blend_unit _ _ _ _ _ _ _ _ w1 w2 w3 w4 ws u00.2.1 u10.2.1 u01.2.1 u11.2.1,
    blend_unit _ _ _ _ _ _ _ _ w1 w2 w3 w4 ws u00.2.2.1 u10.2.2.1 u01.2.2.1 u11.2.2.1,
    blend_unit _ _ _ _ _ _ _ _ w1 w2 w3 w4 ws u00.2.2.2 u10.2.2.2 u01.2.2.2 u11.2.2.2⟩

/-- The centre of a block of four pixels of a gradient with channels in `[0, 1]`
has channels in `[0, 1]`. -/
theorem blockCentre_unit (a b c : Float4) (w h : ℕ) (hw : 0 < w) (hh : 0 < h)
    (himg : ∀ i j : ℕ, i < 2 * w → j < 2 * h → (affineAt a b c (i : ℚ) (j : ℚ)).unit)
    (i j : ℤ) : (blockCentre a b c w h i j).unit := by
  obtain ⟨i0, i1⟩ := clampIndex_range i w hw
  obtain ⟨j0, j1⟩ := clampIndex_range j h hh
  obtain ⟨n, hn⟩ := Int.eq_ofNat_of_zero_le i0
  obtain ⟨m, hm⟩ := Int.eq_ofNat_of_zero_le j0
  have hnw : n < w := by omega
  have hmh : m < h := by omega
  have h00 := himg (2 * n) (2 * m) (by omega) (by omega)
  have h10 := himg (2 * n + 1) (2 * m) (by omega) (by omega)
  have h01 := himg (2 * n) (2 * m + 1) (by omega) (by omega)
  have h11 := himg (2 * n + 1) (2 * m + 1) (by omega) (by omega)
  unfold blockCentre
  rw [hn, hm]
  unfold Float4.unit at h00 h10 h01 h11 ⊢
  simp only [affineAt, Float4.add, Float4.scale, Float4.zipWith] at h00 h10 h01 h11 ⊢
  push_cast at h00 h10 h01 h11 ⊢
  obtain ⟨⟨r1, r2⟩, ⟨g1, g2⟩, ⟨b1, b2⟩, ⟨a1, a2⟩⟩ := h00
  obtain ⟨⟨r3, r4⟩, ⟨g3, g4⟩, ⟨b3, b4⟩, ⟨a3, a4⟩⟩ := h10
  obtain ⟨⟨r5, r6⟩, ⟨g5, g6⟩, ⟨b5, b6⟩, ⟨a5, a6⟩⟩ := h01
  obtain ⟨⟨r7, r8⟩, ⟨g7, g8⟩, ⟨b7, b8⟩, ⟨a7, a8⟩⟩ := h11
  refine ⟨⟨?_, ?_⟩, ⟨?_, ?_⟩, ⟨?_, ?_⟩, ⟨?_, ?_⟩⟩ <;> linarith

/-- The blend of the four exact block centres is the gradient at the position
the round trip reproduces. -/
theorem bilerp_blockCentre (a b c : Float4) (w h x y : ℕ) :
    bilerp ((x : ℚ) / 2 - 1 / 4 - (⌊(x : ℚ) / 2 - 1 / 4⌋ : ℚ))
      ((y : ℚ) / 2 - 1 / 4 - (⌊(y : ℚ) / 2 - 1 / 4⌋ : ℚ))
      (blockCentre a b c w h ⌊(x : ℚ) / 2 - 1 / 4⌋ ⌊(y : ℚ) / 2 - 1 / 4⌋)
      (blockCentre a b c w h (⌊(x : ℚ) / 2 - 1 / 4⌋ + 1) ⌊(y : ℚ) / 2 - 1 / 4⌋)
      (blockCentre a b c w h ⌊(x : ℚ) / 2 - 1 / 4⌋ (⌊(y : ℚ) / 2 - 1 / 4⌋ + 1))
      (blockCentre a b c w h (⌊(x : ℚ) / 2 - 1 / 4⌋ + 1) (⌊(y : ℚ) / 2 - 1 / 4⌋ + 1))
    = affineAt a b c (effCoord w x) (effCoord h y) := by
  unfold bilerp blockCentre
  rw [bilinear_affine]
  rfl

theorem Float4.within_trans (p q r e1 e2 : Float4) (h1 : Float4.within p q e1)
    (h2 : Float4.within q r e2) : Float4.within p r (Float4.add e1 e2) := by
  unfold Float4.within at h1 h2 ⊢
  simp only [Float4.add, Float4.zipWith]
  have t : ∀ u v z s1 s2 : ℚ, |u - v| ≤ s1 → |v - z| ≤ s2 → |u - z| ≤ s1 + s2 := by
    intro u v z s1 s2 a1 a2
    have := abs_sub_le u v z
    linarith
  exact ⟨t _ _ _ _ _ h1.1 h2.1, t _ _ _ _ _ h1.2.1 h2.2.1, t _ _ _ _ _ h1.2.2.1 h2.2.2.1,
    t _ _ _ _ _ h1.2.2.2 h2.2.2.2⟩

/-- With a store conversion accurate to `eps`, the round trip of a gradient with
channels in `[0, 1]` leaves at pixel `(x, y)` a colour within `2 eps` of the
gradient at the position the exact round trip reproduces. -/
theorem roundTrip_near (sinFn : ℚ → ℚ) (store : Float4 → Float4) (eps : ℚ) (radius : ℤ)
    (w h : ℕ) (a b c : Float4) (low out : Texture Float4) (hw : 0 < w) (hh : 0 < h)
    (hlw : low.width = w) (hlh : low.height = h)
    (how : out.width = 2 * w) (hoh : out.height = 2 * h)
    (x y : ℕ) (hx : x < 2 * w) (hy : y < 2 * h)
    (hstore : storeAccurate store eps)
    (himg : ∀ i j : ℕ, i < 2 * w → j < 2 * h → (affineAt a b c (i : ℚ) (j : ℚ)).unit) :
    Float4.within
      ((roundTrip sinFn store radius (affineImage (2 * w) (2 * h) a b c) low out).load x y)
      (affineAt a b c (effCoord w x) (effCoord h y))
      (Float4.add ⟨eps, eps, eps, eps⟩ ⟨eps, eps, eps, eps⟩) := by
  have fx0 : 0 ≤ (x : ℚ) / 2 - 1 / 4 - (⌊(x : ℚ) / 2 - 1 / 4⌋ : ℚ) :=
    sub_nonneg.2 (Int.floor_le _)
  have fx1 : (x : ℚ) / 2 - 1 / 4 - (⌊(x : ℚ) / 2 - 1 / 4⌋ : ℚ) ≤ 1 := by
    have := Int.lt_floor_add_one ((x : ℚ) / 2 - 1 / 4)
    linarith
  have fy0 : 0 ≤ (y : ℚ) / 2 - 1 / 4 - (⌊(y : ℚ) / 2 - 1 / 4⌋ : ℚ) :=
    sub_nonneg.2 (Int.floor_le _)
  have fy1 : (y : ℚ) / 2 - 1 / 4 - (⌊(y : ℚ) / 2 - 1 / 4⌋ : ℚ) ≤ 1 := by
    have := Int.lt_floor_add_one ((y : ℚ) / 2 - 1 / 4)
    linarith
  have hq : ∀ i j : ℤ, (store (blockCentre a b c w h i j)).unit ∧
      Float4.within (store (blockCentre a b c w h i j)) (blockCentre a b c w h i j)
        ⟨eps, eps, eps, eps⟩ :=
    fun i j => hstore _ (blockCentre_unit a b c w h hw hh himg i j)
  rw [roundTrip_load sinFn store radius w h a b c low out hw hh hlw hlh how hoh x y hx hy,
    ← bilerp_blockCentre a b c w h x y]
  have hunit := bilerp_unit _ _ fx0 fx1 fy0 fy1 _ _ _ _
    (hq ⌊(x : ℚ) / 2 - 1 / 4⌋ ⌊(y : ℚ) / 2 - 1 / 4⌋).1
    (hq (⌊(x : ℚ) / 2 - 1 / 4⌋ + 1) ⌊(y : ℚ) / 2 - 1 / 4⌋).1
    (hq ⌊(x : ℚ) / 2 - 1 / 4⌋ (⌊(y : ℚ) / 2 - 1 / 4⌋ + 1)).1
    (hq (⌊(x : ℚ) / 2 - 1 / 4⌋ + 1) (⌊(y : ℚ) / 2 - 1 / 4⌋ + 1)).1
  have hnear := bilerp_within _ _ fx0 fx1 fy0 fy1 _ _ _ _ _ _ _ _ eps
    (hq ⌊(x : ℚ) / 2 - 1 / 4⌋ ⌊(y : ℚ) / 2 - 1 / 4⌋).2
    (hq (⌊(x : ℚ) / 2 - 1 / 4⌋ + 1) ⌊(y : ℚ) / 2 - 1 / 4⌋).2
    (hq ⌊(x : ℚ) / 2 - 1 / 4⌋ (⌊(y : ℚ) / 2 - 1 / 4⌋ + 1)).2
    (hq (⌊(x : ℚ) / 2 - 1 / 4⌋ + 1) (⌊(y : ℚ) / 2 - 1 / 4⌋ + 1)).2
  exact Float4.within_trans _ _ _ _ _ (hstore _ hunit).2 hnear

/-- The store to an 8-bit UNORM channel moves a value of `[0, 1]` by at most
half a step, `1 / 510`, and keeps it in `[0, 1]`. -/
theorem unormChannel_near (v : ℚ) (h0 : 0 ≤ v) (h1 : v ≤ 1) :
    (0 ≤ unormChannel v ∧ unormChannel v ≤ 1) ∧ |unormChannel v - v| ≤ 1 / 510 := by
  have hs : saturate v = v := by
    unfold saturate
    rw [max_eq_left h0, min_eq_left h1]
  have f1 := Int.floor_le (v * 255 + 1 / 2)
  have f2 := Int.lt_floor_add_one (v * 255 + 1 / 2)
  have k0 : (0 : ℤ) ≤ ⌊v * 255 + 1 / 2⌋ := Int.floor_nonneg.2 (by linarith)
  have k0q : (0 : ℚ) ≤ ((⌊v * 255 + 1 / 2⌋ : ℤ) : ℚ) := by exact_mod_cast k0
  have k1 : ⌊v * 255 + 1 / 2⌋ < 256 := by
    have : ((⌊v * 255 + 1 / 2⌋ : ℤ) : ℚ) < ((256 : ℤ) : ℚ) := by
      push_cast
      linarith
    exact_mod_cast this
  have k1q : ((⌊v * 255 + 1 / 2⌋ : ℤ) : ℚ) ≤ 255 := by
    have : ⌊v * 255 + 1 / 2⌋ ≤ 255 := by omega
    exact_mod_cast this
  unfold unormChannel
  rw [hs]
  refine ⟨⟨by positivity, by rw [div_le_one (by norm_num)]; exact k1q⟩, ?_⟩
  rw [abs_le]
  constructor
  · rw [le_sub_iff_add_le, le_div_iff₀ (by norm_num)]
    linarith
  · rw [sub_le_iff_le_add, div_le_iff₀ (by norm_num)]
    linarith

theorem unorm8Store_accurate : storeAccurate unorm8Store (1 / 510) := by
  intro p hp
  obtain ⟨hr, hg, hb, ha⟩ := hp
  have r := unormChannel_near p.r hr.1 hr.2
  have g := unormChannel_near p.g hg.1 hg.2
  have b := unormChannel_near p.b hb.1 hb.2
  have a := unormChannel_near p.a ha.1 ha.2
  exact ⟨⟨r.1, g.1, b.1, a.1⟩, ⟨r.2, g.2, b.2, a.2⟩⟩

/-- The value of an 8-bit UNORM store, from the integer it rounds to. -/
theorem unormChannel_eq (v : ℚ) (k : ℤ) (h0 : 0 ≤ v) (h1 : v ≤ 1)
    (hk : (k : ℚ) ≤ v * 255 + 1 / 2) (hk2 : v * 255 + 1 / 2 < (k : ℚ) + 1) :
    unormChannel v = (k : ℚ) / 255 := by
  have hs : saturate v = v := by
    unfold saturate
    rw [max_eq_left h0, min_eq_left h1]
  unfold unormChannel
  rw [hs, Int.floor_eq_iff.2 ⟨hk, hk2⟩]

theorem affine_channel_error (a b c ex ey x y : ℚ) (h1 : |ex - x| ≤ 1 / 2)
    (h2 : |ey - y| ≤ 1 / 2) :
    |(a + (ex * b + ey * c)) - (a + (x * b + y * c))| ≤ 1 / 2 * (|b| + |c|) ∧
    |(a + (ex * b + ey * c)) - (a + (x * b + y * c))| ≤ max |b| |c| := by
  have e : (a + (ex * b + ey * c)) - (a + (x * b + y * c)) = (ex - x) * b + (ey - y) * c := by
    ring
  have t1 : |(ex - x) * b| ≤ 1 / 2 * |b| := by
    rw [abs_mul]
    exact mul_le_mul_of_nonneg_right h1 (abs_nonneg b)
  have t2 : |(ey - y) * c| ≤ 1 / 2 * |c| := by
    rw [abs_mul]
    exact mul_le_mul_of_nonneg_right h2 (abs_nonneg c)
  have t3 := abs_add ((ex - x) * b) ((ey - y) * c)
  have m1 : |b| ≤ max |b| |c| := le_max_left _ _
  have m2 : |c| ≤ max |b| |c| := le_max_right _ _
  rw [e]
  constructor <;> linarith

theorem affineImage_load (w h : ℕ) (a b c : Float4) (x y : ℕ) (hx : x < w) (hy : y < h) :
    (affineImage w h a b c).load x y = affineAt a b c (x : ℚ) (y : ℚ) := by
  have hb : (affineImage w h a b c).inBounds (x : ℤ) (y : ℤ) := by
    unfold Texture.inBounds affineImage
    simp only []
    omega
  unfold Texture.load
  rw [if_pos hb]
  unfold affineImage
  simp

theorem unormChannel_step (k : ℕ) (hk : k ≤ 255) : unormChannel ((k : ℚ) / 255) = (k : ℚ) / 255 := by
  have hq : (k : ℚ) ≤ 255 := by exact_mod_cast hk
  have h0 : (0 : ℚ) ≤ (k : ℚ) := Nat.cast_nonneg k
  have e := unormChannel_eq ((k : ℚ) / 255) (k : ℤ) (by positivity)
    (by rw [div_le_one (by norm_num)]; exact hq)
    (by push_cast; rw [div_mul_cancel₀ _ (by norm_num)]; linarith)
    (by push_cast; rw [div_mul_cancel₀ _ (by norm_num)]; linarith)
  rw [e]
  push_cast
  rfl

theorem rampImage_load (i j : ℕ) (hi : i < 4) (hj : j < 4) :
    rampImage.load i j
      = ⟨((10 + i : ℕ) : ℚ) / 255, ((10 + i : ℕ) : ℚ) / 255, ((10 + i : ℕ) : ℚ) / 255,
          ((255 : ℕ) : ℚ) / 255⟩ := by
  unfold rampImage
  rw [affineImage_load 4 4 _ _ _ i j hi hj, Float4.ext_iff']
  simp only [affineAt, Float4.add, Float4.scale, Float4.zipWith]
  push_cast
  refine ⟨?_, ?_, ?_, ?_⟩ <;> ring

theorem rampImage_unit (i j : ℕ) (hi : i < 2 * 2) (hj : j < 2 * 2) :
    ((affineImage (2 * 2) (2 * 2) ⟨10 / 255, 10 / 255, 10 / 255, 1⟩
      ⟨1 / 255, 1 / 255, 1 / 255, 0⟩ ⟨0, 0, 0, 0⟩).load i j).unit := by
  have hq : (i : ℚ) ≤ 3 := by
    have : i ≤ 3 := by omega
    exact_mod_cast this
  have h0 : (0 : ℚ) ≤ (i : ℚ) := Nat.cast_nonneg i
  rw [affineImage_load _ _ _ _ _ i j hi hj]
  unfold Float4.unit
  simp only [affineAt, Float4.add, Float4.scale, Float4.zipWith]
  refine ⟨⟨?_, ?_⟩, ⟨?_, ?_⟩, ⟨?_, ?_⟩, ⟨?_, ?_⟩⟩ <;> linarith

/-- **C17 (counterexample).** The 4 x 4 grey ramp `(10 + x) / 255` is an affine
image that an `R8G8B8A8_UNORM` texture holds exactly.  Downscaled to 2 x 2 and
upscaled back to 4 x 4 with the bilinear kernel, both outputs being
`R8G8B8A8_UNORM` textures as the pool's textures are, it returns at the pixel
`(1, 1)`, which is not on the border, `12 / 255` in place of `11 / 255`: the low
texels store `10.5` and `12.5` steps as `11` and `13`, and their blend of `11.5`
steps is stored as `12`. -/
theorem scale_round_trip_quantised :
    (∀ i j : ℕ, i < 4 → j < 4 → unorm8Store (rampImage.load i j) = rampImage.load i j) ∧
    ((1 ≤ 1 ∧ 1 + 2 ≤ 2 * 2) ∧ (1 ≤ 1 ∧ 1 + 2 ≤ 2 * 2)) ∧
    rampImage.load ((1 : ℕ) : ℤ) ((1 : ℕ) : ℤ) = ⟨11 / 255, 11 / 255, 11 / 255, 1⟩ ∧
    (roundTrip (fun _ => 0) unorm8Store 2 rampImage (Texture.blank 2 2) (Texture.blank 4 4)).load
        ((1 : ℕ) : ℤ) ((1 : ℕ) : ℤ) = ⟨12 / 255, 12 / 255, 12 / 255, 1⟩ ∧
    (roundTrip (fun _ => 0) unorm8Store 2 rampImage (Texture.blank 2 2) (Texture.blank 4 4)).load
        ((1 : ℕ) : ℤ) ((1 : ℕ) : ℤ) ≠ rampImage.load ((1 : ℕ) : ℤ) ((1 : ℕ) : ℤ) := by
  have hfix : ∀ i j : ℕ, i < 4 → j < 4 →
      unorm8Store (rampImage.load i j) = rampImage.load i j := by
    intro i j hi hj
    rw [rampImage_load i j hi hj]
    unfold unorm8Store
    simp only [unormChannel_step (10 + i) (by omega), unormChannel_step 255 (by omega)]
  have horig : rampImage.load ((1 : ℕ) : ℤ) ((1 : ℕ) : ℤ) = ⟨11 / 255, 11 / 255, 11 / 255, 1⟩ := by
    rw [rampImage_load 1 1 (by decide) (by decide), Float4.ext_iff']
    norm_num
  have f1 : ⌊((1 : ℕ) : ℚ) / 2 - 1 / 4⌋ = 0 := by
    rw [Int.floor_eq_iff]
    norm_num
  have k0 : Texture.clampIndex 0 2 = 0 := by decide
  have k1 : Texture.clampIndex (0 + 1) 2 = 1 := by decide
  have u11 : unormChannel (21 / 510) = 11 / 255 := by
    rw [unormChannel_eq (21 / 510) 11 (by norm_num) (by norm_num) (by norm_num) (by norm_num)]
    norm_num
  have u13 : unormChannel (25 / 510) = 13 / 255 := by
    rw [unormChannel_eq (25 / 510) 13 (by norm_num) (by norm_num) (by norm_num) (by norm_num)]
    norm_num
  have u12 : unormChannel (23 / 510) = 12 / 255 := by
    rw [unormChannel_eq (23 / 510) 12 (by norm_num) (by norm_num) (by norm_num) (by norm_num)]
    norm_num
  have u1 : unormChannel 1 = 1 := by
    rw [unormChannel_eq 1 255 (by norm_num) (by norm_num) (by norm_num) (by norm_num)]
    norm_num
  have c0 : ∀ j : ℤ, blockCentre ⟨10 / 255, 10 / 255, 10 / 255, 1⟩
      ⟨1 / 255, 1 / 255, 1 / 255, 0⟩ ⟨0, 0, 0, 0⟩ 2 2 0 j
        = ⟨21 / 510, 21 / 510, 21 / 510, 1⟩ := by
    intro j
    unfold blockCentre
    rw [k0, Float4.ext_iff']
    simp only [affineAt, Float4.add, Float4.scale, Float4.zipWith]
    norm_num
  have c1 : ∀ j : ℤ, blockCentre ⟨10 / 255, 10 / 255, 10 / 255, 1⟩
      ⟨1 / 255, 1 / 255, 1 / 255, 0⟩ ⟨0, 0, 0, 0⟩ 2 2 (0 + 1) j
        = ⟨25 / 510, 25 / 510, 25 / 510, 1⟩ := by
    intro j
    unfold blockCentre
    rw [k1, Float4.ext_iff']
    simp only [affineAt, Float4.add, Float4.scale, Float4.zipWith]
    norm_num
  have s0 : unorm8Store ⟨21 / 510, 21 / 510, 21 / 510, 1⟩ = ⟨11 / 255, 11 / 255, 11 / 255, 1⟩ := by
    unfold unorm8Store
    simp only [u11, u1]
  have s1 : unorm8Store ⟨25 / 510, 25 / 510, 25 / 510, 1⟩ = ⟨13 / 255, 13 / 255, 13 / 255, 1⟩ := by
    unfold unorm8Store
    simp only [u13, u1]
  have s2 : unorm8Store ⟨23 / 510, 23 / 510, 23 / 510, 1⟩ = ⟨12 / 255, 12 / 255, 12 / 255, 1⟩ := by
    unfold unorm8Store
    simp only [u12, u1]
  have hb : bilerp (((1 : ℕ) : ℚ) / 2 - 1 / 4 - ((0 : ℤ) : ℚ))
      (((1 : ℕ) : ℚ) / 2 - 1 / 4 - ((0 : ℤ) : ℚ))
      ⟨11 / 255, 11 / 255, 11 / 255, 1⟩ ⟨13 / 255, 13 / 255, 13 / 255, 1⟩
      ⟨11 / 255, 11 / 255, 11 / 255, 1⟩ ⟨13 / 255, 13 / 255, 13 / 255, 1⟩
        = ⟨23 / 510, 23 / 510, 23 / 510, 1⟩ := by
    rw [Float4.ext_iff']
    simp only [bilerp, Float4.add, Float4.scale, Float4.zipWith]
    norm_num
  have hrt : (roundTrip (fun _ => 0) unorm8Store 2 rampImage (Texture.blank 2 2)
      (Texture.blank 4 4)).load ((1 : ℕ) : ℤ) ((1 : ℕ) : ℤ)
        = ⟨12 / 255, 12 / 255, 12 / 255, 1⟩ := by
    have h := roundTrip_load (fun _ => 0) unorm8Store 2 2 2 ⟨10 / 255, 10 / 255, 10 / 255, 1⟩
      ⟨1 / 255, 1 / 255, 1 / 255, 0⟩ ⟨0, 0, 0, 0⟩ (Texture.blank 2 2) (Texture.blank 4 4)
      (by decide) (by decide) rfl rfl rfl rfl 1 1 (by decide) (by decide)
    rw [f1] at h
    simp only [c0, c1, s0, s1] at h
    rw [hb, s2] at h
    exact h
  refine ⟨hfix, by decide, horig, hrt, ?_⟩
  rw [hrt, horig]
  intro h
  have := congrArg Float4.r h
  norm_num at this

/-- **C17 (amended).** Take a linear gradient of even width `2 w` and even
height `2 h` with channels in `[0, 1]`, and let the two output textures have a
format whose store conversion is accurate to `eps` on `[0, 1]`.  Downscaling the
gradient to `w x h` and upscaling back to `2 w x 2 h`, both in the bilinear mode
of the scale kernel, reproduces every pixel that is not on the border within
`2 eps` in each channel, and every pixel within half the sum of the gradient's
steps along the two axes plus `2 eps`, hence within the larger of the two
per-pixel steps plus `2 eps`.  The store to `R8G8B8A8_UNORM` is accurate to
`1 / 510`, so there `2 eps` is one 8-bit step, `1 / 255`. -/
theorem scale_round_trip (sinFn : ℚ → ℚ) (store : Float4 → Float4) (eps : ℚ) (radius : ℤ)
    (w h : ℕ) (a b c : Float4) (low out : Texture Float4) (x y : ℕ) (hw : 0 < w) (hh : 0 < h)
    (hlw : low.width = w) (hlh : low.height = h)
    (how : out.width = 2 * w) (hoh : out.height = 2 * h)
    (hx : x < 2 * w) (hy : y < 2 * h)
    (hstore : storeAccurate store eps)
    (himg : ∀ i j : ℕ, i < 2 * w → j < 2 * h →
      ((affineImage (2 * w) (2 * h) a b c).load i j).unit) :
    ((1 ≤ x ∧ x + 2 ≤ 2 * w) ∧ (1 ≤ y ∧ y + 2 ≤ 2 * h) →
      Float4.within
        ((roundTrip sinFn store radius (affineImage (2 * w) (2 * h) a b c) low out).load x y)
        ((affineImage (2 * w) (2 * h) a b c).load x y)
        ⟨2 * eps, 2 * eps, 2 * eps, 2 * eps⟩) ∧
    Float4.within
      ((roundTrip sinFn store radius (affineImage (2 * w) (2 * h) a b c) low out).load x y)
      ((affineImage (2 * w) (2 * h) a b c).load x y)
      (Float4.add (Float4.scale (1 / 2) (Float4.add (Float4.abs b) (Float4.abs c)))
        ⟨2 * eps, 2 * eps, 2 * eps, 2 * eps⟩) ∧
    Float4.within
      ((roundTrip sinFn store radius (affineImage (2 * w) (2 * h) a b c) low out).load x y)
      ((affineImage (2 * w) (2 * h) a b c).load x y)
      (Float4.add (Float4.fmax (Float4.abs b) (Float4.abs c))
        ⟨2 * eps, 2 * eps, 2 * eps, 2 * eps⟩) ∧
    storeAccurate unorm8Store (1 / 510) := by
  have hunit : ∀ i j : ℕ, i < 2 * w → j < 2 * h → (affineAt a b c (i : ℚ) (j : ℚ)).unit := by
    intro i j hi hj
    rw [← affineImage_load (2 * w) (2 * h) a b c i j hi hj]
    exact himg i j hi hj
  have hrt := roundTrip_near sinFn store eps radius w h a b c low out hw hh hlw hlh how hoh x y
    hx hy hstore hunit
  have ex := effCoord_near w x hx
  have ey := effCoord_near h y hy
  rw [affineImage_load (2 * w) (2 * h) a b c x y hx hy]
  have t : ∀ u v z s : ℚ, |u - v| ≤ eps + eps → |v - z| ≤ s → |u - z| ≤ s + 2 * eps := by
    intro u v z s a1 a2
    have := abs_sub_le u v z
    linarith
  unfold Float4.within at hrt
  simp only [Float4.add, Float4.zipWith] at hrt
  obtain ⟨qr, qg, qb, qa⟩ := hrt
  refine ⟨?_, ?_, ?_, unorm8Store_accurate⟩
  · rintro ⟨⟨x1, x2⟩, ⟨y1, y2⟩⟩
    rw [effCoord_interior w x x1 x2, effCoord_interior h y y1 y2] at qr qg qb qa
    unfold Float4.within
    dsimp only
    exact ⟨by linarith, by linarith, by linarith, by linarith⟩
  · unfold Float4.within
    simp only [affineAt, Float4.add, Float4.scale, Float4.zipWith, Float4.abs] at qr qg qb qa ⊢
    exact ⟨t _ _ _ _ qr (affine_channel_error _ _ _ _ _ _ _ ex ey).1,
      t _ _ _ _ qg (affine_channel_error _ _ _ _ _ _ _ ex ey).1,
      t _ _ _ _ qb (affine_channel_error _ _ _ _ _ _ _ ex ey).1,
      t _ _ _ _ qa (affine_channel_error _ _ _ _ _ _ _ ex ey).1⟩
  · unfold Float4.within
    simp only [affineAt, Float4.add, Float4.scale, Float4.zipWith, Float4.abs, Float4.fmax]
      at qr qg qb qa ⊢
    exact ⟨t _ _ _ _ qr (affine_channel_error _ _ _ _ _ _ _ ex ey).2,
      t _ _ _ _ qg (affine_channel_error _ _ _ _ _ _ _ ex ey).2,
      t _ _ _ _ qb (affine_channel_error _ _ _ _ _ _ _ ex ey).2,
      t _ _ _ _ qa (affine_channel_error _ _ _ _ _ _ _ ex ey).2⟩

theorem scale_round_trip_witness :
    storeAccurate unorm8Store (1 / 510) ∧
    (∀ i j : ℕ, i < 2 * 2 → j < 2 * 2 →
      ((affineImage (2 * 2) (2 * 2) ⟨10 / 255, 10 / 255, 10 / 255, 1⟩
        ⟨1 / 255, 1 / 255, 1 / 255, 0⟩ ⟨0, 0, 0, 0⟩).load i j).unit) ∧
    (((1 ≤ 1 ∧ 1 + 2 ≤ 2 * 2) ∧ (1 ≤ 2 ∧ 2 + 2 ≤ 2 * 2) →
      Float4.within
        ((roundTrip (fun _ => 0) unorm8Store 2
            (affineImage (2 * 2) (2 * 2) ⟨10 / 255, 10 / 255, 10 / 255, 1⟩
              ⟨1 / 255, 1 / 255, 1 / 255, 0⟩ ⟨0, 0, 0, 0⟩)
            (Texture.blank 2 2) (Texture.blank 4 4)).load ((1 : ℕ) : ℤ) ((2 : ℕ) : ℤ))
        ((affineImage (2 * 2) (2 * 2) ⟨10 / 255, 10 / 255, 10 / 255, 1⟩
            ⟨1 / 255, 1 / 255, 1 / 255, 0⟩ ⟨0, 0, 0, 0⟩).load ((1 : ℕ) : ℤ) ((2 : ℕ) : ℤ))
        ⟨2 * (1 / 510), 2 * (1 / 510), 2 * (1 / 510), 2 * (1 / 510)⟩) ∧
    Float4.within
      ((roundTrip (fun _ => 0) unorm8Store 2
          (affineImage (2 * 2) (2 * 2) ⟨10 / 255, 10 / 255, 10 / 255, 1⟩
            ⟨1 / 255, 1 / 255, 1 / 255, 0⟩ ⟨0, 0, 0, 0⟩)
          (Texture.blank 2 2) (Texture.blank 4 4)).load ((1 : ℕ) : ℤ) ((2 : ℕ) : ℤ))
      ((affineImage (2 * 2) (2 * 2) ⟨10 / 255, 10 / 255, 10 / 255, 1⟩
          ⟨1 / 255, 1 / 255, 1 / 255, 0⟩ ⟨0, 0, 0, 0⟩).load ((1 : ℕ) : ℤ) ((2 : ℕ) : ℤ))
      (Float4.add
        (Float4.scale (1 / 2)
          (Float4.add (Float4.abs ⟨1 / 255, 1 / 255, 1 / 255, 0⟩) (Float4.abs ⟨0, 0, 0, 0⟩)))
        ⟨2 * (1 / 510), 2 * (1 / 510), 2 * (1 / 510), 2 * (1 / 510)⟩) ∧
    Float4.within
      ((roundTrip (fun _ => 0) unorm8Store 2
          (affineImage (2 * 2) (2 * 2) ⟨10 / 255, 10 / 255, 10 / 255, 1⟩
            ⟨1 / 255, 1 / 255, 1 / 255, 0⟩ ⟨0, 0, 0, 0⟩)
          (Texture.blank 2 2) (Texture.blank 4 4)).load ((1 : ℕ) : ℤ) ((2 : ℕ) : ℤ))
      ((affineImage (2 * 2) (2 * 2) ⟨10 / 255, 10 / 255, 10 / 255, 1⟩
          ⟨1 / 255, 1 / 255, 1 / 255, 0⟩ ⟨0, 0, 0, 0⟩).load ((1 : ℕ) : ℤ) ((2 : ℕ) : ℤ))
      (Float4.add
        (Float4.fmax (Float4.abs ⟨1 / 255, 1 / 255, 1 / 255, 0⟩) (Float4.abs ⟨0, 0, 0, 0⟩))
        ⟨2 * (1 / 510), 2 * (1 / 510), 2 * (1 / 510), 2 * (1 / 510)⟩) ∧
    storeAccurate unorm8Store (1 / 510)) :=
  ⟨unorm8Store_accurate, rampImage_unit,
    scale_round_trip (fun _ => 0) unorm8Store (1 / 510) 2 2 2 ⟨10 / 255, 10 / 255, 10 / 255, 1⟩
      ⟨1 / 255, 1 / 255, 1 / 255, 0⟩ ⟨0, 0, 0, 0⟩ (Texture.blank 2 2) (Texture.blank 4 4) 1 2
      (by decide) (by decide) rfl rfl rfl rfl (by decide) (by decide) unorm8Store_accurate
      rampImage_unit⟩

/-! ## `hkPresent` with the pipeline disabled, and the retry of the real frame -/

/-- **C21.** With the pipeline disabled, `hkPresent` leaves the adaptive-ratio
state and with it `MultiFrameCount` unchanged; after drawing the overlay it calls
the original present with the caller's `SyncInterval` and `Flags`, followed only
by the retry without the tearing flag when the platform rejects that call; the
trace holds no capture, synthesis, pacing wait or restore; and the only frame
presented is the real frame. -/
theorem hkPresent_disabled (env : PresentEnv) (SyncInterval Flags : ℕ) (fullFrameTime : ℤ)
    (st : RatioState) :
    (hkPresent env false SyncInterval Flags fullFrameTime st).1 = st ∧
    (hkPresent env false SyncInterval Flags fullFrameTime st).1.settings.MultiFrameCount
      = st.settings.MultiFrameCount ∧
    (hkPresent env false SyncInterval Flags fullFrameTime st).2.1
      = drawOverlay env [] ++ Action.original FrameKind.real false SyncInterval Flags ::
          (if env.original (drawOverlay env []) SyncInterval Flags = DXGI_ERROR_INVALID_CALL ∧
              Flags &&& 0x200 ≠ 0 then
            [Action.original FrameKind.real true SyncInterval (clearTearing Flags)]
          else []) ∧
    (hkPresent env false SyncInterval Flags fullFrameTime st).2.1.filter Action.isPipelineWork
      = [] ∧
    synthFactors (hkPresent env false SyncInterval Flags fullFrameTime st).2.1 = [] ∧
    presentedFrames (hkPresent env false SyncInterval Flags fullFrameTime st).2.1
      = [FrameKind.real] := by
  have hst : (hkPresent env false SyncInterval Flags fullFrameTime st).1 = st := by
    unfold hkPresent dynamicRatioStep
    simp
  have htrace : (hkPresent env false SyncInterval Flags fullFrameTime st).2.1
      = drawOverlay env [] ++ Action.original FrameKind.real false SyncInterval Flags ::
          (if env.original (drawOverlay env []) SyncInterval Flags = DXGI_ERROR_INVALID_CALL ∧
              Flags &&& 0x200 ≠ 0 then
            [Action.original FrameKind.real true SyncInterval (clearTearing Flags)]
          else []) := by
    unfold hkPresent presentSequence presentWithRetry
    simp only [Bool.false_eq_true, false_and, if_false]
    split_ifs <;> simp
  refine ⟨hst, by rw [hst], htrace, ?_, ?_, ?_⟩
  · rw [htrace]
    unfold drawOverlay
    split_ifs <;> simp [Action.isPipelineWork]
  · rw [htrace]
    unfold drawOverlay
    split_ifs <;> simp [synthFactors]
  · rw [htrace]
    unfold drawOverlay
    split_ifs <;> simp [presentedFrames]

theorem realCalls_append (t u : List Action) :
    realCalls (t ++ u) = realCalls t ++ realCalls u := by
  unfold realCalls
  rw [List.filterMap_append]

theorem drawOverlay_realCalls (env : PresentEnv) (trace : List Action) :
    realCalls (drawOverlay env trace) = realCalls trace := by
  unfold drawOverlay
  split_ifs
  · rw [realCalls_append]
    simp [realCalls]
  · rfl

theorem genLoopBody_realCalls (env : PresentEnv) (s : FrameGenSettings) (framesToGen : ℤ)
    (presentFlags : ℕ) (fps : ℤ) (trace : List Action) (i : ℤ) :
    realCalls (genLoopBody env s framesToGen presentFlags fps trace i) = realCalls trace := by
  unfold genLoopBody presentWithRetry
  simp only []
  split_ifs <;>
    simp [realCalls_append, drawOverlay_realCalls] <;> simp [realCalls]

theorem genLoop_realCalls (env : PresentEnv) (s : FrameGenSettings) (framesToGen : ℤ)
    (presentFlags : ℕ) (fps : ℤ) (idx : List ℤ) :
    ∀ trace : List Action,
      realCalls (idx.foldl (genLoopBody env s framesToGen presentFlags fps) trace)
        = realCalls trace := by
  induction idx with
  | nil =>
    intro trace
    rfl
  | cons i rest ih =>
    intro trace
    rw [List.foldl_cons, ih, genLoopBody_realCalls]

theorem testBit_tearing_mask (i : ℕ) :
    (0xFFFFFDFF : ℕ).testBit i = (decide (i < 32) && decide (i ≠ 9)) := by
  by_cases h : i < 32
  · interval_cases i <;> decide
  · have hlt : (0xFFFFFDFF : ℕ) < 2 ^ i :=
      lt_of_lt_of_le (by norm_num : (0xFFFFFDFF : ℕ) < 2 ^ 32)
        (Nat.pow_le_pow_right (by norm_num) (not_lt.1 h))
    rw [Nat.testBit_lt_two_pow hlt]
    simp [h]

/-- On a 32-bit value, `clearTearing` clears bit 9 (the value 0x200) and keeps
every other bit. -/
theorem clearTearing_testBit (flags : ℕ) (h : flags < 2 ^ 32) (i : ℕ) :
    (clearTearing flags).testBit i = (flags.testBit i && decide (i ≠ 9)) := by
  unfold clearTearing
  rw [Nat.testBit_and, testBit_tearing_mask]
  by_cases hi : i < 32
  · simp [hi]
  · have hlt : flags < 2 ^ i := lt_of_lt_of_le h (Nat.pow_le_pow_right (by norm_num) (not_lt.1 hi))
    rw [Nat.testBit_lt_two_pow hlt]
    simp

theorem tearing_bit_iff (flags : ℕ) : flags &&& 0x200 ≠ 0 ↔ flags.testBit 9 = true := by
  have h9 : (0x200 : ℕ) = 2 ^ 9 := by norm_num
  rw [h9, Nat.and_two_pow]
  cases flags.testBit 9 <;> simp

theorem presentWithRetry_result (env : PresentEnv) (sync flags : ℕ) (before : List Action) :
    realCalls (presentWithRetry env FrameKind.real sync flags before).1
      = realCalls before ++ (false, sync, flags) ::
        (if env.original before sync flags = DXGI_ERROR_INVALID_CALL ∧ flags.testBit 9 = true
          then [(true, sync, clearTearing flags)] else []) ∧
    (presentWithRetry env FrameKind.real sync flags before).2.2
      = (if env.original before sync flags = DXGI_ERROR_INVALID_CALL ∧ flags.testBit 9 = true
          then env.original (before ++ [Action.original FrameKind.real false sync flags]) sync
            (clearTearing flags)
          else env.original before sync flags) := by
  unfold presentWithRetry
  simp only [tearing_bit_iff]
  split_ifs with h
  · simp [realCalls_append, realCalls]
  · simp [realCalls_append, realCalls]

theorem presentSequence_before (env : PresentEnv) (isEnabled : Bool) (s : FrameGenSettings)
    (presentFlags : ℕ) :
    realCalls (drawOverlay env
      (if isEnabled = true then
        (loopIndices s.MultiFrameCount).foldl
          (genLoopBody env s s.MultiFrameCount presentFlags (pacerFPS s)) [Action.capture]
          ++ [Action.restore]
      else [])) = [] := by
  rw [drawOverlay_realCalls]
  split_ifs
  · rw [realCalls_append, genLoop_realCalls]
    simp [realCalls]
  · rfl

theorem realCalls_pacer (t : List Action) (c : Prop) [Decidable c] (fps : ℤ) :
    realCalls (if c then t ++ [Action.pacerWait fps] else t) = realCalls t := by
  split_ifs
  · rw [realCalls_append]
    simp [realCalls]
  · rfl

theorem presentSequence_realCalls (env : PresentEnv) (isEnabled : Bool) (s : FrameGenSettings)
    (SyncInterval Flags : ℕ) (hF : Flags < 2 ^ 32) :
    ∃ (before : List Action) (sync flags : ℕ),
      sync = (if isEnabled = true ∧ s.DisableVSync = true then 0 else SyncInterval) ∧
      flags = (if isEnabled = true ∧ s.DisableVSync = true then Flags ||| 0x200 else Flags) ∧
      realCalls before = [] ∧
      realCalls (presentSequence env isEnabled s SyncInterval Flags).1
        = (false, sync, flags) ::
          (if env.original before sync flags = DXGI_ERROR_INVALID_CALL ∧
              flags.testBit 9 = true then [(true, sync, clearTearing flags)] else []) ∧
      (presentSequence env isEnabled s SyncInterval Flags).2
        = (if env.original before sync flags = DXGI_ERROR_INVALID_CALL ∧
              flags.testBit 9 = true then
            env.original (before ++ [Action.original FrameKind.real false sync flags]) sync
              (clearTearing flags)
          else env.original before sync flags) ∧
      ∀ i : ℕ, (clearTearing flags).testBit i = (flags.testBit i && decide (i ≠ 9)) := by
  have hflags : (if isEnabled = true ∧ s.DisableVSync = true
      then Flags ||| 0x200 else Flags) < 2 ^ 32 := by
    split_ifs
    · exact Nat.or_lt_two_pow hF (by norm_num)
    · exact hF
  obtain ⟨r1, r2⟩ := presentWithRetry_result env
    (if isEnabled = true ∧ s.DisableVSync = true then 0 else SyncInterval)
    (if isEnabled = true ∧ s.DisableVSync = true then Flags ||| 0x200 else Flags)
    (drawOverlay env
      (if isEnabled = true then
        (loopIndices s.MultiFrameCount).foldl
          (genLoopBody env s s.MultiFrameCount
            (if isEnabled = true ∧ s.DisableVSync = true then Flags ||| 0x200 else Flags)
            (pacerFPS s)) [Action.capture]
          ++ [Action.restore]
      else []))
  have hb := presentSequence_before env isEnabled s
    (if isEnabled = true ∧ s.DisableVSync = true then Flags ||| 0x200 else Flags)
  rw [hb, List.nil_append] at r1
  refine ⟨_, _, _, rfl, rfl, hb, Eq.trans ?_ r1, r2, fun i => clearTearing_testBit _ hflags i⟩
  unfold presentSequence
  simp only []
  exact realCalls_pacer _ _ _

/-- **C22.** For the real frame, `hkPresent` calls the original present with the
sync interval and flags it has settled on; it calls it a second time exactly
when that first call returned `DXGI_ERROR_INVALID_CALL` and bit 9 (0x200) of the
flags passed was set; the second call has the same sync interval and the same
flags with bit 9 cleared and every other bit kept; and `hkPresent` returns the
result of the second call when there was one and of the first call otherwise. -/
theorem hkPresent_real_frame_retry (env : PresentEnv) (isEnabled : Bool)
    (SyncInterval Flags : ℕ) (fullFrameTime : ℤ) (st : RatioState) (hF : Flags < 2 ^ 32) :
    ∃ (before : List Action) (sync flags : ℕ),
      sync = (if isEnabled = true ∧
          (hkPresent env isEnabled SyncInterval Flags fullFrameTime st).1.settings.DisableVSync
            = true then 0 else SyncInterval) ∧
      flags = (if isEnabled = true ∧
          (hkPresent env isEnabled SyncInterval Flags fullFrameTime st).1.settings.DisableVSync
            = true then Flags ||| 0x200 else Flags) ∧
      realCalls before = [] ∧
      realCalls (hkPresent env isEnabled SyncInterval Flags fullFrameTime st).2.1
        = (false, sync, flags) ::
          (if env.original before sync flags = DXGI_ERROR_INVALID_CALL ∧
              flags.testBit 9 = true then [(true, sync, clearTearing flags)] else []) ∧
      (hkPresent env isEnabled SyncInterval Flags fullFrameTime st).2.2
        = (if env.original before sync flags = DXGI_ERROR_INVALID_CALL ∧
              flags.testBit 9 = true then
            env.original (before ++ [Action.original FrameKind.real false sync flags]) sync
              (clearTearing flags)
          else env.original before sync flags) ∧
      ∀ i : ℕ, (clearTearing flags).testBit i = (flags.testBit i && decide (i ≠ 9)) :=
  presentSequence_realCalls env isEnabled (dynamicRatioStep isEnabled fullFrameTime st).settings
    SyncInterval Flags hF

theorem hkPresent_real_frame_retry_witness :
    (0x200 : ℕ) < 2 ^ 32 ∧
    ∃ (before : List Action) (sync flags : ℕ),
      sync = (if true = true ∧
          (hkPresent ⟨fun _ => true, true, fun _ _ _ => DXGI_ERROR_INVALID_CALL⟩ true 1 0x200 16667
            ⟨0, {}⟩).1.settings.DisableVSync = true then 0 else 1) ∧
      flags = (if true = true ∧
          (hkPresent ⟨fun _ => true, true, fun _ _ _ => DXGI_ERROR_INVALID_CALL⟩ true 1 0x200 16667
            ⟨0, {}⟩).1.settings.DisableVSync = true then 0x200 ||| 0x200 else 0x200) ∧
      realCalls before = [] ∧
      realCalls (hkPresent ⟨fun _ => true, true, fun _ _ _ => DXGI_ERROR_INVALID_CALL⟩ true 1
          0x200 16667 ⟨0, {}⟩).2.1
        = (false, sync, flags) ::
          (if (⟨fun _ => true, true, fun _ _ _ => DXGI_ERROR_INVALID_CALL⟩ : PresentEnv).original
                before sync flags = DXGI_ERROR_INVALID_CALL ∧
              flags.testBit 9 = true then [(true, sync, clearTearing flags)] else []) ∧
      (hkPresent ⟨fun _ => true, true, fun _ _ _ => DXGI_ERROR_INVALID_CALL⟩ true 1 0x200 16667
          ⟨0, {}⟩).2.2
        = (if (⟨fun _ => true, true, fun _ _ _ => DXGI_ERROR_INVALID_CALL⟩ : PresentEnv).original
                before sync flags = DXGI_ERROR_INVALID_CALL ∧
              flags.testBit 9 = true then
            (⟨fun _ => true, true, fun _ _ _ => DXGI_ERROR_INVALID_CALL⟩ : PresentEnv).original
              (before ++ [Action.original FrameKind.real false sync flags]) sync
              (clearTearing flags)
          else (⟨fun _ => true, true, fun _ _ _ => DXGI_ERROR_INVALID_CALL⟩ : PresentEnv).original
            before sync flags) ∧
      ∀ i : ℕ, (clearTearing flags).testBit i = (flags.testBit i && decide (i ≠ 9)) :=
  ⟨by decide, hkPresent_real_frame_retry
    ⟨fun _ => true, true, fun _ _ _ => DXGI_ERROR_INVALID_CALL⟩ true 1 0x200 16667 ⟨0, {}⟩
    (by decide)⟩

/-! ## `hkResizeBuffers` -/

/-- **C24.** `hkResizeBuffers` calls the original resize once, with
`max BufferCount 3` as buffer count and with `Width`, `Height`, `NewFormat` and
`SwapChainFlags` as received, returns the `HRESULT` of that call, and leaves the
pipeline attached to the back buffer the original call produced. -/
theorem hkResizeBuffers_forwards (env : ResizeEnv)
    (BufferCount Width Height NewFormat SwapChainFlags : ℕ) (renderTargetView : Bool)
    (p : Pipeline) :
    (hkResizeBuffers env BufferCount Width Height NewFormat SwapChainFlags renderTargetView p).2
      = (env.original p.backBuffer (max BufferCount 3) Width Height NewFormat SwapChainFlags).1 ∧
    (hkResizeBuffers env BufferCount Width Height NewFormat SwapChainFlags renderTargetView
        p).1.2.backBuffer
      = (env.original p.backBuffer (max BufferCount 3) Width Height NewFormat SwapChainFlags).2 := by
  have hmax : (if BufferCount < 3 then 3 else BufferCount) = max BufferCount 3 := by
    split_ifs with h
    · exact (max_eq_right (le_of_lt h)).symm
    · exact (max_eq_left (not_lt.1 h)).symm
  unfold hkResizeBuffers
  simp only [hmax, and_self]

/-! ## The split-screen divider -/

/-- **C25 (code bug).** For an output 8 pixels wide and `SplitPos = 0.5` the
divider column is 4 and the kernel paints the three columns 3, 4 and 5 white,
whatever the inputs hold: the test `abs(px - splitX) <= 1` under the comment
"Draw 2px Line" accepts three columns.  Column 2 shows the generated input and
column 6 the real input. -/
theorem splitScreen_divider_three_columns (texGen texReal : Texture Float4) (y : ℕ) :
    truncToInt ((1 / 2 : ℚ) * ((8 : ℕ) : ℚ)) = 4 ∧
    splitScreenThread (1 / 2) texGen texReal 8 3 y = ⟨1, 1, 1, 1⟩ ∧
    splitScreenThread (1 / 2) texGen texReal 8 4 y = ⟨1, 1, 1, 1⟩ ∧
    splitScreenThread (1 / 2) texGen texReal 8 5 y = ⟨1, 1, 1, 1⟩ ∧
    splitScreenThread (1 / 2) texGen texReal 8 2 y = texGen.load ((2 : ℕ) : ℤ) (y : ℤ) ∧
    splitScreenThread (1 / 2) texGen texReal 8 6 y = texReal.load ((6 : ℕ) : ℤ) (y : ℤ) := by
  have h4 : truncToInt ((1 / 2 : ℚ) * ((8 : ℕ) : ℚ)) = 4 := by
    unfold truncToInt
    norm_num
  refine ⟨h4, ?_, ?_, ?_, ?_, ?_⟩ <;>
    · unfold splitScreenThread
      simp only [h4]
      norm_num

/-! ## The scene-change counter on frames in the unit range -/

theorem whiteFrame40_unitRange : whiteFrame40.unitRange := by
  intro x y _
  unfold whiteFrame40
  norm_num

theorem blackFrame40_unitRange : blackFrame40.unitRange := by
  intro x y _
  unfold blackFrame40
  norm_num

theorem white_black_sad (x y sx sy : ℤ) (hx0 : 0 ≤ x) (hx1 : x < whiteFrame40.width)
    (hy0 : 0 ≤ y) (hy1 : y < whiteFrame40.height) (a0 : 0 ≤ sx) (a1 : sx < whiteFrame40.width)
    (b0 : 0 ≤ sy) (b1 : sy < whiteFrame40.height) :
    sad3 (whiteFrame40.load x y) (blackFrame40.load sx sy) = 3 := by
  have h1 : whiteFrame40.inBounds x y := ⟨hx0, hx1, hy0, hy1⟩
  have h2 : blackFrame40.inBounds sx sy := ⟨a0, a1, b0, b1⟩
  unfold Texture.load
  rw [if_pos h1, if_pos h2]
  unfold sad3 whiteFrame40 blackFrame40
  norm_num

/-- **C29 (counterexample).** The block size 65536 is an `int` of at least 3,
but its square `2 ^ 32` wraps to 0 in the 32-bit product, so the divisor is
`max(1, 0) * 3 = 3`: on a white 40 x 40 frame against a black one (channels in
`[0, 1]`, radius 16, no initial guess) the best difference 3 gives an average of
1, above 0.15, and the pass started with the counter at 0 returns 1600, one
increment per pixel. -/
theorem large_block_size_counts :
    (3 : ℤ) ≤ 65536 ∧ (65536 : ℤ) < 2 ^ 31 ∧ wrapInt32 (65536 * 65536) = 0 ∧
    whiteFrame40.unitRange ∧ blackFrame40.unitRange ∧
    (BlockMatching whiteFrame40 blackFrame40 motion40 none 65536 16 true 0).2 = 1600 := by
  have hwrap : wrapInt32 (65536 * 65536) = 0 := by decide
  have hmax : ((max 1 (wrapInt32 (65536 * 65536)) : ℤ) : ℚ) = 1 := by
    rw [hwrap]
    norm_num
  have h := BlockMatching_counter_all whiteFrame40 blackFrame40 motion40 65536 16 true 0 3
    white_black_sad (by norm_num) (by norm_num) (by rw [hmax]; norm_num) (by decide)
    (by decide)
  refine ⟨by decide, by decide, hwrap, whiteFrame40_unitRange, blackFrame40_unitRange, ?_⟩
  rw [h]
  rfl

/-- **C29 (amended).** For frames whose colour channels lie in `[0, 1]`, block
size from 3 to 46340 (so that its square fits the 32-bit product of the kernel),
non-negative search radius and no initial guess: the best difference every
thread inside the frame finds is at most 3, the product `BlockSize * BlockSize`
does not wrap, an increment needs the difference to exceed
`0.15 * 3 * BlockSize ^ 2`, which is more than 3, no thread increments, and the
pass returns the counter it was started with. -/
theorem BlockMatching_never_counts (cur prev : Texture Float4) (motion : Texture Float2)
    (blockSize searchRadius : ℤ) (enableSubPixel : Bool) (stats : ℕ) (x y : ℤ)
    (hc : cur.unitRange) (hp : prev.unitRange) (hB : 3 ≤ blockSize) (hB2 : blockSize ≤ 46340)
    (hR : 0 ≤ searchRadius)
    (hx0 : 0 ≤ x) (hx1 : x < cur.width) (hy0 : 0 ≤ y) (hy1 : y < cur.height) :
    (bmSearch ⟨cur.width, cur.height, blockSize, searchRadius,
        if enableSubPixel then 1 else 0, 0⟩ cur prev x y (0, 0)).minSAD ≤ 3 ∧
    wrapInt32 (blockSize * blockSize) = blockSize * blockSize ∧
    (3 : ℚ) < 15 / 100 * (3 * ((max 1 (wrapInt32 (blockSize * blockSize)) : ℤ) : ℚ)) ∧
    (∃ v, bmThread ⟨cur.width, cur.height, blockSize, searchRadius,
        if enableSubPixel then 1 else 0, 0⟩ cur prev ⟨0, 0, fun _ _ => 0⟩ x y = some (v, false)) ∧
    (BlockMatching cur prev motion none blockSize searchRadius enableSubPixel stats).2
      = stats := by
  refine ⟨?_, wrapInt32_sq blockSize hB hB2, ?_, ?_,
    BlockMatching_counter_unchanged cur prev motion blockSize searchRadius
      enableSubPixel stats hc hp hB hB2 hR⟩
  · unfold bmSearch
    apply bmSearch_fold_le_three _ cur prev x y (0, 0) hc hp (0, 0)
    · simp only [add_zero]
      omega
    · intro hd
      cases hd
    · exact Or.inr (zero_mem_searchOffsets searchRadius hR)
  · rw [wrapInt32_sq blockSize hB hB2]
    have h9 : (9 : ℤ) ≤ max 1 (blockSize * blockSize) := by
      have : 9 ≤ blockSize * blockSize := by nlinarith
      exact le_trans this (le_max_right _ _)
    have h9q : (9 : ℚ) ≤ ((max 1 (blockSize * blockSize) : ℤ) : ℚ) := by exact_mod_cast h9
    linarith
  · exact bmThread_no_increment _ cur prev _ x y hc hp hB hB2 hR rfl hx0 hx1 hy0 hy1

theorem BlockMatching_never_counts_witness :
    whiteFrame40.unitRange ∧ blackFrame40.unitRange ∧ (3 : ℤ) ≤ 16 ∧ (16 : ℤ) ≤ 46340 ∧
    (bmSearch ⟨whiteFrame40.width, whiteFrame40.height, 16, 16,
        if true then 1 else 0, 0⟩ whiteFrame40 blackFrame40 7 9 (0, 0)).minSAD ≤ 3 ∧
    wrapInt32 (16 * 16) = 16 * 16 ∧
    (3 : ℚ) < 15 / 100 * (3 * ((max 1 (wrapInt32 (16 * 16)) : ℤ) : ℚ)) ∧
    (∃ v, bmThread ⟨whiteFrame40.width, whiteFrame40.height, 16, 16,
        if true then 1 else 0, 0⟩ whiteFrame40 blackFrame40 ⟨0, 0, fun _ _ => 0⟩ 7 9
          = some (v, false)) ∧
    (BlockMatching whiteFrame40 blackFrame40 motion40 none 16 16 true 0).2 = 0 :=
  ⟨whiteFrame40_unitRange, blackFrame40_unitRange, by decide, by decide,
    BlockMatching_never_counts whiteFrame40 blackFrame40 motion40 16 16 true 0 7 9
      whiteFrame40_unitRange blackFrame40_unitRange
      (by decide) (by decide) (by decide) (by decide) (by decide) (by decide) (by decide)⟩

/-! ## Performance profiles -/

/-- **C30 (code bug).** The profiles 1 to 4 do not assign `RcasStrength`, which
`GetBestMatchingPreset` compares with 0.2, 0.5, 0.7 and 0.9.  Applied to the
default settings (sharpening strength 0.5), the profiles 1, 3 and 4 yield
settings that match no profile (the helper returns -1); only profile 0, which
assigns every field it is matched on, is found again from every prior settings
value, and profile 2 is found again from the defaults because its strength is
the default. -/
theorem preset_round_trip_fails (s : ProfileSettings) :
    GetBestMatchingPreset (applyPreset 0 s) = 0 ∧
    (applyPreset 1 s).RcasStrength = s.RcasStrength ∧
    GetBestMatchingPreset (applyPreset 1 {}) = -1 ∧
    GetBestMatchingPreset (applyPreset 2 {}) = 2 ∧
    GetBestMatchingPreset (applyPreset 3 {}) = -1 ∧
    GetBestMatchingPreset (applyPreset 4 {}) = -1 ∧
    GetBestMatchingPreset (applyPreset 2 { RcasStrength := 0 }) = -1 := by
  refine ⟨?_, rfl, ?_, ?_, ?_, ?_, ?_⟩ <;>
    · unfold GetBestMatchingPreset applyPreset
      norm_num

/-! ## The frame pacer -/

theorem toMicroseconds_of_nonneg (d : ℤ) (h : 0 ≤ d) : toMicroseconds d = d / 1000 := by
  unfold toMicroseconds
  exact Int.tdiv_eq_ediv h (by norm_num)

theorem targetFrameTime_floor (targetFPS : ℤ) (h : 0 < targetFPS) :
    Int.tdiv 1000000 targetFPS = ⌊(1000000 : ℚ) / (targetFPS : ℚ)⌋ := by
  rw [Int.tdiv_eq_ediv (by norm_num) (le_of_lt h)]
  have hn : ((targetFPS.toNat : ℕ) : ℤ) = targetFPS := Int.toNat_of_nonneg (le_of_lt h)
  have hq : (targetFPS : ℚ) = ((targetFPS.toNat : ℕ) : ℚ) := by
    exact_mod_cast hn.symm
  have h := Rat.floor_intCast_div_natCast 1000000 targetFPS.toNat
  rw [hn] at h
  rw [hq, ← h]
  norm_num

/-- When the spin loop ends, the reading that ended it is at least the target
interval after the recorded time, and every reading the loop took before it is
less than the target interval after the recorded time. -/
theorem spinWait_spec (clock : ℕ → ℤ) (last target : ℤ) (fuel : ℕ) :
    ∀ k k1 : ℕ, spinWait clock last target fuel k = some k1 →
      k < k1 ∧ target ≤ toMicroseconds (clock (k1 - 1) - last) ∧
      ∀ i : ℕ, k ≤ i → i + 1 < k1 → toMicroseconds (clock i - last) < target := by
  induction fuel with
  | zero =>
    intro k k1 h
    simp [spinWait] at h
  | succ n ih =>
    intro k k1 h
    unfold spinWait at h
    by_cases hlt : toMicroseconds (clock k - last) < target
    · rw [if_pos hlt] at h
      obtain ⟨h1, h2, h3⟩ := ih (k + 1) k1 h
      refine ⟨by omega, h2, ?_⟩
      intro i hi1 hi2
      by_cases hik : i = k
      · rw [hik]
        exact hlt
      · exact h3 i (by omega) hi2
    · rw [if_neg hlt] at h
      simp only [Option.some.injEq] at h
      subst h
      refine ⟨by omega, by simpa using not_lt.1 hlt, ?_⟩
      intro i hi1 hi2
      omega

/-- The spin loop ends once the fuel reaches a reading that is at least the
target interval after the recorded time. -/
theorem spinWait_terminates (clock : ℕ → ℤ) (last target : ℤ) (n : ℕ)
    (hn : target ≤ toMicroseconds (clock n - last)) (fuel : ℕ) :
    ∀ k : ℕ, k ≤ n → n < k + fuel → ∃ k1, spinWait clock last target fuel k = some k1 := by
  induction fuel with
  | zero =>
    intro k h1 h2
    omega
  | succ m ih =>
    intro k h1 h2
    unfold spinWait
    split_ifs with hlt
    · have hk : k ≠ n := by
        rintro rfl
        exact absurd hn (not_le.2 hlt)
      exact ih (k + 1) (by omega) (by omega)
    · exact ⟨_, rfl⟩

/-- **C23.** With a monotonic clock and the recorded time taken from it:
for `targetFPS <= 0`, `FramePacer::Wait` returns at once and changes nothing;
for `targetFPS > 0`, whenever it returns it has read the clock at least twice,
the time it records is its last reading, the reading before that one is at
least `floor(1000000 / targetFPS)` microseconds after the time recorded before
and is the first reading of the call that late (every earlier reading of the
call shows less), so the recorded time lies at least that interval after the
time recorded before; and it does return once the clock shows a reading that
late. -/
theorem FramePacer_Wait_contract (clock : ℕ → ℤ) (targetFPS : ℤ) (p : FramePacer)
    (hmono : ∀ i j : ℕ, i ≤ j → clock i ≤ clock j)
    (hlast : p.lastPresentTime ≤ clock p.reads) :
    (targetFPS ≤ 0 → ∀ fuel : ℕ, p.Wait clock fuel targetFPS = some p) ∧
    (0 < targetFPS → ∀ (fuel : ℕ) (q : FramePacer), p.Wait clock fuel targetFPS = some q →
      p.reads + 2 ≤ q.reads ∧
      q.lastPresentTime = clock (q.reads - 1) ∧
      ⌊(1000000 : ℚ) / (targetFPS : ℚ)⌋
          ≤ toMicroseconds (clock (q.reads - 2) - p.lastPresentTime) ∧
      (∀ i : ℕ, p.reads ≤ i → i + 2 < q.reads →
        toMicroseconds (clock i - p.lastPresentTime) < ⌊(1000000 : ℚ) / (targetFPS : ℚ)⌋) ∧
      ⌊(1000000 : ℚ) / (targetFPS : ℚ)⌋
          ≤ toMicroseconds (q.lastPresentTime - p.lastPresentTime) ∧
      1000 * ⌊(1000000 : ℚ) / (targetFPS : ℚ)⌋ ≤ q.lastPresentTime - p.lastPresentTime) ∧
    (0 < targetFPS → ∀ n fuel : ℕ, p.reads < n → n ≤ p.reads + fuel →
      ⌊(1000000 : ℚ) / (targetFPS : ℚ)⌋ ≤ toMicroseconds (clock n - p.lastPresentTime) →
      ∃ q, p.Wait clock fuel targetFPS = some q) := by
  have key : ∀ (T d e : ℤ), 0 ≤ d → d ≤ e → T ≤ toMicroseconds d →
      T ≤ toMicroseconds e ∧ (0 ≤ T → 1000 * T ≤ e) := by
    intro T d e h0 h1 h2
    rw [toMicroseconds_of_nonneg d h0] at h2
    rw [toMicroseconds_of_nonneg e (le_trans h0 h1)]
    constructor
    · omega
    · intro _
      omega
  have hT : 0 < targetFPS → 0 ≤ ⌊(1000000 : ℚ) / (targetFPS : ℚ)⌋ := by
    intro h
    rw [← targetFrameTime_floor targetFPS h, Int.tdiv_eq_ediv (by norm_num) (le_of_lt h)]
    exact Int.ediv_nonneg (by norm_num) (le_of_lt h)
  refine ⟨?_, ?_, ?_⟩
  · intro h fuel
    unfold FramePacer.Wait
    rw [if_pos h]
  · intro h fuel q hq
    unfold FramePacer.Wait at hq
    rw [if_neg (not_le.2 h)] at hq
    simp only [targetFrameTime_floor targetFPS h] at hq
    by_cases hlt : toMicroseconds (clock p.reads - p.lastPresentTime)
        < ⌊(1000000 : ℚ) / (targetFPS : ℚ)⌋
    · rw [if_pos hlt] at hq
      cases hs : spinWait clock p.lastPresentTime ⌊(1000000 : ℚ) / (targetFPS : ℚ)⌋ fuel
          (p.reads + 1) with
      | none =>
        rw [hs] at hq
        cases hq
      | some k1 =>
        rw [hs] at hq
        simp only [Option.some.injEq] at hq
        subst hq
        obtain ⟨h1, h2, h3⟩ := spinWait_spec clock p.lastPresentTime _ fuel _ _ hs
        have hm1 := hmono p.reads (k1 - 1) (by omega)
        have hm2 := hmono (k1 - 1) k1 (by omega)
        obtain ⟨a, b⟩ := key _ (clock (k1 - 1) - p.lastPresentTime)
          (clock k1 - p.lastPresentTime) (by omega) (by omega) h2
        have e1 : k1 + 1 - 1 = k1 := by omega
        have e2 : k1 + 1 - 2 = k1 - 1 := by omega
        refine ⟨by simp only []; omega, by simp only [e1], by simp only [e2]; exact h2, ?_,
          a, b (hT h)⟩
        intro i hi1 hi2
        simp only [] at hi2
        by_cases hip : i = p.reads
        · rw [hip]
          exact hlt
        · exact h3 i (by omega) (by omega)
    · rw [if_neg hlt] at hq
      simp only [Option.some.injEq] at hq
      subst hq
      have hm := hmono p.reads (p.reads + 1) (by omega)
      obtain ⟨a, b⟩ := key _ (clock p.reads - p.lastPresentTime)
        (clock (p.reads + 1) - p.lastPresentTime) (by omega) (by omega) (not_lt.1 hlt)
      have e1 : p.reads + 2 - 1 = p.reads + 1 := by omega
      have e2 : p.reads + 2 - 2 = p.reads := by omega
      refine ⟨le_refl _, by simp only [e1], by simp only [e2]; exact not_lt.1 hlt, ?_,
        a, b (hT h)⟩
      intro i hi1 hi2
      simp only [] at hi2
      omega
  · intro h n fuel h1 h2 h3
    unfold FramePacer.Wait
    rw [if_neg (not_le.2 h)]
    simp only [targetFrameTime_floor targetFPS h]
    by_cases hlt : toMicroseconds (clock p.reads - p.lastPresentTime)
        < ⌊(1000000 : ℚ) / (targetFPS : ℚ)⌋
    · rw [if_pos hlt]
      obtain ⟨k1, hk⟩ := spinWait_terminates clock p.lastPresentTime _ n h3 fuel (p.reads + 1)
        (by omega) (by omega)
      rw [hk]
      exact ⟨_, rfl⟩
    · rw [if_neg hlt]
      exact ⟨_, rfl⟩

theorem milliClock_mono (i j : ℕ) (h : i ≤ j) : milliClock i ≤ milliClock j := by
  unfold milliClock
  omega

theorem FramePacer_Wait_contract_witness :
    (∀ i j : ℕ, i ≤ j → milliClock i ≤ milliClock j) ∧
    ((⟨0, 0, []⟩ : FramePacer).lastPresentTime ≤ milliClock (⟨0, 0, []⟩ : FramePacer).reads) ∧
    ((500 : ℤ) ≤ 0 → ∀ fuel : ℕ,
      (⟨0, 0, []⟩ : FramePacer).Wait milliClock fuel 500 = some ⟨0, 0, []⟩) ∧
    ((0 : ℤ) < 500 → ∀ (fuel : ℕ) (q : FramePacer),
      (⟨0, 0, []⟩ : FramePacer).Wait milliClock fuel 500 = some q →
      (⟨0, 0, []⟩ : FramePacer).reads + 2 ≤ q.reads ∧
      q.lastPresentTime = milliClock (q.reads - 1) ∧
      ⌊(1000000 : ℚ) / ((500 : ℤ) : ℚ)⌋
          ≤ toMicroseconds (milliClock (q.reads - 2)
              - (⟨0, 0, []⟩ : FramePacer).lastPresentTime) ∧
      (∀ i : ℕ, (⟨0, 0, []⟩ : FramePacer).reads ≤ i → i + 2 < q.reads →
        toMicroseconds (milliClock i - (⟨0, 0, []⟩ : FramePacer).lastPresentTime)
          < ⌊(1000000 : ℚ) / ((500 : ℤ) : ℚ)⌋) ∧
      ⌊(1000000 : ℚ) / ((500 : ℤ) : ℚ)⌋
          ≤ toMicroseconds (q.lastPresentTime - (⟨0, 0, []⟩ : FramePacer).lastPresentTime) ∧
      1000 * ⌊(1000000 : ℚ) / ((500 : ℤ) : ℚ)⌋
          ≤ q.lastPresentTime - (⟨0, 0, []⟩ : FramePacer).lastPresentTime) ∧
    ((0 : ℤ) < 500 → ∀ n fuel : ℕ, (⟨0, 0, []⟩ : FramePacer).reads < n →
      n ≤ (⟨0, 0, []⟩ : FramePacer).reads + fuel →
      ⌊(1000000 : ℚ) / ((500 : ℤ) : ℚ)⌋
          ≤ toMicroseconds (milliClock n - (⟨0, 0, []⟩ : FramePacer).lastPresentTime) →
      ∃ q, (⟨0, 0, []⟩ : FramePacer).Wait milliClock fuel 500 = some q) :=
  ⟨milliClock_mono, by decide,
    FramePacer_Wait_contract milliClock 500 ⟨0, 0, []⟩ milliClock_mono (by decide)⟩

/-! ## The Farneback refinement step -/

theorem farnebackAccumulate_nonneg (sample : Texture Float4 → ℚ → ℚ → Float4)
    (polyCurr polyPrev : Texture Float4) (d0 : Float2) (posX posY : ℤ)
    (acc : FarnebackSums) (o : ℤ × ℤ) (h : 0 ≤ acc.sum_Rxx2 ∧ 0 ≤ acc.sum_Ryy2) :
    0 ≤ (farnebackAccumulate sample polyCurr polyPrev d0 posX posY acc o).sum_Rxx2 ∧
    0 ≤ (farnebackAccumulate sample polyCurr polyPrev d0 posX posY acc o).sum_Ryy2 := by
  unfold farnebackAccumulate
  simp only []
  split_ifs
  · exact h
  · exact ⟨add_nonneg h.1 (mul_self_nonneg _), add_nonneg h.2 (mul_self_nonneg _)⟩

theorem farneback_fold_nonneg (sample : Texture Float4 → ℚ → ℚ → Float4)
    (polyCurr polyPrev : Texture Float4) (d0 : Float2) (posX posY : ℤ) (l : List (ℤ × ℤ)) :
    ∀ acc : FarnebackSums, 0 ≤ acc.sum_Rxx2 ∧ 0 ≤ acc.sum_Ryy2 →
      0 ≤ (l.foldl (farnebackAccumulate sample polyCurr polyPrev d0 posX posY) acc).sum_Rxx2 ∧
      0 ≤ (l.foldl (farnebackAccumulate sample polyCurr polyPrev d0 posX posY) acc).sum_Ryy2 := by
  induction l with
  | nil =>
    intro acc h
    exact h
  | cons o rest ih =>
    intro acc h
    rw [List.foldl_cons]
    exact ih _ (farnebackAccumulate_nonneg sample polyCurr polyPrev d0 posX posY acc o h)

theorem clampScalar_range (v lo hi : ℚ) (h : lo ≤ hi) :
    lo ≤ clampScalar v lo hi ∧ clampScalar v lo hi ≤ hi := by
  unfold clampScalar
  exact ⟨le_min (le_max_right _ _) h, min_le_right _ _⟩

/-- **C28.** For every pixel inside the expansion texture and every input, both
denominators `2 * sum(R^2) + eps` of the least-squares update are positive, and
the vector the Farneback kernel writes is the initial guess plus an update whose
two components lie in `[-2, 2]`. -/
theorem farneback_bounded_step (sample : Texture Float4 → ℚ → ℚ → Float4)
    (polyCurr polyPrev : Texture Float4) (motionInput : Texture Float2) (x y : ℕ)
    (hx : x < polyCurr.width) (hy : y < polyCurr.height) :
    0 < 2 * (farnebackSums sample polyCurr polyPrev (motionInput.load x y) x y).sum_Rxx2
      + 1 / 10000 ∧
    0 < 2 * (farnebackSums sample polyCurr polyPrev (motionInput.load x y) x y).sum_Ryy2
      + 1 / 10000 ∧
    ∃ delta : Float2, (-2 ≤ delta.x ∧ delta.x ≤ 2) ∧ (-2 ≤ delta.y ∧ delta.y ≤ 2) ∧
      farnebackThread sample polyCurr polyPrev motionInput x y
        = some (Float2.add (motionInput.load x y) delta) := by
  obtain ⟨h1, h2⟩ := farneback_fold_nonneg sample polyCurr polyPrev (motionInput.load x y)
    x y window5 ⟨0, 0, 0, 0⟩ ⟨le_refl _, le_refl _⟩
  refine ⟨?_, ?_, farnebackDelta
    (farnebackSums sample polyCurr polyPrev (motionInput.load x y) x y), ?_, ?_, ?_⟩
  · unfold farnebackSums
    linarith
  · unfold farnebackSums
    linarith
  · exact clampScalar_range _ _ _ (by norm_num)
  · exact clampScalar_range _ _ _ (by norm_num)
  · unfold farnebackThread
    rw [if_neg (by omega)]

theorem farneback_bounded_step_witness :
    0 < 2 * (farnebackSums Texture.sampleLinear samplePoly samplePoly
        (sampleMotion.load ((1 : ℕ) : ℤ) ((1 : ℕ) : ℤ)) ((1 : ℕ) : ℤ) ((1 : ℕ) : ℤ)).sum_Rxx2
      + 1 / 10000 ∧
    0 < 2 * (farnebackSums Texture.sampleLinear samplePoly samplePoly
        (sampleMotion.load ((1 : ℕ) : ℤ) ((1 : ℕ) : ℤ)) ((1 : ℕ) : ℤ) ((1 : ℕ) : ℤ)).sum_Ryy2
      + 1 / 10000 ∧
    ∃ delta : Float2, (-2 ≤ delta.x ∧ delta.x ≤ 2) ∧ (-2 ≤ delta.y ∧ delta.y ≤ 2) ∧
      farnebackThread Texture.sampleLinear samplePoly samplePoly sampleMotion 1 1
        = some (Float2.add (sampleMotion.load ((1 : ℕ) : ℤ) ((1 : ℕ) : ℤ)) delta) :=
  farneback_bounded_step Texture.sampleLinear samplePoly samplePoly sampleMotion 1 1
    (by decide) (by decide)

/-! ## What the block-matching search minimises -/

theorem mem_searchOffsets (R : ℤ) (o : ℤ × ℤ) :
    o ∈ searchOffsets R ↔ (-R ≤ o.1 ∧ o.1 ≤ R) ∧ (-R ≤ o.2 ∧ o.2 ≤ R) := by
  have hspan : ∀ z : ℤ, z ∈ (List.range (2 * R + 1).toNat).map (fun (k : ℕ) => (k : ℤ) - R)
      ↔ -R ≤ z ∧ z ≤ R := by
    intro z
    rw [List.mem_map]
    constructor
    · rintro ⟨k, hk, rfl⟩
      rw [List.mem_range] at hk
      omega
    · rintro ⟨h1, h2⟩
      exact ⟨(z + R).toNat, List.mem_range.2 (by omega), by omega⟩
  unfold searchOffsets
  simp only []
  rw [List.mem_flatMap]
  constructor
  · rintro ⟨b, hb, hmem⟩
    rw [List.mem_map] at hmem
    obtain ⟨a, ha, rfl⟩ := hmem
    exact ⟨(hspan a).1 ha, (hspan b).1 hb⟩
  · rintro ⟨h1, h2⟩
    exact ⟨o.2, (hspan o.2).2 h2, List.mem_map.2 ⟨o.1, (hspan o.1).2 h1, rfl⟩⟩

theorem bmVisit_bestOf (p : BMParams) (cur prev : Texture Float4) (x y : ℤ) (center : ℤ × ℤ)
    (seen : List (ℤ × ℤ)) (st : BMSearch) (o : ℤ × ℤ)
    (h : st.bestOf p cur prev x y center seen) :
    (bmVisit p cur prev x y center st o).bestOf p cur prev x y center (seen ++ [o]) := by
  obtain ⟨h1, h2, h3, h4⟩ := h
  have h4' : (st.minSAD = 999999 ∧ st.bestVector = center) ∨
      ∃ o1 ∈ seen ++ [o], candidateInFrame p x y center o1 ∧
        st.bestVector = (center.1 + o1.1, center.2 + o1.2) ∧
        st.minSAD = sad3 (cur.load x y)
          (prev.load (x + center.1 + o1.1) (y + center.2 + o1.2)) := by
    rcases h4 with h | ⟨o1, ho1, r⟩
    · exact Or.inl h
    · exact Or.inr ⟨o1, List.mem_append_left _ ho1, r⟩
  unfold bmVisit
  simp only []
  by_cases hd : st.done = true
  · rw [if_pos hd]
    refine ⟨h1, h2, ?_, h4'⟩
    intro hf
    rw [hd] at hf
    cases hf
  · rw [if_neg hd]
    have hdf : st.done = false := by
      cases hst : st.done
      · rfl
      · exact absurd hst hd
    by_cases hb : x + center.1 + o.1 < 0 ∨ y + center.2 + o.2 < 0 ∨
        x + center.1 + o.1 ≥ p.Width ∨ y + center.2 + o.2 ≥ p.Height
    · rw [if_pos hb]
      refine ⟨h1, h2, ?_, h4'⟩
      intro _ o1 ho1 hin
      rcases List.mem_append.1 ho1 with hm | hm
      · exact h3 hdf o1 hm hin
      · rw [List.mem_singleton] at hm
        subst hm
        exact absurd hb hin
    · rw [if_neg hb]
      by_cases hlt : sad3 (cur.load x y) (prev.load (x + center.1 + o.1) (y + center.2 + o.2))
          < st.minSAD
      · rw [if_pos hlt]
        refine ⟨?_, le_trans (le_of_lt hlt) h2, ?_, ?_⟩
        · intro hdone
          simpa using hdone
        · intro _ o1 ho1 hin
          rcases List.mem_append.1 ho1 with hm | hm
          · exact le_trans (le_of_lt hlt) (h3 hdf o1 hm hin)
          · rw [List.mem_singleton] at hm
            subst hm
            exact le_refl _
        · exact Or.inr ⟨o, List.mem_append_right _ (List.mem_singleton.2 rfl), hb, rfl, rfl⟩
      · rw [if_neg hlt]
        refine ⟨h1, h2, ?_, h4'⟩
        intro _ o1 ho1 hin
        rcases List.mem_append.1 ho1 with hm | hm
        · exact h3 hdf o1 hm hin
        · rw [List.mem_singleton] at hm
          subst hm
          exact not_lt.1 hlt

theorem bmSearch_fold_bestOf (p : BMParams) (cur prev : Texture Float4) (x y : ℤ)
    (center : ℤ × ℤ) (l : List (ℤ × ℤ)) :
    ∀ (seen : List (ℤ × ℤ)) (st : BMSearch), st.bestOf p cur prev x y center seen →
      (l.foldl (bmVisit p cur prev x y center) st).bestOf p cur prev x y center (seen ++ l) := by
  induction l with
  | nil =>
    intro seen st h
    simpa using h
  | cons o rest ih =>
    intro seen st h
    have h1 := ih (seen ++ [o]) _ (bmVisit_bestOf p cur prev x y center seen st o h)
    rw [List.append_assoc] at h1
    exact h1

theorem bmSearch_bestOf (p : BMParams) (cur prev : Texture Float4) (x y : ℤ) (center : ℤ × ℤ) :
    (bmSearch p cur prev x y center).bestOf p cur prev x y center
      (searchOffsets p.SearchRadius) := by
  have h0 : (⟨999999, center, false⟩ : BMSearch).bestOf p cur prev x y center [] := by
    refine ⟨?_, le_refl _, ?_, Or.inl ⟨rfl, rfl⟩⟩
    · intro h
      cases h
    · intro _ o ho
      exact absurd ho (List.not_mem_nil o)
  have h := bmSearch_fold_bestOf p cur prev x y center (searchOffsets p.SearchRadius) [] _ h0
  rw [List.nil_append] at h
  exact h

/-- What the search loops do compute: with sub-pixel refinement off, frames with
colour channels in `[0, 1]` and a non-negative radius, the vector written for a
pixel inside the frame is the rounded initial guess plus an offset within the
radius in each axis, and among all candidates of the search window inside the
frame it minimises the difference between the pixel itself and the displaced
pixel of the previous frame (a single-pixel cost, not a sum over the block),
unless its own difference is below 0.001. -/
theorem bmThread_minimises_pixel_cost (p : BMParams) (cur prev : Texture Float4)
    (init : Texture Float2) (x y : ℤ)
    (hsub : p.EnableSubPixel ≤ 0) (hc : cur.unitRange) (hp : prev.unitRange)
    (hR : 0 ≤ p.SearchRadius)
    (hx1 : x < p.Width) (hy1 : y < p.Height) :
    ∃ (o : ℤ × ℤ) (inc : Bool),
      (|o.1| ≤ p.SearchRadius ∧ |o.2| ≤ p.SearchRadius) ∧
      bmThread p cur prev init x y
        = some (⟨(((bmSearchCenter p init x y).1 + o.1 : ℤ) : ℚ),
            (((bmSearchCenter p init x y).2 + o.2 : ℤ) : ℚ)⟩, inc) ∧
      ∀ c : ℤ × ℤ, |c.1| ≤ p.SearchRadius → |c.2| ≤ p.SearchRadius →
        candidateInFrame p x y (bmSearchCenter p init x y) c →
        pointCost cur prev x y
            ((bmSearchCenter p init x y).1 + o.1, (bmSearchCenter p init x y).2 + o.2)
          ≤ pointCost cur prev x y
            ((bmSearchCenter p init x y).1 + c.1, (bmSearchCenter p init x y).2 + c.2) ∨
        pointCost cur prev x y
            ((bmSearchCenter p init x y).1 + o.1, (bmSearchCenter p init x y).2 + o.2)
          < 1 / 1000 := by
  have hnb : ¬ (x ≥ p.Width ∨ y ≥ p.Height) := by omega
  have hns : ¬ p.EnableSubPixel > 0 := by omega
  have hzero : |(0 : ℤ)| ≤ p.SearchRadius := by simpa using hR
  by_cases hfast : (x + (bmSearchCenter p init x y).1 ≥ 0 ∧ y + (bmSearchCenter p init x y).2 ≥ 0 ∧
      x + (bmSearchCenter p init x y).1 < p.Width ∧ y + (bmSearchCenter p init x y).2 < p.Height) ∧
      sad3 (cur.load x y) (prev.load (x + (bmSearchCenter p init x y).1)
        (y + (bmSearchCenter p init x y).2)) < 1 / 1000
  · refine ⟨(0, 0), false, ⟨hzero, hzero⟩, ?_, ?_⟩
    · unfold bmThread
      rw [if_neg hnb]
      simp only []
      rw [if_pos hfast]
      simp
    · intro c _ _ _
      right
      unfold pointCost
      simpa using hfast.2
  · obtain ⟨b1, b2, b3, b4⟩ := bmSearch_bestOf p cur prev x y (bmSearchCenter p init x y)
    have hthread : ∃ inc, bmThread p cur prev init x y
        = some (⟨(((bmSearch p cur prev x y (bmSearchCenter p init x y)).bestVector.1 : ℤ) : ℚ),
            (((bmSearch p cur prev x y (bmSearchCenter p init x y)).bestVector.2 : ℤ) : ℚ)⟩,
            inc) := by
      unfold bmThread
      rw [if_neg hnb]
      simp only []
      rw [if_neg hfast, if_neg hns]
      exact ⟨_, rfl⟩
    obtain ⟨inc, hinc⟩ := hthread
    have hmem : ∀ c : ℤ × ℤ, |c.1| ≤ p.SearchRadius → |c.2| ≤ p.SearchRadius →
        c ∈ searchOffsets p.SearchRadius := by
      intro c h1 h2
      rw [mem_searchOffsets]
      rw [abs_le] at h1 h2
      exact ⟨h1, h2⟩
    rcases b4 with ⟨hm, hbv⟩ | ⟨o, ho, hoin, hbv, hm⟩
    · refine ⟨(0, 0), inc, ⟨hzero, hzero⟩, ?_, ?_⟩
      · rw [hinc, hbv]
        simp
      · intro c h1 h2 hin
        exfalso
        have h3 := sad3_le_three cur prev hc hp x y (x + (bmSearchCenter p init x y).1 + c.1)
          (y + (bmSearchCenter p init x y).2 + c.2)
        cases hd : (bmSearch p cur prev x y (bmSearchCenter p init x y)).done
        · have := b3 hd c (hmem c h1 h2) hin
          rw [hm] at this
          linarith
        · have := b1 hd
          rw [hm] at this
          norm_num at this
    · rw [mem_searchOffsets] at ho
      refine ⟨o, inc, ⟨abs_le.2 ho.1, abs_le.2 ho.2⟩, ?_, ?_⟩
      · rw [hinc, hbv]
      · intro c h1 h2 hin
        unfold pointCost
        simp only [← add_assoc]
        rw [← hm]
        cases hd : (bmSearch p cur prev x y (bmSearchCenter p init x y)).done
        · exact Or.inl (b3 hd c (hmem c h1 h2) hin)
        · exact Or.inr (b1 hd)

theorem searchOffsets_one : searchOffsets 1
    = [(-1, -1), (0, -1), (1, -1), (-1, 0), (0, 0), (1, 0), (-1, 1), (0, 1), (1, 1)] := by
  decide

theorem blockOffsets_three : blockOffsets 3
    = [(-1, -1), (0, -1), (1, -1), (-1, 0), (0, 0), (1, 0), (-1, 1), (0, 1), (1, 1)] := by
  decide

theorem greyFrame5_unitRange : greyFrame5.unitRange := by
  intro x y _
  unfold greyFrame5
  norm_num

theorem stepFrame5_unitRange : stepFrame5.unitRange := by
  intro x y _
  unfold stepFrame5
  simp only []
  split_ifs <;> norm_num

theorem bmThread_minimises_pixel_cost_witness :
    searchDemo.EnableSubPixel ≤ 0 ∧ greyFrame5.unitRange ∧ stepFrame5.unitRange ∧
    0 ≤ searchDemo.SearchRadius ∧ (2 : ℤ) < searchDemo.Width ∧ (2 : ℤ) < searchDemo.Height ∧
    ∃ (o : ℤ × ℤ) (inc : Bool),
      (|o.1| ≤ searchDemo.SearchRadius ∧ |o.2| ≤ searchDemo.SearchRadius) ∧
      bmThread searchDemo greyFrame5 stepFrame5 ⟨0, 0, fun _ _ => 0⟩ 2 2
        = some (⟨(((bmSearchCenter searchDemo ⟨0, 0, fun _ _ => 0⟩ 2 2).1 + o.1 : ℤ) : ℚ),
            (((bmSearchCenter searchDemo ⟨0, 0, fun _ _ => 0⟩ 2 2).2 + o.2 : ℤ) : ℚ)⟩, inc) ∧
      ∀ c : ℤ × ℤ, |c.1| ≤ searchDemo.SearchRadius → |c.2| ≤ searchDemo.SearchRadius →
        candidateInFrame searchDemo 2 2 (bmSearchCenter searchDemo ⟨0, 0, fun _ _ => 0⟩ 2 2) c →
        pointCost greyFrame5 stepFrame5 2 2
            ((bmSearchCenter searchDemo ⟨0, 0, fun _ _ => 0⟩ 2 2).1 + o.1,
              (bmSearchCenter searchDemo ⟨0, 0, fun _ _ => 0⟩ 2 2).2 + o.2)
          ≤ pointCost greyFrame5 stepFrame5 2 2
            ((bmSearchCenter searchDemo ⟨0, 0, fun _ _ => 0⟩ 2 2).1 + c.1,
              (bmSearchCenter searchDemo ⟨0, 0, fun _ _ => 0⟩ 2 2).2 + c.2) ∨
        pointCost greyFrame5 stepFrame5 2 2
            ((bmSearchCenter searchDemo ⟨0, 0, fun _ _ => 0⟩ 2 2).1 + o.1,
              (bmSearchCenter searchDemo ⟨0, 0, fun _ _ => 0⟩ 2 2).2 + o.2)
          < 1 / 1000 :=
  ⟨by decide, greyFrame5_unitRange, stepFrame5_unitRange, by decide, by decide, by decide,
    bmThread_minimises_pixel_cost searchDemo greyFrame5 stepFrame5 ⟨0, 0, fun _ _ => 0⟩ 2 2
      (by decide) greyFrame5_unitRange stepFrame5_unitRange (by decide) (by decide) (by decide)⟩

/-- **C26 (code bug).** The kernel's comments call the target "Center pixel of
the block" and say "Sad is sum of 3 channels * BlockSize^2", but the search
loops compare single pixels.  On 5 x 5 frames (current frame mid-grey, previous
frame in vertical stripes of 0.45, 0.49 and white), block size 3, radius 1, no
initial guess and sub-pixel refinement off, the thread of the centre pixel
`(2, 2)` writes the vector `(1, -1)`, the first candidate whose single displaced
pixel is closest in colour (difference 0.03).  Every block of the search window
lies inside the frame; the sum of absolute differences over the 3 x 3 block is
5.04 for the vector written and 0.99 for the zero vector, and no difference is
below 0.001: the vector written does not minimise the block cost. -/
theorem bmThread_ignores_block_cost :
    bmThread searchDemo greyFrame5 stepFrame5 ⟨0, 0, fun _ _ => 0⟩ 2 2
      = some (⟨1, -1⟩, false) ∧
    candidateInFrame searchDemo 2 2 (bmSearchCenter searchDemo ⟨0, 0, fun _ _ => 0⟩ 2 2) (0, 0) ∧
    pointCost greyFrame5 stepFrame5 2 2 (1, -1) = 3 / 100 ∧
    blockCost searchDemo.BlockSize greyFrame5 stepFrame5 2 2 (1, -1) = 126 / 25 ∧
    blockCost searchDemo.BlockSize greyFrame5 stepFrame5 2 2 (0, 0) = 99 / 100 ∧
    ¬ (blockCost searchDemo.BlockSize greyFrame5 stepFrame5 2 2 (1, -1)
        ≤ blockCost searchDemo.BlockSize greyFrame5 stepFrame5 2 2 (0, 0)) ∧
    ¬ (blockCost searchDemo.BlockSize greyFrame5 stepFrame5 2 2 (1, -1) < 1 / 1000) := by
  have hthread : bmThread searchDemo greyFrame5 stepFrame5 ⟨0, 0, fun _ _ => 0⟩ 2 2
      = some (⟨1, -1⟩, false) := by
    unfold bmThread bmSearchCenter bmSearch
    rw [show searchDemo.SearchRadius = 1 from rfl, searchOffsets_one]
    simp [searchDemo, bmVisit, greyFrame5, stepFrame5, Texture.load, Texture.inBounds, sad3,
      wrapInt32]
    norm_num [abs_div]
  have hpoint : pointCost greyFrame5 stepFrame5 2 2 (1, -1) = 3 / 100 := by
    simp [pointCost, greyFrame5, stepFrame5, Texture.load, Texture.inBounds, sad3]
    norm_num [abs_div]
  have hbest : blockCost searchDemo.BlockSize greyFrame5 stepFrame5 2 2 (1, -1) = 126 / 25 := by
    unfold blockCost
    rw [show searchDemo.BlockSize = 3 from rfl, blockOffsets_three]
    simp [pointCost, greyFrame5, stepFrame5, Texture.load, Texture.inBounds, sad3]
    norm_num [abs_div]
  have hzero : blockCost searchDemo.BlockSize greyFrame5 stepFrame5 2 2 (0, 0) = 99 / 100 := by
    unfold blockCost
    rw [show searchDemo.BlockSize = 3 from rfl, blockOffsets_three]
    simp [pointCost, greyFrame5, stepFrame5, Texture.load, Texture.inBounds, sad3]
    norm_num [abs_div]
  refine ⟨hthread, ?_, hpoint, hbest, hzero, ?_, ?_⟩
  · unfold candidateInFrame bmSearchCenter searchDemo
    decide
  · rw [hbest, hzero]
    norm_num
  · rw [hbest]
    norm_num

/-! ## Motion smoothing -/

theorem Texture.load_store_other {α : Type} [Zero α] (t : Texture α) (x y i j : ℤ) (v : α)
    (h : ¬ (i = x ∧ j = y)) : (t.store x y v).load i j = t.load i j := by
  unfold Texture.load
  by_cases hij : t.inBounds i j
  · rw [if_pos hij, if_pos ((Texture.inBounds_store t x y i j v).2 hij)]
    unfold Texture.store
    by_cases hb : t.inBounds x y
    · rw [if_pos hb]
      simp only []
      rw [if_neg h]
    · rw [if_neg hb]
  · rw [if_neg hij, if_neg (mt (Texture.inBounds_store t x y i j v).1 hij)]

theorem bmApply_inBounds (p : BMParams) (cur prev : Texture Float4) (init : Texture Float2)
    (acc : Texture Float2 × ℕ) (q : ℤ × ℤ) (i j : ℤ) :
    (bmApply p cur prev init acc q).1.inBounds i j ↔ acc.1.inBounds i j := by
  unfold bmApply
  cases bmThread p cur prev init q.1 q.2 with
  | none => exact Iff.rfl
  | some r => exact Texture.inBounds_store acc.1 q.1 q.2 i j r.1

theorem bmApply_fold_inBounds (p : BMParams) (cur prev : Texture Float4) (init : Texture Float2)
    (l : List (ℤ × ℤ)) (i j : ℤ) :
    ∀ acc : Texture Float2 × ℕ,
      ((l.foldl (bmApply p cur prev init) acc).1.inBounds i j ↔ acc.1.inBounds i j) := by
  induction l with
  | nil => intro acc; exact Iff.rfl
  | cons q rest ih =>
    intro acc
    rw [List.foldl_cons]
    exact (ih _).trans (bmApply_inBounds p cur prev init acc q i j)

/-- A position that already holds the vector its thread writes still holds it
after any further threads of the pass. -/
theorem bmApply_fold_keep (p : BMParams) (cur prev : Texture Float4) (init : Texture Float2)
    (pos : ℤ × ℤ) (v : Float2) (inc : Bool)
    (hv : bmThread p cur prev init pos.1 pos.2 = some (v, inc)) (l : List (ℤ × ℤ)) :
    ∀ acc : Texture Float2 × ℕ, acc.1.inBounds pos.1 pos.2 → acc.1.load pos.1 pos.2 = v →
      (l.foldl (bmApply p cur prev init) acc).1.load pos.1 pos.2 = v := by
  induction l with
  | nil => intro acc _ h; exact h
  | cons q rest ih =>
    intro acc hb h
    rw [List.foldl_cons]
    refine ih _ ((bmApply_inBounds p cur prev init acc q pos.1 pos.2).2 hb) ?_
    by_cases hq : pos.1 = q.1 ∧ pos.2 = q.2
    · have hqe : q = pos := Prod.ext hq.1.symm hq.2.symm
      subst hqe
      unfold bmApply
      rw [hv]
      exact Texture.load_store_same acc.1 q.1 q.2 v (Or.inr hb)
    · unfold bmApply
      cases hr : bmThread p cur prev init q.1 q.2 with
      | none => exact h
      | some r =>
        simp only []
        rw [Texture.load_store_other acc.1 q.1 q.2 pos.1 pos.2 r.1 hq]
        exact h

/-- After a pass over a list of positions, a position of the list inside the
motion texture holds the vector its thread writes. -/
theorem bmApply_fold_load (p : BMParams) (cur prev : Texture Float4) (init : Texture Float2)
    (pos : ℤ × ℤ) (v : Float2) (inc : Bool)
    (hv : bmThread p cur prev init pos.1 pos.2 = some (v, inc)) (l : List (ℤ × ℤ)) :
    ∀ acc : Texture Float2 × ℕ, pos ∈ l → acc.1.inBounds pos.1 pos.2 →
      (l.foldl (bmApply p cur prev init) acc).1.load pos.1 pos.2 = v := by
  induction l with
  | nil => intro acc h _; exact absurd h (List.not_mem_nil pos)
  | cons q rest ih =>
    intro acc hmem hb
    rw [List.foldl_cons]
    have hb1 := (bmApply_inBounds p cur prev init acc q pos.1 pos.2).2 hb
    rcases List.mem_cons.1 hmem with h | h
    · subst h
      refine bmApply_fold_keep p cur prev init pos v inc hv rest _ hb1 ?_
      unfold bmApply
      rw [hv]
      exact Texture.load_store_same acc.1 pos.1 pos.2 v (Or.inr hb)
    · exact ih _ h hb1

theorem BlockMatching_inBounds (cur prev : Texture Float4) (motion : Texture Float2)
    (initMotion : Option (Texture Float2)) (blockSize searchRadius : ℤ)
    (enableSubPixel : Bool) (stats : ℕ) (i j : ℤ) :
    (BlockMatching cur prev motion initMotion blockSize searchRadius enableSubPixel
        stats).1.inBounds i j ↔ motion.inBounds i j := by
  unfold BlockMatching
  exact bmApply_fold_inBounds _ cur prev _ _ i j (motion, stats)

/-- A pass of `BlockMatching` leaves at every pixel of the frame that lies inside
the motion texture the vector written by the thread of that pixel. -/
theorem BlockMatching_load (cur prev : Texture Float4) (motion : Texture Float2)
    (initMotion : Option (Texture Float2)) (blockSize searchRadius : ℤ)
    (enableSubPixel : Bool) (stats : ℕ) (x y : ℕ) (v : Float2) (inc : Bool)
    (hx : x < cur.width) (hy : y < cur.height) (hb : motion.inBounds x y)
    (hv : bmThread
        { Width := cur.width, Height := cur.height, BlockSize := blockSize,
          SearchRadius := searchRadius, EnableSubPixel := if enableSubPixel then 1 else 0,
          UseInitMotion := if initMotion.isSome then 1 else 0 }
        cur prev (initMotion.getD ⟨0, 0, fun _ _ => 0⟩) x y = some (v, inc)) :
    (BlockMatching cur prev motion initMotion blockSize searchRadius enableSubPixel
        stats).1.load x y = v := by
  unfold BlockMatching
  exact bmApply_fold_load _ cur prev _ ((x : ℤ), (y : ℤ)) v inc hv _ (motion, stats)
    (mem_pixelGrid cur.width cur.height x y hx hy) hb

theorem Float4.quarter_sum (c : Float4) :
    Float4.scale (1 / 4) (Float4.add (Float4.add (Float4.add c c) c) c) = c := by
  unfold Float4.scale Float4.add Float4.zipWith
  cases c
  simp only [Float4.mk.injEq]
  refine ⟨?_, ?_, ?_, ?_⟩ <;> ring

theorem Downsample_load (input output : Texture Float4) (x y : ℕ)
    (hx : x < output.width) (hy : y < output.height) :
    (Downsample input output).load x y = downsampleThread input x y := by
  unfold Downsample
  rw [Texture.load_dispatch output _ _ _ x y hx hy (le_dispatchThreads _ 8 (by norm_num))
    (le_dispatchThreads _ 8 (by norm_num))]
  rfl

/-- Halving a frame that is black left of column `2 k` and white from there on
gives a frame that is black left of column `k` and white from there on. -/
theorem Downsample_split (input output : Texture Float4) (n : ℕ) (k k2 : ℤ) (hk2 : k2 = 2 * k)
    (hw : output.width = n) (hh : output.height = n)
    (hin : ∀ i j : ℤ, 0 ≤ i → i < 2 * n → 0 ≤ j → j < 2 * n →
      input.load i j = if i < k2 then ⟨0, 0, 0, 1⟩ else ⟨1, 1, 1, 1⟩) :
    ∀ i j : ℤ, 0 ≤ i → i < n → 0 ≤ j → j < n →
      (Downsample input output).load i j = if i < k then ⟨0, 0, 0, 1⟩ else ⟨1, 1, 1, 1⟩ := by
  subst hk2
  intro i j hi0 hi1 hj0 hj1
  obtain ⟨x, rfl⟩ := Int.eq_ofNat_of_zero_le hi0
  obtain ⟨y, rfl⟩ := Int.eq_ofNat_of_zero_le hj0
  rw [Downsample_load input output x y (by omega) (by omega)]
  unfold downsampleThread
  simp only []
  rw [hin (2 * (x : ℤ)) (2 * (y : ℤ)) (by omega) (by omega) (by omega) (by omega),
    hin (2 * (x : ℤ) + 1) (2 * (y : ℤ)) (by omega) (by omega) (by omega) (by omega),
    hin (2 * (x : ℤ)) (2 * (y : ℤ) + 1) (by omega) (by omega) (by omega) (by omega),
    hin (2 * (x : ℤ) + 1) (2 * (y : ℤ) + 1) (by omega) (by omega) (by omega) (by omega)]
  by_cases hk : (x : ℤ) < k
  · rw [if_pos hk, if_pos (by omega : 2 * (x : ℤ) < 2 * k),
      if_pos (by omega : 2 * (x : ℤ) + 1 < 2 * k)]
    exact Float4.quarter_sum _
  · rw [if_neg hk, if_neg (by omega : ¬ 2 * (x : ℤ) < 2 * k),
      if_neg (by omega : ¬ 2 * (x : ℤ) + 1 < 2 * k)]
    exact Float4.quarter_sum _

theorem splitFrame_load (n : ℕ) (k : ℤ) (i j : ℤ) (hi0 : 0 ≤ i) (hi1 : i < n) (hj0 : 0 ≤ j)
    (hj1 : j < n) :
    (splitFrame n k).load i j = if i < k then ⟨0, 0, 0, 1⟩ else ⟨1, 1, 1, 1⟩ := by
  unfold Texture.load
  rw [if_pos (show (splitFrame n k).inBounds i j from ⟨hi0, hi1, hj0, hj1⟩)]
  rfl

theorem Dispatch_blockMatching (passes : FlowPasses) (st : FlowState) (ps : PolyState)
    (cur prev : Texture Float4) (out : Texture Float2) (blockSize searchRadius : ℤ)
    (enableSubPixel enableSmoothing : Bool) (maxLevel minLevel : ℤ) :
    (Dispatch passes st ps cur prev out blockSize searchRadius enableSubPixel enableSmoothing
        maxLevel minLevel FlowAlgorithm.BlockMatching).2.2
      = (DispatchBlockMatching st cur prev out blockSize searchRadius enableSubPixel
          enableSmoothing maxLevel minLevel).2 := by
  unfold Dispatch
  by_cases hk : st.kernelsLoaded = true
  · simp [hk]
  · unfold DispatchBlockMatching
    simp [hk]

theorem DispatchBlockMatching_two_one_flag (st : FlowState) (cur prev : Texture Float4)
    (out : Texture Float2) (blockSize searchRadius : ℤ) (enableSubPixel : Bool) :
    DispatchBlockMatching st cur prev out blockSize searchRadius enableSubPixel true 2 1
      = DispatchBlockMatching st cur prev out blockSize searchRadius enableSubPixel false 2 1 := by
  unfold DispatchBlockMatching levelOneBlock
  by_cases hk : st.kernelsLoaded = true
  · simp only [hk, not_true_eq_false, if_false]
    norm_num
  · simp [hk]

/-- From start level 2 to end level 1, the level-2 motion texture that
`OpticalFlow::Dispatch` upsamples into the output is the result of a
block-matching pass on the twice-halved frames. -/
theorem DispatchBlockMatching_two_one_level2 (st : FlowState) (cur prev : Texture Float4)
    (out : Texture Float2) (blockSize searchRadius : ℤ) (enableSubPixel enableSmoothing : Bool)
    (hk : st.kernelsLoaded = true) :
    ∃ (M : Texture Float2) (s : ℕ), (∀ i j, M.inBounds i j ↔ st.TexMotionLevel2.inBounds i j) ∧
      (DispatchBlockMatching st cur prev out blockSize searchRadius enableSubPixel enableSmoothing
          2 1).1.TexMotionLevel2
        = (BlockMatching (Downsample (Downsample cur st.TexCurrentLevel1) st.TexCurrentLevel2)
            (Downsample (Downsample prev st.TexPrevLevel1) st.TexPrevLevel2) M none
            (levelBlock blockSize 4) (Int.tdiv searchRadius 4) false s).1 := by
  unfold DispatchBlockMatching levelOneBlock
  simp only [hk, not_true_eq_false, if_false]
  norm_num
  unfold clearStats
  split_ifs
  all_goals exact ⟨_, fun i j => BlockMatching_inBounds _ _ _ _ _ _ _ _ i j, _, rfl⟩

theorem DispatchBlockMatching_two_one_load (st : FlowState) (cur prev : Texture Float4)
    (out : Texture Float2) (blockSize searchRadius : ℤ) (enableSubPixel enableSmoothing : Bool)
    (hk : st.kernelsLoaded = true) (x y : ℕ) (hx : x < out.width) (hy : y < out.height)
    (hmx : x / 2 < st.TexMotionLevel1.width) (hmy : y / 2 < st.TexMotionLevel1.height) :
    (DispatchBlockMatching st cur prev out blockSize searchRadius enableSubPixel enableSmoothing
        2 1).2.load x y
      = Float2.scale 4
          ((DispatchBlockMatching st cur prev out blockSize searchRadius enableSubPixel
            enableSmoothing 2 1).1.TexMotionLevel2.load (((x / 4 : ℕ) : ℤ)) (((y / 4 : ℕ) : ℤ))) := by
  obtain ⟨h1, m, hmw, hmh, h2⟩ := DispatchBlockMatching_two_one st cur prev out blockSize
    searchRadius enableSubPixel enableSmoothing hk
  rw [h1, h2]
  have h := carryUp_load (DispatchBlockMatching st cur prev out blockSize searchRadius
    enableSubPixel enableSmoothing 2 1).1.TexMotionLevel2 [out, m] x y
    ⟨⟨hx, hy⟩, ⟨by rw [hmw]; exact hmx, by rw [hmh]; exact hmy⟩, trivial⟩
  simp only [carryUp, List.length_cons, List.length_nil] at h
  rw [h]
  norm_num

theorem bmThread_edge_left (cur prev : Texture Float4) (init : Texture Float2)
    (hc : cur.load 0 0 = ⟨0, 0, 0, 1⟩) (hp : prev.load 0 0 = ⟨0, 0, 0, 1⟩) :
    bmThread ⟨2, 2, 4, 1, 0, 0⟩ cur prev init 0 0 = some (⟨0, 0⟩, false) := by
  unfold bmThread bmSearchCenter
  simp [hc, hp, sad3]

theorem bmThread_edge_right (cur prev : Texture Float4) (init : Texture Float2)
    (hc : cur.load 1 0 = ⟨0, 0, 0, 1⟩) (hp00 : prev.load 0 0 = ⟨0, 0, 0, 1⟩)
    (hp10 : prev.load 1 0 = ⟨1, 1, 1, 1⟩) :
    bmThread ⟨2, 2, 4, 1, 0, 0⟩ cur prev init 1 0 = some (⟨-1, 0⟩, false) := by
  unfold bmThread bmSearchCenter bmSearch
  rw [show (⟨2, 2, 4, 1, 0, 0⟩ : BMParams).SearchRadius = 1 from rfl, searchOffsets_one]
  simp [bmVisit, sad3, hc, hp00, hp10, wrapInt32]
  norm_num

theorem Dispatch_farneback_flag (passes : FlowPasses) (st : FlowState) (pc pp : Texture Float4)
    (cur prev : Texture Float4) (out : Texture Float2) (blockSize searchRadius : ℤ)
    (enableSubPixel : Bool) (maxLevel minLevel : ℤ) :
    Dispatch passes st ⟨true, true, true, pc, pp⟩ cur prev out blockSize searchRadius
        enableSubPixel true maxLevel minLevel FlowAlgorithm.Farneback
      = Dispatch passes st ⟨true, true, true, pc, pp⟩ cur prev out blockSize searchRadius
          enableSubPixel false maxLevel minLevel FlowAlgorithm.Farneback := by
  unfold Dispatch
  simp

theorem Dispatch_dis_flag (passes : FlowPasses) (st : FlowState) (pc pp : Texture Float4)
    (cur prev : Texture Float4) (out : Texture Float2) (blockSize searchRadius : ℤ)
    (enableSubPixel : Bool) (maxLevel minLevel : ℤ) :
    Dispatch passes st ⟨true, true, true, pc, pp⟩ cur prev out blockSize searchRadius
        enableSubPixel true maxLevel minLevel FlowAlgorithm.DIS
      = Dispatch passes st ⟨true, true, true, pc, pp⟩ cur prev out blockSize searchRadius
          enableSubPixel false maxLevel minLevel FlowAlgorithm.DIS := by
  unfold Dispatch
  simp

/-- The level-2 frames of the demonstration: the black frame stays black, the
frame with the edge at column 4 becomes a 2 x 2 frame with the edge at column
1. -/
theorem edgeDemo_level2 :
    (∀ i j : ℤ, 0 ≤ i → i < 2 → 0 ≤ j → j < 2 →
      (Downsample (Downsample blackFrame8 flowPyramid.TexCurrentLevel1)
        flowPyramid.TexCurrentLevel2).load i j = ⟨0, 0, 0, 1⟩) ∧
    (∀ i j : ℤ, 0 ≤ i → i < 2 → 0 ≤ j → j < 2 →
      (Downsample (Downsample edgeFrame8 flowPyramid.TexPrevLevel1)
        flowPyramid.TexPrevLevel2).load i j
        = if i < 1 then ⟨0, 0, 0, 1⟩ else ⟨1, 1, 1, 1⟩) := by
  have c1 := Downsample_split blackFrame8 flowPyramid.TexCurrentLevel1 4 4 8 (by norm_num)
    rfl rfl (fun i j a b c d => splitFrame_load 8 8 i j a (by omega) c (by omega))
  have c2 := Downsample_split (Downsample blackFrame8 flowPyramid.TexCurrentLevel1)
    flowPyramid.TexCurrentLevel2 2 2 4 (by norm_num) rfl rfl
    (fun i j a b c d => c1 i j a (by omega) c (by omega))
  have p1 := Downsample_split edgeFrame8 flowPyramid.TexPrevLevel1 4 2 4 (by norm_num)
    rfl rfl (fun i j a b c d => splitFrame_load 8 4 i j a (by omega) c (by omega))
  have p2 := Downsample_split (Downsample edgeFrame8 flowPyramid.TexPrevLevel1)
    flowPyramid.TexPrevLevel2 2 1 2 (by norm_num) rfl rfl
    (fun i j a b c d => p1 i j a (by omega) c (by omega))
  refine ⟨?_, fun i j a b c d => p2 i j a (by omega) c (by omega)⟩
  intro i j a b c d
  rw [c2 i j a (by omega) c (by omega), if_pos b]

/-- The level-2 motion field of the demonstration: zero at `(0, 0)`, one pixel
to the left at `(1, 0)`. -/
theorem edgeDemo_motion ( enableSmoothing : Bool) :
    (DispatchBlockMatching flowPyramid blackFrame8 edgeFrame8 (Texture.blank 8 8) 16 4 false
        enableSmoothing 2 1).1.TexMotionLevel2.load 0 0 = ⟨0, 0⟩ ∧
    (DispatchBlockMatching flowPyramid blackFrame8 edgeFrame8 (Texture.blank 8 8) 16 4 false
        enableSmoothing 2 1).1.TexMotionLevel2.load 1 0 = ⟨-1, 0⟩ := by
  obtain ⟨M, s, hM, hL⟩ := DispatchBlockMatching_two_one_level2 flowPyramid blackFrame8
    edgeFrame8 (Texture.blank 8 8) 16 4 false enableSmoothing rfl
  obtain ⟨hc, hp⟩ := edgeDemo_level2
  have p00 := hp 0 0 (by norm_num) (by norm_num) (by norm_num) (by norm_num)
  have p10 := hp 1 0 (by norm_num) (by norm_num) (by norm_num) (by norm_num)
  norm_num at p00 p10
  rw [hL]
  constructor
  · exact BlockMatching_load _ _ M none _ _ false s 0 0 ⟨0, 0⟩ false (by decide) (by decide)
      ((hM _ _).2 (by decide))
      (bmThread_edge_left _ _ _ (hc 0 0 (by norm_num) (by norm_num) (by norm_num) (by norm_num))
        p00)
  · exact BlockMatching_load _ _ M none _ _ false s 1 0 ⟨-1, 0⟩ false (by decide) (by decide)
      ((hM _ _).2 (by decide))
      (bmThread_edge_right _ _ _ (hc 1 0 (by norm_num) (by norm_num) (by norm_num) (by norm_num))
        p00 p10)

/-- The output of the demonstration in rows 0 to 3: zero left of column 4, four
pixels to the left from column 4 on. -/
theorem edgeDemo_output ( enableSmoothing : Bool) (x y : ℕ) (hx : x < 8) (hy : y < 4) :
    (DispatchBlockMatching flowPyramid blackFrame8 edgeFrame8 (Texture.blank 8 8) 16 4 false
        enableSmoothing 2 1).2.load x y = if x < 4 then ⟨0, 0⟩ else ⟨-4, 0⟩ := by
  obtain ⟨m00, m10⟩ := edgeDemo_motion enableSmoothing
  rw [DispatchBlockMatching_two_one_load flowPyramid blackFrame8 edgeFrame8 (Texture.blank 8 8)
    16 4 false enableSmoothing rfl x y hx (by show y < 8; omega) (by show x / 2 < 4; omega)
    (by show y / 2 < 4; omega)]
  have hy4 : y / 4 = 0 := by omega
  rw [hy4]
  by_cases h : x < 4
  · have hx4 : x / 4 = 0 := by omega
    rw [hx4, if_pos h]
    simp only [Nat.cast_zero]
    rw [m00]
    unfold Float2.scale
    norm_num
  · have hx4 : x / 4 = 1 := by omega
    rw [hx4, if_neg h]
    simp only [Nat.cast_zero, Nat.cast_one]
    rw [m10]
    unfold Float2.scale
    norm_num

theorem boxMean_edge (f : Texture Float2) (hw : f.width = 8) (hh : f.height = 8)
    (h30 : f.load 3 0 = ⟨0, 0⟩) (h40 : f.load 4 0 = ⟨-4, 0⟩) (h50 : f.load 5 0 = ⟨-4, 0⟩)
    (h31 : f.load 3 1 = ⟨0, 0⟩) (h41 : f.load 4 1 = ⟨-4, 0⟩) (h51 : f.load 5 1 = ⟨-4, 0⟩) :
    boxMean f 4 0 = ⟨-8 / 3, 0⟩ ∧ motionSmoothThread f 4 0 = some ⟨-8 / 3, 0⟩ := by
  constructor
  · unfold boxMean smoothOffsets
    simp [Texture.inBounds, hw, hh, h30, h40, h50, h31, h41, h51]
    norm_num
  · unfold motionSmoothThread smoothOffsets
    simp [hw, hh, Float2.add, h30, h40, h50, h31, h41, h51]
    norm_num

/-- **C27 (code bug).** The smoothing block of `OpticalFlow::Dispatch` sits
inside the block-matching branch, after the early returns of the pyramid code.
With every kernel loaded, the Farneback and DIS branches return the same result
whether smoothing is enabled or not, and so does block matching from start level
2 to end level 1.  On 8 x 8 frames (current frame black, previous frame black
with a white right half), block size 16, radius 4 and levels 2 to 1, the output
with smoothing enabled holds `(-4, 0)` at pixel `(4, 0)`, as without smoothing,
while the mean of the in-bounds 3 x 3 neighbours of the unsmoothed field there
is `(-8/3, 0)`, which is also what the smoothing kernel would write. -/
theorem Dispatch_smoothing_skipped (passes : FlowPasses) (st : FlowState) (ps : PolyState)
    (pc pp : Texture Float4) (cur prev : Texture Float4) (out : Texture Float2)
    (blockSize searchRadius : ℤ) (enableSubPixel : Bool) (maxLevel minLevel : ℤ) :
    Dispatch passes st ⟨true, true, true, pc, pp⟩ cur prev out blockSize searchRadius
        enableSubPixel true maxLevel minLevel FlowAlgorithm.Farneback
      = Dispatch passes st ⟨true, true, true, pc, pp⟩ cur prev out blockSize searchRadius
          enableSubPixel false maxLevel minLevel FlowAlgorithm.Farneback ∧
    Dispatch passes st ⟨true, true, true, pc, pp⟩ cur prev out blockSize searchRadius
        enableSubPixel true maxLevel minLevel FlowAlgorithm.DIS
      = Dispatch passes st ⟨true, true, true, pc, pp⟩ cur prev out blockSize searchRadius
          enableSubPixel false maxLevel minLevel FlowAlgorithm.DIS ∧
    (Dispatch passes st ps cur prev out blockSize searchRadius enableSubPixel true 2 1
        FlowAlgorithm.BlockMatching).2.2
      = (Dispatch passes st ps cur prev out blockSize searchRadius enableSubPixel false 2 1
          FlowAlgorithm.BlockMatching).2.2 ∧
    flowPyramid.TexSmoothTemp.isSome = true ∧
    (Dispatch passes flowPyramid ps blackFrame8 edgeFrame8 (Texture.blank 8 8) 16 4 false true
        2 1 FlowAlgorithm.BlockMatching).2.2.load 4 0 = ⟨-4, 0⟩ ∧
    boxMean (Dispatch passes flowPyramid ps blackFrame8 edgeFrame8 (Texture.blank 8 8) 16 4 false
        false 2 1 FlowAlgorithm.BlockMatching).2.2 4 0 = ⟨-8 / 3, 0⟩ ∧
    motionSmoothThread (Dispatch passes flowPyramid ps blackFrame8 edgeFrame8 (Texture.blank 8 8)
        16 4 false false 2 1 FlowAlgorithm.BlockMatching).2.2 4 0 = some ⟨-8 / 3, 0⟩ := by
  have hout : ∀ (e : Bool) (x y : ℕ), x < 8 → y < 4 →
      (Dispatch passes flowPyramid ps blackFrame8 edgeFrame8 (Texture.blank 8 8) 16 4 false e
        2 1 FlowAlgorithm.BlockMatching).2.2.load x y = if x < 4 then ⟨0, 0⟩ else ⟨-4, 0⟩ := by
    intro e x y hx hy
    rw [Dispatch_blockMatching]
    exact edgeDemo_output e x y hx hy
  have hsize : (Dispatch passes flowPyramid ps blackFrame8 edgeFrame8 (Texture.blank 8 8) 16 4
      false false 2 1 FlowAlgorithm.BlockMatching).2.2.width = 8 ∧
      (Dispatch passes flowPyramid ps blackFrame8 edgeFrame8 (Texture.blank 8 8) 16 4
      false false 2 1 FlowAlgorithm.BlockMatching).2.2.height = 8 := by
    rw [Dispatch_blockMatching, (DispatchBlockMatching_two_one flowPyramid blackFrame8 edgeFrame8
      (Texture.blank 8 8) 16 4 false false rfl).1]
    exact ⟨rfl, rfl⟩
  have h30 := hout false 3 0 (by norm_num) (by norm_num)
  have h40 := hout false 4 0 (by norm_num) (by norm_num)
  have h50 := hout false 5 0 (by norm_num) (by norm_num)
  have h31 := hout false 3 1 (by norm_num) (by norm_num)
  have h41 := hout false 4 1 (by norm_num) (by norm_num)
  have h51 := hout false 5 1 (by norm_num) (by norm_num)
  have t40 := hout true 4 0 (by norm_num) (by norm_num)
  norm_num at h30 h40 h50 h31 h41 h51 t40
  have hblur := boxMean_edge _ hsize.1 hsize.2 h30 h40 h50 h31 h41 h51
  refine ⟨Dispatch_farneback_flag passes st pc pp cur prev out blockSize searchRadius
      enableSubPixel maxLevel minLevel,
    Dispatch_dis_flag passes st pc pp cur prev out blockSize searchRadius enableSubPixel
      maxLevel minLevel, ?_, rfl, t40, hblur.1, hblur.2⟩
  rw [Dispatch_blockMatching, Dispatch_blockMatching, DispatchBlockMatching_two_one_flag]

/-! ## Identical frames -/

theorem DispatchAdaptive_identical (st : FlowState) (I : Texture Float4)
    (out : Texture Float2) (searchRadius : ℤ) (x y : ℕ) (ha : st.adaptiveReady = true)
    (hx : x < I.width) (hy : y < I.height) :
    (DispatchAdaptive st I I out searchRadius).2.load x y = 0 := by
  unfold DispatchAdaptive
  simp only [ha, not_true_eq_false, if_false]
  exact BlockMatching_identical I out none 16 searchRadius true st.stats
    (fun t ht => by cases ht) x y hx hy

/-- A pass that copies the forward flow through a scratch texture: where the
forward flow reads zero, so does the result. -/
theorem passThrough_load_zero (fwd temp : Texture Float2) (x y : ℕ) (h : fwd.load x y = 0) :
    (copyResource fwd (temp.dispatch (dispatchThreads fwd.width 16)
      (dispatchThreads fwd.height 16) (fun x y => some (fwd.load x y)))).load x y = 0 := by
  by_cases hd : fwd.width = temp.width ∧ fwd.height = temp.height
  · have hw : fwd.width = (temp.dispatch (dispatchThreads fwd.width 16)
        (dispatchThreads fwd.height 16) (fun x y => some (fwd.load x y))).width := hd.1
    have hh : fwd.height = (temp.dispatch (dispatchThreads fwd.width 16)
        (dispatchThreads fwd.height 16) (fun x y => some (fwd.load x y))).height := hd.2
    rw [copyResource_load fwd _ hw hh]
    by_cases hb : x < temp.width ∧ y < temp.height
    · rw [Texture.load_dispatch temp _ _ _ x y hb.1 hb.2
        (by rw [← hd.1]; exact le_dispatchThreads _ 16 (by norm_num))
        (by rw [← hd.2]; exact le_dispatchThreads _ 16 (by norm_num))]
      simpa using h
    · unfold Texture.load
      rw [if_neg]
      intro hin
      apply hb
      have h1 : (x : ℤ) < (temp.width : ℤ) := hin.2.1
      have h2 : (y : ℤ) < (temp.height : ℤ) := hin.2.2.2
      exact ⟨by exact_mod_cast h1, by exact_mod_cast h2⟩
  · have hd2 : ¬ (fwd.width = (temp.dispatch (dispatchThreads fwd.width 16)
        (dispatchThreads fwd.height 16) (fun x y => some (fwd.load x y))).width ∧
        fwd.height = (temp.dispatch (dispatchThreads fwd.width 16)
        (dispatchThreads fwd.height 16) (fun x y => some (fwd.load x y))).height) := hd
    unfold copyResource
    rw [if_neg hd2]
    exact h

/-- The consistency check passes the forward flow through: where the forward
flow reads zero, so does the output. -/
theorem CheckConsistency_load_zero (st : FlowState) (fwd : Texture Float2)
    (bwd : Option (Texture Float2)) (x y : ℕ) (h : fwd.load x y = 0) :
    (CheckConsistency st fwd bwd fwd).2.load x y = 0 := by
  unfold CheckConsistency
  split
  · exact passThrough_load_zero _ _ x y h
  · exact h

theorem DispatchBiDirectional_identical (st : FlowState) (I : Texture Float4)
    (out : Texture Float2) (blockSize searchRadius : ℤ) (x y : ℕ)
    (hx : x < I.width) (hy : y < I.height) :
    (DispatchBiDirectional st I I out blockSize searchRadius).2.load x y = 0 := by
  have hf := BlockMatching_identical I out none blockSize searchRadius true st.stats
    (fun t ht => by cases ht) x y hx hy
  unfold DispatchBiDirectional
  simp only []
  split_ifs
  · exact CheckConsistency_load_zero _ _ _ x y hf
  · exact hf

theorem sampleCur_load_origin : sampleCur.load ((0 : ℕ) : ℤ) ((0 : ℕ) : ℤ) = ⟨0, 0, 1 / 4, 1⟩ := by
  unfold Texture.load
  rw [if_pos (show sampleCur.inBounds ((0 : ℕ) : ℤ) ((0 : ℕ) : ℤ) by decide)]
  unfold sampleCur
  norm_num

theorem bmThread_same (p : BMParams) (cur prev : Texture Float4) (init : Texture Float2)
    (x y : ℤ) (hx0 : 0 ≤ x) (hx1 : x < p.Width) (hy0 : 0 ≤ y) (hy1 : y < p.Height)
    (hl : cur.load x y = prev.load x y)
    (hinit : p.UseInitMotion ≠ 0 → init.load x y = 0) :
    bmThread p cur prev init x y = some (0, false) := by
  have hc : bmSearchCenter p init x y = (0, 0) := by
    unfold bmSearchCenter
    split_ifs with h
    · rw [hinit h]
      change (hround 0, hround 0) = (0, 0)
      rw [hround_zero]
    · rfl
  unfold bmThread
  have hnb : ¬ (x ≥ p.Width ∨ y ≥ p.Height) := by omega
  rw [if_neg hnb]
  simp only [hc, add_zero, hl, sad3_self]
  have hfast : (x ≥ 0 ∧ y ≥ 0 ∧ x < p.Width ∧ y < p.Height) ∧ (0 : ℚ) < 1 / 1000 :=
    ⟨⟨hx0, hy0, hx1, hy1⟩, by norm_num⟩
  rw [if_pos hfast]
  rfl

/-- A block-matching pass on two frames that read the same everywhere, with no
initial guess or an all-zero one, leaves the zero vector at every pixel of the
frame. -/
theorem BlockMatching_same (cur prev : Texture Float4) (motion : Texture Float2)
    (initMotion : Option (Texture Float2)) (blockSize searchRadius : ℤ)
    (enableSubPixel : Bool) (stats : ℕ)
    (hl : ∀ i j : ℤ, cur.load i j = prev.load i j)
    (hinit : ∀ t, initMotion = some t → ∀ i j : ℤ, t.load i j = 0)
    (x y : ℕ) (hx : x < cur.width) (hy : y < cur.height) :
    (BlockMatching cur prev motion initMotion blockSize searchRadius enableSubPixel stats).1.load
      x y = 0 := by
  unfold BlockMatching
  simp only []
  refine (bmApply_fold_zero _ cur prev _ (pixelGrid cur.width cur.height) ?_ (motion, stats)).2.2
    ((x : ℤ), (y : ℤ)) (mem_pixelGrid cur.width cur.height x y hx hy)
  intro pos hpos
  obtain ⟨h1, h2, h3, h4⟩ := pixelGrid_bounds cur.width cur.height pos hpos
  apply bmThread_same _ cur prev _ pos.1 pos.2 h1 h2 h3 h4 (hl _ _)
  intro _
  cases hi : initMotion with
  | none =>
    simp only [Option.getD_none]
    unfold Texture.load
    split_ifs <;> rfl
  | some t => exact hinit t hi pos.1 pos.2

/-- When the motion texture is not larger than the frames, that pass leaves a
texture that reads zero everywhere. -/
theorem BlockMatching_same_all (cur prev : Texture Float4) (motion : Texture Float2)
    (initMotion : Option (Texture Float2)) (blockSize searchRadius : ℤ)
    (enableSubPixel : Bool) (stats : ℕ)
    (hl : ∀ i j : ℤ, cur.load i j = prev.load i j)
    (hinit : ∀ t, initMotion = some t → ∀ i j : ℤ, t.load i j = 0)
    (hin : ∀ i j : ℤ, motion.inBounds i j → (0 ≤ i ∧ i < cur.width) ∧ (0 ≤ j ∧ j < cur.height))
    (i j : ℤ) :
    (BlockMatching cur prev motion initMotion blockSize searchRadius enableSubPixel stats).1.load
      i j = 0 := by
  by_cases hb : (BlockMatching cur prev motion initMotion blockSize searchRadius enableSubPixel
      stats).1.inBounds i j
  · obtain ⟨⟨i0, i1⟩, ⟨j0, j1⟩⟩ := hin i j ((BlockMatching_inBounds _ _ _ _ _ _ _ _ i j).1 hb)
    obtain ⟨n, rfl⟩ := Int.eq_ofNat_of_zero_le i0
    obtain ⟨m, rfl⟩ := Int.eq_ofNat_of_zero_le j0
    exact BlockMatching_same cur prev motion initMotion blockSize searchRadius enableSubPixel
      stats hl hinit n m (by exact_mod_cast i1) (by exact_mod_cast j1)
  · unfold Texture.load
    rw [if_neg hb]

theorem Float2.scale_zero (c : ℚ) : Float2.scale c 0 = 0 := by
  change (⟨c * 0, c * 0⟩ : Float2) = ⟨0, 0⟩
  rw [mul_zero]

/-- Upsampling a field that reads zero everywhere gives a field that reads zero
everywhere. -/
theorem Upsample_zero (coarse out : Texture Float2) (hc : ∀ i j : ℤ, coarse.load i j = 0)
    (i j : ℤ) : (Upsample coarse out).load i j = 0 := by
  by_cases hb : (Upsample coarse out).inBounds i j
  · have hb2 : (0 ≤ i ∧ i < out.width) ∧ (0 ≤ j ∧ j < out.height) := by
      unfold Texture.inBounds at hb
      exact ⟨⟨hb.1, hb.2.1⟩, ⟨hb.2.2.1, hb.2.2.2⟩⟩
    obtain ⟨⟨i0, i1⟩, ⟨j0, j1⟩⟩ := hb2
    obtain ⟨n, rfl⟩ := Int.eq_ofNat_of_zero_le i0
    obtain ⟨m, rfl⟩ := Int.eq_ofNat_of_zero_le j0
    rw [Upsample_load coarse out n m (by exact_mod_cast i1) (by exact_mod_cast j1), hc,
      Float2.scale_zero]
  · unfold Texture.load
    rw [if_neg hb]

/-- Downsampling two images that read the same everywhere into two textures of
one size gives two images that read the same everywhere. -/
theorem Downsample_same (a b o1 o2 : Texture Float4) (hw : o1.width = o2.width)
    (hh : o1.height = o2.height) (hab : ∀ i j : ℤ, a.load i j = b.load i j) (i j : ℤ) :
    (Downsample a o1).load i j = (Downsample b o2).load i j := by
  by_cases hb : (Downsample a o1).inBounds i j
  · have hb1 : (0 ≤ i ∧ i < o1.width) ∧ (0 ≤ j ∧ j < o1.height) := by
      unfold Texture.inBounds at hb
      exact ⟨⟨hb.1, hb.2.1⟩, ⟨hb.2.2.1, hb.2.2.2⟩⟩
    obtain ⟨⟨i0, i1⟩, ⟨j0, j1⟩⟩ := hb1
    obtain ⟨n, rfl⟩ := Int.eq_ofNat_of_zero_le i0
    obtain ⟨m, rfl⟩ := Int.eq_ofNat_of_zero_le j0
    have n1 : n < o1.width := by exact_mod_cast i1
    have m1 : m < o1.height := by exact_mod_cast j1
    rw [Downsample_load a o1 n m n1 m1,
      Downsample_load b o2 n m (by rw [← hw]; exact n1) (by rw [← hh]; exact m1)]
    unfold downsampleThread
    simp only [hab]
  · have hb2 : ¬ (Downsample b o2).inBounds i j := by
      intro h
      apply hb
      unfold Texture.inBounds at h ⊢
      change 0 ≤ i ∧ i < (o2.width : ℤ) ∧ 0 ≤ j ∧ j < (o2.height : ℤ) at h
      change 0 ≤ i ∧ i < (o1.width : ℤ) ∧ 0 ≤ j ∧ j < (o1.height : ℤ)
      rw [hw, hh]
      exact h
    unfold Texture.load
    rw [if_neg hb, if_neg hb2]

/-- The blur of a field that reads zero everywhere reads zero. -/
theorem motionSmoothThread_zero (f : Texture Float2) (hf : ∀ i j : ℤ, f.load i j = 0)
    (x y : ℕ) : (motionSmoothThread f x y).getD 0 = 0 := by
  unfold motionSmoothThread
  split_ifs
  · rfl
  · have hfold : ∀ (l : List (ℤ × ℤ)) (a : Float2 × ℚ), a.1 = 0 →
        (l.foldl (fun (a : Float2 × ℚ) (o : ℤ × ℤ) =>
          if (x : ℤ) + o.1 ≥ 0 ∧ (y : ℤ) + o.2 ≥ 0 ∧ (x : ℤ) + o.1 < f.width ∧
              (y : ℤ) + o.2 < f.height then
            (Float2.add a.1 (f.load ((x : ℤ) + o.1) ((y : ℤ) + o.2)), a.2 + 1)
          else a) a).1 = 0 := by
      intro l
      induction l with
      | nil => intro a ha; exact ha
      | cons o l ih =>
        intro a ha
        rw [List.foldl_cons]
        apply ih
        split_ifs
        · rw [hf, ha]
          change (⟨(0 : ℚ) + 0, (0 : ℚ) + 0⟩ : Float2) = ⟨0, 0⟩
          rw [add_zero]
        · exact ha
    have h0 := hfold smoothOffsets (⟨0, 0⟩, 0) rfl
    simp only [Option.getD_some]
    rw [h0]
    change (⟨(0 : ℚ) / _, (0 : ℚ) / _⟩ : Float2) = ⟨0, 0⟩
    rw [zero_div]

/-- The smoothing step on a field that reads zero everywhere, the scratch
texture having the size of the field: the result reads zero inside the field. -/
theorem smoothingStep_zero (e : Bool) (cur : Texture Float4) (st : FlowState)
    (out : Texture Float2) (hout : ∀ i j : ℤ, out.load i j = 0)
    (htemp : ∀ t, st.TexSmoothTemp = some t → t.width = out.width ∧ t.height = out.height)
    (hw : out.width ≤ cur.width) (hh : out.height ≤ cur.height)
    (x y : ℕ) (hx : x < out.width) (hy : y < out.height) :
    (smoothingStep e cur st out).2.load x y = 0 := by
  unfold smoothingStep
  cases ht : st.TexSmoothTemp with
  | none => exact hout _ _
  | some temp =>
    obtain ⟨tw, th⟩ := htemp temp ht
    simp only []
    split_ifs
    · rw [Texture.load_dispatch out _ _ _ x y hx hy
        (le_trans hw (le_dispatchThreads _ 8 (by decide)))
        (le_trans hh (le_dispatchThreads _ 8 (by decide))), hout]
      exact motionSmoothThread_zero _ (fun i j => by rw [copyResource_load temp out tw th, hout])
        x y
    · exact hout _ _

theorem clearStats_fields (st : FlowState) :
    (clearStats st).TexCurrentLevel1 = st.TexCurrentLevel1 ∧
    (clearStats st).TexPrevLevel1 = st.TexPrevLevel1 ∧
    (clearStats st).TexCurrentLevel2 = st.TexCurrentLevel2 ∧
    (clearStats st).TexPrevLevel2 = st.TexPrevLevel2 ∧
    (clearStats st).TexMotionLevel1 = st.TexMotionLevel1 ∧
    (clearStats st).TexMotionLevel2 = st.TexMotionLevel2 ∧
    (clearStats st).TexMotionUpsampled = st.TexMotionUpsampled ∧
    (clearStats st).TexSmoothTemp = st.TexSmoothTemp := by
  unfold clearStats
  split_ifs <;> exact ⟨rfl, rfl, rfl, rfl, rfl, rfl, rfl, rfl⟩

/-- The shape of `OpticalFlow::Dispatch` in block-matching mode from start level
2 to end level 0. -/
theorem DispatchBlockMatching_two_zero (st : FlowState) (cur prev : Texture Float4)
    (out : Texture Float2) (blockSize searchRadius : ℤ) (enableSubPixel enableSmoothing : Bool)
    (hk : st.kernelsLoaded = true) :
    ∃ st1 : FlowState, st1.TexSmoothTemp = st.TexSmoothTemp ∧
    ∃ M : Texture Float2, (∀ i j, M.inBounds i j ↔ st.TexMotionLevel2.inBounds i j) ∧
    ∃ (m : Texture Float2) (s s1 : ℕ),
      (DispatchBlockMatching st cur prev out blockSize searchRadius enableSubPixel
          enableSmoothing 2 0).2
        = (smoothingStep enableSmoothing cur st1
            (BlockMatching cur prev out
              (some (Upsample
                (Upsample
                  (BlockMatching
                    (Downsample (Downsample cur st.TexCurrentLevel1) st.TexCurrentLevel2)
                    (Downsample (Downsample prev st.TexPrevLevel1) st.TexPrevLevel2) M none
                    (levelBlock blockSize 4) (Int.tdiv searchRadius 4) false s).1 m)
                st.TexMotionUpsampled))
              blockSize searchRadius enableSubPixel s1).1).2 := by
  obtain ⟨c1, c2, c3, c4, c5, c6, c7, c8⟩ := clearStats_fields st
  unfold DispatchBlockMatching levelOneBlock
  simp only [hk, not_true_eq_false, if_false]
  norm_num
  rw [c1, c2, c3, c4, c7]
  refine ⟨_, ?_, _, ?_, _, _, _, rfl⟩
  · exact c8
  · intro i j
    rw [BlockMatching_inBounds, c6]

theorem bmApply_fold_size (p : BMParams) (cur prev : Texture Float4) (init : Texture Float2)
    (l : List (ℤ × ℤ)) :
    ∀ acc : Texture Float2 × ℕ,
      (l.foldl (bmApply p cur prev init) acc).1.width = acc.1.width ∧
      (l.foldl (bmApply p cur prev init) acc).1.height = acc.1.height := by
  induction l with
  | nil => intro acc; exact ⟨rfl, rfl⟩
  | cons q rest ih =>
    intro acc
    rw [List.foldl_cons]
    obtain ⟨h1, h2⟩ := ih (bmApply p cur prev init acc q)
    rw [h1, h2]
    unfold bmApply
    cases bmThread p cur prev init q.1 q.2 with
    | none => exact ⟨rfl, rfl⟩
    | some r => exact ⟨Texture.store_width _ _ _ _, Texture.store_height _ _ _ _⟩

theorem BlockMatching_size (cur prev : Texture Float4) (motion : Texture Float2)
    (initMotion : Option (Texture Float2)) (blockSize searchRadius : ℤ)
    (enableSubPixel : Bool) (stats : ℕ) :
    (BlockMatching cur prev motion initMotion blockSize searchRadius enableSubPixel
        stats).1.width = motion.width ∧
    (BlockMatching cur prev motion initMotion blockSize searchRadius enableSubPixel
        stats).1.height = motion.height := by
  unfold BlockMatching
  exact bmApply_fold_size _ _ _ _ _ (motion, stats)

/-- The levels `OpticalFlow::Dispatch` works with after its range check, for a
start level of at least 2 and an end level of at most 1. -/
theorem DispatchBlockMatching_levels (st : FlowState) (cur prev : Texture Float4)
    (out : Texture Float2) (blockSize searchRadius : ℤ) (enableSubPixel enableSmoothing : Bool)
    (maxLevel minLevel : ℤ) (hmax : 2 ≤ maxLevel) (hmin : minLevel ≤ 1) :
    DispatchBlockMatching st cur prev out blockSize searchRadius enableSubPixel enableSmoothing
        maxLevel minLevel
      = DispatchBlockMatching st cur prev out blockSize searchRadius enableSubPixel
          enableSmoothing 2 (if minLevel ≤ 0 then 0 else 1) := by
  have e1 : (if maxLevel > 2 then 2 else maxLevel) = 2 := by
    split_ifs <;> omega
  have e2 : (if minLevel < 0 then 0 else minLevel) = (if minLevel ≤ 0 then 0 else 1) := by
    split_ifs <;> omega
  have e3 : (if (2 : ℤ) > 2 then (2 : ℤ) else 2) = 2 := by decide
  have e4 : (if (if minLevel ≤ 0 then (0 : ℤ) else 1) < 0 then (0 : ℤ)
      else (if minLevel ≤ 0 then 0 else 1)) = (if minLevel ≤ 0 then 0 else 1) := by
    split_ifs <;> omega
  unfold DispatchBlockMatching
  simp only [e1, e2, e3, e4]

/-- On identical frames, `OpticalFlow::Dispatch` in block-matching mode from a
start level of at least 2 to an end level of at most 1, with the textures sized
for the frame, leaves the zero vector at every pixel of the output. -/
theorem DispatchBlockMatching_identical (st : FlowState) (I : Texture Float4)
    (out : Texture Float2) (blockSize searchRadius : ℤ) (enableSubPixel enableSmoothing : Bool)
    (maxLevel minLevel : ℤ) (hmax : 2 ≤ maxLevel) (hmin : minLevel ≤ 1)
    (hk : st.kernelsLoaded = true) (hst : st.sizedFor I.width I.height)
    (how : out.width = I.width) (hoh : out.height = I.height)
    (x y : ℕ) (hx : x < I.width) (hy : y < I.height) :
    (DispatchBlockMatching st I I out blockSize searchRadius enableSubPixel enableSmoothing
        maxLevel minLevel).2.load x y = 0 := by
  obtain ⟨htemp, _, ⟨c1w, c1h⟩, ⟨p1w, p1h⟩, _, ⟨c2w, c2h⟩, ⟨p2w, p2h⟩, ⟨m2w, m2h⟩⟩ := hst
  have hl2 : ∀ i j : ℤ,
      (Downsample (Downsample I st.TexCurrentLevel1) st.TexCurrentLevel2).load i j
        = (Downsample (Downsample I st.TexPrevLevel1) st.TexPrevLevel2).load i j :=
    Downsample_same _ _ _ _ (by rw [c2w, p2w]) (by rw [c2h, p2h])
      (Downsample_same _ _ _ _ (by rw [c1w, p1w]) (by rw [c1h, p1h]) (fun _ _ => rfl))
  have hL2 : ∀ (M : Texture Float2) (rad : ℤ) (s : ℕ),
      (∀ i j, M.inBounds i j ↔ st.TexMotionLevel2.inBounds i j) → ∀ i j : ℤ,
      (BlockMatching (Downsample (Downsample I st.TexCurrentLevel1) st.TexCurrentLevel2)
        (Downsample (Downsample I st.TexPrevLevel1) st.TexPrevLevel2) M none
        (levelBlock blockSize 4) rad false s).1.load i j = 0 := by
    intro M rad s hM
    refine BlockMatching_same_all _ _ M none _ _ false s hl2
      (fun t h => Option.noConfusion h) ?_
    intro i j hb
    have hb2 := (hM i j).1 hb
    unfold Texture.inBounds at hb2
    rw [m2w, m2h] at hb2
    change (0 ≤ i ∧ i < (st.TexCurrentLevel2.width : ℤ)) ∧
      (0 ≤ j ∧ j < (st.TexCurrentLevel2.height : ℤ))
    rw [c2w, c2h]
    exact ⟨⟨hb2.1, hb2.2.1⟩, ⟨hb2.2.2.1, hb2.2.2.2⟩⟩
  rw [DispatchBlockMatching_levels st I I out blockSize searchRadius enableSubPixel
    enableSmoothing maxLevel minLevel hmax hmin]
  by_cases h0 : minLevel ≤ 0
  · rw [if_pos h0]
    obtain ⟨st1, hst1, M, hM, m, s, s1, heq⟩ := DispatchBlockMatching_two_zero st I I out
      blockSize searchRadius enableSubPixel enableSmoothing hk
    rw [heq]
    refine smoothingStep_zero enableSmoothing I st1 _ ?_ ?_ ?_ ?_ x y ?_ ?_
    · refine BlockMatching_same_all I I out _ _ _ _ _ (fun _ _ => rfl) ?_ ?_
      · intro t ht
        rw [← Option.some.inj ht]
        exact Upsample_zero _ _ (Upsample_zero _ _ (hL2 M _ s hM))
      · intro i j hb
        unfold Texture.inBounds at hb
        rw [how, hoh] at hb
        exact ⟨⟨hb.1, hb.2.1⟩, ⟨hb.2.2.1, hb.2.2.2⟩⟩
    · intro t ht
      rw [hst1] at ht
      obtain ⟨tw, th⟩ := htemp t ht
      rw [(BlockMatching_size _ _ _ _ _ _ _ _).1, (BlockMatching_size _ _ _ _ _ _ _ _).2, how, hoh]
      exact ⟨tw, th⟩
    · rw [(BlockMatching_size _ _ _ _ _ _ _ _).1, how]
    · rw [(BlockMatching_size _ _ _ _ _ _ _ _).2, hoh]
    · rw [(BlockMatching_size _ _ _ _ _ _ _ _).1, how]
      exact hx
    · rw [(BlockMatching_size _ _ _ _ _ _ _ _).2, hoh]
      exact hy
  · rw [if_neg h0]
    obtain ⟨h1, m, _, _, h2⟩ := DispatchBlockMatching_two_one st I I out blockSize searchRadius
      enableSubPixel enableSmoothing hk
    obtain ⟨M, s, hM, h3⟩ := DispatchBlockMatching_two_one_level2 st I I out blockSize
      searchRadius enableSubPixel enableSmoothing hk
    rw [h1, h2, h3]
    exact Upsample_zero _ _ (Upsample_zero _ _ (hL2 M _ s hM)) _ _

/-- On identical frames, with the debug view off and no sharpening pass
(`useRCAS` false), `FrameInterpolation::Dispatch` leaves in the generated frame,
at a pixel where the motion vector is zero, the pixel of the frame as the
format of the generated frame stores it. -/
theorem FrameInterpolation_Dispatch_still (sqrtFn : ℚ → ℚ) (genStore : Float4 → Float4)
    (fi : FrameInterpolation) (I : Texture Float4) (motion : Texture Float2)
    (gen : Texture Float4) (stats : ℕ) (hudThreshold : ℚ) (debugMode : ℤ)
    (motionScale factor : ℚ) (sceneThreshold : ℤ) (rcasStrength ghostingStrength : ℚ)
    (enableEdgeProtection : Bool) (x y : ℕ) (hx : x < I.width) (hy : y < I.height)
    (hgw : gen.width = I.width) (hgh : gen.height = I.height)
    (hd : debugMode ≤ 0) (hr : rcasStrength ≤ 0 ∨ fi.TexSharpened = none)
    (hm : motion.load x y = 0) :
    (FrameInterpolation.Dispatch sqrtFn genStore fi I I motion gen stats hudThreshold debugMode
        motionScale factor sceneThreshold rcasStrength ghostingStrength
        enableEdgeProtection).2.load x y = genStore (I.load x y) := by
  have hnone : (if rcasStrength > 0 then fi.TexSharpened else none) = none := by
    rcases hr with h | h
    · rw [if_neg (not_lt.2 h)]
    · rw [h]
      split_ifs <;> rfl
  unfold FrameInterpolation.Dispatch
  simp only [if_neg (not_lt.2 hd), hnone]
  rw [Texture.load_dispatch gen _ _ _ x y (by rw [hgw]; exact hx) (by rw [hgh]; exact hy)
    (by rw [hgw]; exact le_dispatchThreads _ 8 (by decide))
    (by rw [hgh]; exact le_dispatchThreads _ 8 (by decide))]
  simp only [Option.getD_some]
  rw [interpolate_identical _ I motion _ stats x y hx hy hm]

/-- With the debug view off, a sharpening strength above 0.001 and the
sharpening kernel and its scratch texture present, `FrameInterpolation::Dispatch`
leaves in the generated frame the sharpened scratch texture, into which the
interpolation kernel wrote. -/
theorem FrameInterpolation_Dispatch_rcas (sqrtFn : ℚ → ℚ) (genStore : Float4 → Float4)
    (fi : FrameInterpolation) (cur prev : Texture Float4) (motion : Texture Float2)
    (gen temp : Texture Float4) (stats : ℕ) (hudThreshold : ℚ) (debugMode : ℤ)
    (motionScale factor : ℚ) (sceneThreshold : ℤ) (rcasStrength ghostingStrength : ℚ)
    (enableEdgeProtection : Bool) (x y : ℕ) (hx : x < gen.width) (hy : y < gen.height)
    (hgw : gen.width ≤ temp.width) (hgh : gen.height ≤ temp.height)
    (hd : debugMode ≤ 0) (hr : 1 / 1000 < rcasStrength) (ht : fi.TexSharpened = some temp)
    (hk : fi.csRCAS = true) :
    ∃ mask : Texture ℚ,
      (FrameInterpolation.Dispatch sqrtFn genStore fi cur prev motion gen stats hudThreshold
          debugMode motionScale factor sceneThreshold rcasStrength ghostingStrength
          enableEdgeProtection).2.load x y
        = (rcasThread rcasStrength
            (temp.dispatch (dispatchThreads cur.width 8) (dispatchThreads cur.height 8)
              (fun i j => some (unorm8Store
                (interpolate ⟨factor, sceneThreshold, ghostingStrength⟩ cur prev motion mask
                  stats i j))))
            x y).getD (gen.load x y) := by
  have hsome : (if rcasStrength > 0 then fi.TexSharpened else none) = some temp := by
    rw [if_pos (by linarith), ht]
  have hon : ¬ (¬ (true = true) ∨ rcasStrength ≤ 1 / 1000) := by
    intro h
    rcases h with h | h
    · exact h rfl
    · linarith
  unfold FrameInterpolation.Dispatch
  simp only [if_neg (not_lt.2 hd), hsome, hk]
  unfold DispatchRCAS
  rw [if_neg hon]
  rw [Texture.load_dispatch gen _ _ _ x y hx hy
    (by exact le_trans hgw (le_dispatchThreads temp.width 8 (by decide)))
    (by exact le_trans hgh (le_dispatchThreads temp.height 8 (by decide)))]
  exact ⟨_, rfl⟩

theorem stepFrame2_load (i j : ℕ) (hi : i < 2) (hj : j < 2) :
    stepFrame2.load i j = if i = 0 then ⟨1 / 5, 1 / 5, 1 / 5, 1⟩ else ⟨1, 1, 1, 1⟩ := by
  have hb : stepFrame2.inBounds (i : ℤ) (j : ℤ) := by
    unfold Texture.inBounds stepFrame2
    simp only []
    omega
  unfold Texture.load
  rw [if_pos hb]
  unfold stepFrame2
  simp only [Nat.cast_eq_zero]

theorem stepFrame2_stored (i j : ℕ) (hi : i < 2) (hj : j < 2) :
    unorm8Store (stepFrame2.load i j) = stepFrame2.load i j := by
  have u0 : unormChannel (1 / 5) = 1 / 5 := by
    rw [unormChannel_eq (1 / 5) 51 (by norm_num) (by norm_num) (by norm_num) (by norm_num)]
    norm_num
  have u1 : unormChannel 1 = 1 := by
    rw [unormChannel_eq 1 255 (by norm_num) (by norm_num) (by norm_num) (by norm_num)]
    norm_num
  rw [stepFrame2_load i j hi hj]
  split_ifs
  · unfold unorm8Store
    simp only [u0, u1]
  · unfold unorm8Store
    simp only [u1]

/-- The default pipeline on two identical 2 x 2 frames: the motion field of
`DispatchAdaptive` is zero, and `FrameInterpolation::Dispatch` with the default
sharpening strength 0.5 writes `1 / 15` at pixel `(0, 0)`, where the frame holds
`1 / 5`. -/
theorem stepFrame2_sharpened (sqrtFn : ℚ → ℚ) :
    (FrameInterpolation.Dispatch sqrtFn unorm8Store (synthFor 2 2) stepFrame2 stepFrame2
      (DispatchAdaptive flowReady stepFrame2 stepFrame2 staleMotion 16).2 (Texture.blank 2 2)
      0 (1 / 100) 0 1 (1 / 2) 1000 (1 / 2) (3 / 10) true).2.load ((0 : ℕ) : ℤ) ((0 : ℕ) : ℤ)
      = ⟨1 / 15, 1 / 15, 1 / 15, 1⟩ := by
  obtain ⟨mask, h⟩ := FrameInterpolation_Dispatch_rcas sqrtFn unorm8Store (synthFor 2 2) stepFrame2
    stepFrame2 (DispatchAdaptive flowReady stepFrame2 stepFrame2 staleMotion 16).2
    (Texture.blank 2 2) (Texture.blank 2 2) 0 (1 / 100) 0 1 (1 / 2) 1000 (1 / 2) (3 / 10) true
    0 0 (by decide) (by decide) (le_refl _) (le_refl _) (le_refl _) (by norm_num) rfl rfl
  rw [h]
  have hT : ∀ i j : ℕ, i < 2 → j < 2 →
      ((Texture.blank 2 2 : Texture Float4).dispatch (dispatchThreads stepFrame2.width 8)
        (dispatchThreads stepFrame2.height 8)
        (fun i j => some (unorm8Store
          (interpolate ⟨1 / 2, 1000, 3 / 10⟩ stepFrame2 stepFrame2
            (DispatchAdaptive flowReady stepFrame2 stepFrame2 staleMotion 16).2 mask
            0 i j)))).load i j
        = if i = 0 then ⟨1 / 5, 1 / 5, 1 / 5, 1⟩ else ⟨1, 1, 1, 1⟩ := by
    intro i j hi hj
    rw [Texture.load_dispatch (Texture.blank 2 2 : Texture Float4)
      (dispatchThreads stepFrame2.width 8) (dispatchThreads stepFrame2.height 8) _ i j hi hj
      (by exact le_dispatchThreads 2 8 (by decide)) (by exact le_dispatchThreads 2 8 (by decide))]
    simp only [Option.getD_some]
    rw [interpolate_identical _ stepFrame2 _ mask 0 i j hi hj
      (DispatchAdaptive_identical flowReady stepFrame2 staleMotion 16 i j rfl hi hj),
      stepFrame2_stored i j hi hj, stepFrame2_load i j hi hj]
  generalize hTd : ((Texture.blank 2 2 : Texture Float4).dispatch
      (dispatchThreads stepFrame2.width 8) (dispatchThreads stepFrame2.height 8)
      (fun i j => some (unorm8Store
        (interpolate ⟨1 / 2, 1000, 3 / 10⟩ stepFrame2 stepFrame2
          (DispatchAdaptive flowReady stepFrame2 stepFrame2 staleMotion 16).2 mask
          0 i j)))) = T at hT ⊢
  have hw : T.width = 2 := by rw [← hTd]; rfl
  have hh : T.height = 2 := by rw [← hTd]; rfl
  have t00 : T.load 0 0 = ⟨1 / 5, 1 / 5, 1 / 5, 1⟩ := by
    have := hT 0 0 (by decide) (by decide)
    simpa using this
  have t01 : T.load 0 1 = ⟨1 / 5, 1 / 5, 1 / 5, 1⟩ := by
    have := hT 0 1 (by decide) (by decide)
    simpa using this
  have t10 : T.load 1 0 = ⟨1, 1, 1, 1⟩ := by
    have := hT 1 0 (by decide) (by decide)
    simpa using this
  unfold rcasThread
  simp [hw, hh, t00, t01, t10, saturate]
  norm_num

theorem flowPyramid_sized : flowPyramid.sizedFor 8 8 :=
  ⟨fun t h => by
      have e : Texture.blank 8 8 = t := Option.some.inj h
      rw [← e]
      exact ⟨rfl, rfl⟩,
    ⟨rfl, rfl⟩, ⟨rfl, rfl⟩, ⟨rfl, rfl⟩, ⟨rfl, rfl⟩, ⟨rfl, rfl⟩, ⟨rfl, rfl⟩, ⟨rfl, rfl⟩⟩

theorem edgeFrame8_stored :
    unorm8Store (edgeFrame8.load ((1 : ℕ) : ℤ) ((1 : ℕ) : ℤ))
      = edgeFrame8.load ((1 : ℕ) : ℤ) ((1 : ℕ) : ℤ) := by
  have u0 : unormChannel 0 = 0 := by
    rw [unormChannel_eq 0 0 (by norm_num) (by norm_num) (by norm_num) (by norm_num)]
    norm_num
  have u1 : unormChannel 1 = 1 := by
    rw [unormChannel_eq 1 255 (by norm_num) (by norm_num) (by norm_num) (by norm_num)]
    norm_num
  unfold edgeFrame8
  rw [splitFrame_load 8 4 _ _ (by decide) (by decide) (by decide) (by decide),
    if_pos (by decide)]
  unfold unorm8Store
  simp only [u0, u1]

/-- **C9 (counterexample).** Identical frames, four failures.  On two
identical black frames the mask is not all-static: with the default HUD
threshold 0.01 and edge protection on, the edge magnitude of the flat frame is
zero (the Sobel radicand vanishes) and `buildMask` writes 0; with edge
protection off and the HUD threshold at its configurable minimum 0 it writes 0
as well.  The estimation is not all-zero: `OpticalFlow::Dispatch` in
block-matching mode with the default pyramid levels 1 and 0 leaves the motion
texture as it found it, here with the vector `(2, 0)` at pixel `(0, 0)` of two
identical 2 x 2 frames.  The generated frame is not the input: with that motion
field, a dynamic mask (HUD threshold 0) and factor 0.5, `interpolate` writes
`(0.25, 0, 0.25, 1)` at pixel `(0, 0)`, where the frame holds `(0, 0, 0.25, 1)`.
And with a zero motion field (that of `DispatchAdaptive`, the default entry
point) and every default of the settings, the sharpening pass of
`FrameInterpolation::Dispatch` (strength 0.5) turns the pixel `(0, 0)` of a
2 x 2 frame in 8-bit colours from `1 / 5` into `1 / 15`. -/
theorem identical_frames_fail_end_to_end :
    sobelRadicand blackFrame 0 0 = 0 ∧
    hudMask (1 / 100) 1 blackFrame blackFrame blackEdge 0 0 = 0 ∧
    hudMask (1 / 100) 1 blackFrame blackFrame blackEdge 0 0 ≠ 1 ∧
    hudMask 0 0 blackFrame blackFrame blackEdge 0 0 ≠ 1 ∧
    (DispatchBlockMatching flowReady sampleCur sampleCur staleShift 16 8 true false 1 0).2.load
        ((0 : ℕ) : ℤ) ((0 : ℕ) : ℤ) = ⟨2, 0⟩ ∧
    hudMask 0 0 sampleCur sampleCur blackEdge 0 0 = 0 ∧
    dynamicMask.load ((0 : ℕ) : ℤ) ((0 : ℕ) : ℤ) = 0 ∧
    sampleCur.load ((0 : ℕ) : ℤ) ((0 : ℕ) : ℤ) = ⟨0, 0, 1 / 4, 1⟩ ∧
    interpolate ⟨1 / 2, 1000, 0⟩ sampleCur sampleCur
        (DispatchBlockMatching flowReady sampleCur sampleCur staleShift 16 8 true false 1 0).2
        dynamicMask 0 0 0 = ⟨1 / 4, 0, 1 / 4, 1⟩ ∧
    stepFrame2.load ((0 : ℕ) : ℤ) ((0 : ℕ) : ℤ) = ⟨1 / 5, 1 / 5, 1 / 5, 1⟩ ∧
    (DispatchAdaptive flowReady stepFrame2 stepFrame2 staleMotion 16).2.load
        ((0 : ℕ) : ℤ) ((0 : ℕ) : ℤ) = 0 ∧
    (∀ sqrtFn : ℚ → ℚ,
      (FrameInterpolation.Dispatch sqrtFn unorm8Store (synthFor 2 2) stepFrame2 stepFrame2
        (DispatchAdaptive flowReady stepFrame2 stepFrame2 staleMotion 16).2 (Texture.blank 2 2)
        0 (1 / 100) 0 1 (1 / 2) 1000 (1 / 2) (3 / 10) true).2.load ((0 : ℕ) : ℤ) ((0 : ℕ) : ℤ)
        = ⟨1 / 15, 1 / 15, 1 / 15, 1⟩) := by
  have hstale : (DispatchBlockMatching flowReady sampleCur sampleCur staleShift 16 8 true false
      1 0).2 = staleShift :=
    (DispatchBlockMatching_unwritten flowReady sampleCur sampleCur staleShift 16 8 true 0).2.1
  have hm : staleShift.load ((0 : ℕ) : ℤ) ((0 : ℕ) : ℤ) = ⟨2, 0⟩ := by
    unfold Texture.load
    rw [if_pos (show staleShift.inBounds ((0 : ℕ) : ℤ) ((0 : ℕ) : ℤ) by decide)]
    rfl
  have hmask : dynamicMask.load ((0 : ℕ) : ℤ) ((0 : ℕ) : ℤ) = 0 := by
    unfold Texture.load
    split_ifs <;> rfl
  have hns : ¬ interpShortCircuit ⟨1 / 2, 1000, 0⟩ dynamicMask 0 0 0 := by
    unfold interpShortCircuit
    rw [hmask]
    have hu : toUInt32 (⟨1 / 2, 1000, 0⟩ : InterpSettings).SceneChangeThreshold = 1000 := by
      decide
    rw [hu]
    norm_num
  have hprev : sampleCur.sampleLinear
      ((pixelUV sampleCur 0 0).1 + (2 : ℚ) / (sampleCur.width : ℚ) * (1 / 2))
      ((pixelUV sampleCur 0 0).2 + (0 : ℚ) / (sampleCur.height : ℚ) * (1 / 2))
        = ⟨1 / 2, 0, 1 / 4, 1⟩ := by
    have h := Texture.sampleLinear_center sampleCur 1 0 (by decide) (by decide)
    have e1 : (pixelUV sampleCur 0 0).1 + (2 : ℚ) / (sampleCur.width : ℚ) * (1 / 2)
        = (((1 : ℤ) : ℚ) + 1 / 2) / (sampleCur.width : ℚ) := by
      unfold pixelUV sampleCur
      norm_num
    have e2 : (pixelUV sampleCur 0 0).2 + (0 : ℚ) / (sampleCur.height : ℚ) * (1 / 2)
        = (((0 : ℤ) : ℚ) + 1 / 2) / (sampleCur.height : ℚ) := by
      unfold pixelUV sampleCur
      norm_num
    rw [e1, e2, h]
    unfold Texture.texelClamped Texture.clampIndex sampleCur
    norm_num
  have hcur : sampleCur.sampleLinear
      ((pixelUV sampleCur 0 0).1 - (2 : ℚ) / (sampleCur.width : ℚ) * (1 - 1 / 2))
      ((pixelUV sampleCur 0 0).2 - (0 : ℚ) / (sampleCur.height : ℚ) * (1 - 1 / 2))
        = ⟨0, 0, 1 / 4, 1⟩ := by
    have h := Texture.sampleLinear_center sampleCur (-1) 0 (by decide) (by decide)
    have e1 : (pixelUV sampleCur 0 0).1 - (2 : ℚ) / (sampleCur.width : ℚ) * (1 - 1 / 2)
        = (((-1 : ℤ) : ℚ) + 1 / 2) / (sampleCur.width : ℚ) := by
      unfold pixelUV sampleCur
      norm_num
    have e2 : (pixelUV sampleCur 0 0).2 - (0 : ℚ) / (sampleCur.height : ℚ) * (1 - 1 / 2)
        = (((0 : ℤ) : ℚ) + 1 / 2) / (sampleCur.height : ℚ) := by
      unfold pixelUV sampleCur
      norm_num
    rw [e1, e2, h]
    unfold Texture.texelClamped Texture.clampIndex sampleCur
    norm_num
  have hgen : interpolate ⟨1 / 2, 1000, 0⟩ sampleCur sampleCur staleShift dynamicMask 0 0 0
      = ⟨1 / 4, 0, 1 / 4, 1⟩ := by
    rw [interpolate_of_not_short _ _ _ _ _ _ _ _ hns,
      if_neg (show ¬ ((⟨1 / 2, 1000, 0⟩ : InterpSettings).GhostingStrength > 0) by norm_num)]
    unfold interpBlend interpPixelPrev interpPixelCurr
    simp only [hm]
    change Float4.lerp (sampleCur.sampleLinear
        ((pixelUV sampleCur 0 0).1 + (2 : ℚ) / (sampleCur.width : ℚ) * (1 / 2))
        ((pixelUV sampleCur 0 0).2 + (0 : ℚ) / (sampleCur.height : ℚ) * (1 / 2)))
      (sampleCur.sampleLinear
        ((pixelUV sampleCur 0 0).1 - (2 : ℚ) / (sampleCur.width : ℚ) * (1 - 1 / 2))
        ((pixelUV sampleCur 0 0).2 - (0 : ℚ) / (sampleCur.height : ℚ) * (1 - 1 / 2)))
      (1 / 2) = _
    rw [hprev, hcur]
    unfold Float4.lerp Float4.zipWith
    norm_num
  refine ⟨?_, ?_, ?_, ?_, ?_, ?_, hmask, sampleCur_load_origin, ?_,
    by rw [stepFrame2_load 0 0 (by decide) (by decide), if_pos rfl],
    DispatchAdaptive_identical flowReady stepFrame2 staleMotion 16 0 0 rfl (by decide)
      (by decide),
    stepFrame2_sharpened⟩
  · unfold sobelRadicand
    simp only [luminance_black_load]
    norm_num
  · rw [hudMask_identical]
    unfold blackEdge Texture.load Texture.inBounds
    norm_num
  · rw [hudMask_identical]
    unfold blackEdge Texture.load Texture.inBounds
    norm_num
  · rw [hudMask_identical]
    norm_num
  · rw [hstale]
    exact hm
  · rw [hudMask_identical]
    norm_num
  · rw [hstale]
    exact hgen

/-- **C9 (amended).** When the current and the previous frame are the same image
`I`, at every pixel of the frame: a block-matching pass (with no initial guess,
or an all-zero one) leaves the zero motion vector, and so do the estimation
entry points `DispatchAdaptive` (with its resources created),
`DispatchBiDirectional`, and `OpticalFlow::Dispatch` in block-matching mode from
a start level of at least 2 to an end level of at most 1 (kernels loaded,
textures of the sizes `Initialize` creates, output of the frame's size);
`buildMask` writes 1 (static) exactly when the HUD threshold is positive and, if
edge protection is enabled, the edge magnitude at the pixel is at least 0.1, and
writes 0 otherwise; on every motion field that is zero at the pixel
`interpolate` writes `I`'s pixel, for every interpolation factor, scene-change
counter and threshold, ghosting strength and mask; and on such a motion field
`FrameInterpolation::Dispatch`, with the debug view off and without the
sharpening pass (strength not positive, or no scratch texture), leaves `I`'s
pixel in the generated frame, when that frame has `I`'s size and its format
stores `I`'s pixel unchanged. -/
theorem identical_frames (I : Texture Float4) (motion0 : Texture Float2)
    (initMotion : Option (Texture Float2)) (blockSize searchRadius : ℤ)
    (enableSubPixel enableSmoothing : Bool) (stats0 : ℕ) (Threshold : ℚ) (UseEdgeDetect : ℤ)
    (edge : Texture Float4) (s : InterpSettings) (mask : Texture ℚ) (stats : ℕ) (x y : ℕ)
    (st : FlowState) (maxLevel minLevel : ℤ) (sqrtFn : ℚ → ℚ) (genStore : Float4 → Float4)
    (fi : FrameInterpolation) (gen : Texture Float4) (debugMode : ℤ)
    (motionScale rcasStrength : ℚ) (enableEdgeProtection : Bool)
    (hinit : ∀ t, initMotion = some t → ∀ i j : ℤ, t.load i j = 0)
    (hx : x < I.width) (hy : y < I.height) :
    (BlockMatching I I motion0 initMotion blockSize searchRadius enableSubPixel stats0).1.load
        x y = 0 ∧
    (st.adaptiveReady = true → (DispatchAdaptive st I I motion0 searchRadius).2.load x y = 0) ∧
    (DispatchBiDirectional st I I motion0 blockSize searchRadius).2.load x y = 0 ∧
    (st.kernelsLoaded = true → st.sizedFor I.width I.height →
      motion0.width = I.width → motion0.height = I.height → 2 ≤ maxLevel → minLevel ≤ 1 →
      (DispatchBlockMatching st I I motion0 blockSize searchRadius enableSubPixel
        enableSmoothing maxLevel minLevel).2.load x y = 0) ∧
    hudMask Threshold UseEdgeDetect I I edge x y =
      (if 0 < Threshold ∧ (UseEdgeDetect > 0 → 1 / 10 ≤ (edge.load x y).r) then 1 else 0) ∧
    (∀ m : Texture Float2, m.load x y = 0 → interpolate s I I m mask stats x y = I.load x y) ∧
    (∀ m : Texture Float2, m.load x y = 0 →
      gen.width = I.width → gen.height = I.height → debugMode ≤ 0 →
      (rcasStrength ≤ 0 ∨ fi.TexSharpened = none) → genStore (I.load x y) = I.load x y →
      (FrameInterpolation.Dispatch sqrtFn genStore fi I I m gen stats Threshold debugMode
        motionScale s.Factor s.SceneChangeThreshold rcasStrength s.GhostingStrength
        enableEdgeProtection).2.load x y = I.load x y) := by
  refine ⟨BlockMatching_identical I motion0 initMotion blockSize searchRadius enableSubPixel
      stats0 hinit x y hx hy,
    fun ha => DispatchAdaptive_identical st I motion0 searchRadius x y ha hx hy,
    DispatchBiDirectional_identical st I motion0 blockSize searchRadius x y hx hy,
    fun hk hs hw hh h2 h1 => DispatchBlockMatching_identical st I motion0 blockSize searchRadius
      enableSubPixel enableSmoothing maxLevel minLevel h2 h1 hk hs hw hh x y hx hy,
    hudMask_identical Threshold UseEdgeDetect I edge x y,
    fun m hm => interpolate_identical s I m mask stats x y hx hy hm, ?_⟩
  intro m hm hgw hgh hd hr hstore
  rw [FrameInterpolation_Dispatch_still sqrtFn genStore fi I m gen stats Threshold debugMode
    motionScale s.Factor s.SceneChangeThreshold rcasStrength s.GhostingStrength
    enableEdgeProtection x y hx hy hgw hgh hd hr hm, hstore]

theorem identical_frames_witness :
    (∀ t, (none : Option (Texture Float2)) = some t → ∀ i j : ℤ, t.load i j = 0) ∧
    1 < edgeFrame8.width ∧ 1 < edgeFrame8.height ∧
    (BlockMatching edgeFrame8 edgeFrame8 staleMotion8 none 16 16 true 0).1.load
        ((1 : ℕ) : ℤ) ((1 : ℕ) : ℤ) = 0 ∧
    (DispatchAdaptive flowPyramid edgeFrame8 edgeFrame8 staleMotion8 16).2.load
        ((1 : ℕ) : ℤ) ((1 : ℕ) : ℤ) = 0 ∧
    (DispatchBiDirectional flowPyramid edgeFrame8 edgeFrame8 staleMotion8 16 16).2.load
        ((1 : ℕ) : ℤ) ((1 : ℕ) : ℤ) = 0 ∧
    (DispatchBlockMatching flowPyramid edgeFrame8 edgeFrame8 staleMotion8 16 16 true true
        2 0).2.load ((1 : ℕ) : ℤ) ((1 : ℕ) : ℤ) = 0 ∧
    hudMask (1 / 100) 1 edgeFrame8 edgeFrame8 (Texture.blank 8 8) ((1 : ℕ) : ℤ) ((1 : ℕ) : ℤ) =
      (if (0 : ℚ) < 1 / 100 ∧
          ((1 : ℤ) > 0 →
            1 / 10 ≤ ((Texture.blank 8 8 : Texture Float4).load ((1 : ℕ) : ℤ) ((1 : ℕ) : ℤ)).r)
        then 1 else 0) ∧
    interpolate ⟨1 / 2, 1000, 3 / 10⟩ edgeFrame8 edgeFrame8
        (DispatchAdaptive flowPyramid edgeFrame8 edgeFrame8 staleMotion8 16).2
        (Texture.blank 8 8) 0 1 1 = edgeFrame8.load ((1 : ℕ) : ℤ) ((1 : ℕ) : ℤ) ∧
    (FrameInterpolation.Dispatch (fun _ => 0) unorm8Store (synthFor 8 8) edgeFrame8 edgeFrame8
        (DispatchBlockMatching flowPyramid edgeFrame8 edgeFrame8 staleMotion8 16 16 true true
          2 0).2
        (Texture.blank 8 8) 0 (1 / 100) 0 1 (1 / 2) 1000 0 (3 / 10) true).2.load
        ((1 : ℕ) : ℤ) ((1 : ℕ) : ℤ) = edgeFrame8.load ((1 : ℕ) : ℤ) ((1 : ℕ) : ℤ) :=
  have h := identical_frames edgeFrame8 staleMotion8 none 16 16 true true 0 (1 / 100) 1
    (Texture.blank 8 8) ⟨1 / 2, 1000, 3 / 10⟩ (Texture.blank 8 8) 0 1 1 flowPyramid 2 0
    (fun _ => 0) unorm8Store (synthFor 8 8) (Texture.blank 8 8) 0 1 0 true
    (fun t h => Option.noConfusion h) (by decide) (by decide)
  ⟨fun t h => Option.noConfusion h, by decide, by decide, h.1, h.2.1 rfl, h.2.2.1,
    h.2.2.2.1 rfl flowPyramid_sized rfl rfl (by decide) (by decide), h.2.2.2.2.1,
    h.2.2.2.2.2.1 _ (h.2.1 rfl),
    h.2.2.2.2.2.2 _ (h.2.2.2.1 rfl flowPyramid_sized rfl rfl (by decide) (by decide)) rfl rfl
      (by decide) (Or.inl (le_refl 0)) edgeFrame8_stored⟩

end LFG
